import Mathlib

/-!
# ai-sandbox: seccomp filter builder and namespace orchestrator

A shallow embedding of `pkg/sandbox` (seccomp.go, namespace.go, init_linux.go)
together with the properties proved about it.

Conventions of the embedding:
* Go `int` is `Int`; the conversions `uint32(x)` and `uint8(x)` are the
  explicit reductions modulo `2^32` and `2^8`.
* `[]T` is `List T`; `append` is list concatenation at the end.
* Calls into the operating system take their outcome from an explicit
  record of outcomes; the calls made are recorded in a trace.
-/

namespace Sandbox

/-! ## seccomp.go: constants -/

/-- Go conversion `uint32(x)` of an `int`. -/
def uint32 (x : Int) : Nat := (x % 4294967296).toNat

/-- Go conversion `uint8(x)` of an `int`. -/
def uint8 (x : Int) : Nat := (x % 256).toNat

def bpfLD : Nat := 0x00

def bpfW : Nat := 0x00

def bpfABS : Nat := 0x20

def bpfJMP : Nat := 0x05

def bpfJEQ : Nat := 0x10

def bpfK : Nat := 0x00

def bpfRET : Nat := 0x06

/-- SECCOMP_RET_KILL_PROCESS. -/
def seccompRetKillProcess : Nat := 0x80000000

/-- SECCOMP_RET_LOG. -/
def seccompRetLog : Nat := 0x7ffc0000

/-- SECCOMP_RET_ALLOW. -/
def seccompRetAllow : Nat := 0x7fff0000

/-- AUDIT_ARCH_X86_64 = EM_X86_64 | __AUDIT_ARCH_64BIT | __AUDIT_ARCH_LE. -/
def auditArchX86_64 : Nat := 0xC000003E

def seccompDataNROffset : Nat := 0

def seccompDataArchOffset : Nat := 4

def seccompDataArgs0Offset : Nat := 16

/-! The constants `unix.SYS_*` and `unix.AF_*` come from golang.org/x/sys/unix;
the values are those of linux/amd64 (the x86-64 syscall table and socket.h). -/

def SYS_SOCKET : Int := 41
def SYS_SETHOSTNAME : Int := 170
def SYS_PTRACE : Int := 101
def SYS_MOUNT : Int := 165
def SYS_UMOUNT2 : Int := 166
def SYS_PIVOT_ROOT : Int := 155
def SYS_CHROOT : Int := 161
def SYS_REBOOT : Int := 169
def SYS_SWAPON : Int := 167
def SYS_SWAPOFF : Int := 168
def SYS_ACCT : Int := 163
def SYS_INIT_MODULE : Int := 175
def SYS_FINIT_MODULE : Int := 313
def SYS_DELETE_MODULE : Int := 176
def SYS_CREATE_MODULE : Int := 174
def SYS_KEXEC_LOAD : Int := 246
def SYS_KEXEC_FILE_LOAD : Int := 320
def SYS_SETNS : Int := 308
def SYS_UNSHARE : Int := 272
def SYS_KEYCTL : Int := 250
def SYS_REQUEST_KEY : Int := 249
def SYS_ADD_KEY : Int := 248
def SYS_BPF : Int := 321
def SYS_USERFAULTFD : Int := 323
def SYS_PERF_EVENT_OPEN : Int := 298
def SYS_LOOKUP_DCOOKIE : Int := 212
def SYS_OPEN_BY_HANDLE_AT : Int := 304
def SYS_NAME_TO_HANDLE_AT : Int := 303
def SYS_CLOCK_SETTIME : Int := 227
def SYS_SETTIMEOFDAY : Int := 164
def SYS_ADJTIMEX : Int := 159
def SYS_CLOCK_ADJTIME : Int := 305
def SYS_IOPERM : Int := 173
def SYS_IOPL : Int := 172
def SYS_FANOTIFY_INIT : Int := 300
def SYS_VHANGUP : Int := 153
def SYS_NFSSERVCTL : Int := 180

def AF_UNIX : Int := 1

def AF_INET : Int := 2

def AF_INET6 : Int := 10

def AF_KEY : Int := 15

def AF_NETLINK : Int := 16

def AF_PACKET : Int := 17

def AF_BLUETOOTH : Int := 31

def AF_ALG : Int := 38

def AF_VSOCK : Int := 40

def AF_XDP : Int := 44

/-- The struct `unix.SockFilter`: `Code` is a uint16, `Jt` and `Jf` are uint8,
`K` is a uint32. -/
structure SockFilter where
  Code : Nat
  Jt : Nat
  Jf : Nat
  K : Nat
deriving DecidableEq, Repr

/-- The helper `bpfStmt` of seccomp.go. -/
def bpfStmt (code k : Nat) : SockFilter :=
  { Code := code, Jt := 0, Jf := 0, K := k }

/-- The helper `bpfJump` of seccomp.go. -/
def bpfJump (code k jt jf : Nat) : SockFilter :=
  { Code := code, Jt := jt, Jf := jf, K := k }

/-! ## seccomp.go: buildBPFProgram -/

/-- Section C of `buildBPFProgram`: the loop `for i := range blockedNRs`, entered
with the loop index `i` and the blocked numbers from index `i` on. -/
def blockedLoop (killIdx sizeB : Int) : List Int → Nat → List SockFilter
  | [], _ => []
  | nr :: rest, i =>
    let currentIdx : Int := 4 + sizeB + (i : Int)
    let jt := uint8 (killIdx - currentIdx - 1)
    bpfJump (bpfJMP ||| bpfJEQ ||| bpfK) (uint32 nr) jt 0
      :: blockedLoop killIdx sizeB rest (i + 1)

/-- Section E of `buildBPFProgram`: the loop `for j := range blockedFamilies`,
entered with the loop index `j` and the families from index `j` on. -/
def familyLoop (numFamilies : Int) : List Int → Nat → List SockFilter
  | [], _ => []
  | fam :: rest, j =>
    let jt := uint8 (numFamilies - (j : Int))
    bpfJump (bpfJMP ||| bpfJEQ ||| bpfK) (uint32 fam) jt 0
      :: familyLoop numFamilies rest (j + 1)

/-- The function `buildBPFProgram` of seccomp.go. -/
def buildBPFProgram (blockedNRs blockedFamilies : List Int) (logDenied : Bool) :
    List SockFilter :=
  let denyAction : Nat := if logDenied then seccompRetLog else seccompRetKillProcess
  let hasSocketFilter : Bool := decide (blockedFamilies.length > 0)
  let numBlocked : Int := blockedNRs.length
  let numFamilies : Int := blockedFamilies.length
  let sizeB : Int := if hasSocketFilter then 1 else 0
  let sizeE : Int := if hasSocketFilter then 1 + numFamilies + 1 else 0
  let killIdx : Int := 4 + sizeB + numBlocked + 1 + sizeE
  let program : List SockFilter := []
  -- Section A
  let program := program ++ [bpfStmt (bpfLD ||| bpfW ||| bpfABS) seccompDataArchOffset]
  let program := program ++ [bpfJump (bpfJMP ||| bpfJEQ ||| bpfK) auditArchX86_64 1 0]
  let program := program ++ [bpfStmt bpfRET seccompRetKillProcess]
  let program := program ++ [bpfStmt (bpfLD ||| bpfW ||| bpfABS) seccompDataNROffset]
  -- Section B
  let program :=
    if hasSocketFilter then
      let jt := uint8 (numBlocked + 1)
      program ++ [bpfJump (bpfJMP ||| bpfJEQ ||| bpfK) (uint32 SYS_SOCKET) jt 0]
    else program
  -- Section C
  let program := program ++ blockedLoop killIdx sizeB blockedNRs 0
  -- Section D
  let program := program ++ [bpfStmt bpfRET seccompRetAllow]
  -- Section E
  let program :=
    if hasSocketFilter then
      let program := program ++ [bpfStmt (bpfLD ||| bpfW ||| bpfABS) seccompDataArgs0Offset]
      let program := program ++ familyLoop numFamilies blockedFamilies 0
      program ++ [bpfStmt bpfRET seccompRetAllow]
    else program
  -- Section F
  program ++ [bpfStmt bpfRET denyAction]

/-! ## The seccomp filter machine

The program built above is run by the kernel on a `struct seccomp_data`.  The
interpreter below is the classic-BPF machine restricted to what seccomp admits:
an accumulator, word loads at aligned offsets inside `seccomp_data`, forward
conditional jumps and returns. -/

/-- The kernel's `struct seccomp_data`: `nr` and `arch` are 32-bit words,
`instruction_pointer` and the six `args` are 64-bit. -/
structure SeccompData where
  nr : Nat
  arch : Nat
  instruction_pointer : Nat
  args : Fin 6 → Nat

/-- The 32-bit word of `seccomp_data` at byte offset `k` (little-endian), when
`k` is an aligned offset inside the struct. -/
def loadWord (d : SeccompData) (k : Nat) : Option Nat :=
  if k = 0 then some d.nr
  else if k = 4 then some d.arch
  else if k = 8 then some (d.instruction_pointer % 4294967296)
  else if k = 12 then some (d.instruction_pointer / 4294967296 % 4294967296)
  else if h : 16 ≤ k ∧ k < 64 ∧ k % 4 = 0 then
    let i : Fin 6 := ⟨(k - 16) / 8, by omega⟩
    if k % 8 = 0 then some (d.args i % 4294967296)
    else some (d.args i / 4294967296 % 4294967296)
  else none

/-- Runs `prog` from instruction `pc` with accumulator `acc` for at most `fuel`
instructions. `none` stands for a program the kernel does not accept (an
instruction outside the three used here, a load outside `seccomp_data`, a jump
past the end) or for exhausted fuel. -/
def runFrom (prog : List SockFilter) (d : SeccompData) : Nat → Nat → Nat → Option Nat
  | 0, _, _ => none
  | fuel + 1, pc, acc =>
    match prog[pc]? with
    | none => none
    | some ins =>
      if ins.Code = (bpfLD ||| bpfW ||| bpfABS) then
        match loadWord d ins.K with
        | some w => runFrom prog d fuel (pc + 1) w
        | none => none
      else if ins.Code = (bpfJMP ||| bpfJEQ ||| bpfK) then
        runFrom prog d fuel (pc + 1 + (if acc = ins.K then ins.Jt else ins.Jf)) acc
      else if ins.Code = (bpfRET ||| bpfK) then some ins.K
      else none

/-- The value the filter returns on `d`. Jumps only go forward, so the length of
the program bounds the number of instructions executed. -/
def runBPF (prog : List SockFilter) (d : SeccompData) : Option Nat :=
  runFrom prog d prog.length 0 0

/-- The action the filter is specified to take. This definition follows the
words of the specification (sections A to F), not the code: the arch check, then
the socket-family decision when families are blocked and the call is `socket`,
then the blocklist, then allow. -/
def specFilterAction (blockedNRs blockedFamilies : List Int) (logDenied : Bool)
    (d : SeccompData) : Nat :=
  let deny := if logDenied then seccompRetLog else seccompRetKillProcess
  if d.arch ≠ auditArchX86_64 then seccompRetKillProcess
  else if blockedFamilies ≠ [] ∧ (d.nr : Int) = SYS_SOCKET then
    if ((d.args 0 % 4294967296 : Nat) : Int) ∈ blockedFamilies then deny else seccompRetAllow
  else if (d.nr : Int) ∈ blockedNRs then deny
  else seccompRetAllow

/-! ## seccomp.go: the name table and resolveBlocklist -/

/-- The entries of the map literal `syscallMap`, in the order of the source. -/
def syscallTable : List (String × Int) :=
  [
    ("ptrace", SYS_PTRACE),
    ("mount", SYS_MOUNT),
    ("umount2", SYS_UMOUNT2),
    ("pivot_root", SYS_PIVOT_ROOT),
    ("chroot", SYS_CHROOT),
    ("reboot", SYS_REBOOT),
    ("swapon", SYS_SWAPON),
    ("swapoff", SYS_SWAPOFF),
    ("acct", SYS_ACCT),
    ("init_module", SYS_INIT_MODULE),
    ("finit_module", SYS_FINIT_MODULE),
    ("delete_module", SYS_DELETE_MODULE),
    ("create_module", SYS_CREATE_MODULE),
    ("kexec_load", SYS_KEXEC_LOAD),
    ("kexec_file_load", SYS_KEXEC_FILE_LOAD),
    ("setns", SYS_SETNS),
    ("unshare", SYS_UNSHARE),
    ("keyctl", SYS_KEYCTL),
    ("request_key", SYS_REQUEST_KEY),
    ("add_key", SYS_ADD_KEY),
    ("bpf", SYS_BPF),
    ("userfaultfd", SYS_USERFAULTFD),
    ("perf_event_open", SYS_PERF_EVENT_OPEN),
    ("lookup_dcookie", SYS_LOOKUP_DCOOKIE),
    ("open_by_handle_at", SYS_OPEN_BY_HANDLE_AT),
    ("name_to_handle_at", SYS_NAME_TO_HANDLE_AT),
    ("clock_settime", SYS_CLOCK_SETTIME),
    ("settimeofday", SYS_SETTIMEOFDAY),
    ("adjtimex", SYS_ADJTIMEX),
    ("clock_adjtime", SYS_CLOCK_ADJTIME),
    ("ioperm", SYS_IOPERM),
    ("iopl", SYS_IOPL),
    ("fanotify_init", SYS_FANOTIFY_INIT),
    ("vhangup", SYS_VHANGUP),
    ("nfsservctl", SYS_NFSSERVCTL) ]

/-- The map `syscallMap` of seccomp.go: `syscallMap name = some nr` is the Go
lookup `nr, ok := syscallMap[name]` with `ok` true. -/
def syscallMap (name : String) : Option Int :=
  syscallTable.lookup name

def defaultBlockedSyscalls : List String :=
  [ "ptrace",
    "mount", "umount2",
    "pivot_root", "chroot",
    "reboot",
    "swapon", "swapoff",
    "acct",
    "init_module", "finit_module", "delete_module",
    "create_module",
    "kexec_load", "kexec_file_load",
    "setns", "unshare",
    "keyctl", "request_key", "add_key",
    "bpf",
    "userfaultfd",
    "perf_event_open",
    "lookup_dcookie",
    "open_by_handle_at", "name_to_handle_at",
    "clock_settime", "settimeofday", "adjtimex", "clock_adjtime",
    "ioperm", "iopl",
    "fanotify_init",
    "vhangup",
    "nfsservctl" ]

def defaultBlockedSocketFamilies : List Int :=
  [AF_NETLINK, AF_PACKET, AF_BLUETOOTH, AF_KEY, AF_ALG, AF_VSOCK, AF_XDP]

/-- The error values built by `fmt.Errorf` in `resolveBlocklist`: the format
`"unknown syscall: %q"` with its argument. -/
inductive ResolveError where
  | unknownSyscall (name : String)
deriving DecidableEq, Repr

def lowerhex : List Char := "0123456789abcdef".data

/-- The `width` lower-case hexadecimal digits of `n`, most significant first. -/
def hexDigits : Nat → Nat → List Char
  | 0, _ => []
  | width + 1, n => hexDigits width (n / 16) ++ [lowerhex.getD (n % 16) (Char.ofNat 48)]

/-- The function `strconv.IsPrint`: its Latin-1 fast path is written out, the
Unicode tables of package strconv it consults above U+00FF are the parameter
`isPrintTable`. -/
def strconvIsPrint (isPrintTable : Char → Bool) (r : Char) : Bool :=
  if r.toNat ≤ 0xFF then
    if 0x20 ≤ r.toNat ∧ r.toNat ≤ 0x7E then true
    else if 0xA1 ≤ r.toNat ∧ r.toNat ≤ 0xFF then r.toNat != 0xAD
    else false
  else isPrintTable r

/-- The function `appendEscapedRune` of package strconv, as `strconv.Quote` calls
it (quote character `"`, neither ASCII-only nor graphic-only). -/
def appendEscapedRune (isPrintTable : Char → Bool) (r : Char) : List Char :=
  if r.toNat = 34 ∨ r.toNat = 92 then [Char.ofNat 92, r]
  else if strconvIsPrint isPrintTable r then [r]
  else if r.toNat = 7 then [Char.ofNat 92, 'a']
  else if r.toNat = 8 then [Char.ofNat 92, 'b']
  else if r.toNat = 12 then [Char.ofNat 92, 'f']
  else if r.toNat = 10 then [Char.ofNat 92, 'n']
  else if r.toNat = 13 then [Char.ofNat 92, 'r']
  else if r.toNat = 9 then [Char.ofNat 92, 't']
  else if r.toNat = 11 then [Char.ofNat 92, 'v']
  else if r.toNat < 32 ∨ r.toNat = 0x7f then [Char.ofNat 92, 'x'] ++ hexDigits 2 r.toNat
  else if r.toNat < 0x10000 then [Char.ofNat 92, 'u'] ++ hexDigits 4 r.toNat
  else [Char.ofNat 92, 'U'] ++ hexDigits 8 r.toNat

/-- The function `strconv.Quote`, which the verb `%q` applies to a string, on
a string of valid UTF-8. -/
def strconvQuote (isPrintTable : Char → Bool) (s : String) : String :=
  ⟨[Char.ofNat 34] ++ s.data.flatMap (appendEscapedRune isPrintTable) ++ [Char.ofNat 34]⟩

/-- The method `Error()` of the errors of `resolveBlocklist`: the formatted
message. -/
def ResolveError.message (isPrintTable : Char → Bool) : ResolveError → String
  | .unknownSyscall name => "unknown syscall: " ++ strconvQuote isPrintTable name

/-- The function `strings.Contains`. -/
def stringsContains (s substr : String) : Prop :=
  substr.data <:+: s.data

instance (s substr : String) : Decidable (stringsContains s substr) := by
  unfold stringsContains
  infer_instance

/-- Inserts `x` into an ascending list. -/
def insertSorted (x : Int) : List Int → List Int
  | [] => [x]
  | y :: ys => if x ≤ y then x :: y :: ys else y :: insertSorted x ys

/-- The function `sort.Ints` of the Go library: it sorts the slice ascending.
Its algorithm is not part of this repository; an insertion sort stands for it,
and an ascending rearrangement of a list of integers is unique. -/
def sortInts : List Int → List Int
  | [] => []
  | x :: xs => insertSorted x (sortInts xs)

/-- The loop `for _, name := range names` of `resolveBlocklist`, with the map
`seen` and the slice `nrs` as loop state. -/
def resolveLoop : List String → (Int → Bool) → List Int → Except ResolveError (List Int)
  | [], _, nrs => .ok nrs
  | name :: rest, seen, nrs =>
    match syscallMap name with
    | none => .error (.unknownSyscall name)
    | some nr =>
      if !seen nr then
        resolveLoop rest (fun k => if k = nr then true else seen k) (nrs ++ [nr])
      else
        resolveLoop rest seen nrs

/-- The function `resolveBlocklist` of seccomp.go. On an error no numbers are
returned (Go returns the nil slice with it). -/
def resolveBlocklist (names : List String) : Except ResolveError (List Int) :=
  match resolveLoop names (fun _ => false) [] with
  | .error e => .error e
  | .ok nrs => .ok (sortInts nrs)

/-! ## namespace.go: the orchestrator -/

structure NamespaceConfig where
  PID : Bool
  IPC : Bool
  Mount : Bool
  Network : Bool
  UTS : Bool
  Hostname : String
  MountProc : Bool
  SetupLoopback : Bool
deriving DecidableEq, Repr

structure overlayInitConfig where
  LowerDirs : List String
  UpperDir : String
  WorkDir : String
  MergeDir : String
  ReadOnly : Bool
deriving DecidableEq, Repr

/-- The struct `initConfig` of namespace.go, the init descriptor sent over the
config pipe. -/
structure initConfig where
  Hostname : String
  MountProc : Bool
  SetupLoopback : Bool
  Overlay : Option overlayInitConfig
  Command : String
  Args : List String
  Env : List String
  WorkDir : String
deriving DecidableEq, Repr

/-- A Go `error` value, by its message; `none` is the nil error. -/
abbrev GoError := Option String

/-- A function value of type `func() error`, acting on the state `W` of
everything outside the orchestrator. -/
abbrev CleanupFn (W : Type) := W → GoError × W

/-- The methods of an attached `*OverlayFS` that the orchestrator calls. The state
of the manager is part of `W`. -/
structure OverlayFSRef (W : Type) where
  InitConfig : W → Option overlayInitConfig × W
  Cleanup : CleanupFn W

/-- The methods of an attached `*CgroupsV2` that the orchestrator calls. The state
of the manager is part of `W`. -/
structure CgroupsV2Ref (W : Type) where
  AddProcess : Int → W → GoError × W
  Cleanup : CleanupFn W

/-- What the orchestrator does to the outside, in order. -/
inductive NsEvent where
  | pipe
  | logPipe
  | cmdStart (cloneflags : Nat) (withLogPipe : Bool)
  | closePipeR
  | closePipeW
  | closeLogPipeR
  | closeLogPipeW
  | goReadLogPipe
  | addProcess (pid : Int)
  | kill
  | wait
  | encode (cfg : initConfig)
  | logInfo (msg : String)
  | closeDone
  | cleanup (i : Nat)
deriving DecidableEq, Repr

/-- The struct `Namespace`. `logger` says whether a logger is attached, `cmd`
whether `ns.cmd` is set, `done` whether the channel `ns.done` exists. -/
structure Namespace (W : Type) where
  config : NamespaceConfig
  overlayFS : Option (OverlayFSRef W)
  cgroupsV2 : Option (CgroupsV2Ref W)
  logger : Bool
  cmd : Bool
  pid : Int
  running : Bool
  done : Bool
  Env : List String
  Dir : String
  cleanups : List (CleanupFn W)

/-- The function `NewNamespace`. -/
def NewNamespace {W : Type} (config : NamespaceConfig) : Namespace W :=
  { config := config, overlayFS := none, cgroupsV2 := none, logger := false,
    cmd := false, pid := 0, running := false, done := false, Env := [], Dir := "",
    cleanups := [] }

def CLONE_NEWNS : Nat := 0x00020000

def CLONE_NEWUTS : Nat := 0x04000000

def CLONE_NEWIPC : Nat := 0x08000000

def CLONE_NEWPID : Nat := 0x20000000

def CLONE_NEWNET : Nat := 0x40000000

/-- The method `cloneFlags`. -/
def Namespace.cloneFlags {W : Type} (ns : Namespace W) : Nat :=
  let flags : Nat := 0
  let flags := if ns.config.PID then flags ||| CLONE_NEWPID else flags
  let flags := if ns.config.IPC then flags ||| CLONE_NEWIPC else flags
  let flags := if ns.config.Mount then flags ||| CLONE_NEWNS else flags
  let flags := if ns.config.Network then flags ||| CLONE_NEWNET else flags
  let flags := if ns.config.UTS then flags ||| CLONE_NEWUTS else flags
  flags

/-- The method `AddCleanup`. -/
def Namespace.AddCleanup {W : Type} (ns : Namespace W) (fn : CleanupFn W) : Namespace W :=
  { ns with cleanups := ns.cleanups ++ [fn] }

/-- The outcomes of the operating-system calls of one call of `Start`: the two
`os.Pipe()` calls, `cmd.Start()` (the pid of the child, or an error) and the
write of the encoded descriptor. -/
structure StartEnv where
  pipe : GoError
  logPipe : GoError
  cmdStart : Except String Int
  encode : GoError

/-- What a method of the orchestrator leaves behind: the error it returns, the
orchestrator, the outside state and the events it caused, in order. -/
structure NsOutcome (W : Type) where
  err : GoError
  ns : Namespace W
  world : W
  trace : List NsEvent

/-- The tail of `Start` from the building of the init descriptor on: the child is
spawned with pid `pid` and, if a cgroup is attached, has been added to it. -/
def Namespace.startSend {W : Type} (ns : Namespace W) (env : StartEnv) (command : String)
    (args : List String) (pid : Int) (w : W) (tr : List NsEvent) : NsOutcome W :=
  let cfg : initConfig :=
    { Hostname := ns.config.Hostname, MountProc := ns.config.MountProc,
      SetupLoopback := ns.config.SetupLoopback, Overlay := none, Command := command,
      Args := args, Env := ns.Env, WorkDir := ns.Dir }
  let (cfg, w) :=
    match ns.overlayFS with
    | some ov => let (oc, w) := ov.InitConfig w; ({ cfg with Overlay := oc }, w)
    | none => (cfg, w)
  let tr := tr ++ [NsEvent.encode cfg]
  match env.encode with
  | some e =>
    { err := some ("namespace: send init config: " ++ e), ns := ns, world := w,
      trace := tr ++ [NsEvent.kill, NsEvent.wait, NsEvent.closePipeW] }
  | none =>
    let tr := tr ++ [NsEvent.closePipeW]
    let ns := { ns with cmd := true, pid := pid, running := true, done := true }
    let tr := if ns.logger then tr ++ [NsEvent.logInfo "namespace started"] else tr
    let ns :=
      match ns.overlayFS with
      | some ov => { ns with cleanups := ns.cleanups ++ [ov.Cleanup] }
      | none => ns
    let ns :=
      match ns.cgroupsV2 with
      | some cg => { ns with cleanups := ns.cleanups ++ [cg.Cleanup] }
      | none => ns
    { err := none, ns := ns, world := w, trace := tr }

/-- The method `Start`. -/
def Namespace.Start {W : Type} (ns : Namespace W) (env : StartEnv) (command : String)
    (args : List String) (w : W) : NsOutcome W :=
  if ns.running then
    { err := some ("namespace: process already running (pid=" ++ toString ns.pid ++ ")"),
      ns := ns, world := w, trace := [] }
  else
    let tr := [NsEvent.pipe]
    match env.pipe with
    | some e => { err := some ("namespace: create pipe: " ++ e), ns := ns, world := w, trace := tr }
    | none =>
      let tr := if ns.logger then tr ++ [NsEvent.logPipe] else tr
      match (if ns.logger then env.logPipe else none) with
      | some e =>
        { err := some ("namespace: create log pipe: " ++ e), ns := ns, world := w,
          trace := tr ++ [NsEvent.closePipeR, NsEvent.closePipeW] }
      | none =>
        let tr := tr ++ [NsEvent.cmdStart ns.cloneFlags ns.logger]
        match env.cmdStart with
        | .error e =>
          let tr := tr ++ [NsEvent.closePipeR, NsEvent.closePipeW]
          let tr := if ns.logger then tr ++ [NsEvent.closeLogPipeR] else tr
          let tr := if ns.logger then tr ++ [NsEvent.closeLogPipeW] else tr
          { err := some ("namespace: start process: " ++ e), ns := ns, world := w, trace := tr }
        | .ok pid =>
          let tr := tr ++ [NsEvent.closePipeR]
          let tr := if ns.logger then tr ++ [NsEvent.closeLogPipeW] else tr
          let tr := if ns.logger then tr ++ [NsEvent.goReadLogPipe] else tr
          match ns.cgroupsV2 with
          | some cg =>
            let tr := tr ++ [NsEvent.addProcess pid]
            match cg.AddProcess pid w with
            | (some e, w) =>
              let tr := tr ++ [NsEvent.kill, NsEvent.wait, NsEvent.closePipeW]
              let tr := if ns.logger then tr ++ [NsEvent.closeLogPipeR] else tr
              { err := some ("namespace: add process to cgroup: " ++ e), ns := ns, world := w,
                trace := tr }
            | (none, w) => ns.startSend env command args pid w tr
          | none => ns.startSend env command args pid w tr

/-- The loop `for i := len(ns.cleanups) - 1; i >= 0; i--` of `Cleanup`, entered
with `i = k - 1`. -/
def cleanupLoop {W : Type} (cleanups : List (CleanupFn W)) :
    Nat → List String → W → List NsEvent → List String × W × List NsEvent
  | 0, errs, w, tr => (errs, w, tr)
  | k + 1, errs, w, tr =>
    match cleanups[k]? with
    | none => cleanupLoop cleanups k errs w tr
    | some fn =>
      match fn w with
      | (some e, w) => cleanupLoop cleanups k (errs ++ [e]) w (tr ++ [NsEvent.cleanup k])
      | (none, w) => cleanupLoop cleanups k errs w (tr ++ [NsEvent.cleanup k])

/-- The method `Cleanup`. `killErr` is the outcome of `ns.cmd.Process.Kill()`
should it be called; `ns.cmd.Process` is set whenever `ns.cmd` is, as `Start`
stores the command only after `cmd.Start()` succeeded. -/
def Namespace.Cleanup {W : Type} (ns : Namespace W) (killErr : GoError) (w : W) : NsOutcome W :=
  let tr : List NsEvent := if ns.logger then [NsEvent.logInfo "namespace cleanup"] else []
  let errs : List String := []
  let (errs, ns, tr) :=
    if ns.running && ns.cmd then
      let errs := match killErr with
        | some e => errs ++ ["kill process: " ++ e]
        | none => errs
      let tr := tr ++ [NsEvent.kill, NsEvent.wait]
      let tr := if ns.done then tr ++ [NsEvent.closeDone] else tr
      (errs, { ns with running := false, done := false }, tr)
    else (errs, ns, tr)
  let (errs, w, tr) := cleanupLoop ns.cleanups ns.cleanups.length errs w tr
  let ns := { ns with cleanups := [] }
  if errs.length > 0 then
    { err := some ("namespace cleanup errors: [" ++ " ".intercalate errs ++ "]"), ns := ns,
      world := w, trace := tr }
  else
    { err := none, ns := ns, world := w, trace := tr }

/-! ## init_linux.go: the init pipeline of the child -/

def initPipeEnv : String := "_SANDBOX_INIT_PIPE"

def initLogPipeEnv : String := "_SANDBOX_LOG_PIPE"

/-- The function `strings.HasPrefix`. -/
def stringsStartsWith (s pre : String) : Bool :=
  pre.data.isPrefixOf s.data

/-- The loop of `buildCleanEnv` over `base`. -/
def cleanEnvLoop : List String → List String → List String
  | [], clean => clean
  | e :: rest, clean =>
    if stringsStartsWith e (initPipeEnv ++ "=") then cleanEnvLoop rest clean
    else if stringsStartsWith e (initLogPipeEnv ++ "=") then cleanEnvLoop rest clean
    else cleanEnvLoop rest (clean ++ [e])

/-- The function `buildCleanEnv`; `environ` is the value of `os.Environ()`. -/
def buildCleanEnv (environ userEnv : List String) : List String :=
  let base := if userEnv.length = 0 then environ else userEnv
  cleanEnvLoop base []

/-- The function `buildOverlayOptions` of overlayfs.go. -/
def buildOverlayOptions (cfg : overlayInitConfig) : String :=
  let opts := "lowerdir=" ++ ":".intercalate cfg.LowerDirs
  if !cfg.ReadOnly then
    let opts := opts ++ ",upperdir=" ++ cfg.UpperDir
    opts ++ ",workdir=" ++ cfg.WorkDir
  else opts

/-- The calls the init pipeline can make: system calls, library calls and the
package's own `applySeccomp`. -/
inductive InitCall where
  | mountPrivate
  | mkdirAll (dir : String)
  | mountOverlayFs (mergeDir opts : String)
  | unmountProc
  | mountProcFs
  | sethostname (name : String)
  | ipLinkSetLoUp
  | writeInitLog (toLogPipe : Bool) (level msg : String)
  | closeLogPipe
  | chdir (dir : String)
  | applySeccomp
  | lookPath (command : String)
  | exec (binary : String) (argv env : List String)
  | closeInitPipe
deriving DecidableEq, Repr

/-- A call together with the error it returned (`none` for success or for an
outcome the code discards). -/
structure InitEvent where
  call : InitCall
  err : GoError
deriving DecidableEq, Repr

/-- The environment of one run of `nsInit`: the library functions it uses and
the outcome of each call it can make (each is made at most once). -/
structure InitEnv where
  isPrintTable : Char → Bool
  atoi : String → Except String Int
  getenvInitPipe : String
  getenvLogPipe : String
  decode : Except String initConfig
  mountPrivate : GoError
  mkdirAll : GoError
  mountOverlayFs : GoError
  mountProcFs : GoError
  sethostname : GoError
  ipLink : Option (String × String)
  chdir : GoError
  environ : List String
  lookPath : Except String String
  exec : GoError

/-- How `nsInit` ends: it returns an error, or `syscall.Exec` replaced the
process by the user command. -/
inductive InitResult where
  | error (msg : String)
  | execed
deriving DecidableEq, Repr

structure InitOutcome where
  result : InitResult
  trace : List InitEvent
deriving DecidableEq, Repr

/-- The function `mountOverlay` of overlayfs.go, on a non-nil config. -/
def mountOverlay (env : InitEnv) (cfg : overlayInitConfig) : GoError × List InitEvent :=
  let tr := [InitEvent.mk (.mkdirAll cfg.MergeDir) env.mkdirAll]
  match env.mkdirAll with
  | some e => (some ("mkdir merge dir " ++ cfg.MergeDir ++ ": " ++ e), tr)
  | none =>
    let opts := buildOverlayOptions cfg
    let tr := tr ++ [InitEvent.mk (.mountOverlayFs cfg.MergeDir opts) env.mountOverlayFs]
    match env.mountOverlayFs with
    | some e => (some ("mount overlay on " ++ cfg.MergeDir ++ " (opts=" ++ opts ++ "): " ++ e), tr)
    | none => (none, tr)

/-- The function `mountProc`: the outcome of the unmount is discarded. -/
def mountProc (env : InitEnv) : GoError × List InitEvent :=
  (env.mountProcFs, [InitEvent.mk .unmountProc none, InitEvent.mk .mountProcFs env.mountProcFs])

/-- The function `setupLoopback`; `env.ipLink` holds, when `ip link set lo up`
fails, its output after `strings.TrimSpace` and the error. -/
def setupLoopback (env : InitEnv) : GoError × List InitEvent :=
  match env.ipLink with
  | some (output, e) => (some (output ++ ": " ++ e), [InitEvent.mk .ipLinkSetLoUp (some e)])
  | none => (none, [InitEvent.mk .ipLinkSetLoUp none])

/-- The call `writeInitLog(logWriter, level, msg)`; its error is discarded. -/
def writeInitLog (toLogPipe : Bool) (level msg : String) : InitEvent :=
  InitEvent.mk (.writeInitLog toLogPipe level msg) none

/-- Steps 7 to 10 of `nsInit`: closing the log pipe, chdir, the environment and
the exec of the user command; the trace holds the events of these steps. -/
def nsInitExec (env : InitEnv) (logPipe : Bool) (cfg : initConfig) : InitOutcome :=
  let tr : List InitEvent := if logPipe then [InitEvent.mk .closeLogPipe none] else []
  let tr := if cfg.WorkDir ≠ "" then tr ++ [InitEvent.mk (.chdir cfg.WorkDir) env.chdir] else tr
  match (if cfg.WorkDir ≠ "" then env.chdir else none) with
  | some e =>
    { result := .error ("chdir to " ++ cfg.WorkDir ++ ": " ++ e),
      trace := tr ++ [InitEvent.mk .closeInitPipe none] }
  | none =>
    let cleanEnv := buildCleanEnv env.environ cfg.Env
    if cfg.Command = "" then
      { result := .error "no command specified", trace := tr ++ [InitEvent.mk .closeInitPipe none] }
    else
      match env.lookPath with
      | .error e =>
        { result := .error ("command not found: " ++ cfg.Command ++ ": " ++ e),
          trace := tr ++ [InitEvent.mk (.lookPath cfg.Command) (some e),
            InitEvent.mk .closeInitPipe none] }
      | .ok binary =>
        let tr := tr ++ [InitEvent.mk (.lookPath cfg.Command) none]
        let argv := [cfg.Command] ++ cfg.Args
        let tr := tr ++ [InitEvent.mk (.exec binary argv cleanEnv) env.exec]
        match env.exec with
        | some e => { result := .error e, trace := tr ++ [InitEvent.mk .closeInitPipe none] }
        | none => { result := .execed, trace := tr }

/-- Step 2 of `nsInit`: mount propagation of `/` made private; a failure is
logged and init goes on. -/
def stepMountPrivate (env : InitEnv) (logPipe : Bool) : List InitEvent :=
  let tr := [InitEvent.mk .mountPrivate env.mountPrivate]
  match env.mountPrivate with
  | some e => tr ++ [writeInitLog logPipe "warn" ("mount private: " ++ e ++ " (non-fatal)")]
  | none => tr

/-- Step 4 of `nsInit`: the remount of `/proc`; a failure is logged and init goes
on. -/
def stepMountProc (env : InitEnv) (logPipe : Bool) (cfg : initConfig) : List InitEvent :=
  if cfg.MountProc then
    match mountProc env with
    | (some e, t) => t ++ [writeInitLog logPipe "warn" ("mount /proc: " ++ e ++ " (non-fatal)")]
    | (none, t) => t
  else []

/-- Step 5 of `nsInit`: the hostname; a failure is logged and init goes on. -/
def stepHostname (env : InitEnv) (logPipe : Bool) (cfg : initConfig) : List InitEvent :=
  if cfg.Hostname ≠ "" then
    let tr := [InitEvent.mk (.sethostname cfg.Hostname) env.sethostname]
    match env.sethostname with
    | some e => tr ++ [writeInitLog logPipe "warn" ("sethostname: " ++ e ++ " (non-fatal)")]
    | none => tr
  else []

/-- Step 6 of `nsInit`: the loopback interface; a failure is logged and init goes
on. -/
def stepLoopback (env : InitEnv) (logPipe : Bool) (cfg : initConfig) : List InitEvent :=
  if cfg.SetupLoopback then
    match setupLoopback env with
    | (some e, t) => t ++ [writeInitLog logPipe "warn" ("setup lo: " ++ e ++ " (non-fatal)")]
    | (none, t) => t
  else []

/-- Steps 2 to 10 of `nsInit`, once the descriptor `cfg` is decoded; `logPipe`
says whether the log writer is the log pipe (otherwise it is stderr). -/
def nsInitSteps (env : InitEnv) (logPipe : Bool) (cfg : initConfig) : InitOutcome :=
  -- 2. mount propagation
  let tr := stepMountPrivate env logPipe
  -- 3. overlay
  let (ovErr, ovTrace) := match cfg.Overlay with
    | some ov => mountOverlay env ov
    | none => (none, [])
  let tr := tr ++ ovTrace
  match ovErr with
  | some e =>
    { result := .error ("mount overlay: " ++ e), trace := tr ++ [InitEvent.mk .closeInitPipe none] }
  | none =>
    -- 4. /proc
    let tr := tr ++ stepMountProc env logPipe cfg
    -- 5. hostname
    let tr := tr ++ stepHostname env logPipe cfg
    -- 6. loopback
    let tr := tr ++ stepLoopback env logPipe cfg
    -- 7. to 10.
    let o := nsInitExec env logPipe cfg
    { result := o.result, trace := tr ++ o.trace }

/-- The function `nsInit`. -/
def nsInit (env : InitEnv) : InitOutcome :=
  let pipeFdStr := env.getenvInitPipe
  if pipeFdStr = "" then
    { result := .error ("env " ++ initPipeEnv ++ " not set"), trace := [] }
  else
    match env.atoi pipeFdStr with
    | .error e =>
      { result := .error ("invalid pipe fd " ++ strconvQuote env.isPrintTable pipeFdStr ++ ": " ++ e),
        trace := [] }
    | .ok pipeFd =>
      -- os.NewFile returns nil exactly when the descriptor is negative
      if pipeFd < 0 then
        { result := .error ("cannot open pipe fd " ++ toString pipeFd), trace := [] }
      else
        let logPipe : Bool :=
          if env.getenvLogPipe ≠ "" then
            match env.atoi env.getenvLogPipe with
            | .ok logPipeFd => decide (0 ≤ logPipeFd)
            | .error _ => false
          else false
        match env.decode with
        | .error e =>
          { result := .error ("decode config: " ++ e),
            trace := [InitEvent.mk .closeInitPipe none] }
        | .ok cfg => nsInitSteps env logPipe cfg

/-- Whether the event is the call of `syscall.Exec`. -/
def InitEvent.isExec (ev : InitEvent) : Bool :=
  match ev.call with
  | .exec _ _ _ => true
  | _ => false

/-- Whether the run reached `syscall.Exec` of the user command. -/
def reachesExec (o : InitOutcome) : Bool :=
  o.trace.any InitEvent.isExec

/-- Whether the event is the call of `applySeccomp`. -/
def InitEvent.isApplySeccomp (ev : InitEvent) : Bool :=
  match ev.call with
  | .applySeccomp => true
  | _ => false

/-- Whether the call is one of the four non-fatal steps (MS_PRIVATE remount, /proc
remount, sethostname, loopback). -/
def InitCall.nonFatal : InitCall → Bool
  | .mountPrivate => true
  | .mountProcFs => true
  | .sethostname _ => true
  | .ipLinkSetLoUp => true
  | _ => false

/-- Whether the event is a warn-level init log record. -/
def InitEvent.isWarnLog (ev : InitEvent) : Bool :=
  match ev.call with
  | .writeInitLog _ level _ => level == "warn"
  | _ => false

/-- Whether the event is an init log record of any level. -/
def InitEvent.isLog (ev : InitEvent) : Bool :=
  match ev.call with
  | .writeInitLog _ _ _ => true
  | _ => false

/-- Whether the event is a failed non-fatal step. -/
def InitEvent.isNonFatalFailure (ev : InitEvent) : Bool :=
  ev.call.nonFatal && ev.err.isSome

/-- Every failed non-fatal step in the trace is directly followed by a warn-level
init log record. -/
def failuresLogged : List InitEvent → Prop
  | [] => True
  | [ev] => ev.isNonFatalFailure = false
  | ev :: next :: rest =>
    (ev.isNonFatalFailure = true → next.isWarnLog = true) ∧ failuresLogged (next :: rest)

/-! ## Library functions used by the managers: path/filepath -/

/-- The function `strings.Split(s, sep)` for a separator of one character. -/
def splitOnChar (sep : Char) : List Char → List (List Char)
  | [] => [[]]
  | c :: cs =>
    if c = sep then [] :: splitOnChar sep cs
    else
      match splitOnChar sep cs with
      | [] => [[c]]
      | seg :: rest => (c :: seg) :: rest

/-- One step of `filepath.Clean` on the stack of kept path elements (last element
first): empty elements and `.` are dropped, `..` removes the element before it,
is dropped at the root and is kept at the start of a relative path. -/
def cleanPush (rooted : Bool) (stack : List (List Char)) (seg : List Char) :
    List (List Char) :=
  if seg = [] ∨ seg = ['.'] then stack
  else if seg = ['.', '.'] then
    match stack with
    | [] => if rooted then [] else [seg]
    | top :: rest => if top = ['.', '.'] then seg :: stack else rest
  else seg :: stack

/-- The function `filepath.Clean` of the Go library on Unix. -/
def filepathClean (path : String) : String :=
  let rooted : Bool := path.data.head? == some '/'
  let elems := ((splitOnChar '/' path.data).foldl (cleanPush rooted) []).reverse
  let body := "/".intercalate (elems.map String.mk)
  if rooted then "/" ++ body
  else if elems.isEmpty then "."
  else body

/-- The function `filepath.Join` of the Go library on two elements. -/
def filepathJoin (a b : String) : String :=
  if a ≠ "" then filepathClean (a ++ "/" ++ b)
  else if b ≠ "" then filepathClean b
  else ""

/-! ## cgroups.go: the cgroups-v2 manager -/

structure CgroupsConfig where
  Enabled : Bool
  CPUQuota : Int
  CPUPeriod : Int
  MemoryMax : Int
  PidsMax : Int
  BaseDir : String
deriving DecidableEq, Repr

/-- The struct `CgroupsV2`; `logger` says whether a logger is attached. -/
structure CgroupsV2 where
  config : CgroupsConfig
  logger : Bool
  id : String
  cgroupDir : String
  setupDone : Bool
deriving DecidableEq, Repr

/-- The function `DefaultCgroupsConfig`. -/
def DefaultCgroupsConfig : CgroupsConfig :=
  { Enabled := true, CPUQuota := 100000, CPUPeriod := 100000, MemoryMax := 536870912,
    PidsMax := 512, BaseDir := "/sys/fs/cgroup" }

/-- The function `NewCgroupsV2`. -/
def NewCgroupsV2 (config : CgroupsConfig) : CgroupsV2 :=
  { config := config, logger := false, id := "", cgroupDir := "", setupDone := false }

/-- The method `ID`. -/
def CgroupsV2.ID (cg : CgroupsV2) : String := cg.id

/-- The method `CgroupDir`. -/
def CgroupsV2.CgroupDir (cg : CgroupsV2) : String := cg.cgroupDir

/-- What a manager does to the filesystem and the kernel, in order. -/
inductive FsEvent where
  | stat (path : String)
  | readFile (path : String)
  | writeFile (path content : String)
  | mkdir (path : String)
  | mkdirAll (path : String)
  | remove (path : String)
  | removeAll (path : String)
  | mount (source target fstype data : String)
  | unmount (target : String)
  | sleep
  | logInfo (msg : String)
deriving DecidableEq, Repr

/-- Whether the event is an operation on the filesystem or on mounts (everything
but the log record and the sleep). -/
def FsEvent.isOperation : FsEvent → Bool
  | .logInfo _ => false
  | .sleep => false
  | _ => true

/-- An error of `os.Remove`, with what `os.IsNotExist` says of it. -/
structure RemoveError where
  msg : String
  notExist : Bool
deriving DecidableEq, Repr

/-- The call `os.Mkdir(path)` on the set `dirs` of existing cgroup directories:
it fails when the directory exists, and otherwise succeeds or fails as `outcome`
says. -/
def osMkdir (dirs : List String) (path : String) (outcome : GoError) : GoError × List String :=
  if path ∈ dirs then (some ("mkdir " ++ path ++ ": file exists"), dirs)
  else
    match outcome with
    | none => (none, path :: dirs)
    | some e => (some e, dirs)

/-- The call `os.Remove(path)` on the set `dirs` of existing cgroup directories:
it fails with a not-exist error when the directory is missing, and otherwise
removes it or fails as `outcome` says. -/
def osRemove (dirs : List String) (path : String) (outcome : GoError) :
    Option RemoveError × List String :=
  if path ∈ dirs then
    match outcome with
    | none => (none, dirs.filter (fun d => d != path))
    | some e => (some ⟨e, false⟩, dirs)
  else (some ⟨"remove " ++ path ++ ": no such file or directory", true⟩, dirs)

/-- What a method of the cgroup manager leaves behind: the error it returns, the
manager, the existing cgroup directories and the events it caused, in order. -/
structure CgOutcome where
  err : GoError
  cg : CgroupsV2
  dirs : List String
  trace : List FsEvent
deriving DecidableEq, Repr

/-- The outcomes of the calls `Setup` can make: the stat of `cgroup.controllers`,
the write of `cgroup.subtree_control`, `generateID()`, the mkdir, the three
writes of `writeLimits` and the rmdir of the rollback. -/
structure CgSetupEnv where
  stat : GoError
  enable : GoError
  id : String
  mkdir : GoError
  writeCpu : GoError
  writeMemory : GoError
  writePids : GoError
  rollback : GoError
deriving DecidableEq, Repr

/-- The function `enableControllers`: the path and content it writes. -/
def enableControllers (baseDir : String) (controllers : List String) : FsEvent :=
  let subtreeCtl := filepathJoin baseDir "cgroup.subtree_control"
  let parts := controllers.map (fun c => "+" ++ c)
  let content := " ".intercalate parts
  FsEvent.writeFile subtreeCtl content

/-- The method `writeLimits`. -/
def CgroupsV2.writeLimits (cg : CgroupsV2) (env : CgSetupEnv) : GoError × List FsEvent :=
  let tr : List FsEvent := []
  let tr :=
    if cg.config.CPUQuota > 0 then
      let period := if cg.config.CPUPeriod ≤ 0 then 100000 else cg.config.CPUPeriod
      let content := toString cg.config.CPUQuota ++ " " ++ toString period
      tr ++ [FsEvent.writeFile (filepathJoin cg.cgroupDir "cpu.max") content]
    else tr
  match (if cg.config.CPUQuota > 0 then env.writeCpu else none) with
  | some e => (some ("cgroups: write cpu.max: " ++ e), tr)
  | none =>
    let tr :=
      if cg.config.MemoryMax > 0 then
        let content := toString cg.config.MemoryMax
        tr ++ [FsEvent.writeFile (filepathJoin cg.cgroupDir "memory.max") content]
      else tr
    match (if cg.config.MemoryMax > 0 then env.writeMemory else none) with
    | some e => (some ("cgroups: write memory.max: " ++ e), tr)
    | none =>
      let tr :=
        if cg.config.PidsMax > 0 then
          let content := toString cg.config.PidsMax
          tr ++ [FsEvent.writeFile (filepathJoin cg.cgroupDir "pids.max") content]
        else tr
      match (if cg.config.PidsMax > 0 then env.writePids else none) with
      | some e => (some ("cgroups: write pids.max: " ++ e), tr)
      | none => (none, tr)

/-- The method `Setup` of the cgroup manager. -/
def CgroupsV2.Setup (cg : CgroupsV2) (env : CgSetupEnv) (dirs : List String) : CgOutcome :=
  if cg.setupDone then
    { err := some "cgroups: already set up", cg := cg, dirs := dirs, trace := [] }
  else if !cg.config.Enabled then
    { err := some "cgroups: not enabled", cg := cg, dirs := dirs, trace := [] }
  else if cg.config.CPUQuota < 0 then
    { err := some ("cgroups: cpu quota must be non-negative, got " ++ toString cg.config.CPUQuota),
      cg := cg, dirs := dirs, trace := [] }
  else if cg.config.CPUPeriod < 0 then
    { err := some ("cgroups: cpu period must be non-negative, got "
        ++ toString cg.config.CPUPeriod),
      cg := cg, dirs := dirs, trace := [] }
  else if cg.config.MemoryMax < 0 then
    { err := some ("cgroups: memory max must be non-negative, got "
        ++ toString cg.config.MemoryMax),
      cg := cg, dirs := dirs, trace := [] }
  else if cg.config.PidsMax < 0 then
    { err := some ("cgroups: pids max must be non-negative, got " ++ toString cg.config.PidsMax),
      cg := cg, dirs := dirs, trace := [] }
  else
    let baseDir := if cg.config.BaseDir = "" then "/sys/fs/cgroup" else cg.config.BaseDir
    let controllersPath := filepathJoin baseDir "cgroup.controllers"
    let tr := [FsEvent.stat controllersPath]
    match env.stat with
    | some e =>
      { err := some ("cgroups: v2 not available (cannot stat " ++ controllersPath ++ "): " ++ e),
        cg := cg, dirs := dirs, trace := tr }
    | none =>
      let controllers : List String := []
      let controllers := if cg.config.CPUQuota > 0 then controllers ++ ["cpu"] else controllers
      let controllers := if cg.config.MemoryMax > 0 then controllers ++ ["memory"] else controllers
      let controllers := if cg.config.PidsMax > 0 then controllers ++ ["pids"] else controllers
      let tr := if controllers.length > 0 then tr ++ [enableControllers baseDir controllers] else tr
      match (if controllers.length > 0 then env.enable else none) with
      | some e =>
        { err := some ("cgroups: enable controllers: " ++ e), cg := cg, dirs := dirs, trace := tr }
      | none =>
        let cg := { cg with id := env.id }
        let cg := { cg with cgroupDir := filepathJoin baseDir ("sandbox-" ++ cg.id) }
        let tr := tr ++ [FsEvent.mkdir cg.cgroupDir]
        match osMkdir dirs cg.cgroupDir env.mkdir with
        | (some e, dirs) =>
          { err := some ("cgroups: mkdir " ++ cg.cgroupDir ++ ": " ++ e), cg := cg, dirs := dirs,
            trace := tr }
        | (none, dirs) =>
          match cg.writeLimits env with
          | (some e, t) =>
            { err := some e, cg := cg, dirs := (osRemove dirs cg.cgroupDir env.rollback).2,
              trace := tr ++ t ++ [FsEvent.remove cg.cgroupDir] }
          | (none, t) =>
            let cg := { cg with setupDone := true }
            let tr := tr ++ t
            let tr := if cg.logger then tr ++ [FsEvent.logInfo "cgroup setup"] else tr
            { err := none, cg := cg, dirs := dirs, trace := tr }

/-- The method `AddProcess`; `write` is the outcome of the write to
`cgroup.procs`. -/
def CgroupsV2.AddProcess (cg : CgroupsV2) (pid : Int) (write : GoError) (dirs : List String) :
    CgOutcome :=
  if !cg.setupDone then
    { err := some "cgroups: not set up", cg := cg, dirs := dirs, trace := [] }
  else
    let procsPath := filepathJoin cg.cgroupDir "cgroup.procs"
    let tr := [FsEvent.writeFile procsPath (toString pid)]
    match write with
    | some e => { err := some e, cg := cg, dirs := dirs, trace := tr }
    | none =>
      let tr := if cg.logger then tr ++ [FsEvent.logInfo "cgroup add process"] else tr
      { err := none, cg := cg, dirs := dirs, trace := tr }

/-- The outcomes of the calls `Cleanup` can make, with the two library functions
`readPids` uses: the read of `cgroup.procs` and the two attempts of rmdir. The
outcomes of the writes that migrate the remaining processes are discarded by
the code. -/
structure CgCleanupEnv where
  trimSpace : String → String
  atoi : String → Except String Int
  readFile : Except String String
  remove1 : GoError
  remove2 : GoError

/-- The loop of `readPids` over the lines of `cgroup.procs`. -/
def readPidsLoop (env : CgCleanupEnv) : List String → List Int → List Int
  | [], pids => pids
  | line :: rest, pids =>
    let line := env.trimSpace line
    if line = "" then readPidsLoop env rest pids
    else
      match env.atoi line with
      | .error _ => readPidsLoop env rest pids
      | .ok pid => readPidsLoop env rest (pids ++ [pid])

/-- The function `readPids`. -/
def readPids (env : CgCleanupEnv) : List Int :=
  match env.readFile with
  | .error _ => []
  | .ok data =>
    readPidsLoop env ((splitOnChar '\n' (env.trimSpace data).data).map String.mk) []

/-- The method `Cleanup` of the cgroup manager. -/
def CgroupsV2.Cleanup (cg : CgroupsV2) (env : CgCleanupEnv) (dirs : List String) : CgOutcome :=
  if !cg.setupDone then
    { err := none, cg := cg, dirs := dirs, trace := [] }
  else
    let tr : List FsEvent := if cg.logger then [FsEvent.logInfo "cgroup cleanup"] else []
    let baseDir := if cg.config.BaseDir = "" then "/sys/fs/cgroup" else cg.config.BaseDir
    let pids := readPids env
    let tr := tr ++ [FsEvent.readFile (filepathJoin cg.cgroupDir "cgroup.procs")]
    let parentProcs := filepathJoin baseDir "cgroup.procs"
    let tr := tr ++ pids.map (fun pid => FsEvent.writeFile parentProcs (toString pid))
    let tr := tr ++ [FsEvent.remove cg.cgroupDir]
    match osRemove dirs cg.cgroupDir env.remove1 with
    | (some ⟨_, false⟩, dirs) =>
      let tr := tr ++ [FsEvent.sleep, FsEvent.remove cg.cgroupDir]
      match osRemove dirs cg.cgroupDir env.remove2 with
      | (some ⟨e, false⟩, dirs) =>
        { err := some ("cgroups: rmdir " ++ cg.cgroupDir ++ ": " ++ e),
          cg := { cg with setupDone := false }, dirs := dirs, trace := tr }
      | (_, dirs) => { err := none, cg := { cg with setupDone := false }, dirs := dirs, trace := tr }
    | (_, dirs) => { err := none, cg := { cg with setupDone := false }, dirs := dirs, trace := tr }

/-- One call on a cgroup manager, with the outcomes of what it does. -/
inductive CgCall where
  | setup (env : CgSetupEnv)
  | addProcess (pid : Int) (write : GoError)
  | cleanup (env : CgCleanupEnv)

/-- The manager and the existing cgroup directories after one call. -/
def cgStep (s : CgroupsV2 × List String) : CgCall → CgroupsV2 × List String
  | .setup env => ((s.1.Setup env s.2).cg, (s.1.Setup env s.2).dirs)
  | .addProcess pid write => ((s.1.AddProcess pid write s.2).cg, (s.1.AddProcess pid write s.2).dirs)
  | .cleanup env => ((s.1.Cleanup env s.2).cg, (s.1.Cleanup env s.2).dirs)

/-- The manager and the existing cgroup directories after a sequence of calls. -/
def cgRun (s : CgroupsV2 × List String) (calls : List CgCall) : CgroupsV2 × List String :=
  calls.foldl cgStep s

/-! ## overlayfs.go: the OverlayFS manager -/

structure OverlayConfig where
  Enabled : Bool
  LowerDirs : List String
  MergeDir : String
  TmpfsSize : String
  BaseDir : String
  ReadOnly : Bool
deriving DecidableEq, Repr

/-- The function `DefaultOverlayConfig`. -/
def DefaultOverlayConfig (lowerDir : String) : OverlayConfig :=
  { Enabled := true, LowerDirs := [lowerDir], MergeDir := "", TmpfsSize := "64m",
    BaseDir := "/tmp", ReadOnly := false }

/-- The struct `OverlayFS`; `logger` says whether a logger is attached. -/
structure OverlayFS where
  config : OverlayConfig
  logger : Bool
  id : String
  baseDir : String
  upperDir : String
  workDir : String
  mergeDir : String
  setupDone : Bool
deriving DecidableEq, Repr

/-- The function `NewOverlayFS`. -/
def NewOverlayFS (config : OverlayConfig) : OverlayFS :=
  { config := config, logger := false, id := "", baseDir := "", upperDir := "", workDir := "",
    mergeDir := "", setupDone := false }

/-- The outcomes of the calls `Setup` can make, with the table of `strconv` that
`%q` consults: the stat of each lower dir, `generateID()`, the mkdir of the base
directory, the tmpfs mount and the mkdir of the three sub-directories (by their
index in the loop). The outcomes of the rollback calls are discarded by the
code. -/
structure OvSetupEnv where
  isPrintTable : Char → Bool
  stat : String → GoError
  id : String
  mkdirBase : GoError
  mountTmpfs : GoError
  mkdirSub : Nat → GoError

/-- What a method of the overlay manager leaves behind. -/
structure OvOutcome where
  err : GoError
  ov : OverlayFS
  trace : List FsEvent
deriving DecidableEq, Repr

/-- The loop `for _, d := range ov.config.LowerDirs` of `Setup`: the first stat
that fails ends it with the error. -/
def statLowerDirs (env : OvSetupEnv) : List String → List FsEvent → GoError × List FsEvent
  | [], tr => (none, tr)
  | d :: rest, tr =>
    match env.stat d with
    | some e =>
      (some ("overlayfs: lower dir " ++ strconvQuote env.isPrintTable d ++ ": " ++ e),
        tr ++ [FsEvent.stat d])
    | none => statLowerDirs env rest (tr ++ [FsEvent.stat d])

/-- The loop `for _, dir := range []string{upperDir, workDir, mergeDir}` of
`Setup`, entered at index `i`: the first mkdir that fails ends it, after the
rollback, with the error. -/
def mkdirSubDirs (env : OvSetupEnv) (baseDir : String) :
    List String → Nat → List FsEvent → GoError × List FsEvent
  | [], _, tr => (none, tr)
  | dir :: rest, i, tr =>
    match env.mkdirSub i with
    | some e =>
      (some ("overlayfs: mkdir " ++ dir ++ ": " ++ e),
        tr ++ [FsEvent.mkdirAll dir, FsEvent.unmount baseDir, FsEvent.removeAll baseDir])
    | none => mkdirSubDirs env baseDir rest (i + 1) (tr ++ [FsEvent.mkdirAll dir])

/-- The method `Setup` of the overlay manager. -/
def OverlayFS.Setup (ov : OverlayFS) (env : OvSetupEnv) : OvOutcome :=
  if ov.setupDone then
    { err := some "overlayfs: already set up", ov := ov, trace := [] }
  else if !ov.config.Enabled then
    { err := some "overlayfs: not enabled", ov := ov, trace := [] }
  else if ov.config.LowerDirs.length = 0 then
    { err := some "overlayfs: no lower dirs specified", ov := ov, trace := [] }
  else
    match statLowerDirs env ov.config.LowerDirs [] with
    | (some e, tr) => { err := some e, ov := ov, trace := tr }
    | (none, tr) =>
      let ov := { ov with id := env.id }
      let baseDir := if ov.config.BaseDir = "" then "/tmp" else ov.config.BaseDir
      let ov := { ov with baseDir := filepathJoin baseDir ("sandbox-overlay-" ++ ov.id) }
      let tr := tr ++ [FsEvent.mkdirAll ov.baseDir]
      match env.mkdirBase with
      | some e => { err := some ("overlayfs: mkdir base: " ++ e), ov := ov, trace := tr }
      | none =>
        let tmpfsSize := if ov.config.TmpfsSize = "" then "64m" else ov.config.TmpfsSize
        let mountOpts := "size=" ++ tmpfsSize ++ ",mode=0700"
        let tr := tr ++ [FsEvent.mount "tmpfs" ov.baseDir "tmpfs" mountOpts]
        match env.mountTmpfs with
        | some e =>
          { err := some ("overlayfs: mount tmpfs: " ++ e), ov := ov,
            trace := tr ++ [FsEvent.remove ov.baseDir] }
        | none =>
          let ov := { ov with upperDir := filepathJoin ov.baseDir "upper" }
          let ov := { ov with workDir := filepathJoin ov.baseDir "work" }
          let ov :=
            if ov.config.MergeDir ≠ "" then { ov with mergeDir := ov.config.MergeDir }
            else { ov with mergeDir := filepathJoin ov.baseDir "merged" }
          match mkdirSubDirs env ov.baseDir [ov.upperDir, ov.workDir, ov.mergeDir] 0 tr with
          | (some e, tr) => { err := some e, ov := ov, trace := tr }
          | (none, tr) =>
            let ov := { ov with setupDone := true }
            let tr := if ov.logger then tr ++ [FsEvent.logInfo "overlay setup"] else tr
            { err := none, ov := ov, trace := tr }

/-- The method `InitConfig` of the overlay manager. -/
def OverlayFS.InitConfig (ov : OverlayFS) : Option overlayInitConfig :=
  if !ov.setupDone then none
  else
    some { LowerDirs := ov.config.LowerDirs, UpperDir := ov.upperDir, WorkDir := ov.workDir,
           MergeDir := ov.mergeDir, ReadOnly := ov.config.ReadOnly }

/-- The method `Cleanup` of the overlay manager; `unmountTmpfs` and `removeAll`
are the outcomes of the unmount of the tmpfs and of `os.RemoveAll`, the outcome
of the unmount of the merge directory is discarded by the code. -/
def OverlayFS.Cleanup (ov : OverlayFS) (unmountTmpfs removeAll : GoError) : OvOutcome :=
  if !ov.setupDone then
    { err := none, ov := ov, trace := [] }
  else
    let tr : List FsEvent := if ov.logger then [FsEvent.logInfo "overlay cleanup"] else []
    let errs : List String := []
    let tr := if ov.mergeDir ≠ "" then tr ++ [FsEvent.unmount ov.mergeDir] else tr
    let tr := tr ++ [FsEvent.unmount ov.baseDir]
    let errs := match unmountTmpfs with
      | some e => errs ++ ["unmount tmpfs " ++ ov.baseDir ++ ": " ++ e]
      | none => errs
    let tr := tr ++ [FsEvent.removeAll ov.baseDir]
    let errs := match removeAll with
      | some e => errs ++ ["remove " ++ ov.baseDir ++ ": " ++ e]
      | none => errs
    let ov := { ov with setupDone := false }
    if errs.length > 0 then
      { err := some ("overlayfs cleanup errors: [" ++ " ".intercalate errs ++ "]"), ov := ov,
        trace := tr }
    else
      { err := none, ov := ov, trace := tr }

/-! ## namespace.go: Wait -/

/-- The struct `ExecResult`. -/
structure ExecResult where
  ExitCode : Int
deriving DecidableEq, Repr

/-- What `cmd.Wait()` returns: nil, an `*exec.ExitError` with its exit code, or
another error. -/
inductive CmdWaitResult where
  | success
  | exitError (code : Int)
  | failure (msg : String)
deriving DecidableEq, Repr

/-- What `Wait` leaves behind: the result and the error it returns, the
orchestrator, the outside state and the events it caused. -/
structure WaitOutcome (W : Type) where
  result : Option ExecResult
  err : GoError
  ns : Namespace W
  world : W
  trace : List NsEvent

/-- The method `Wait`; `waited` is what `cmd.Wait()` returns should it be
called. -/
def Namespace.Wait {W : Type} (ns : Namespace W) (waited : CmdWaitResult) (w : W) :
    WaitOutcome W :=
  if !ns.running || !ns.cmd then
    { result := none, err := some "namespace: no running process", ns := ns, world := w,
      trace := [] }
  else
    let tr := [NsEvent.wait]
    let ns := { ns with running := false }
    let tr := if ns.done then tr ++ [NsEvent.closeDone] else tr
    let result : ExecResult := { ExitCode := 0 }
    match waited with
    | .success => { result := some result, err := none, ns := ns, world := w, trace := tr }
    | .exitError code =>
      { result := some { result with ExitCode := code }, err := none, ns := ns, world := w,
        trace := tr }
    | .failure e =>
      { result := none, err := some ("namespace: wait: " ++ e), ns := ns, world := w, trace := tr }

/-! ## namespace.go: the configurations -/

/-- The function `DefaultNamespaceConfig`. -/
def DefaultNamespaceConfig : NamespaceConfig :=
  { PID := true, IPC := true, Mount := true, Network := true, UTS := true,
    Hostname := "sandbox", MountProc := true, SetupLoopback := true }

/-- The function `MinimalNamespaceConfig`. -/
def MinimalNamespaceConfig : NamespaceConfig :=
  { PID := true, IPC := false, Mount := true, Network := false, UTS := false,
    Hostname := "", MountProc := true, SetupLoopback := false }

/-! ## namespace.go: Execute -/

/-- The method `Execute`: `Start`, then `Wait` if `Start` returned nil. -/
def Namespace.Execute {W : Type} (ns : Namespace W) (env : StartEnv) (waited : CmdWaitResult)
    (command : String) (args : List String) (w : W) : WaitOutcome W :=
  let s := ns.Start env command args w
  match s.err with
  | some e => { result := none, err := some e, ns := s.ns, world := s.world, trace := s.trace }
  | none =>
    let o := s.ns.Wait waited s.world
    { result := o.result, err := o.err, ns := o.ns, world := o.world,
      trace := s.trace ++ o.trace }

/-! ## cmd/ai-sandbox/main.go: the launcher

The messages that `run` prints to stderr are left out of the model. -/

def ExitSuccess : Int := 0

def ExitFailure : Int := 1

/-- The flag variables of `run` after `flag.Parse()`, with `flag.Args()`. -/
structure Flags where
  noPID : Bool
  noIPC : Bool
  noNet : Bool
  noUTS : Bool
  host : String
  overlay : Bool
  overlayLower : String
  overlaySize : String
  noCgroup : Bool
  cpuQuota : Int
  cpuPeriod : Int
  memoryMax : String
  pidsMax : Int
  logDir : String
  logLevel : String
  args : List String

/-- The values of the flag variables when no flag is given. -/
def defaultFlags (args : List String) : Flags :=
  { noPID := false, noIPC := false, noNet := false, noUTS := false, host := "sandbox",
    overlay := false, overlayLower := "/", overlaySize := "64m", noCgroup := false,
    cpuQuota := 100000, cpuPeriod := 100000, memoryMax := "512m", pidsMax := 512,
    logDir := "/var/log/ai-sandbox", logLevel := "info", args := args }

/-- Go arithmetic on `int64`: the value of an integer expression after
wrap-around. -/
def int64 (x : Int) : Int := (x + 9223372036854775808) % 18446744073709551616 - 9223372036854775808

/-- The function `parseMemorySize`; `trimSpace` and `parseInt` are
`strings.TrimSpace` and `strconv.ParseInt(_, 10, 64)`. -/
def parseMemorySize (trimSpace : String → String) (parseInt : String → Except String Int)
    (s : String) : Except String Int :=
  let s := trimSpace s
  if s = "" ∨ s = "0" then .ok 0
  else
    let last := s.data.getLast?
    let front : String := ⟨s.data.dropLast⟩
    if last = some 'k' ∨ last = some 'K' then
      match parseInt front with
      | .error _ => .error ("invalid size: " ++ s)
      | .ok n => .ok (int64 (n * 1024))
    else if last = some 'm' ∨ last = some 'M' then
      match parseInt front with
      | .error _ => .error ("invalid size: " ++ s)
      | .ok n => .ok (int64 (int64 (n * 1024) * 1024))
    else if last = some 'g' ∨ last = some 'G' then
      match parseInt front with
      | .error _ => .error ("invalid size: " ++ s)
      | .ok n => .ok (int64 (int64 (int64 (n * 1024) * 1024) * 1024))
    else
      match parseInt s with
      | .error _ => .error ("invalid size: " ++ s)
      | .ok n => .ok n

/-- The namespace configuration that `run` builds from the flags. -/
def launcherConfig (f : Flags) : NamespaceConfig :=
  let config := DefaultNamespaceConfig
  let config := { config with Hostname := f.host }
  let config := if f.noPID then { config with PID := false, MountProc := false } else config
  let config := if f.noIPC then { config with IPC := false } else config
  let config := if f.noNet then { config with Network := false, SetupLoopback := false } else config
  let config := if f.noUTS then { config with UTS := false } else config
  config

/-- The outcomes of the calls one run of `run` can make: the creation of the
logger, the two library functions of `parseMemorySize`, and the calls of the
overlay manager, of the cgroup manager and of the orchestrator. -/
structure RunEnv where
  newLogger : GoError
  trimSpace : String → String
  parseInt : String → Except String Int
  ovSetup : OvSetupEnv
  ovUnmount : GoError
  ovRemoveAll : GoError
  cgSetup : CgSetupEnv
  cgAdd : GoError
  cgCleanup : CgCleanupEnv
  start : StartEnv
  waited : CmdWaitResult
  kill : GoError

/-- The state outside the orchestrator during `run`: the overlay manager and the
cgroup manager once they are made, the existing cgroup directories and the
events the two managers caused, in order. -/
structure RunWorld where
  ov : Option OverlayFS
  cg : Option CgroupsV2
  dirs : List String
  fs : List FsEvent

/-- The overlay manager of `run` as the orchestrator sees it. -/
def launcherOverlayRef (env : RunEnv) : OverlayFSRef RunWorld :=
  { InitConfig := fun w =>
      match w.ov with
      | some ov => (ov.InitConfig, w)
      | none => (none, w),
    Cleanup := fun w =>
      match w.ov with
      | some ov =>
        let o := ov.Cleanup env.ovUnmount env.ovRemoveAll
        (o.err, { w with ov := some o.ov, fs := w.fs ++ o.trace })
      | none => (none, w) }

/-- The cgroup manager of `run` as the orchestrator sees it. -/
def launcherCgroupRef (env : RunEnv) : CgroupsV2Ref RunWorld :=
  { AddProcess := fun pid w =>
      match w.cg with
      | some cg =>
        let o := cg.AddProcess pid env.cgAdd w.dirs
        (o.err, { w with cg := some o.cg, dirs := o.dirs, fs := w.fs ++ o.trace })
      | none => (none, w),
    Cleanup := fun w =>
      match w.cg with
      | some cg =>
        let o := cg.Cleanup env.cgCleanup w.dirs
        (o.err, { w with cg := some o.cg, dirs := o.dirs, fs := w.fs ++ o.trace })
      | none => (none, w) }

/-- What `run` leaves behind: the exit code, the orchestrator if one was made,
the outside state, the events of the orchestrator and whether the deferred
`slog.Close()` ran. -/
structure RunOutcome where
  code : Int
  ns : Option (Namespace RunWorld)
  world : RunWorld
  calls : List NsEvent
  loggerClosed : Bool

/-- The return of `run` once the two `defer` statements are in place: the
deferred `ns.Cleanup()` runs, then the deferred `slog.Close()`. -/
def runReturn (env : RunEnv) (ns : Namespace RunWorld) (w : RunWorld) (calls : List NsEvent)
    (code : Int) : RunOutcome :=
  let o := ns.Cleanup env.kill w
  { code := code, ns := some o.ns, world := o.world, calls := calls ++ o.trace,
    loggerClosed := true }

/-- The end of `run`: `ns.Execute(args[0], args[1:]...)` and the exit code. `Wait`
returns a result whenever it returns a nil error. -/
def runExecute (f : Flags) (env : RunEnv) (ns : Namespace RunWorld) (w : RunWorld) :
    RunOutcome :=
  let x := ns.Execute env.start env.waited (f.args.headD "") f.args.tail w
  match x.err with
  | some _ => runReturn env x.ns x.world x.trace ExitFailure
  | none =>
    match x.result with
    | some result => runReturn env x.ns x.world x.trace result.ExitCode
    | none => runReturn env x.ns x.world x.trace ExitFailure

/-- The part of `run` from `if !noCgroup` on. -/
def runCgroup (f : Flags) (env : RunEnv) (ns : Namespace RunWorld) (w : RunWorld) :
    RunOutcome :=
  if !f.noCgroup then
    match parseMemorySize env.trimSpace env.parseInt f.memoryMax with
    | .error _ => runReturn env ns w [] ExitFailure
    | .ok memBytes =>
      let cgConfig : CgroupsConfig :=
        { Enabled := true, CPUQuota := f.cpuQuota, CPUPeriod := f.cpuPeriod,
          MemoryMax := memBytes, PidsMax := f.pidsMax, BaseDir := "" }
      let cg := NewCgroupsV2 cgConfig
      let cg := { cg with logger := true }
      let o := cg.Setup env.cgSetup w.dirs
      let w := { w with cg := some o.cg, dirs := o.dirs, fs := w.fs ++ o.trace }
      match o.err with
      | some _ => runReturn env ns w [] ExitFailure
      | none => runExecute f env { ns with cgroupsV2 := some (launcherCgroupRef env) } w
  else runExecute f env ns w

/-- The function `run` of the launcher; `dirs` are the cgroup directories that
exist when it is called. -/
def run (f : Flags) (env : RunEnv) (dirs : List String) : RunOutcome :=
  let w : RunWorld := { ov := none, cg := none, dirs := dirs, fs := [] }
  if f.args.length = 0 then
    { code := ExitFailure, ns := none, world := w, calls := [], loggerClosed := false }
  else
    match env.newLogger with
    | some _ =>
      { code := ExitFailure, ns := none, world := w, calls := [], loggerClosed := false }
    | none =>
      let config := launcherConfig f
      let ns : Namespace RunWorld := NewNamespace config
      let ns := { ns with logger := true }
      if f.overlay then
        let ovConfig := DefaultOverlayConfig f.overlayLower
        let ovConfig := { ovConfig with TmpfsSize := f.overlaySize }
        let ov := NewOverlayFS ovConfig
        let ov := { ov with logger := true }
        let o := ov.Setup env.ovSetup
        let w := { w with ov := some o.ov, fs := w.fs ++ o.trace }
        match o.err with
        | some _ => runReturn env ns w [] ExitFailure
        | none => runCgroup f env { ns with overlayFS := some (launcherOverlayRef env) } w
      else runCgroup f env ns w

/-! ## Library functions: unicode/utf8

A Go string is a sequence of bytes. The shifts and masks of the library are
written as divisions and remainders. -/

/-- A Go string or byte slice, by its bytes. -/
abbrev Bytes := List Nat

/-- The constant `utf8.RuneError`, U+FFFD. -/
def RuneError : Nat := 0xFFFD

/-- The function `utf8.AppendRune`: the UTF-8 encoding of a rune; a surrogate or
a value above U+10FFFF is encoded as U+FFFD. -/
def utf8EncodeRune (r : Nat) : Bytes :=
  if r ≤ 0x7F then [r]
  else if r ≤ 0x7FF then [0xC0 + r / 64, 0x80 + r % 64]
  else if 0x10FFFF < r ∨ (0xD800 ≤ r ∧ r ≤ 0xDFFF) then [0xEF, 0xBF, 0xBD]
  else if r ≤ 0xFFFF then [0xE0 + r / 4096, 0x80 + r / 64 % 64, 0x80 + r % 64]
  else [0xF0 + r / 262144, 0x80 + r / 4096 % 64, 0x80 + r / 64 % 64, 0x80 + r % 64]

/-- The function `utf8.DecodeRune`: the first rune of `p` and its width in
bytes; `(RuneError, 1)` for an encoding that is invalid (also when it is
overlong, is a surrogate or is cut short) and `(RuneError, 0)` for no bytes. -/
def utf8DecodeRune : Bytes → Nat × Nat
  | [] => (RuneError, 0)
  | p0 :: rest =>
    if p0 < 0x80 then (p0, 1)
    else if p0 < 0xC2 ∨ 0xF4 < p0 then (RuneError, 1)
    else
      let lo := if p0 = 0xE0 then 0xA0 else if p0 = 0xF0 then 0x90 else 0x80
      let hi := if p0 = 0xED then 0x9F else if p0 = 0xF4 then 0x8F else 0xBF
      if p0 < 0xE0 then
        match rest with
        | b1 :: _ =>
          if b1 < lo ∨ hi < b1 then (RuneError, 1)
          else (p0 % 32 * 64 + b1 % 64, 2)
        | _ => (RuneError, 1)
      else if p0 < 0xF0 then
        match rest with
        | b1 :: b2 :: _ =>
          if b1 < lo ∨ hi < b1 then (RuneError, 1)
          else if b2 < 0x80 ∨ 0xBF < b2 then (RuneError, 1)
          else (p0 % 16 * 4096 + b1 % 64 * 64 + b2 % 64, 3)
        | _ => (RuneError, 1)
      else
        match rest with
        | b1 :: b2 :: b3 :: _ =>
          if b1 < lo ∨ hi < b1 then (RuneError, 1)
          else if b2 < 0x80 ∨ 0xBF < b2 then (RuneError, 1)
          else if b3 < 0x80 ∨ 0xBF < b3 then (RuneError, 1)
          else (p0 % 8 * 262144 + b1 % 64 * 4096 + b2 % 64 * 64 + b3 % 64, 4)
        | _ => (RuneError, 1)

/-- The bytes of a Go string that holds the UTF-8 encoding of `s`. -/
def goString (s : String) : Bytes :=
  s.data.flatMap (fun c => utf8EncodeRune c.val.toNat)

/-! ## Library functions: encoding/json, strings

The encoder writes a string as `appendString` of encode.go does, with HTML
escaping on (the default of an `Encoder`) and with the short escapes for
backspace and form feed that the library has since Go 1.22. A slice of length 0
stands for the nil slice. The decoder checks a string literal
as the scanner of scanner.go does and decodes it as `unquoteBytes` of decode.go
does. In the loops below `skip` counts the bytes that the step before has
already consumed (`i += size`). -/

/-- The table `hex` of encode.go: the digit of `n < 16`. -/
def hexDigit (n : Nat) : Nat := if n < 10 then 48 + n else 87 + n

/-- The table `htmlSafeSet` of tables.go: the ASCII bytes that are written as
they are. -/
def htmlSafeSet (b : Nat) : Bool :=
  decide (0x20 ≤ b ∧ b < 0x80 ∧ b ≠ 34 ∧ b ≠ 92 ∧ b ≠ 60 ∧ b ≠ 62 ∧ b ≠ 38)

/-- What `appendString` writes for a byte below 0x80: the byte itself, a short
escape, or `\u00XX` for the other control characters and for `<`, `>` and `&`. -/
def escapeByte (b : Nat) : Bytes :=
  if htmlSafeSet b then [b]
  else if b = 92 ∨ b = 34 then [92, b]
  else if b = 8 then [92, 98]
  else if b = 12 then [92, 102]
  else if b = 10 then [92, 110]
  else if b = 13 then [92, 114]
  else if b = 9 then [92, 116]
  else [92, 117, 48, 48, hexDigit (b / 16), hexDigit (b % 16)]

/-- The loop of `appendString` over the bytes of the string. -/
def appendStringLoop : Nat → Bytes → Bytes
  | _, [] => []
  | skip + 1, _ :: rest => appendStringLoop skip rest
  | 0, b :: rest =>
    if b < 0x80 then escapeByte b ++ appendStringLoop 0 rest
    else
      let c := (utf8DecodeRune (b :: rest)).1
      let size := (utf8DecodeRune (b :: rest)).2
      if c = RuneError ∧ size = 1 then
        [92, 117, 102, 102, 102, 100] ++ appendStringLoop 0 rest
      else if c = 0x2028 ∨ c = 0x2029 then
        [92, 117, 50, 48, 50, hexDigit (c % 16)] ++ appendStringLoop (size - 1) rest
      else (b :: rest).take size ++ appendStringLoop (size - 1) rest

/-- The function `appendString` of encode.go with `escapeHTML` set: the JSON
string literal of a Go string. -/
def jsonAppendString (s : Bytes) : Bytes :=
  [34] ++ appendStringLoop 0 s ++ [34]

/-- Whether the byte is a hexadecimal digit. -/
def isHexDigit (b : Nat) : Bool :=
  decide ((48 ≤ b ∧ b ≤ 57) ∨ (97 ≤ b ∧ b ≤ 102) ∨ (65 ≤ b ∧ b ≤ 70))

/-- The value of a hexadecimal digit. -/
def hexValue (b : Nat) : Nat :=
  if 48 ≤ b ∧ b ≤ 57 then b - 48 else if 97 ≤ b ∧ b ≤ 102 then b - 87 else b - 55

/-- The scanner on a string literal, entered after the opening quote: the
content of the literal, escapes included, and what follows the closing quote;
`none` for a literal that is not closed, has a control character or a wrong
escape. -/
def scanStringBody : Nat → Bytes → Option (Bytes × Bytes)
  | _, [] => none
  | skip + 1, b :: rest => (scanStringBody skip rest).map (fun p => (b :: p.1, p.2))
  | 0, b :: rest =>
    if b = 34 then some ([], rest)
    else if b = 92 then
      match rest with
      | [] => none
      | e :: rest2 =>
        if e = 34 ∨ e = 92 ∨ e = 47 ∨ e = 98 ∨ e = 102 ∨ e = 110 ∨ e = 114 ∨ e = 116 then
          (scanStringBody 1 rest).map (fun p => (b :: p.1, p.2))
        else if e = 117 then
          match rest2 with
          | h1 :: h2 :: h3 :: h4 :: _ =>
            if isHexDigit h1 && isHexDigit h2 && isHexDigit h3 && isHexDigit h4 then
              (scanStringBody 5 rest).map (fun p => (b :: p.1, p.2))
            else none
          | _ => none
        else none
    else if b < 0x20 then none
    else (scanStringBody 0 rest).map (fun p => (b :: p.1, p.2))

/-- The function `getu4` of decode.go: the value of the escape `\uXXXX` at the
start of `s`. -/
def getu4 : Bytes → Option Nat
  | 92 :: 117 :: h1 :: h2 :: h3 :: h4 :: _ =>
    if isHexDigit h1 && isHexDigit h2 && isHexDigit h3 && isHexDigit h4 then
      some (hexValue h1 * 4096 + hexValue h2 * 256 + hexValue h3 * 16 + hexValue h4)
    else none
  | _ => none

/-- The loop of `unquoteBytes` of decode.go over the content of a literal. -/
def unquoteLoop : Nat → Bytes → Option Bytes
  | _, [] => some []
  | skip + 1, _ :: rest => unquoteLoop skip rest
  | 0, b :: rest =>
    if b = 92 then
      match rest with
      | [] => none
      | e :: _ =>
        if e = 34 ∨ e = 92 ∨ e = 47 ∨ e = 39 then (unquoteLoop 1 rest).map (fun t => e :: t)
        else if e = 98 then (unquoteLoop 1 rest).map (fun t => 8 :: t)
        else if e = 102 then (unquoteLoop 1 rest).map (fun t => 12 :: t)
        else if e = 110 then (unquoteLoop 1 rest).map (fun t => 10 :: t)
        else if e = 114 then (unquoteLoop 1 rest).map (fun t => 13 :: t)
        else if e = 116 then (unquoteLoop 1 rest).map (fun t => 9 :: t)
        else if e = 117 then
          match getu4 (b :: rest) with
          | none => none
          | some rr =>
            if 0xD800 ≤ rr ∧ rr < 0xE000 then
              match getu4 (rest.drop 5) with
              | some rr1 =>
                if rr < 0xDC00 ∧ 0xDC00 ≤ rr1 ∧ rr1 < 0xE000 then
                  (unquoteLoop 11 rest).map (fun t =>
                    utf8EncodeRune ((rr - 0xD800) * 1024 + (rr1 - 0xDC00) + 0x10000) ++ t)
                else (unquoteLoop 5 rest).map (fun t => utf8EncodeRune RuneError ++ t)
              | none => (unquoteLoop 5 rest).map (fun t => utf8EncodeRune RuneError ++ t)
            else (unquoteLoop 5 rest).map (fun t => utf8EncodeRune rr ++ t)
        else none
    else if b = 34 ∨ b < 0x20 then none
    else if b < 0x80 then (unquoteLoop 0 rest).map (fun t => b :: t)
    else
      (unquoteLoop ((utf8DecodeRune (b :: rest)).2 - 1) rest).map (fun t =>
        utf8EncodeRune (utf8DecodeRune (b :: rest)).1 ++ t)

/-- Whether the byte is JSON white space. -/
def isSpace (b : Nat) : Bool := decide (b = 32 ∨ b = 9 ∨ b = 13 ∨ b = 10)

/-- The input without its leading white space. -/
def skipSpace : Bytes → Bytes
  | [] => []
  | b :: rest => if isSpace b then skipSpace rest else b :: rest

/-- Whether the byte is a decimal digit. -/
def isDigit (b : Nat) : Bool := decide (48 ≤ b ∧ b ≤ 57)

/-- The input without its leading decimal digits. -/
def skipDigits : Bytes → Bytes
  | [] => []
  | b :: rest => if isDigit b then skipDigits rest else b :: rest

/-- The input after the literal `lit`, when it starts with it. -/
def dropLiteral (lit : String) (input : Bytes) : Option Bytes :=
  if (goString lit).isPrefixOf input then some (input.drop (goString lit).length) else none

/-- The scanner on a number: what follows it, or `none` when the input does not
start with a JSON number. -/
def scanNumber (input : Bytes) : Option Bytes :=
  let afterSign : Bytes :=
    match input with
    | [] => []
    | b :: rest => if b = 45 then rest else b :: rest
  let afterInt : Option Bytes :=
    match afterSign with
    | [] => none
    | d :: rest =>
      if d = 48 then some rest
      else if 49 ≤ d ∧ d ≤ 57 then some (skipDigits rest)
      else none
  match afterInt with
  | none => none
  | some r =>
    let afterFrac : Option Bytes :=
      match r with
      | [] => some r
      | p :: rest =>
        if p = 46 then
          match rest with
          | [] => none
          | d :: rest2 => if isDigit d then some (skipDigits rest2) else none
        else some r
    match afterFrac with
    | none => none
    | some r =>
      match r with
      | [] => some r
      | e :: rest =>
        if e = 101 ∨ e = 69 then
          let afterExpSign : Bytes :=
            match rest with
            | [] => []
            | s :: rest2 => if s = 43 ∨ s = 45 then rest2 else s :: rest2
          match afterExpSign with
          | [] => none
          | d :: rest3 => if isDigit d then some (skipDigits rest3) else none
        else some r

/-- The limit `maxNestingDepth` of scanner.go. -/
def maxNestingDepth : Nat := 10000

/-- Where the scanner stands: before a value, before an element of an array, or
before a key of an object. -/
inductive ScanMode where
  | value
  | elems
  | members
deriving DecidableEq, Repr

/-- The scanner on a value (or on the rest of an array or object) that the
decoder does not keep: what follows it, or `none` for a syntax error. `depth` is
the number of arrays and objects that are open. -/
def skipJson : Nat → ScanMode → Nat → Bytes → Option Bytes
  | 0, _, _, _ => none
  | fuel + 1, .value, depth, input =>
    match input with
    | [] => none
    | b :: rest =>
      if b = 123 then
        if depth ≥ maxNestingDepth then none
        else
          match skipSpace rest with
          | [] => none
          | c :: r => if c = 125 then some r else skipJson fuel .members (depth + 1) (c :: r)
      else if b = 91 then
        if depth ≥ maxNestingDepth then none
        else
          match skipSpace rest with
          | [] => none
          | c :: r => if c = 93 then some r else skipJson fuel .elems (depth + 1) (c :: r)
      else if b = 34 then (scanStringBody 0 rest).map (fun p => p.2)
      else if b = 116 then dropLiteral "true" input
      else if b = 102 then dropLiteral "false" input
      else if b = 110 then dropLiteral "null" input
      else scanNumber input
  | fuel + 1, .elems, depth, input =>
    match skipJson fuel .value depth input with
    | none => none
    | some r =>
      match skipSpace r with
      | [] => none
      | c :: r2 =>
        if c = 44 then skipJson fuel .elems depth (skipSpace r2)
        else if c = 93 then some r2
        else none
  | fuel + 1, .members, depth, input =>
    match input with
    | [] => none
    | q :: rest =>
      if q = 34 then
        match scanStringBody 0 rest with
        | none => none
        | some (_, r) =>
          match skipSpace r with
          | [] => none
          | c :: r2 =>
            if c = 58 then
              match skipJson fuel .value depth (skipSpace r2) with
              | none => none
              | some r3 =>
                match skipSpace r3 with
                | [] => none
                | c2 :: r4 =>
                  if c2 = 44 then skipJson fuel .members depth (skipSpace r4)
                  else if c2 = 125 then some r4
                  else none
            else none
      else none

/-- The decoder on a value for a field of type `string`: a string literal sets
the field, `null` leaves it as it is, any other value is an error. -/
def decodeString (cur : Bytes) (input : Bytes) : Option (Bytes × Bytes) :=
  match input with
  | [] => none
  | b :: rest =>
    if b = 34 then
      match scanStringBody 0 rest with
      | none => none
      | some (raw, r) => (unquoteLoop 0 raw).map (fun s => (s, r))
    else (dropLiteral "null" input).map (fun r => (cur, r))

/-- The decoder on a value for a field of type `bool`. -/
def decodeBool (cur : Bool) (input : Bytes) : Option (Bool × Bytes) :=
  match input with
  | [] => none
  | b :: _ =>
    if b = 116 then (dropLiteral "true" input).map (fun r => (true, r))
    else if b = 102 then (dropLiteral "false" input).map (fun r => (false, r))
    else (dropLiteral "null" input).map (fun r => (cur, r))

/-- The decoder on the elements of an array for a `[]string` that holds `cur`,
entered before an element: a string literal sets the element, `null` leaves it
as it is (empty beyond the length of `cur`). -/
def decodeStringElems (cur : List Bytes) : Nat → List Bytes → Bytes → Option (List Bytes × Bytes)
  | 0, _, _ => none
  | fuel + 1, acc, input =>
    match decodeString (cur.getD acc.length []) input with
    | none => none
    | some (s, r) =>
      match skipSpace r with
      | [] => none
      | c :: r2 =>
        if c = 44 then decodeStringElems cur fuel (acc ++ [s]) (skipSpace r2)
        else if c = 93 then some (acc ++ [s], r2)
        else none

/-- The decoder on a value for a field of type `[]string` that holds `cur`: an
array replaces the slice, `null` makes it nil. -/
def decodeStrings (cur : List Bytes) (input : Bytes) : Option (List Bytes × Bytes) :=
  match input with
  | [] => none
  | b :: rest =>
    if b = 91 then
      match skipSpace rest with
      | [] => none
      | c :: r =>
        if c = 93 then some ([], r) else decodeStringElems cur (r.length + 1) [] (c :: r)
    else (dropLiteral "null" input).map (fun r => ([], r))

/-- The pieces joined by commas. -/
def joinComma : List Bytes → Bytes
  | [] => []
  | [x] => x
  | x :: rest => x ++ 44 :: joinComma rest

/-- The encoder on a `[]string`: `null` for a slice of length 0 (a nil slice), an
array of string literals otherwise. -/
def encodeStrings (xs : List Bytes) : Bytes :=
  if xs.length = 0 then goString "null"
  else [91] ++ joinComma (xs.map jsonAppendString) ++ [93]

/-- The encoder on a `bool`. -/
def encodeBool (b : Bool) : Bytes := if b then goString "true" else goString "false"

/-- A field of a struct as encoding/json sees it: the name in its tag, whether
the tag says `omitempty`, the type of the field with its accessors, what
`omitempty` takes for empty, and the encoder and decoder of the type. The decoder
is given the value the field has. -/
structure FieldCodec (σ : Type) where
  name : String
  omitempty : Bool
  α : Type
  get : σ → α
  set : σ → α → σ
  isEmpty : α → Bool
  encodeVal : α → Bytes
  decodeVal : α → Bytes → Option (α × Bytes)

/-- The encoding of a struct: the fields in the order of their declaration, those
that `omitempty` drops left out. -/
def encodeObject {σ : Type} (fields : List (FieldCodec σ)) (v : σ) : Bytes :=
  [123]
  ++ joinComma ((fields.filter (fun f => !(f.omitempty && f.isEmpty (f.get v)))).map (fun f =>
      jsonAppendString (goString f.name) ++ 58 :: f.encodeVal (f.get v)))
  ++ [125]

/-- The field that a key of an object names: the one with exactly that name, or
else the first one whose name is the same after `foldName`. -/
def lookupField {σ : Type} (foldName : Bytes → Bytes) (fields : List (FieldCodec σ))
    (key : Bytes) : Option (FieldCodec σ) :=
  match fields.find? (fun f => decide (goString f.name = key)) with
  | some f => some f
  | none => fields.find? (fun f => decide (foldName (goString f.name) = foldName key))

/-- The decoder on the members of an object for a struct, entered before a key:
each member sets the field its key names, in turn, and a member with an unknown
key is passed over. -/
def decodeMembers {σ : Type} (foldName : Bytes → Bytes) (fields : List (FieldCodec σ))
    (depth : Nat) : Nat → σ → Bytes → Option (σ × Bytes)
  | 0, _, _ => none
  | fuel + 1, cur, input =>
    match input with
    | [] => none
    | q :: rest =>
      if q = 34 then
        match scanStringBody 0 rest with
        | none => none
        | some (rawKey, r) =>
          match unquoteLoop 0 rawKey with
          | none => none
          | some key =>
            match skipSpace r with
            | [] => none
            | c :: r2 =>
              if c = 58 then
                let v := skipSpace r2
                let res : Option (σ × Bytes) :=
                  match lookupField foldName fields key with
                  | some f => (f.decodeVal (f.get cur) v).map (fun p => (f.set cur p.1, p.2))
                  | none => (skipJson (2 * v.length + 2) .value depth v).map (fun r3 => (cur, r3))
                match res with
                | none => none
                | some (cur2, r3) =>
                  match skipSpace r3 with
                  | [] => none
                  | c2 :: r4 =>
                    if c2 = 44 then decodeMembers foldName fields depth fuel cur2 (skipSpace r4)
                    else if c2 = 125 then some (cur2, r4)
                    else none
              else none
      else none

/-- The decoder on a value for a struct: an object sets the fields its members
name, `null` leaves the struct as it is, any other value is an error. `depth`
counts the object itself. -/
def decodeObject {σ : Type} (foldName : Bytes → Bytes) (fields : List (FieldCodec σ))
    (depth : Nat) (cur : σ) (input : Bytes) : Option (σ × Bytes) :=
  match input with
  | [] => none
  | b :: rest =>
    if b = 123 then
      match skipSpace rest with
      | [] => none
      | c :: r =>
        if c = 125 then some (cur, r)
        else decodeMembers foldName fields depth (r.length + 1) cur (c :: r)
    else (dropLiteral "null" input).map (fun r => (cur, r))

/-- The function `json.Unmarshal` into a struct that holds `start`: the whole
input is one value with white space around it. -/
def jsonUnmarshal {σ : Type} (foldName : Bytes → Bytes) (fields : List (FieldCodec σ))
    (start : σ) (data : Bytes) : Option σ :=
  match decodeObject foldName fields 1 start (skipSpace data) with
  | none => none
  | some (v, r) => if skipSpace r = [] then some v else none

/-- The method `Decode` of a `json.Decoder` on a stream that begins with `data`,
into a struct that holds `start`: the first value of the stream is decoded, what
follows it stays in the stream. -/
def jsonDecode {σ : Type} (foldName : Bytes → Bytes) (fields : List (FieldCodec σ))
    (start : σ) (data : Bytes) : Option σ :=
  (decodeObject foldName fields 1 start (skipSpace data)).map (fun p => p.1)

/-- The method `Encode` of a `json.Encoder` on a struct: the encoding and a
newline. -/
def jsonEncode {σ : Type} (fields : List (FieldCodec σ)) (v : σ) : Bytes :=
  encodeObject fields v ++ [10]

/-- A field of type `string`. -/
def stringField {σ : Type} (name : String) (omitempty : Bool) (get : σ → Bytes)
    (set : σ → Bytes → σ) : FieldCodec σ :=
  { name := name, omitempty := omitempty, α := Bytes, get := get, set := set,
    isEmpty := fun s => decide (s.length = 0),
    encodeVal := jsonAppendString, decodeVal := decodeString }

/-- A field of type `bool`. -/
def boolField {σ : Type} (name : String) (omitempty : Bool) (get : σ → Bool)
    (set : σ → Bool → σ) : FieldCodec σ :=
  { name := name, omitempty := omitempty, α := Bool, get := get, set := set,
    isEmpty := fun b => !b,
    encodeVal := encodeBool, decodeVal := decodeBool }

/-- A field of type `[]string`. -/
def stringsField {σ : Type} (name : String) (omitempty : Bool) (get : σ → List Bytes)
    (set : σ → List Bytes → σ) : FieldCodec σ :=
  { name := name, omitempty := omitempty, α := List Bytes, get := get, set := set,
    isEmpty := fun xs => decide (xs.length = 0),
    encodeVal := encodeStrings, decodeVal := decodeStrings }

/-- A field of type pointer to a struct with the fields `sub`, whose zero value
is `zero`: nil is written as `null`; an object is decoded into the struct the
pointer has, or into a new one when it is nil, and `null` makes the pointer
nil. -/
def structPtrField {σ τ : Type} (foldName : Bytes → Bytes) (name : String) (omitempty : Bool)
    (sub : List (FieldCodec τ)) (zero : τ) (get : σ → Option τ) (set : σ → Option τ → σ) :
    FieldCodec σ :=
  { name := name, omitempty := omitempty, α := Option τ, get := get, set := set,
    isEmpty := fun p => p.isNone,
    encodeVal := fun p =>
      match p with
      | none => goString "null"
      | some v => encodeObject sub v,
    decodeVal := fun cur input =>
      match input with
      | [] => none
      | b :: _ =>
        if b = 110 then (dropLiteral "null" input).map (fun r => (none, r))
        else (decodeObject foldName sub 2 (cur.getD zero) input).map (fun p => (some p.1, p.2)) }

/-! ## namespace.go: the init descriptor on the config pipe -/

/-- The struct `overlayInitConfig` with its strings as the bytes they are. -/
structure overlayInitConfigBytes where
  LowerDirs : List Bytes
  UpperDir : Bytes
  WorkDir : Bytes
  MergeDir : Bytes
  ReadOnly : Bool
deriving DecidableEq, Repr

/-- The struct `initConfig` with its strings as the bytes they are. -/
structure initConfigBytes where
  Hostname : Bytes
  MountProc : Bool
  SetupLoopback : Bool
  Overlay : Option overlayInitConfigBytes
  Command : Bytes
  Args : List Bytes
  Env : List Bytes
  WorkDir : Bytes
deriving DecidableEq, Repr

/-- The fields of `overlayInitConfig` with their tags. -/
def overlayInitConfigFields : List (FieldCodec overlayInitConfigBytes) :=
  [ stringsField "lower_dirs" false (fun c => c.LowerDirs) (fun c x => { c with LowerDirs := x }),
    stringField "upper_dir" false (fun c => c.UpperDir) (fun c x => { c with UpperDir := x }),
    stringField "work_dir" false (fun c => c.WorkDir) (fun c x => { c with WorkDir := x }),
    stringField "merge_dir" false (fun c => c.MergeDir) (fun c x => { c with MergeDir := x }),
    boolField "read_only" true (fun c => c.ReadOnly) (fun c x => { c with ReadOnly := x }) ]

/-- The fields of `initConfig` with their tags. -/
def initConfigFields (foldName : Bytes → Bytes) : List (FieldCodec initConfigBytes) :=
  [ stringField "hostname" true (fun c => c.Hostname) (fun c x => { c with Hostname := x }),
    boolField "mount_proc" true (fun c => c.MountProc) (fun c x => { c with MountProc := x }),
    boolField "setup_loopback" true (fun c => c.SetupLoopback)
      (fun c x => { c with SetupLoopback := x }),
    structPtrField foldName "overlay" true overlayInitConfigFields ⟨[], [], [], [], false⟩
      (fun c => c.Overlay) (fun c x => { c with Overlay := x }),
    stringField "command" false (fun c => c.Command) (fun c x => { c with Command := x }),
    stringsField "args" true (fun c => c.Args) (fun c x => { c with Args := x }),
    stringsField "env" true (fun c => c.Env) (fun c x => { c with Env := x }),
    stringField "work_dir" true (fun c => c.WorkDir) (fun c x => { c with WorkDir := x }) ]

/-- The bytes of the descriptor as a Go value holds them. -/
def overlayInitConfig.toBytes (c : overlayInitConfig) : overlayInitConfigBytes :=
  { LowerDirs := c.LowerDirs.map goString, UpperDir := goString c.UpperDir,
    WorkDir := goString c.WorkDir, MergeDir := goString c.MergeDir, ReadOnly := c.ReadOnly }

/-- The bytes of the descriptor as a Go value holds them. -/
def initConfig.toBytes (c : initConfig) : initConfigBytes :=
  { Hostname := goString c.Hostname, MountProc := c.MountProc,
    SetupLoopback := c.SetupLoopback, Overlay := c.Overlay.map overlayInitConfig.toBytes,
    Command := goString c.Command, Args := c.Args.map goString, Env := c.Env.map goString,
    WorkDir := goString c.WorkDir }

/-- What `Start` writes to the config pipe for the descriptor `cfg`:
`json.NewEncoder(pipeW).Encode(&cfg)`. -/
def encodeInitConfig (foldName : Bytes → Bytes) (cfg : initConfigBytes) : Bytes :=
  jsonEncode (initConfigFields foldName) cfg

/-- What `nsInit` reads from the config pipe: `json.NewDecoder(pipeFile).Decode(&cfg)`
into a zero `initConfig`; `none` is the error `decode config`. -/
def decodeInitConfig (foldName : Bytes → Bytes) (pipe : Bytes) : Option initConfigBytes :=
  jsonDecode foldName (initConfigFields foldName) ⟨[], false, false, none, [], [], [], []⟩ pipe

/-! ## Library functions: bufio

The reader hands over the bytes of the stream and then reports its end by a
read of its own, as a pipe, a file and a buffer do. -/

/-- The constant `bufio.MaxScanTokenSize`, the size to which the buffer of a
`Scanner` grows. -/
def maxScanTokenSize : Nat := 64 * 1024

/-- The function `dropCR` of scan.go. -/
def dropCR (data : Bytes) : Bytes :=
  if data.getLast? = some 13 then data.dropLast else data

/-- The tokens that the calls of `Scan` deliver on a `Scanner` with `ScanLines`
and the default buffer, until `Scan` returns false. `cur` is the line that has
been read so far; a line whose first `maxScanTokenSize` bytes hold no newline
fills the buffer and makes `Scan` return false with `ErrTooLong`. -/
def scanLoop : Bytes → Bytes → List Bytes
  | cur, [] => if cur.length = 0 then [] else [dropCR cur]
  | cur, b :: rest =>
    if b = 10 then dropCR cur :: scanLoop [] rest
    else if cur.length + 1 ≥ maxScanTokenSize then []
    else scanLoop (cur ++ [b]) rest

/-! ## logger.go: the log pipe -/

/-- The struct `initLogEntry` of logger.go. -/
structure initLogEntry where
  Level : Bytes
  Message : Bytes
deriving DecidableEq, Repr

/-- The fields of `initLogEntry` with their tags. -/
def initLogEntryFields : List (FieldCodec initLogEntry) :=
  [ stringField "level" false (fun e => e.Level) (fun e x => { e with Level := x }),
    stringField "msg" false (fun e => e.Message) (fun e x => { e with Message := x }) ]

/-- The levels of the zap logger that `readLogPipe` uses. -/
inductive LogLevel where
  | debug
  | info
  | warn
  | error
deriving DecidableEq, Repr

/-- A call on the zap logger: the level, the message and the fields. -/
structure LogRecord where
  level : LogLevel
  msg : Bytes
  fields : List (Bytes × Bytes)
deriving DecidableEq, Repr

/-- The field `source=init` of the logger that `readLogPipe` derives. -/
def sourceInit : Bytes × Bytes := (goString "source", goString "init")

/-- The body of the loop of `readLogPipe` on one line. -/
def logLine (foldName : Bytes → Bytes) (line : Bytes) : List LogRecord :=
  if line.length = 0 then []
  else
    match jsonUnmarshal foldName initLogEntryFields ⟨[], []⟩ line with
    | none =>
      [⟨LogLevel.warn, goString "unparseable init log", [sourceInit, (goString "raw", line)]⟩]
    | some entry =>
      if entry.Level = goString "debug" then [⟨LogLevel.debug, entry.Message, [sourceInit]⟩]
      else if entry.Level = goString "info" then [⟨LogLevel.info, entry.Message, [sourceInit]⟩]
      else if entry.Level = goString "warn" then [⟨LogLevel.warn, entry.Message, [sourceInit]⟩]
      else if entry.Level = goString "error" then [⟨LogLevel.error, entry.Message, [sourceInit]⟩]
      else [⟨LogLevel.info, entry.Message, [sourceInit]⟩]

/-- The loop of `readLogPipe` over the lines that the scanner delivers. -/
def readLogLoop (foldName : Bytes → Bytes) : List Bytes → List LogRecord
  | [] => []
  | line :: rest => logLine foldName line ++ readLogLoop foldName rest

/-- The function `readLogPipe` of logger.go on the stream `r`: the calls it makes
on the logger, in order. -/
def readLogPipe (foldName : Bytes → Bytes) (r : Bytes) : List LogRecord :=
  readLogLoop foldName (scanLoop [] r)

/-- The function `writeInitLog` of logger.go: the bytes it writes to `w`. -/
def writeInitLogBytes (level msg : Bytes) : Bytes :=
  jsonEncode initLogEntryFields ⟨level, msg⟩

/-! ## Notions used in the statements and proofs -/

/-- A run of equality tests that all jump to the same instruction, `dist`
instructions past the end of the run. -/
def IsLadder (dist : Nat) : List SockFilter → Prop
  | [] => True
  | ins :: rest =>
    ins.Code = 21 ∧ ins.Jf = 0 ∧ ins.Jt = rest.length + dist ∧ IsLadder dist rest

/-- Section A of the built program. -/
def sectionA : List SockFilter :=
  [ bpfStmt (bpfLD ||| bpfW ||| bpfABS) seccompDataArchOffset,
    bpfJump (bpfJMP ||| bpfJEQ ||| bpfK) auditArchX86_64 1 0,
    bpfStmt bpfRET seccompRetKillProcess,
    bpfStmt (bpfLD ||| bpfW ||| bpfABS) seccompDataNROffset ]

/-- The action of the built program in terms of the 32-bit constants it holds. -/
def wordAction (blockedNRs blockedFamilies : List Int) (logDenied : Bool)
    (d : SeccompData) : Nat :=
  let deny := if logDenied then seccompRetLog else seccompRetKillProcess
  if d.arch ≠ auditArchX86_64 then seccompRetKillProcess
  else if blockedFamilies ≠ [] ∧ d.nr = uint32 SYS_SOCKET then
    if d.args 0 % 4294967296 ∈ blockedFamilies.map uint32 then deny else seccompRetAllow
  else if d.nr ∈ blockedNRs.map uint32 then deny
  else seccompRetAllow

/-- The `seccomp_data` of a call of syscall `nr` on x86-64 whose first argument
is `arg0`, with any instruction pointer and any other arguments. -/
def callData (nr arg0 ip : Nat) (args : Fin 6 → Nat) : SeccompData :=
  { nr := nr, arch := auditArchX86_64, instruction_pointer := ip,
    args := fun i => if i = 0 then arg0 else args i }

/-- Whether the name is missing from `syscallMap`. -/
def unknownName (name : String) : Bool :=
  (syscallMap name).isNone

/-- The first name of the list that is not a key of `syscallMap`. -/
def firstUnknown (names : List String) : Option String :=
  names.find? unknownName

/-- A name all of whose characters are printable ASCII other than the double
quote and the backslash: `%q` leaves such a name as it is. -/
def plainName (name : String) : Prop :=
  ∀ c ∈ name.data, 0x20 ≤ c.toNat ∧ c.toNat ≤ 0x7E ∧ c.toNat ≠ 34 ∧ c.toNat ≠ 92

/-- The name `a"b`. -/
def quotedName : String := String.mk ['a', Char.ofNat 34, 'b']

/-- The events of `Start` that the ordering of the handshake is about: the spawn
of the child, its addition to the cgroup and the write of the init descriptor. -/
def NsEvent.isHandshake : NsEvent → Bool
  | .cmdStart _ _ => true
  | .addProcess _ => true
  | .encode _ => true
  | _ => false

/-- A cgroup manager whose `AddProcess` fails. -/
def failingCgroup : CgroupsV2Ref Unit :=
  { AddProcess := fun _ w => (some "write cgroup.procs: permission denied", w),
    Cleanup := fun w => (none, w) }

/-- A fresh orchestrator with `failingCgroup` attached. -/
def nsWithFailingCgroup : Namespace Unit :=
  { (NewNamespace ⟨true, true, true, true, true, "sandbox", true, true⟩ : Namespace Unit) with
    cgroupsV2 := some failingCgroup }

/-- Whether the event is the call of a registered cleanup. -/
def NsEvent.isCleanup : NsEvent → Bool
  | .cleanup _ => true
  | _ => false

/-- The outside state after calling the functions of `fs` one after the other,
each exactly once, whatever they return. -/
def callAll {W : Type} (fs : List (CleanupFn W)) (w : W) : W :=
  fs.foldl (fun w f => (f w).2) w

/-- A stretch of the trace in which every failed non-fatal step is followed by
its warn-level record, there are as many records as such failures, and every
record is at warn level. -/
def Logged (l : List InitEvent) : Prop :=
  failuresLogged l
  ∧ (l.filter InitEvent.isLog).length = (l.filter InitEvent.isNonFatalFailure).length
  ∧ ∀ ev ∈ l, ev.isLog = true → ev.isWarnLog = true

/-- A stretch of the trace without `syscall.Exec` and without `applySeccomp`. -/
def Quiet (l : List InitEvent) : Prop :=
  l.any InitEvent.isExec = false ∧ l.any InitEvent.isApplySeccomp = false

/-- The conditions under which steps 7 to 10 reach `syscall.Exec`. -/
def execConditions (env : InitEnv) (cfg : initConfig) : Prop :=
  (cfg.WorkDir ≠ "" → env.chdir = none) ∧ cfg.Command ≠ "" ∧ ∃ binary, env.lookPath = .ok binary

/-- The environment `env` with other outcomes for the four non-fatal steps. -/
def InitEnv.withNonFatal (env : InitEnv) (mp mproc sh : GoError)
    (lo : Option (String × String)) : InitEnv :=
  { env with mountPrivate := mp, mountProcFs := mproc, sethostname := sh, ipLink := lo }

/-- The descriptor that `mountTestEnv` decodes. -/
def mountTestConfig : initConfig :=
  { Hostname := "sandbox", MountProc := true, SetupLoopback := true, Overlay := none,
    Command := "sh", Args := ["-c", "exec mount -t tmpfs none /tmp"], Env := [], WorkDir := "" }

/-- A run of `nsInit` for the descriptor that `Start` sends with the default
namespace configuration and the command `sh -c 'exec mount -t tmpfs none /tmp'`:
the config pipe is fd 3, every step succeeds and `sh` is found. -/
def mountTestEnv : InitEnv :=
  { isPrintTable := fun _ => true,
    atoi := fun s => if s = "3" then .ok 3 else .error "invalid syntax",
    getenvInitPipe := "3",
    getenvLogPipe := "",
    decode := .ok mountTestConfig,
    mountPrivate := none,
    mkdirAll := none,
    mountOverlayFs := none,
    mountProcFs := none,
    sethostname := none,
    ipLink := none,
    chdir := none,
    environ := ["PATH=/usr/bin:/bin", "_SANDBOX_INIT_PIPE=3"],
    lookPath := .ok "/usr/bin/sh",
    exec := none }

/-- The run of `mountTestEnv` with all four non-fatal steps failing. -/
def mountTestEnvWarn : InitEnv :=
  mountTestEnv.withNonFatal (some "invalid argument") (some "device or resource busy")
    (some "operation not permitted") (some ("Cannot find device lo", "exit status 1"))

/-- The three callbacks of the test `TestCleanupHooks`: the `i`-th appends `i` to
the slice `order`, the outside state here. -/
def orderHooks : List (CleanupFn (List Nat)) :=
  [fun order => (none, order ++ [1]), fun order => (none, order ++ [2]),
    fun order => (none, order ++ [3])]

/-- An overlay manager whose `Cleanup` records its call in the outside state. -/
def recordingOverlay : OverlayFSRef (List String) :=
  { InitConfig := fun w => (none, w), Cleanup := fun w => (none, w ++ ["overlay cleanup"]) }

/-- A cgroup manager whose `Cleanup` records its call in the outside state and
returns an error. -/
def recordingCgroup : CgroupsV2Ref (List String) :=
  { AddProcess := fun _ w => (none, w),
    Cleanup := fun w => (some "cgroups: rmdir: device or resource busy", w ++ ["cgroup cleanup"]) }

/-- A fresh orchestrator with `recordingOverlay` and `recordingCgroup` attached. -/
def nsWithManagers : Namespace (List String) :=
  { (NewNamespace ⟨true, true, true, true, true, "sandbox", true, true⟩
      : Namespace (List String)) with
    overlayFS := some recordingOverlay, cgroupsV2 := some recordingCgroup }

/-- A fresh orchestrator with the minimal configuration and nothing attached. -/
def minimalNs : Namespace Unit :=
  NewNamespace ⟨true, false, true, false, false, "", true, false⟩

/-- Outcomes of `Start` in which every call succeeds and the child gets `pid`. -/
def startOk (pid : Int) : StartEnv :=
  { pipe := none, logPipe := none, cmdStart := .ok pid, encode := none }

/-- Outcomes of `Setup` of the cgroup manager in which every call succeeds and
`generateID()` returns `id`. -/
def okSetupEnv (id : String) : CgSetupEnv :=
  ⟨none, none, id, none, none, none, none, none⟩

/-- The controllers to enable, in the words of the specification: those whose
limit is strictly positive, `cpu` for CPUQuota, `memory` for MemoryMax, `pids`
for PidsMax. -/
def specControllers (cfg : CgroupsConfig) : List String :=
  (if cfg.CPUQuota > 0 then ["cpu"] else [])
  ++ (if cfg.MemoryMax > 0 then ["memory"] else [])
  ++ (if cfg.PidsMax > 0 then ["pids"] else [])

/-- The limit files and their content, in the words of the specification:
`cpu.max` holds quota and period (100000 when no period is given) iff there is a
CPU quota, `memory.max` and `pids.max` hold the limit in decimal iff it is
positive. -/
def specLimitFiles (cfg : CgroupsConfig) : List (String × String) :=
  (if cfg.CPUQuota > 0 then
      [("cpu.max", toString cfg.CPUQuota ++ " "
          ++ toString (if cfg.CPUPeriod > 0 then cfg.CPUPeriod else 100000))]
    else [])
  ++ (if cfg.MemoryMax > 0 then [("memory.max", toString cfg.MemoryMax)] else [])
  ++ (if cfg.PidsMax > 0 then [("pids.max", toString cfg.PidsMax)] else [])

/-- The base directory of the cgroup manager: `/sys/fs/cgroup` unless the
configuration names one. -/
def cgroupBase (cfg : CgroupsConfig) : String :=
  if cfg.BaseDir = "" then "/sys/fs/cgroup" else cfg.BaseDir

/-- The events of a successful `Setup`, in the words of the specification: the
availability check, the enabling of the required controllers (nothing is
written when there is none), the mkdir of the cgroup directory and the writes
of the limit files. -/
def specSetupEvents (cfg : CgroupsConfig) (id : String) : List FsEvent :=
  [FsEvent.stat (filepathJoin (cgroupBase cfg) "cgroup.controllers")]
  ++ (if specControllers cfg = [] then []
      else [FsEvent.writeFile (filepathJoin (cgroupBase cfg) "cgroup.subtree_control")
              (" ".intercalate ((specControllers cfg).map (fun c => "+" ++ c)))])
  ++ [FsEvent.mkdir (filepathJoin (cgroupBase cfg) ("sandbox-" ++ id))]
  ++ (specLimitFiles cfg).map (fun f =>
        FsEvent.writeFile (filepathJoin (filepathJoin (cgroupBase cfg) ("sandbox-" ++ id)) f.1) f.2)

/-- Whether every rmdir the call may attempt on the cgroup directory gets it
removed: the rmdir of the rollback of `Setup`, and the first or the second
attempt of `Cleanup`. -/
def CgCall.removesSucceed : CgCall → Bool
  | .setup env => env.rollback.isNone
  | .addProcess _ _ => true
  | .cleanup env => env.remove1.isNone || env.remove2.isNone

/-- Outcomes of `Cleanup` of the cgroup manager in which `cgroup.procs` is empty
and both attempts of rmdir fail with `msg`. -/
def busyCleanupEnv (msg : String) : CgCleanupEnv :=
  { trimSpace := fun s => s, atoi := fun _ => .error "invalid syntax", readFile := .ok "",
    remove1 := some msg, remove2 := some msg }

/-- Outcomes of `Cleanup` of the cgroup manager in which `cgroup.procs` is empty
and the first rmdir fails with `msg` but the second succeeds. -/
def retryCleanupEnv (msg : String) : CgCleanupEnv :=
  { trimSpace := fun s => s, atoi := fun _ => .error "invalid syntax", readFile := .ok "",
    remove1 := some msg, remove2 := none }

/-- Outcomes of `Setup` of the overlay manager in which every call succeeds and
`generateID()` returns `id`. -/
def okOvSetupEnv (id : String) : OvSetupEnv :=
  { isPrintTable := fun _ => true, stat := fun _ => none, id := id, mkdirBase := none,
    mountTmpfs := none, mkdirSub := fun _ => none }

/-- Whether the cleaned path `p` lies inside the directory with cleaned path
`dir`: `p` is `dir`, a separator and at least one more character. -/
def pathInside (dir p : String) : Bool :=
  let d := if dir = "/" then dir.data else dir.data ++ ['/']
  d.isPrefixOf p.data && decide (d.length < p.data.length)

/-- The parent of the base directory of the overlay manager: `/tmp` unless the
configuration names one. -/
def overlayParent (cfg : OverlayConfig) : String :=
  if cfg.BaseDir = "" then "/tmp" else cfg.BaseDir

/-- The size of the tmpfs of the overlay manager: `64m` unless the configuration
names one. -/
def overlayTmpfsSize (cfg : OverlayConfig) : String :=
  if cfg.TmpfsSize = "" then "64m" else cfg.TmpfsSize

/-- An overlay configuration that names its own merge directory. -/
def customMergeConfig : OverlayConfig :=
  { Enabled := true, LowerDirs := ["/"], MergeDir := "/mnt/merged", TmpfsSize := "64m",
    BaseDir := "/tmp", ReadOnly := false }

/-- The cleanups that a successful `Start` registers: the overlay manager's first,
the cgroup manager's second. -/
def autoCleanups {W : Type} (ns : Namespace W) : List (CleanupFn W) :=
  (match ns.overlayFS with
    | some ov => [ov.Cleanup]
    | none => [])
  ++ (match ns.cgroupsV2 with
    | some cg => [cg.Cleanup]
    | none => [])

/-- A path element that `filepath.Clean` keeps: not empty, not `.`, without a
separator. -/
def GoodSeg (seg : List Char) : Prop :=
  seg ≠ [] ∧ seg ≠ ['.'] ∧ '/' ∉ seg

/-- The stacks of path elements that `filepath.Clean` can hold (last element
first): kept elements only, and `..` only at the start of a relative path. -/
def StackOK (rooted : Bool) : List (List Char) → Prop
  | [] => True
  | top :: rest =>
    GoodSeg top ∧ StackOK rooted rest
      ∧ (top = ['.', '.'] → rooted = false ∧ ∀ x ∈ rest, x = ['.', '.'])

/-- The path elements joined by the separator. -/
def joinSegs : List (List Char) → List Char
  | [] => []
  | [e] => e
  | e :: rest => e ++ '/' :: joinSegs rest

/-- Whether the event is a mount. -/
def FsEvent.isMount : FsEvent → Bool
  | .mount _ _ _ _ => true
  | _ => false

/-- The directories joined with `:` in their given order, in the words of the
specification. -/
def joinWithColon : List String → String
  | [] => ""
  | [d] => d
  | d :: rest => d ++ ":" ++ joinWithColon rest

/-- The options string in the words of the specification: `lowerdir=` and the
joined lower dirs, followed, exactly when `ReadOnly` is false, by the upper and
the work directory. -/
def specOverlayOptions (cfg : overlayInitConfig) : String :=
  "lowerdir=" ++ joinWithColon cfg.LowerDirs
    ++ (if cfg.ReadOnly = false then ",upperdir=" ++ cfg.UpperDir ++ ",workdir=" ++ cfg.WorkDir
        else "")

/-- The clone flags in the words of the specification: the bit-OR of the set of
flags selected by the five namespace switches. -/
def specCloneFlags (pid ipc mount network uts : Bool) : Nat :=
  (([(pid, CLONE_NEWPID), (ipc, CLONE_NEWIPC), (mount, CLONE_NEWNS), (network, CLONE_NEWNET),
      (uts, CLONE_NEWUTS)].filter (fun p => p.1)).map (fun p => p.2)).foldl (fun a b => a ||| b) 0

/-- Whether an environment entry begins with the name of one of the two internal
variables and `=`, in the words of the specification. -/
def isInternalEntry (e : String) : Prop :=
  "_SANDBOX_INIT_PIPE=".data <+: e.data ∨ "_SANDBOX_LOG_PIPE=".data <+: e.data

/-- The internal entries can be told apart. -/
instance isInternalEntry_decidable (e : String) : Decidable (isInternalEntry e) := by
  unfold isInternalEntry
  exact inferInstance

/-- The base list of `buildCleanEnv` in the words of the specification: the user
list when it is non-empty, the process environment otherwise. -/
def specBaseEnv (environ userEnv : List String) : List String :=
  if userEnv ≠ [] then userEnv else environ

/-- The instruction of section B of the built program: the redirect of `socket`
to section E, which lies past the `len(B)` tests of section C and the return of
section D. -/
def socketRedirect (blockedNRs : List Int) : SockFilter :=
  bpfJump (bpfJMP ||| bpfJEQ ||| bpfK) (uint32 SYS_SOCKET) (uint8 ((blockedNRs.length : Int) + 1)) 0

/-- The first instruction of section E of the built program: the load of the low
word of `seccomp_data.args[0]`. -/
def loadArgs0 : SockFilter :=
  bpfStmt (bpfLD ||| bpfW ||| bpfABS) seccompDataArgs0Offset

/-- The deny action of the built program. -/
def denyRet (logDenied : Bool) : SockFilter :=
  bpfStmt bpfRET (if logDenied then seccompRetLog else seccompRetKillProcess)

/-- A list of 256 distinct socket families: AF_NETLINK and the numbers 1000 to
1254. -/
def manyFamilies : List Int :=
  AF_NETLINK :: (List.range 255).map (fun i => (1000 : Int) + (i : Int))

/-- Well-formedness of an instruction at index `p` of a program of `n`
instructions: a word load at one of the three offsets the builder uses that is
not the last instruction, a conditional jump whose two targets lie strictly
below `n`, or a return. -/
def InsOK (n p : Nat) (ins : SockFilter) : Prop :=
  (ins.Code = 32 ∧ (ins.K = 0 ∨ ins.K = 4 ∨ ins.K = 16) ∧ p + 1 < n)
  ∨ (ins.Code = 21 ∧ p + 1 + ins.Jt < n ∧ p + 1 + ins.Jf < n)
  ∨ ins.Code = 6

/-- Well-formedness of a program: it is not empty, every instruction is
well formed at its index, and the last instruction is a return. -/
def WellFormed (prog : List SockFilter) : Prop :=
  prog ≠ []
  ∧ (∀ (p : Nat) (ins : SockFilter), prog[p]? = some ins → InsOK prog.length p ins)
  ∧ (∃ k, prog[prog.length - 1]? = some (bpfStmt bpfRET k))

/-- A configuration with the PID namespace off and the remount of `/proc` on. -/
def procWithoutPidConfig : NamespaceConfig :=
  { PID := false, IPC := true, Mount := true, Network := true, UTS := true,
    Hostname := "sandbox", MountProc := true, SetupLoopback := true }

/-- Whether the event is the write of an init descriptor. -/
def NsEvent.isEncode : NsEvent → Bool
  | .encode _ => true
  | _ => false

/-- Outcomes of `Cleanup` of the cgroup manager in which `cgroup.procs` is empty
and the first rmdir succeeds. -/
def okCleanupEnv : CgCleanupEnv :=
  { trimSpace := fun s => s, atoi := fun _ => .error "invalid syntax", readFile := .ok "",
    remove1 := none, remove2 := none }

/-- Outcomes of one run of `run` in which every call succeeds: the ids are `1-ab`
for the overlay and `2-cd` for the cgroup, the child gets pid 7 and exits with
status 0, and `512` is the one number `strconv.ParseInt` is asked for. -/
def okRunEnv : RunEnv :=
  { newLogger := none, trimSpace := fun s => s,
    parseInt := fun s => if s = "512" then .ok 512 else .error "invalid syntax",
    ovSetup := okOvSetupEnv "1-ab", ovUnmount := none, ovRemoveAll := none,
    cgSetup := okSetupEnv "2-cd", cgAdd := none, cgCleanup := okCleanupEnv,
    start := startOk 7, waited := .success, kill := none }

/-- The flags of `ai-sandbox --no-pid sh`. -/
def noPidFlags : Flags :=
  { defaultFlags ["sh"] with noPID := true }

/-- The flags of `ai-sandbox --overlay sh`. -/
def overlayFlags : Flags :=
  { defaultFlags ["sh"] with overlay := true }

/-- The run of `okRunEnv` on a host without cgroups v2: the stat of
`cgroup.controllers` fails. -/
def noCgroupHostEnv : RunEnv :=
  { okRunEnv with
    cgSetup := ⟨some "no such file or directory", none, "2-cd", none, none, none, none, none⟩ }

/-- The run of `okRunEnv` in which `cmd.Start()` fails. -/
def startFailsEnv : RunEnv :=
  { okRunEnv with
    start := { pipe := none, logPipe := none, cmdStart := .error "operation not permitted",
               encode := none } }

/-- Whether `n` is a Unicode scalar value. -/
def validRune (n : Nat) : Prop := n < 0xD800 ∨ (0xDFFF < n ∧ n < 0x110000)

/-- What the encoder writes for the rune `n` of a string that is valid UTF-8. -/
def escapeRune (n : Nat) : Bytes :=
  if n < 0x80 then escapeByte n
  else if n = 0x2028 ∨ n = 0x2029 then [92, 117, 50, 48, 50, hexDigit (n % 16)]
  else utf8EncodeRune n

/-- The content of the string literal that the encoder writes for the text `cs`. -/
def escapeChars (cs : List Char) : Bytes := cs.flatMap (fun c => escapeRune c.val.toNat)

/-- The member that the encoder writes for the field `f` of `v`. -/
def renderMember {σ : Type} (v : σ) (f : FieldCodec σ) : Bytes :=
  jsonAppendString (goString f.name) ++ 58 :: f.encodeVal (f.get v)

/-- The fields of `v` that the encoder writes. -/
def presentFields {σ : Type} (fields : List (FieldCodec σ)) (v : σ) : List (FieldCodec σ) :=
  fields.filter (fun f => !(f.omitempty && f.isEmpty (f.get v)))

/-- The encoding of the field `f` of `v` is read back by the decoder of the
field when the field holds `a0`, whatever follows the encoding, and it starts
with no white space. -/
def FieldOK {σ : Type} (v : σ) (f : FieldCodec σ) (a0 : f.α) : Prop :=
  ∀ rest : Bytes,
    f.decodeVal a0 (f.encodeVal (f.get v) ++ rest) = some (f.get v, rest)
    ∧ skipSpace (f.encodeVal (f.get v) ++ rest) = f.encodeVal (f.get v) ++ rest

/-- The function `foldName` on names of ASCII letters: the letters in upper
case. -/
def foldASCII (name : Bytes) : Bytes :=
  name.map (fun b => if 97 ≤ b ∧ b ≤ 122 then b - 32 else b)

/-- The name of a level as `writeInitLog` is given it. -/
def levelName : LogLevel → String
  | .debug => "debug"
  | .info => "info"
  | .warn => "warn"
  | .error => "error"

/-- The call on the logger for a line that is not a log entry. -/
def unparseableRecord (line : Bytes) : LogRecord :=
  ⟨LogLevel.warn, goString "unparseable init log", [sourceInit, (goString "raw", line)]⟩

/-- The line that `writeInitLog` writes for a level and a message that are valid
UTF-8, without its newline. -/
def logEntryLine (level msg : String) : Bytes :=
  goString "\x7b\"level\":\"" ++ escapeChars level.data ++ goString "\",\"msg\":\""
    ++ escapeChars msg.data ++ goString "\"\x7d"

/-- The orchestrator after further calls of `Wait`, one for each entry of the
list, with what `cmd.Wait()` would return and the outside state of each call. -/
def waitsAgain {W : Type} (ns : Namespace W) : List (CmdWaitResult × W) → Namespace W
  | [] => ns
  | c :: rest => waitsAgain (ns.Wait c.1 c.2).ns rest

/-! ## Properties of the filter machine -/

theorem ldCode_eq : (bpfLD ||| bpfW ||| bpfABS) = 32 := by decide

theorem jeqCode_eq : (bpfJMP ||| bpfJEQ ||| bpfK) = 21 := by decide

theorem retCode_eq : (bpfRET ||| bpfK) = 6 := by decide

theorem get_append_offset {α : Type} (pre post : List α) (k : Nat) :
    (pre ++ post)[pre.length + k]? = post[k]? := by
  rw [List.getElem?_append_right (by omega)]
  congr 1
  omega

theorem get_append_length {α : Type} (pre post : List α) :
    (pre ++ post)[pre.length]? = post[0]? := by
  have h := get_append_offset pre post 0
  simpa using h

/-- More fuel does not change a result already reached. -/
theorem runFrom_mono (prog : List SockFilter) (d : SeccompData) :
    ∀ (fuel fuel2 pc acc r : Nat), runFrom prog d fuel pc acc = some r → fuel ≤ fuel2 →
      runFrom prog d fuel2 pc acc = some r := by
  intro fuel
  induction fuel with
  | zero => intro fuel2 pc acc r h; simp [runFrom] at h
  | succ n ih =>
    intro fuel2 pc acc r h hle
    obtain ⟨m, rfl⟩ : ∃ m, fuel2 = m + 1 := ⟨fuel2 - 1, by omega⟩
    have hnm : n ≤ m := by omega
    unfold runFrom at h ⊢
    cases hg : prog[pc]? with
    | none => simp [hg] at h
    | some ins =>
      simp only [hg] at h ⊢
      by_cases h1 : ins.Code = (bpfLD ||| bpfW ||| bpfABS)
      · simp only [h1, if_true] at h ⊢
        cases hw : loadWord d ins.K with
        | none => simp [hw] at h
        | some w =>
          simp only [hw] at h ⊢
          exact ih m (pc + 1) w r h hnm
      · simp only [h1, if_false] at h ⊢
        by_cases h2 : ins.Code = (bpfJMP ||| bpfJEQ ||| bpfK)
        · simp only [h2, if_true] at h ⊢
          exact ih m _ acc r h hnm
        · simp only [h2, if_false] at h ⊢
          exact h

theorem runFrom_ret (prog : List SockFilter) (d : SeccompData) (fuel pc acc k : Nat)
    (hg : prog[pc]? = some (bpfStmt bpfRET k)) :
    runFrom prog d (fuel + 1) pc acc = some k := by
  unfold runFrom
  simp [hg, bpfStmt, bpfLD, bpfW, bpfABS, bpfJMP, bpfJEQ, bpfRET, bpfK]

theorem runFrom_ld (prog : List SockFilter) (d : SeccompData) (fuel pc acc k w : Nat)
    (hg : prog[pc]? = some (bpfStmt (bpfLD ||| bpfW ||| bpfABS) k))
    (hw : loadWord d k = some w) :
    runFrom prog d (fuel + 1) pc acc = runFrom prog d fuel (pc + 1) w := by
  rw [runFrom]
  simp [hg, bpfStmt, hw]

theorem runFrom_jeq (prog : List SockFilter) (d : SeccompData) (fuel pc acc : Nat)
    (ins : SockFilter) (hg : prog[pc]? = some ins) (hc : ins.Code = 21) :
    runFrom prog d (fuel + 1) pc acc
      = runFrom prog d fuel (pc + 1 + (if acc = ins.K then ins.Jt else ins.Jf)) acc := by
  rw [runFrom]
  simp [hg, hc, ldCode_eq, jeqCode_eq]

/-- Running a ladder: the jump target's value if the accumulator equals one of
the tested constants, the value of the return after the ladder otherwise. -/
theorem run_ladder (d : SeccompData) (X Y acc : Nat) (mid post : List SockFilter) :
    ∀ (lad pre : List SockFilter) (fuel : Nat),
      IsLadder (1 + mid.length) lad → lad.length + 1 ≤ fuel →
      runFrom (pre ++ (lad ++ (bpfStmt bpfRET X :: (mid ++ (bpfStmt bpfRET Y :: post)))))
          d fuel pre.length acc
        = some (if acc ∈ lad.map SockFilter.K then Y else X) := by
  intro lad
  induction lad with
  | nil =>
    intro pre fuel _ hf
    obtain ⟨m, rfl⟩ : ∃ m, fuel = m + 1 := ⟨fuel - 1, by simp at hf; omega⟩
    rw [runFrom_ret _ _ _ _ _ X]
    · simp
    · rw [get_append_length]; simp
  | cons ins rest ih =>
    intro pre fuel hl hf
    obtain ⟨hc, hjf, hjt, hrest⟩ := hl
    obtain ⟨m, rfl⟩ : ∃ m, fuel = m + 1 := ⟨fuel - 1, by simp at hf; omega⟩
    have hm : rest.length + 1 ≤ m := by simp at hf; omega
    rw [runFrom_jeq _ _ _ _ _ ins _ hc]
    · by_cases heq : acc = ins.K
      · simp only [heq, if_true, List.map_cons, List.mem_cons, true_or]
        obtain ⟨m2, rfl⟩ : ∃ m2, m = m2 + 1 := ⟨m - 1, by omega⟩
        apply runFrom_ret
        have hpc : pre.length + 1 + ins.Jt
            = pre.length + ((ins :: rest).length + (1 + mid.length)) := by
          simp [hjt]; omega
        rw [hpc, get_append_offset, get_append_offset]
        have h3 : 1 + mid.length = (bpfStmt bpfRET X :: mid).length := by simp; omega
        rw [h3, ← List.cons_append, get_append_length]
        simp
      · simp only [heq, if_false, hjf, Nat.add_zero]
        have hprog : pre ++ (ins :: rest ++ (bpfStmt bpfRET X :: (mid ++ (bpfStmt bpfRET Y :: post))))
            = (pre ++ [ins]) ++ (rest ++ (bpfStmt bpfRET X :: (mid ++ (bpfStmt bpfRET Y :: post)))) := by
          simp
        have hlen : pre.length + 1 = (pre ++ [ins]).length := by simp
        rw [hprog, hlen, ih (pre ++ [ins]) m hrest hm]
        simp [heq]
    · rw [get_append_length]; simp

theorem uint8_of_small (n : Nat) (h : n < 256) : uint8 (n : Int) = n := by
  unfold uint8
  omega

theorem blockedLoop_length (killIdx sizeB : Int) :
    ∀ (ks : List Int) (i : Nat), (blockedLoop killIdx sizeB ks i).length = ks.length := by
  intro ks
  induction ks with
  | nil => intro i; simp [blockedLoop]
  | cons k ks ih => intro i; simp [blockedLoop, ih]

theorem blockedLoop_K (killIdx sizeB : Int) :
    ∀ (ks : List Int) (i : Nat),
      (blockedLoop killIdx sizeB ks i).map SockFilter.K = ks.map uint32 := by
  intro ks
  induction ks with
  | nil => intro i; simp [blockedLoop]
  | cons k ks ih => intro i; simp [blockedLoop, ih, bpfJump]

theorem blockedLoop_ladder (killIdx sizeB : Int) (dist : Nat) :
    ∀ (ks : List Int) (i : Nat),
      killIdx = 4 + sizeB + (i : Int) + (ks.length : Int) + (dist : Int) →
      ks.length + dist ≤ 256 →
      IsLadder dist (blockedLoop killIdx sizeB ks i) := by
  intro ks
  induction ks with
  | nil => intro i _ _; simp [blockedLoop, IsLadder]
  | cons k ks ih =>
    intro i hk hb
    simp only [blockedLoop, IsLadder, bpfJump, jeqCode_eq, blockedLoop_length, true_and]
    refine ⟨?_, ih (i + 1) ?_ ?_⟩
    · have : killIdx - (4 + sizeB + (i : Int)) - 1 = ((ks.length + dist : Nat) : Int) := by
        simp at hk ⊢; omega
      rw [this, uint8_of_small]
      simp at hb; omega
    · simp at hk ⊢; omega
    · simp at hb; omega

theorem familyLoop_length (numFamilies : Int) :
    ∀ (fs : List Int) (j : Nat), (familyLoop numFamilies fs j).length = fs.length := by
  intro fs
  induction fs with
  | nil => intro j; simp [familyLoop]
  | cons f fs ih => intro j; simp [familyLoop, ih]

theorem familyLoop_K (numFamilies : Int) :
    ∀ (fs : List Int) (j : Nat),
      (familyLoop numFamilies fs j).map SockFilter.K = fs.map uint32 := by
  intro fs
  induction fs with
  | nil => intro j; simp [familyLoop]
  | cons f fs ih => intro j; simp [familyLoop, ih, bpfJump]

theorem familyLoop_ladder (numFamilies : Int) :
    ∀ (fs : List Int) (j : Nat),
      numFamilies = (j : Int) + (fs.length : Int) → fs.length ≤ 255 →
      IsLadder 1 (familyLoop numFamilies fs j) := by
  intro fs
  induction fs with
  | nil => intro j _ _; simp [familyLoop, IsLadder]
  | cons f fs ih =>
    intro j hk hb
    simp only [familyLoop, IsLadder, bpfJump, jeqCode_eq, familyLoop_length, true_and]
    refine ⟨?_, ih (j + 1) ?_ ?_⟩
    · have : numFamilies - (j : Int) = ((fs.length + 1 : Nat) : Int) := by
        simp at hk ⊢; omega
      rw [this, uint8_of_small]
      simp at hb; omega
    · simp at hk ⊢; omega
    · simp at hb; omega

theorem build_starts_sectionA (B F : List Int) (logDenied : Bool) :
    ∃ rest, buildBPFProgram B F logDenied = sectionA ++ rest := by
  unfold buildBPFProgram sectionA
  by_cases hF : F.length > 0
  · simp [hF]
  · simp [hF]

theorem build_length_ge (B F : List Int) (logDenied : Bool) :
    6 ≤ (buildBPFProgram B F logDenied).length := by
  unfold buildBPFProgram
  by_cases hF : F.length > 0
  · simp [hF]
    omega
  · simp [hF]

/-- Section A on a foreign architecture: the filter kills. -/
theorem run_sectionA_kill (rest : List SockFilter) (d : SeccompData) (fuel : Nat)
    (harch : d.arch ≠ auditArchX86_64) :
    runFrom (sectionA ++ rest) d (fuel + 3) 0 0 = some seccompRetKillProcess := by
  rw [runFrom_ld _ _ _ _ _ seccompDataArchOffset d.arch (by simp [sectionA])
    (by simp [loadWord, seccompDataArchOffset])]
  rw [runFrom_jeq _ _ _ _ _ (bpfJump (bpfJMP ||| bpfJEQ ||| bpfK) auditArchX86_64 1 0)
    (by simp [sectionA]) (by simp [bpfJump, jeqCode_eq])]
  simp only [bpfJump, harch, if_false]
  exact runFrom_ret _ _ _ _ _ _ (by simp [sectionA])

/-- Section A on x86-64: the filter goes on at instruction 4 with the syscall
number in the accumulator. -/
theorem run_sectionA_pass (rest : List SockFilter) (d : SeccompData) (fuel : Nat)
    (harch : d.arch = auditArchX86_64) :
    runFrom (sectionA ++ rest) d (fuel + 3) 0 0 = runFrom (sectionA ++ rest) d fuel 4 d.nr := by
  rw [runFrom_ld _ _ _ _ _ seccompDataArchOffset d.arch (by simp [sectionA])
    (by simp [loadWord, seccompDataArchOffset])]
  rw [runFrom_jeq _ _ _ _ _ (bpfJump (bpfJMP ||| bpfJEQ ||| bpfK) auditArchX86_64 1 0)
    (by simp [sectionA]) (by simp [bpfJump, jeqCode_eq])]
  simp only [bpfJump, harch, if_true]
  exact runFrom_ld _ _ _ _ _ seccompDataNROffset d.nr (by simp [sectionA])
    (by simp [loadWord, seccompDataNROffset])

theorem build_no_families (B : List Int) (logDenied : Bool) :
    buildBPFProgram B [] logDenied
      = sectionA ++ (blockedLoop (4 + 0 + (B.length : Int) + 1 + 0) 0 B 0
          ++ (bpfStmt bpfRET seccompRetAllow
            :: ([] ++ (bpfStmt bpfRET (if logDenied then seccompRetLog else seccompRetKillProcess)
              :: [])))) := by
  simp [buildBPFProgram, sectionA]

theorem build_families (B F : List Int) (logDenied : Bool) (hF : F ≠ []) :
    buildBPFProgram B F logDenied
      = (sectionA ++ [bpfJump (bpfJMP ||| bpfJEQ ||| bpfK) (uint32 SYS_SOCKET)
            (uint8 ((B.length : Int) + 1)) 0])
        ++ (blockedLoop (4 + 1 + (B.length : Int) + 1 + (1 + (F.length : Int) + 1)) 1 B 0
          ++ (bpfStmt bpfRET seccompRetAllow
            :: ((bpfStmt (bpfLD ||| bpfW ||| bpfABS) seccompDataArgs0Offset
                  :: (familyLoop (F.length : Int) F 0 ++ [bpfStmt bpfRET seccompRetAllow]))
              ++ (bpfStmt bpfRET (if logDenied then seccompRetLog else seccompRetKillProcess)
                :: [])))) := by
  have hpos : F.length > 0 := List.length_pos.mpr hF
  simp [buildBPFProgram, sectionA, hpos]

theorem build_families_socket (B F : List Int) (logDenied : Bool) (hF : F ≠ []) :
    buildBPFProgram B F logDenied
      = (sectionA ++ [bpfJump (bpfJMP ||| bpfJEQ ||| bpfK) (uint32 SYS_SOCKET)
            (uint8 ((B.length : Int) + 1)) 0]
          ++ blockedLoop (4 + 1 + (B.length : Int) + 1 + (1 + (F.length : Int) + 1)) 1 B 0
          ++ [bpfStmt bpfRET seccompRetAllow]
          ++ [bpfStmt (bpfLD ||| bpfW ||| bpfABS) seccompDataArgs0Offset])
        ++ (familyLoop (F.length : Int) F 0
          ++ (bpfStmt bpfRET seccompRetAllow
            :: ([] ++ (bpfStmt bpfRET (if logDenied then seccompRetLog else seccompRetKillProcess)
              :: [])))) := by
  have hpos : F.length > 0 := List.length_pos.mpr hF
  simp [buildBPFProgram, sectionA, hpos]

/-- The built program computes `wordAction` whenever no jump offset overflows
its 8-bit field. -/
theorem runBPF_build (B F : List Int) (logDenied : Bool) (d : SeccompData)
    (hlen : B.length + F.length + 2 ≤ 255) :
    runBPF (buildBPFProgram B F logDenied) d = some (wordAction B F logDenied d) := by
  unfold runBPF
  by_cases harch : d.arch = auditArchX86_64
  swap
  · obtain ⟨rest, hrest⟩ := build_starts_sectionA B F logDenied
    have h6 := build_length_ge B F logDenied
    have hk := run_sectionA_kill rest d 0 harch
    rw [← hrest] at hk
    rw [runFrom_mono _ _ _ _ _ _ _ hk (by omega)]
    simp [wordAction, harch]
  · by_cases hF : F = []
    · subst hF
      have hprog := build_no_families B logDenied
      have hrun : runFrom (buildBPFProgram B [] logDenied) d (B.length + 1 + 3) 0 0
          = some (wordAction B [] logDenied d) := by
        rw [hprog, run_sectionA_pass _ _ _ harch]
        have h4 : (4 : Nat) = sectionA.length := by simp [sectionA]
        rw [h4, run_ladder d _ _ d.nr [] [] _ sectionA (B.length + 1)
          (blockedLoop_ladder _ _ _ B 0 (by simp) (by simp at hlen ⊢; omega))
          (by simp [blockedLoop_length])]
        simp [wordAction, harch, blockedLoop_K]
      exact runFrom_mono _ _ _ _ _ _ _ hrun (by rw [hprog]; simp [sectionA, blockedLoop_length])
    · have hjt : uint8 ((B.length : Int) + 1) = B.length + 1 := by
        have := uint8_of_small (B.length + 1) (by omega)
        simpa using this
      by_cases hsock : d.nr = uint32 SYS_SOCKET
      · have hprog := build_families_socket B F logDenied hF
        have hrun : runFrom (buildBPFProgram B F logDenied) d (F.length + 1 + 1 + 1 + 3) 0 0
            = some (wordAction B F logDenied d) := by
          obtain ⟨rest, hrest⟩ := build_starts_sectionA B F logDenied
          rw [hrest, run_sectionA_pass _ _ _ harch, ← hrest]
          rw [runFrom_jeq _ _ _ _ _ (bpfJump (bpfJMP ||| bpfJEQ ||| bpfK) (uint32 SYS_SOCKET)
            (uint8 ((B.length : Int) + 1)) 0)
            (by rw [build_families B F logDenied hF]; simp [sectionA])
            (by simp [bpfJump, jeqCode_eq])]
          simp only [bpfJump, hsock, if_true, hjt]
          rw [runFrom_ld _ _ _ _ _ seccompDataArgs0Offset (d.args 0 % 4294967296)
            (by
              rw [build_families B F logDenied hF]
              have h5 : 4 + 1 + (B.length + 1)
                  = (sectionA ++ [bpfJump (bpfJMP ||| bpfJEQ ||| bpfK) (uint32 SYS_SOCKET)
                      (uint8 ((B.length : Int) + 1)) 0]).length
                    + ((blockedLoop (4 + 1 + (B.length : Int) + 1 + (1 + (F.length : Int) + 1))
                        1 B 0).length + 1) := by
                simp [sectionA, blockedLoop_length]
              rw [h5, get_append_offset, get_append_offset]
              simp)
            (by simp [loadWord, seccompDataArgs0Offset])]
          rw [hprog]
          have hpc : 4 + 1 + (B.length + 1) + 1
              = (sectionA ++ [bpfJump (bpfJMP ||| bpfJEQ ||| bpfK) (uint32 SYS_SOCKET)
                    (uint8 ((B.length : Int) + 1)) 0]
                  ++ blockedLoop (4 + 1 + (B.length : Int) + 1 + (1 + (F.length : Int) + 1)) 1 B 0
                  ++ [bpfStmt bpfRET seccompRetAllow]
                  ++ [bpfStmt (bpfLD ||| bpfW ||| bpfABS) seccompDataArgs0Offset]).length := by
            simp [sectionA, blockedLoop_length]
            omega
          rw [hpc, run_ladder d _ _ (d.args 0 % 4294967296) [] [] _ _ (F.length + 1)
            (familyLoop_ladder _ F 0 (by simp) (by omega))
            (by simp [familyLoop_length])]
          simp [wordAction, harch, hF, hsock, familyLoop_K]
        exact runFrom_mono _ _ _ _ _ _ _ hrun
          (by rw [hprog]; simp [sectionA, blockedLoop_length, familyLoop_length]; omega)
      · have hprog := build_families B F logDenied hF
        have hrun : runFrom (buildBPFProgram B F logDenied) d (B.length + 1 + 1 + 3) 0 0
            = some (wordAction B F logDenied d) := by
          obtain ⟨rest, hrest⟩ := build_starts_sectionA B F logDenied
          rw [hrest, run_sectionA_pass _ _ _ harch, ← hrest]
          rw [runFrom_jeq _ _ _ _ _ (bpfJump (bpfJMP ||| bpfJEQ ||| bpfK) (uint32 SYS_SOCKET)
            (uint8 ((B.length : Int) + 1)) 0)
            (by rw [hprog]; simp [sectionA])
            (by simp [bpfJump, jeqCode_eq])]
          simp only [bpfJump, hsock, if_false, Nat.add_zero]
          rw [hprog]
          have hpc : 4 + 1
              = (sectionA ++ [bpfJump (bpfJMP ||| bpfJEQ ||| bpfK) (uint32 SYS_SOCKET)
                    (uint8 ((B.length : Int) + 1)) 0]).length := by
            simp [sectionA]
          rw [hpc, run_ladder d _ _ d.nr _ [] _ _ (B.length + 1)
            (blockedLoop_ladder _ _ _ B 0
              (by simp [familyLoop_length]; omega)
              (by simp [familyLoop_length]; omega))
            (by simp [blockedLoop_length])]
          simp [wordAction, harch, hF, hsock, blockedLoop_K]
        exact runFrom_mono _ _ _ _ _ _ _ hrun
          (by rw [hprog]; simp [sectionA, blockedLoop_length, familyLoop_length])

theorem uint32_of_word (n : Nat) (h : n < 4294967296) : uint32 (n : Int) = n := by
  unfold uint32
  omega

theorem mem_map_uint32 (L : List Int) (hL : ∀ b ∈ L, 0 ≤ b ∧ b < 4294967296) (n : Nat) :
    n ∈ L.map uint32 ↔ (n : Int) ∈ L := by
  constructor
  · intro h
    obtain ⟨b, hb, hbn⟩ := List.mem_map.mp h
    obtain ⟨h0, h1⟩ := hL b hb
    have : (n : Int) = b := by
      unfold uint32 at hbn
      omega
    rw [this]
    exact hb
  · intro h
    obtain ⟨_, h1⟩ := hL _ h
    refine List.mem_map.mpr ⟨(n : Int), h, ?_⟩
    exact uint32_of_word n (by omega)

theorem nr_is_socket (n : Nat) : n = uint32 SYS_SOCKET ↔ (n : Int) = SYS_SOCKET := by
  have h : uint32 SYS_SOCKET = 41 := by decide
  rw [h]
  unfold SYS_SOCKET
  omega

/-- C1: for blocked syscall numbers `B` and blocked socket families `F` that are
32-bit values with `len(B) + len(F) + 2 ≤ 255`, and either value of `logDenied`,
the filter returned by `buildBPFProgram` returns on every `seccomp_data` exactly
the specified action: KILL_PROCESS on a foreign architecture; otherwise, when `F`
is non-empty and the call is `socket`, the deny action if the low 32 bits of
`args[0]` are in `F` and ALLOW if not; otherwise the deny action if the syscall
number is in `B`; otherwise ALLOW. -/
theorem buildBPFProgram_runs_as_specified (B F : List Int) (logDenied : Bool)
    (d : SeccompData)
    (hB : ∀ b ∈ B, 0 ≤ b ∧ b < 4294967296) (hF : ∀ f ∈ F, 0 ≤ f ∧ f < 4294967296)
    (hlen : B.length + F.length + 2 ≤ 255) :
    runBPF (buildBPFProgram B F logDenied) d = some (specFilterAction B F logDenied d) := by
  rw [runBPF_build B F logDenied d hlen]
  simp only [wordAction, specFilterAction, mem_map_uint32 B hB, mem_map_uint32 F hF,
    nr_is_socket]

theorem buildBPFProgram_runs_as_specified_witness :
    (∀ b ∈ [SYS_MOUNT], 0 ≤ b ∧ b < 4294967296)
    ∧ (∀ f ∈ [AF_NETLINK, AF_PACKET], 0 ≤ f ∧ f < 4294967296)
    ∧ [SYS_MOUNT].length + [AF_NETLINK, AF_PACKET].length + 2 ≤ 255
    ∧ runBPF (buildBPFProgram [SYS_MOUNT] [AF_NETLINK, AF_PACKET] true)
          ⟨41, auditArchX86_64, 0, fun _ => 17⟩
        = some (specFilterAction [SYS_MOUNT] [AF_NETLINK, AF_PACKET] true
            ⟨41, auditArchX86_64, 0, fun _ => 17⟩) :=
  ⟨by decide, by decide, by decide,
    buildBPFProgram_runs_as_specified [SYS_MOUNT] [AF_NETLINK, AF_PACKET] true
      ⟨41, auditArchX86_64, 0, fun _ => 17⟩ (by decide) (by decide) (by decide)⟩

/-- C2: for every blocked list, every family list (of any length) and both values
of `logDenied`, the built filter returns KILL_PROCESS, hence neither RET_LOG nor
ALLOW, on every `seccomp_data` whose arch differs from AUDIT_ARCH_X86_64. -/
theorem arch_mismatch_kills (B F : List Int) (logDenied : Bool) (d : SeccompData)
    (harch : d.arch ≠ auditArchX86_64) :
    runBPF (buildBPFProgram B F logDenied) d = some seccompRetKillProcess
    ∧ runBPF (buildBPFProgram B F logDenied) d ≠ some seccompRetLog
    ∧ runBPF (buildBPFProgram B F logDenied) d ≠ some seccompRetAllow := by
  have hrun : runBPF (buildBPFProgram B F logDenied) d = some seccompRetKillProcess := by
    unfold runBPF
    obtain ⟨rest, hrest⟩ := build_starts_sectionA B F logDenied
    have h6 := build_length_ge B F logDenied
    have hk := run_sectionA_kill rest d 0 harch
    rw [← hrest] at hk
    exact runFrom_mono _ _ _ _ _ _ _ hk (by omega)
  rw [hrun]
  refine ⟨rfl, ?_, ?_⟩ <;> decide

theorem arch_mismatch_kills_witness :
    (3 : Nat) ≠ auditArchX86_64
    ∧ (runBPF (buildBPFProgram [SYS_MOUNT] [AF_NETLINK] true) ⟨165, 3, 0, fun _ => 0⟩
        = some seccompRetKillProcess
      ∧ runBPF (buildBPFProgram [SYS_MOUNT] [AF_NETLINK] true) ⟨165, 3, 0, fun _ => 0⟩
        ≠ some seccompRetLog
      ∧ runBPF (buildBPFProgram [SYS_MOUNT] [AF_NETLINK] true) ⟨165, 3, 0, fun _ => 0⟩
        ≠ some seccompRetAllow) :=
  ⟨by decide,
    arch_mismatch_kills [SYS_MOUNT] [AF_NETLINK] true ⟨165, 3, 0, fun _ => 0⟩ (by decide)⟩

/-- C3 as stated fails: with `socket` in the blocked list and a family list that
is not empty, a `socket` call with a family outside the list is allowed. -/
theorem blocked_nr_always_denied_counterexample :
    ¬ (∀ (B F : List Int) (logDenied : Bool) (d : SeccompData),
        B.length + F.length + 2 ≤ 255 → d.arch = auditArchX86_64 → d.nr < 4294967296 →
        (d.nr : Int) ∈ B →
        runBPF (buildBPFProgram B F logDenied) d
            = some (if logDenied then seccompRetLog else seccompRetKillProcess)
          ∧ runBPF (buildBPFProgram B F logDenied) d ≠ some seccompRetAllow) := by
  intro h
  have h1 := h [SYS_SOCKET] [AF_NETLINK] false ⟨41, auditArchX86_64, 0, fun _ => 2⟩
    (by decide) rfl (by decide) (by decide)
  exact h1.2 (by decide)

/-- C3, amended: for `B` and `F` with `len(B) + len(F) + 2 ≤ 255` and every
`seccomp_data` with arch AUDIT_ARCH_X86_64 whose syscall number (a 32-bit word) is
a member of `B`, the built filter returns the deny action (KILL_PROCESS, or
RET_LOG when `logDenied`) and not ALLOW, whatever the arguments, provided that `F`
is empty or the syscall is not `socket`. -/
theorem blocked_nr_denied (B F : List Int) (logDenied : Bool) (d : SeccompData)
    (hlen : B.length + F.length + 2 ≤ 255) (harch : d.arch = auditArchX86_64)
    (hword : d.nr < 4294967296) (hmem : (d.nr : Int) ∈ B)
    (hsock : F = [] ∨ (d.nr : Int) ≠ SYS_SOCKET) :
    runBPF (buildBPFProgram B F logDenied) d
        = some (if logDenied then seccompRetLog else seccompRetKillProcess)
      ∧ runBPF (buildBPFProgram B F logDenied) d ≠ some seccompRetAllow := by
  have hrun : runBPF (buildBPFProgram B F logDenied) d
      = some (if logDenied then seccompRetLog else seccompRetKillProcess) := by
    rw [runBPF_build B F logDenied d hlen]
    have hm : d.nr ∈ B.map uint32 :=
      List.mem_map.mpr ⟨(d.nr : Int), hmem, uint32_of_word d.nr hword⟩
    have hs : ¬ (F ≠ [] ∧ d.nr = uint32 SYS_SOCKET) := by
      rintro ⟨h1, h2⟩
      rcases hsock with h | h
      · exact h1 h
      · exact h ((nr_is_socket d.nr).mp h2)
    simp only [wordAction, harch, hs, hm, ne_eq, not_true_eq_false, if_false, if_true]
  rw [hrun]
  refine ⟨rfl, ?_⟩
  cases logDenied <;> decide

theorem blocked_nr_denied_witness :
    [SYS_SOCKET, SYS_MOUNT].length + [AF_NETLINK].length + 2 ≤ 255
    ∧ (SeccompData.mk 165 auditArchX86_64 0 (fun _ => 2)).arch = auditArchX86_64
    ∧ (SeccompData.mk 165 auditArchX86_64 0 (fun _ => 2)).nr < 4294967296
    ∧ (((SeccompData.mk 165 auditArchX86_64 0 (fun _ => 2)).nr : Nat) : Int)
        ∈ [SYS_SOCKET, SYS_MOUNT]
    ∧ ([AF_NETLINK] = []
        ∨ (((SeccompData.mk 165 auditArchX86_64 0 (fun _ => 2)).nr : Nat) : Int) ≠ SYS_SOCKET)
    ∧ (runBPF (buildBPFProgram [SYS_SOCKET, SYS_MOUNT] [AF_NETLINK] true)
            (SeccompData.mk 165 auditArchX86_64 0 (fun _ => 2))
          = some (if true then seccompRetLog else seccompRetKillProcess)
        ∧ runBPF (buildBPFProgram [SYS_SOCKET, SYS_MOUNT] [AF_NETLINK] true)
            (SeccompData.mk 165 auditArchX86_64 0 (fun _ => 2)) ≠ some seccompRetAllow) :=
  ⟨by decide, rfl, by decide, by decide, Or.inr (by decide),
    blocked_nr_denied [SYS_SOCKET, SYS_MOUNT] [AF_NETLINK] true
      (SeccompData.mk 165 auditArchX86_64 0 (fun _ => 2)) (by decide) rfl (by decide)
      (by decide) (Or.inr (by decide))⟩

theorem resolve_defaults :
    resolveBlocklist defaultBlockedSyscalls
      = .ok [101, 153, 155, 159, 161, 163, 164, 165, 166, 167, 168, 169, 172, 173, 174, 175,
          176, 180, 212, 227, 246, 248, 249, 250, 272, 298, 300, 303, 304, 305, 308, 313, 320,
          321, 323] := by
  rfl

/-- C4: `resolveBlocklist(defaultBlockedSyscalls)` succeeds, and the filter built
from the resolved numbers, `defaultBlockedSocketFamilies` and `logDenied = false`
returns, on x86-64, KILL_PROCESS for `mount` and for `socket` with each of
AF_NETLINK, AF_PACKET, AF_BLUETOOTH, AF_KEY, AF_ALG, AF_VSOCK, AF_XDP, and ALLOW
for `sethostname` and for `socket` with AF_UNIX, AF_INET and AF_INET6. -/
theorem default_config_filter :
    ∃ nrs : List Int, resolveBlocklist defaultBlockedSyscalls = .ok nrs ∧
      ∀ (a0 ip : Nat) (args : Fin 6 → Nat),
        let run := fun d => runBPF (buildBPFProgram nrs defaultBlockedSocketFamilies false) d
        run (callData (uint32 SYS_MOUNT) a0 ip args) = some seccompRetKillProcess
        ∧ run (callData (uint32 SYS_SOCKET) (uint32 AF_NETLINK) ip args) = some seccompRetKillProcess
        ∧ run (callData (uint32 SYS_SOCKET) (uint32 AF_PACKET) ip args) = some seccompRetKillProcess
        ∧ run (callData (uint32 SYS_SOCKET) (uint32 AF_BLUETOOTH) ip args) = some seccompRetKillProcess
        ∧ run (callData (uint32 SYS_SOCKET) (uint32 AF_KEY) ip args) = some seccompRetKillProcess
        ∧ run (callData (uint32 SYS_SOCKET) (uint32 AF_ALG) ip args) = some seccompRetKillProcess
        ∧ run (callData (uint32 SYS_SOCKET) (uint32 AF_VSOCK) ip args) = some seccompRetKillProcess
        ∧ run (callData (uint32 SYS_SOCKET) (uint32 AF_XDP) ip args) = some seccompRetKillProcess
        ∧ run (callData (uint32 SYS_SETHOSTNAME) a0 ip args) = some seccompRetAllow
        ∧ run (callData (uint32 SYS_SOCKET) (uint32 AF_UNIX) ip args) = some seccompRetAllow
        ∧ run (callData (uint32 SYS_SOCKET) (uint32 AF_INET) ip args) = some seccompRetAllow
        ∧ run (callData (uint32 SYS_SOCKET) (uint32 AF_INET6) ip args) = some seccompRetAllow := by
  refine ⟨_, resolve_defaults, ?_⟩
  intro a0 ip args
  have hlen : ([101, 153, 155, 159, 161, 163, 164, 165, 166, 167, 168, 169, 172, 173, 174, 175,
      176, 180, 212, 227, 246, 248, 249, 250, 272, 298, 300, 303, 304, 305, 308, 313, 320,
      321, 323] : List Int).length + defaultBlockedSocketFamilies.length + 2 ≤ 255 := by decide
  have hne : defaultBlockedSocketFamilies ≠ [] := by decide
  have hfam : defaultBlockedSocketFamilies.map uint32 = [16, 17, 31, 15, 38, 40, 44] := by decide
  have hnrs : ([101, 153, 155, 159, 161, 163, 164, 165, 166, 167, 168, 169, 172, 173, 174, 175,
      176, 180, 212, 227, 246, 248, 249, 250, 272, 298, 300, 303, 304, 305, 308, 313, 320,
      321, 323] : List Int).map uint32
      = [101, 153, 155, 159, 161, 163, 164, 165, 166, 167, 168, 169, 172, 173, 174, 175,
      176, 180, 212, 227, 246, 248, 249, 250, 272, 298, 300, 303, 304, 305, 308, 313, 320,
      321, 323] := by decide
  have h41 : uint32 SYS_SOCKET = 41 := by decide
  have h165 : uint32 SYS_MOUNT = 165 := by decide
  have h170 : uint32 SYS_SETHOSTNAME = 170 := by decide
  have hfs : uint32 AF_NETLINK = 16 ∧ uint32 AF_PACKET = 17 ∧ uint32 AF_BLUETOOTH = 31
      ∧ uint32 AF_KEY = 15 ∧ uint32 AF_ALG = 38 ∧ uint32 AF_VSOCK = 40 ∧ uint32 AF_XDP = 44
      ∧ uint32 AF_UNIX = 1 ∧ uint32 AF_INET = 2 ∧ uint32 AF_INET6 = 10 := by decide
  obtain ⟨f1, f2, f3, f4, f5, f6, f7, f8, f9, f10⟩ := hfs
  simp only [runBPF_build _ _ _ _ hlen, wordAction, callData, hne, hfam, hnrs, h41, h165, h170,
    f1, f2, f3, f4, f5, f6, f7, f8, f9, f10]
  simp [seccompRetAllow, seccompRetKillProcess, hne]

/-! ## Properties of resolveBlocklist -/

theorem sortInts_eq_insertionSort (l : List Int) :
    sortInts l = List.insertionSort (· ≤ ·) l := by
  have hins : ∀ (x : Int) (ys : List Int), insertSorted x ys = List.orderedInsert (· ≤ ·) x ys := by
    intro x ys
    induction ys with
    | nil => rfl
    | cons y ys ih => simp [insertSorted, List.orderedInsert, ih]
  induction l with
  | nil => rfl
  | cons x xs ih => simp [sortInts, List.insertionSort, ih, hins]

theorem sortInts_perm (l : List Int) : (sortInts l).Perm l := by
  rw [sortInts_eq_insertionSort]
  exact List.perm_insertionSort _ l

theorem sortInts_sorted (l : List Int) : (sortInts l).Sorted (· ≤ ·) := by
  rw [sortInts_eq_insertionSort]
  exact List.sorted_insertionSort _ l

theorem sortInts_strict (l : List Int) (h : l.Nodup) : (sortInts l).Sorted (· < ·) :=
  (sortInts_sorted l).lt_of_le ((sortInts_perm l).nodup_iff.mpr h)

/-- The loop on names that are all known: it ends without error, keeps `nrs`
free of duplicates and adds exactly the numbers of the names. -/
theorem resolveLoop_ok :
    ∀ (names : List String) (seen : Int → Bool) (nrs : List Int),
      (∀ n ∈ names, unknownName n = false) → (∀ k, seen k = true ↔ k ∈ nrs) → nrs.Nodup →
      ∃ out, resolveLoop names seen nrs = .ok out ∧ out.Nodup ∧
        ∀ x, x ∈ out ↔ (x ∈ nrs ∨ ∃ n ∈ names, syscallMap n = some x) := by
  intro names
  induction names with
  | nil =>
    intro seen nrs _ _ hnd
    exact ⟨nrs, rfl, hnd, by simp⟩
  | cons name rest ih =>
    intro seen nrs hk hseen hnd
    have hname := hk name (List.mem_cons_self _ _)
    have hrest : ∀ n ∈ rest, unknownName n = false := fun n hn => hk n (List.mem_cons_of_mem _ hn)
    cases hm : syscallMap name with
    | none => simp [unknownName, hm] at hname
    | some nr =>
      by_cases hs : seen nr = true
      · obtain ⟨out, hout, hnd2, hmem⟩ := ih seen nrs hrest hseen hnd
        refine ⟨out, ?_, hnd2, ?_⟩
        · simp [resolveLoop, hm, hs, hout]
        · intro x
          rw [hmem x]
          constructor
          · rintro (h | ⟨n, hn, hx⟩)
            · exact Or.inl h
            · exact Or.inr ⟨n, List.mem_cons_of_mem _ hn, hx⟩
          · rintro (h | ⟨n, hn, hx⟩)
            · exact Or.inl h
            · rcases List.mem_cons.mp hn with rfl | hn2
              · rw [hm] at hx
                cases hx
                exact Or.inl ((hseen _).mp hs)
              · exact Or.inr ⟨n, hn2, hx⟩
      · have hnot : nr ∉ nrs := fun h => hs ((hseen nr).mpr h)
        obtain ⟨out, hout, hnd2, hmem⟩ :=
          ih (fun k => if k = nr then true else seen k) (nrs ++ [nr]) hrest
            (by
              intro k
              by_cases hkn : k = nr
              · simp [hkn]
              · simp [hkn, hseen k])
            (by
              rw [List.nodup_append]
              refine ⟨hnd, List.nodup_singleton _, ?_⟩
              intro a ha hb
              rw [List.mem_singleton] at hb
              exact hnot (hb ▸ ha))
        refine ⟨out, ?_, hnd2, ?_⟩
        · have hs2 : seen nr = false := by simpa using hs
          simp only [resolveLoop, hm, hs2, Bool.not_false, if_true]
          exact hout
        · intro x
          rw [hmem x]
          constructor
          · rintro (h | ⟨n, hn, hx⟩)
            · rcases List.mem_append.mp h with h1 | h1
              · exact Or.inl h1
              · rw [List.mem_singleton] at h1
                exact Or.inr ⟨name, List.mem_cons_self _ _, by rw [hm, h1]⟩
            · exact Or.inr ⟨n, List.mem_cons_of_mem _ hn, hx⟩
          · rintro (h | ⟨n, hn, hx⟩)
            · exact Or.inl (List.mem_append_left _ h)
            · rcases List.mem_cons.mp hn with rfl | hn2
              · rw [hm] at hx
                cases hx
                exact Or.inl (List.mem_append_right _ (List.mem_singleton_self _))
              · exact Or.inr ⟨n, hn2, hx⟩

/-- The loop on a list with an unknown name: it stops with the error for the
first one. -/
theorem resolveLoop_error :
    ∀ (names : List String) (seen : Int → Bool) (nrs : List Int) (n : String),
      firstUnknown names = some n →
      resolveLoop names seen nrs = .error (.unknownSyscall n) := by
  intro names
  induction names with
  | nil => intro seen nrs n h; simp [firstUnknown] at h
  | cons name rest ih =>
    intro seen nrs n h
    cases hm : syscallMap name with
    | none =>
      have : n = name := by
        simp [firstUnknown, List.find?_cons, unknownName, hm] at h
        exact h.symm
      simp [resolveLoop, hm, this]
    | some nr =>
      have h2 : firstUnknown rest = some n := by
        simpa [firstUnknown, List.find?_cons, unknownName, hm] using h
      by_cases hs : seen nr = true
      · simp [resolveLoop, hm, hs, ih seen nrs n h2]
      · simp [resolveLoop, hm, hs, ih _ _ n h2]

theorem resolveBlocklist_ok (names : List String) (hk : ∀ n ∈ names, unknownName n = false) :
    ∃ nrs, resolveBlocklist names = .ok nrs ∧ nrs.Sorted (· < ·) ∧
      ∀ x, x ∈ nrs ↔ ∃ n ∈ names, syscallMap n = some x := by
  obtain ⟨out, hout, hnd, hmem⟩ :=
    resolveLoop_ok names (fun _ => false) [] hk (by simp) List.nodup_nil
  refine ⟨sortInts out, ?_, sortInts_strict out hnd, ?_⟩
  · simp [resolveBlocklist, hout]
  · intro x
    rw [(sortInts_perm out).mem_iff, hmem x]
    simp

/-- C5: on names that are all keys of `syscallMap`, `resolveBlocklist` returns
without error a strictly ascending list whose elements are exactly the
`syscallMap` values of the names; any list with the same set of names (a
reordering, a repetition) gives the same result. -/
theorem resolveBlocklist_sorted_dedup (names : List String)
    (hk : ∀ n ∈ names, ∃ nr, syscallMap n = some nr) :
    ∃ nrs, resolveBlocklist names = .ok nrs ∧ nrs.Sorted (· < ·) ∧
      (∀ x, x ∈ nrs ↔ ∃ n ∈ names, syscallMap n = some x) ∧
      ∀ names2 : List String, (∀ n, n ∈ names2 ↔ n ∈ names) →
        resolveBlocklist names2 = .ok nrs := by
  have hk1 : ∀ n ∈ names, unknownName n = false := by
    intro n hn
    obtain ⟨nr, hnr⟩ := hk n hn
    simp [unknownName, hnr]
  obtain ⟨nrs, hres, hsorted, hmem⟩ := resolveBlocklist_ok names hk1
  refine ⟨nrs, hres, hsorted, hmem, ?_⟩
  intro names2 hsame
  have hk2 : ∀ n ∈ names2, unknownName n = false := fun n hn => hk1 n ((hsame n).mp hn)
  obtain ⟨nrs2, hres2, hsorted2, hmem2⟩ := resolveBlocklist_ok names2 hk2
  have hperm : nrs2.Perm nrs := by
    rw [List.perm_ext_iff_of_nodup hsorted2.nodup hsorted.nodup]
    intro x
    rw [hmem x, hmem2 x]
    constructor
    · rintro ⟨n, hn, hx⟩
      exact ⟨n, (hsame n).mp hn, hx⟩
    · rintro ⟨n, hn, hx⟩
      exact ⟨n, (hsame n).mpr hn, hx⟩
  rw [hres2, List.eq_of_perm_of_sorted hperm hsorted2 hsorted]

theorem resolveBlocklist_sorted_dedup_witness :
    (∀ n ∈ ["ptrace", "mount", "ptrace"], ∃ nr, syscallMap n = some nr)
    ∧ ∃ nrs, resolveBlocklist ["ptrace", "mount", "ptrace"] = .ok nrs ∧ nrs.Sorted (· < ·) ∧
      (∀ x, x ∈ nrs ↔ ∃ n ∈ ["ptrace", "mount", "ptrace"], syscallMap n = some x) ∧
      ∀ names2 : List String, (∀ n, n ∈ names2 ↔ n ∈ ["ptrace", "mount", "ptrace"]) →
        resolveBlocklist names2 = .ok nrs :=
  have hk : ∀ n ∈ ["ptrace", "mount", "ptrace"], ∃ nr, syscallMap n = some nr := by
    intro n hn
    simp only [List.mem_cons, List.mem_singleton, List.not_mem_nil, or_false] at hn
    rcases hn with rfl | rfl | rfl
    · exact ⟨101, rfl⟩
    · exact ⟨165, rfl⟩
    · exact ⟨101, rfl⟩
  ⟨hk, resolveBlocklist_sorted_dedup ["ptrace", "mount", "ptrace"] hk⟩

/-- C6 as stated fails: the message of the error for the unknown name `a"b`
holds the name in its quoted form `"a\"b"` and so does not contain the name. -/
theorem resolveBlocklist_error_names_counterexample :
    ¬ (∀ (isPrintTable : Char → Bool) (names : List String) (e : ResolveError) (n : String),
        resolveBlocklist names = .error e → firstUnknown names = some n →
        stringsContains (e.message isPrintTable) n) := by
  intro h
  have h1 := h (fun _ => true) [quotedName] (.unknownSyscall quotedName) quotedName rfl rfl
  revert h1
  decide

theorem quote_plain (isPrintTable : Char → Bool) (cs : List Char)
    (hp : ∀ c ∈ cs, 0x20 ≤ c.toNat ∧ c.toNat ≤ 0x7E ∧ c.toNat ≠ 34 ∧ c.toNat ≠ 92) :
    cs.flatMap (appendEscapedRune isPrintTable) = cs := by
  induction cs with
  | nil => rfl
  | cons c cs ih =>
    obtain ⟨h1, h2, h3, h4⟩ := hp c (List.mem_cons_self _ _)
    have hc : appendEscapedRune isPrintTable c = [c] := by
      have h5 : c.toNat ≤ 0xFF := by omega
      simp [appendEscapedRune, strconvIsPrint, h1, h2, h3, h4, h5]
    rw [List.flatMap_cons, hc, ih (fun c hc => hp c (List.mem_cons_of_mem _ hc))]
    rfl

/-- C6, amended: `resolveBlocklist` returns an error exactly when some name is
not a key of `syscallMap`; the error then comes without numbers, its message is
`unknown syscall: ` followed by the first unknown name in the quoted form of
`%q`, and the message contains that name whenever the name is made of printable
ASCII characters other than the double quote and the backslash. -/
theorem resolveBlocklist_error_names (names : List String) :
    ((∃ e, resolveBlocklist names = .error e) ↔ ∃ n ∈ names, syscallMap n = none)
    ∧ ∀ e, resolveBlocklist names = .error e →
        ∃ n, firstUnknown names = some n ∧ e = .unknownSyscall n
          ∧ ∀ isPrintTable : Char → Bool,
              e.message isPrintTable = "unknown syscall: " ++ strconvQuote isPrintTable n
              ∧ (plainName n → stringsContains (e.message isPrintTable) n) := by
  have hcases : (∃ n, firstUnknown names = some n ∧ syscallMap n = none ∧ n ∈ names
        ∧ resolveBlocklist names = .error (.unknownSyscall n))
      ∨ ((∀ n ∈ names, unknownName n = false) ∧ ∃ nrs, resolveBlocklist names = .ok nrs) := by
    cases hf : firstUnknown names with
    | some n =>
      left
      have hn := List.find?_some hf
      have hmem := List.mem_of_find?_eq_some hf
      refine ⟨n, rfl, ?_, hmem, ?_⟩
      · simpa [unknownName] using hn
      · simp [resolveBlocklist, resolveLoop_error names _ _ n hf]
    | none =>
      right
      have hall : ∀ n ∈ names, unknownName n = false := by
        intro n hn
        have := List.find?_eq_none.mp hf n hn
        simpa using this
      obtain ⟨nrs, hres, _⟩ := resolveBlocklist_ok names hall
      exact ⟨hall, nrs, hres⟩
  constructor
  · constructor
    · rintro ⟨e, he⟩
      rcases hcases with ⟨n, _, hnone, hmem, _⟩ | ⟨_, nrs, hres⟩
      · exact ⟨n, hmem, hnone⟩
      · rw [hres] at he
        cases he
    · rintro ⟨n, hn, hnone⟩
      rcases hcases with ⟨m, _, _, _, herr⟩ | ⟨hall, _⟩
      · exact ⟨_, herr⟩
      · have := hall n hn
        simp [unknownName, hnone] at this
  · intro e he
    rcases hcases with ⟨n, hfirst, _, _, herr⟩ | ⟨_, nrs, hres⟩
    · rw [herr] at he
      cases he
      refine ⟨n, hfirst, rfl, ?_⟩
      intro isPrintTable
      refine ⟨rfl, ?_⟩
      intro hplain
      unfold stringsContains ResolveError.message strconvQuote
      rw [String.data_append, quote_plain isPrintTable n.data hplain]
      exact ⟨"unknown syscall: ".data ++ [Char.ofNat 34], [Char.ofNat 34], by simp⟩
    · rw [hres] at he
      cases he

theorem resolveBlocklist_error_names_witness :
    resolveBlocklist ["ptrace", "nosuch", "bad"] = .error (.unknownSyscall "nosuch")
    ∧ plainName "nosuch"
    ∧ stringsContains ((ResolveError.unknownSyscall "nosuch").message (fun _ => false)) "nosuch" := by
  have hres : resolveBlocklist ["ptrace", "nosuch", "bad"] = .error (.unknownSyscall "nosuch") := rfl
  have hplain : plainName "nosuch" := by
    unfold plainName
    decide
  obtain ⟨n, _, hn, hmsg⟩ := (resolveBlocklist_error_names ["ptrace", "nosuch", "bad"]).2 _ hres
  have hn2 : "nosuch" = n := ResolveError.unknownSyscall.inj hn
  subst hn2
  exact ⟨hres, hplain, (hmsg _).2 hplain⟩

/-! ## Properties of the orchestrator -/

/-- C7: in every run of `Start` with a cgroup manager attached, the spawn, the
call `AddProcess(pid)` and the write of the init descriptor happen at most once
each and in this order, with `pid` the pid of the spawned child; and if
`AddProcess` fails, `Start` then kills and reaps the child, writes no descriptor,
returns an error and leaves the orchestrator as it was: not running, with no
cleanup added. -/
theorem start_adds_process_before_descriptor {W : Type} (ns : Namespace W) (env : StartEnv)
    (command : String) (args : List String) (w : W) (cg : CgroupsV2Ref W)
    (hcg : ns.cgroupsV2 = some cg) :
    (∃ (pid : Int) (cfg : initConfig),
        (ns.Start env command args w).trace.filter NsEvent.isHandshake
          <+: [NsEvent.cmdStart ns.cloneFlags ns.logger, NsEvent.addProcess pid,
                NsEvent.encode cfg]
        ∧ (NsEvent.addProcess pid ∈ (ns.Start env command args w).trace →
            env.cmdStart = .ok pid))
    ∧ ∀ (pid : Int) (e : String) (w2 : W),
        NsEvent.addProcess pid ∈ (ns.Start env command args w).trace →
        cg.AddProcess pid w = (some e, w2) →
        (∃ tr0, (ns.Start env command args w).trace
            = tr0 ++ [NsEvent.addProcess pid, NsEvent.kill, NsEvent.wait, NsEvent.closePipeW]
                ++ (if ns.logger then [NsEvent.closeLogPipeR] else []))
        ∧ (∀ cfg, NsEvent.encode cfg ∉ (ns.Start env command args w).trace)
        ∧ (ns.Start env command args w).err
            = some ("namespace: add process to cgroup: " ++ e)
        ∧ (ns.Start env command args w).ns.running = false
        ∧ (ns.Start env command args w).ns.cleanups = ns.cleanups
        ∧ (ns.Start env command args w).world = w2 := by
  have hcfg : initConfig := ⟨"", false, false, none, "", [], [], ""⟩
  unfold Namespace.Start
  simp only [hcg]
  by_cases hr : ns.running = true
  · simp only [hr, if_true]
    exact ⟨⟨0, hcfg, by simp, by simp⟩, by simp⟩
  · simp only [hr, if_false]
    cases hp : env.pipe with
    | some e =>
      exact ⟨⟨0, hcfg, by simp [NsEvent.isHandshake], by simp⟩, by simp⟩
    | none =>
      cases hlog : ns.logger
      · simp only [if_false, Bool.false_eq_true]
        cases hcs : env.cmdStart with
        | error e => exact ⟨⟨0, hcfg, by simp [NsEvent.isHandshake], by simp⟩, by simp⟩
        | ok pid =>
          simp only []
          rcases hadd : cg.AddProcess pid w with ⟨_ | e, w2⟩
          · unfold Namespace.startSend
            rcases hov : ns.overlayFS with _ | ov <;> rcases henc : env.encode with _ | e2 <;>
              simp only [hlog, if_true, if_false, Bool.false_eq_true]
            all_goals
              simp [NsEvent.isHandshake, hcg, List.filter]
              intro p e1 w3 hp2 h
              subst hp2
              rw [hadd] at h
              simp at h
          · simp [NsEvent.isHandshake, hcg, List.filter]
            refine ⟨⟨hcfg, trivial⟩, ?_⟩
            intro p e1 w3 hp2 h
            subst hp2
            rw [hadd] at h
            cases h
            refine ⟨⟨[NsEvent.pipe, NsEvent.cmdStart ns.cloneFlags false, NsEvent.closePipeR], rfl⟩,
              rfl, by simpa using hr, rfl⟩
      · simp only [if_true]
        cases hlp : env.logPipe with
        | some e => exact ⟨⟨0, hcfg, by simp [NsEvent.isHandshake], by simp⟩, by simp⟩
        | none =>
          simp only []
          cases hcs : env.cmdStart with
          | error e => exact ⟨⟨0, hcfg, by simp [NsEvent.isHandshake], by simp⟩, by simp⟩
          | ok pid =>
            simp only []
            rcases hadd : cg.AddProcess pid w with ⟨_ | e, w2⟩
            · unfold Namespace.startSend
              rcases hov : ns.overlayFS with _ | ov <;> rcases henc : env.encode with _ | e2 <;>
                simp only [hlog, if_true, if_false, Bool.false_eq_true]
              all_goals
                simp [NsEvent.isHandshake, hcg, List.filter]
                intro p e1 w3 hp2 h
                subst hp2
                rw [hadd] at h
                simp at h
            · simp [NsEvent.isHandshake, hcg, List.filter]
              refine ⟨⟨hcfg, trivial⟩, ?_⟩
              intro p e1 w3 hp2 h
              subst hp2
              rw [hadd] at h
              cases h
              refine ⟨⟨[NsEvent.pipe, NsEvent.logPipe, NsEvent.cmdStart ns.cloneFlags true,
                NsEvent.closePipeR, NsEvent.closeLogPipeW, NsEvent.goReadLogPipe], rfl⟩, rfl,
                by simpa using hr, rfl⟩

theorem start_adds_process_before_descriptor_witness :
    nsWithFailingCgroup.cgroupsV2 = some failingCgroup
    ∧ NsEvent.addProcess 42
        ∈ (nsWithFailingCgroup.Start ⟨none, none, .ok 42, none⟩ "true" [] ()).trace
    ∧ (∀ cfg, NsEvent.encode cfg
        ∉ (nsWithFailingCgroup.Start ⟨none, none, .ok 42, none⟩ "true" [] ()).trace)
    ∧ (nsWithFailingCgroup.Start ⟨none, none, .ok 42, none⟩ "true" [] ()).err
        = some ("namespace: add process to cgroup: " ++ "write cgroup.procs: permission denied")
    ∧ (nsWithFailingCgroup.Start ⟨none, none, .ok 42, none⟩ "true" [] ()).ns.running = false
    ∧ (nsWithFailingCgroup.Start ⟨none, none, .ok 42, none⟩ "true" [] ()).ns.cleanups
        = nsWithFailingCgroup.cleanups := by
  have hmem : NsEvent.addProcess 42
      ∈ (nsWithFailingCgroup.Start ⟨none, none, .ok 42, none⟩ "true" [] ()).trace := by
    simp [Namespace.Start, nsWithFailingCgroup, NewNamespace, failingCgroup]
  obtain ⟨_, hno, herr, hrun, hcl, _⟩ :=
    (start_adds_process_before_descriptor nsWithFailingCgroup ⟨none, none, .ok 42, none⟩
      "true" [] () failingCgroup rfl).2 42 _ () hmem rfl
  exact ⟨rfl, hmem, hno, herr, hrun, hcl⟩

theorem addCleanup_foldl {W : Type} (fns : List (CleanupFn W)) :
    ∀ ns : Namespace W, (fns.foldl Namespace.AddCleanup ns).cleanups = ns.cleanups ++ fns := by
  induction fns with
  | nil => intro ns; simp
  | cons f fns ih => intro ns; simp [List.foldl_cons, ih, Namespace.AddCleanup]

/-- The cleanup loop entered at `k` calls the first `k` functions from the last
one down to the first one. -/
theorem cleanupLoop_spec {W : Type} (cleanups : List (CleanupFn W)) :
    ∀ (k : Nat) (errs : List String) (w : W) (tr : List NsEvent), k ≤ cleanups.length →
      (cleanupLoop cleanups k errs w tr).2.1 = callAll (cleanups.take k).reverse w
      ∧ (cleanupLoop cleanups k errs w tr).2.2
          = tr ++ ((List.range k).reverse.map NsEvent.cleanup) := by
  intro k
  induction k with
  | zero => intro errs w tr _; simp [cleanupLoop, callAll]
  | succ k ih =>
    intro errs w tr hk
    have hlt : k < cleanups.length := by omega
    have hget : cleanups[k]? = some cleanups[k] := List.getElem?_eq_getElem hlt
    have htake : (cleanups.take (k + 1)).reverse = cleanups[k] :: (cleanups.take k).reverse := by
      rw [List.take_succ, hget]
      simp
    have hrange : (List.range (k + 1)).reverse.map NsEvent.cleanup
        = NsEvent.cleanup k :: (List.range k).reverse.map NsEvent.cleanup := by
      rw [List.range_succ]
      simp
    rw [htake, hrange]
    unfold cleanupLoop
    simp only [hget]
    rcases hf : cleanups[k] w with ⟨_ | e, w2⟩
    · simp only []
      obtain ⟨h1, h2⟩ := ih errs w2 (tr ++ [NsEvent.cleanup k]) (by omega)
      rw [h1, h2]
      simp [callAll, hf]
    · simp only []
      obtain ⟨h1, h2⟩ := ih (errs ++ [e]) w2 (tr ++ [NsEvent.cleanup k]) (by omega)
      rw [h1, h2]
      simp [callAll, hf]

theorem cleanup_spec {W : Type} (ns : Namespace W) (killErr : GoError) (w : W) :
    (ns.Cleanup killErr w).trace.filter NsEvent.isCleanup
        = (List.range ns.cleanups.length).reverse.map NsEvent.cleanup
    ∧ (ns.Cleanup killErr w).world = callAll ns.cleanups.reverse w
    ∧ (ns.Cleanup killErr w).ns.cleanups = [] := by
  have hfilter : ∀ n : Nat,
      ((List.range n).reverse.map NsEvent.cleanup).filter NsEvent.isCleanup
        = (List.range n).reverse.map NsEvent.cleanup := by
    intro n
    rw [List.filter_eq_self]
    intro a ha
    obtain ⟨i, _, rfl⟩ := List.mem_map.mp ha
    rfl
  have h1 := fun errs w tr =>
    (cleanupLoop_spec ns.cleanups ns.cleanups.length errs w tr (le_refl _)).1
  have h2 := fun errs w tr =>
    (cleanupLoop_spec ns.cleanups ns.cleanups.length errs w tr (le_refl _)).2
  unfold Namespace.Cleanup
  cases hlog : ns.logger <;> cases hrun : ns.running <;> cases hcmd : ns.cmd <;>
    cases hdone : ns.done <;> cases killErr <;>
    simp only [Bool.and_true, Bool.and_false, Bool.false_eq_true, if_true, if_false,
      Bool.and_self]
  all_goals
    split <;>
      simp [h1, h2, List.take_length, List.filter_append, hfilter, List.filter,
        NsEvent.isCleanup]

/-- C10: after callbacks `f1, ..., fn` were registered with `AddCleanup`, one call
of `Cleanup` calls each of them exactly once, in the order `fn, ..., f1` and
whatever errors they return, and clears the list: a second call of `Cleanup`
calls none of them. -/
theorem cleanup_calls_callbacks_in_reverse {W : Type} (ns0 : Namespace W)
    (fns : List (CleanupFn W)) (killErr killErr2 : GoError) (w : W)
    (hfresh : ns0.cleanups = []) :
    let first := (fns.foldl Namespace.AddCleanup ns0).Cleanup killErr w
    let second := first.ns.Cleanup killErr2 first.world
    first.trace.filter NsEvent.isCleanup = (List.range fns.length).reverse.map NsEvent.cleanup
    ∧ first.world = callAll fns.reverse w
    ∧ first.ns.cleanups = []
    ∧ second.trace.filter NsEvent.isCleanup = []
    ∧ second.world = first.world := by
  intro first second
  obtain ⟨h1, h2, h3⟩ := cleanup_spec (fns.foldl Namespace.AddCleanup ns0) killErr w
  obtain ⟨g1, g2, _⟩ := cleanup_spec first.ns killErr2 first.world
  rw [addCleanup_foldl, hfresh, List.nil_append] at h1 h2
  refine ⟨h1, h2, h3, ?_, ?_⟩
  · rw [g1, h3]
    rfl
  · rw [g2, h3]
    rfl

/-! ## Properties of the init pipeline -/

theorem failuresLogged_append :
    ∀ (a b : List InitEvent), failuresLogged a → failuresLogged b → failuresLogged (a ++ b) := by
  intro a
  induction a with
  | nil => intro b _ hb; simpa using hb
  | cons ev rest ih =>
    intro b ha hb
    cases rest with
    | nil =>
      cases b with
      | nil => simpa using ha
      | cons n r =>
        simp only [failuresLogged] at ha
        simp only [List.cons_append, List.nil_append, failuresLogged]
        exact ⟨fun h => absurd h (by rw [ha]; decide), hb⟩
    | cons next rest2 =>
      simp only [failuresLogged] at ha
      simp only [List.cons_append, failuresLogged]
      exact ⟨ha.1, ih b ha.2 hb⟩

theorem Logged_append (a b : List InitEvent) (ha : Logged a) (hb : Logged b) :
    Logged (a ++ b) := by
  obtain ⟨a1, a2, a3⟩ := ha
  obtain ⟨b1, b2, b3⟩ := hb
  refine ⟨failuresLogged_append a b a1 b1, ?_, ?_⟩
  · simp [List.filter_append, a2, b2]
  · intro ev hev
    rcases List.mem_append.mp hev with h | h
    · exact a3 ev h
    · exact b3 ev h

theorem Quiet_append (a b : List InitEvent) (ha : Quiet a) (hb : Quiet b) : Quiet (a ++ b) := by
  unfold Quiet at *
  simp [List.any_append, ha.1, ha.2, hb.1, hb.2]

theorem Logged_nil : Logged [] := by
  simp [Logged, failuresLogged]

theorem stepMountPrivate_ok (env : InitEnv) (logPipe : Bool) :
    Logged (stepMountPrivate env logPipe) ∧ Quiet (stepMountPrivate env logPipe) := by
  unfold stepMountPrivate
  cases env.mountPrivate <;>
    simp [Logged, Quiet, failuresLogged, writeInitLog, InitEvent.isLog, InitEvent.isWarnLog,
      InitEvent.isNonFatalFailure, InitCall.nonFatal, InitEvent.isExec,
      InitEvent.isApplySeccomp, List.filter]

theorem stepMountProc_ok (env : InitEnv) (logPipe : Bool) (cfg : initConfig) :
    Logged (stepMountProc env logPipe cfg) ∧ Quiet (stepMountProc env logPipe cfg) := by
  unfold stepMountProc mountProc
  cases cfg.MountProc <;> cases env.mountProcFs <;>
    simp [Logged, Quiet, failuresLogged, writeInitLog, InitEvent.isLog, InitEvent.isWarnLog,
      InitEvent.isNonFatalFailure, InitCall.nonFatal, InitEvent.isExec,
      InitEvent.isApplySeccomp, List.filter]

theorem stepHostname_ok (env : InitEnv) (logPipe : Bool) (cfg : initConfig) :
    Logged (stepHostname env logPipe cfg) ∧ Quiet (stepHostname env logPipe cfg) := by
  unfold stepHostname
  by_cases hh : cfg.Hostname = "" <;> cases env.sethostname <;>
    simp [hh, Logged, Quiet, failuresLogged, writeInitLog, InitEvent.isLog, InitEvent.isWarnLog,
      InitEvent.isNonFatalFailure, InitCall.nonFatal, InitEvent.isExec,
      InitEvent.isApplySeccomp, List.filter]

theorem stepLoopback_ok (env : InitEnv) (logPipe : Bool) (cfg : initConfig) :
    Logged (stepLoopback env logPipe cfg) ∧ Quiet (stepLoopback env logPipe cfg) := by
  unfold stepLoopback setupLoopback
  cases cfg.SetupLoopback <;> cases env.ipLink <;>
    simp [Logged, Quiet, failuresLogged, writeInitLog, InitEvent.isLog, InitEvent.isWarnLog,
      InitEvent.isNonFatalFailure, InitCall.nonFatal, InitEvent.isExec,
      InitEvent.isApplySeccomp, List.filter]

theorem mountOverlay_ok (env : InitEnv) (ov : overlayInitConfig) :
    Logged (mountOverlay env ov).2 ∧ Quiet (mountOverlay env ov).2 := by
  unfold mountOverlay
  cases env.mkdirAll <;> cases env.mountOverlayFs <;>
    simp [Logged, Quiet, failuresLogged, InitEvent.isLog, InitEvent.isWarnLog,
      InitEvent.isNonFatalFailure, InitCall.nonFatal, InitEvent.isExec,
      InitEvent.isApplySeccomp, List.filter]

set_option maxHeartbeats 4000000 in
/-- Steps 7 to 10 make a stretch without log records and without `applySeccomp`,
with `syscall.Exec` exactly under `execConditions`. -/
theorem nsInitExec_spec (env : InitEnv) (logPipe : Bool) (cfg : initConfig) :
    Logged (nsInitExec env logPipe cfg).trace
      ∧ (nsInitExec env logPipe cfg).trace.any InitEvent.isApplySeccomp = false
      ∧ ((nsInitExec env logPipe cfg).trace.any InitEvent.isExec = true
          ↔ execConditions env cfg) := by
  unfold nsInitExec execConditions
  by_cases hw : cfg.WorkDir = "" <;> by_cases hc : cfg.Command = "" <;> cases logPipe <;>
    rcases hch : env.chdir with _ | e1 <;> rcases hlp : env.lookPath with e2 | binary <;>
    rcases hex : env.exec with _ | e3 <;>
    simp [hw, hc, Logged, failuresLogged, InitEvent.isLog, InitEvent.isWarnLog,
      InitEvent.isNonFatalFailure, InitCall.nonFatal, InitEvent.isExec,
      InitEvent.isApplySeccomp, List.filter]

theorem Logged_closeInitPipe : Logged [InitEvent.mk .closeInitPipe none] := by
  simp [Logged, failuresLogged, InitEvent.isLog, InitEvent.isNonFatalFailure,
    InitCall.nonFatal, List.filter]

/-- Steps 2 to 10: every stretch of the trace is `Logged`, `applySeccomp` is never
called, and `syscall.Exec` is reached exactly when the overlay mount (if any)
succeeds and `execConditions` hold. -/
theorem nsInitSteps_spec (env : InitEnv) (logPipe : Bool) (cfg : initConfig) :
    Logged (nsInitSteps env logPipe cfg).trace
      ∧ (nsInitSteps env logPipe cfg).trace.any InitEvent.isApplySeccomp = false
      ∧ (reachesExec (nsInitSteps env logPipe cfg) = true
          ↔ (∀ ov, cfg.Overlay = some ov → (mountOverlay env ov).1 = none)
            ∧ execConditions env cfg) := by
  obtain ⟨p1, p2⟩ := stepMountPrivate_ok env logPipe
  obtain ⟨q1, q2⟩ := stepMountProc_ok env logPipe cfg
  obtain ⟨r1, r2⟩ := stepHostname_ok env logPipe cfg
  obtain ⟨s1, s2⟩ := stepLoopback_ok env logPipe cfg
  obtain ⟨x1, x2, x3⟩ := nsInitExec_spec env logPipe cfg
  have hmain : ∀ ovTrace : List InitEvent, Logged ovTrace → Quiet ovTrace →
      Logged (stepMountPrivate env logPipe ++ ovTrace ++ stepMountProc env logPipe cfg
          ++ stepHostname env logPipe cfg ++ stepLoopback env logPipe cfg
          ++ (nsInitExec env logPipe cfg).trace)
      ∧ (stepMountPrivate env logPipe ++ ovTrace ++ stepMountProc env logPipe cfg
          ++ stepHostname env logPipe cfg ++ stepLoopback env logPipe cfg
          ++ (nsInitExec env logPipe cfg).trace).any InitEvent.isApplySeccomp = false
      ∧ ((stepMountPrivate env logPipe ++ ovTrace ++ stepMountProc env logPipe cfg
          ++ stepHostname env logPipe cfg ++ stepLoopback env logPipe cfg
          ++ (nsInitExec env logPipe cfg).trace).any InitEvent.isExec = true
          ↔ execConditions env cfg) := by
    intro ovTrace o1 o2
    have hq := Quiet_append _ _ (Quiet_append _ _ (Quiet_append _ _ (Quiet_append _ _ p2 o2) q2)
      r2) s2
    refine ⟨Logged_append _ _ (Logged_append _ _ (Logged_append _ _ (Logged_append _ _
      (Logged_append _ _ p1 o1) q1) r1) s1) x1, ?_, ?_⟩
    · rw [List.any_append, hq.2, x2]
      rfl
    · rw [List.any_append, hq.1, Bool.false_or]
      exact x3
  unfold nsInitSteps reachesExec
  cases hov : cfg.Overlay with
  | none =>
    have h := hmain [] Logged_nil (by simp [Quiet])
    simp only [List.append_nil] at h ⊢
    refine ⟨h.1, h.2.1, ?_⟩
    rw [h.2.2]
    simp
  | some ov =>
    obtain ⟨o1, o2⟩ := mountOverlay_ok env ov
    simp only []
    rcases hm : mountOverlay env ov with ⟨_ | e, t⟩
    · rw [hm] at o1 o2
      have h := hmain t o1 o2
      simp only []
      refine ⟨h.1, h.2.1, ?_⟩
      rw [h.2.2]
      simp [hm]
    · rw [hm] at o1 o2
      have hq := Quiet_append _ _ p2 o2
      simp only []
      refine ⟨Logged_append _ _ (Logged_append _ _ p1 o1) Logged_closeInitPipe, ?_, ?_⟩
      · rw [List.any_append, hq.2]
        rfl
      · rw [List.any_append, hq.1]
        simp [InitEvent.isExec, hm]

/-- C9: once `nsInit` has decoded its init descriptor `cfg`, it reaches the exec
of the user command if and only if the overlay mount succeeds (when an overlay
spec is present), chdir succeeds (when `work_dir` is set), the command is not
empty and is found in PATH; the outcomes of the MS_PRIVATE remount, the `/proc`
remount, sethostname and the loopback setup do not change whether exec is
reached; each failure of one of these four is followed by a warn-level init log
record, there are as many log records as such failures and all are at warn
level. -/
theorem nsInit_reaches_exec_iff (env : InitEnv) (fd : Int) (cfg : initConfig)
    (hpipe : env.getenvInitPipe ≠ "") (hatoi : env.atoi env.getenvInitPipe = .ok fd)
    (hfd : 0 ≤ fd) (hdec : env.decode = .ok cfg) :
    (reachesExec (nsInit env) = true
        ↔ (∀ ov, cfg.Overlay = some ov → (mountOverlay env ov).1 = none)
          ∧ (cfg.WorkDir ≠ "" → env.chdir = none)
          ∧ cfg.Command ≠ ""
          ∧ ∃ binary, env.lookPath = .ok binary)
    ∧ (∀ (mp mproc sh : GoError) (lo : Option (String × String)),
        reachesExec (nsInit (env.withNonFatal mp mproc sh lo)) = reachesExec (nsInit env))
    ∧ failuresLogged (nsInit env).trace
    ∧ ((nsInit env).trace.filter InitEvent.isLog).length
        = ((nsInit env).trace.filter InitEvent.isNonFatalFailure).length
    ∧ ∀ ev ∈ (nsInit env).trace, ev.isLog = true → ev.isWarnLog = true := by
  have hshape : ∀ env2 : InitEnv, env2.getenvInitPipe = env.getenvInitPipe →
      env2.atoi = env.atoi → env2.decode = env.decode →
      ∃ logPipe, nsInit env2 = nsInitSteps env2 logPipe cfg := by
    intro env2 h1 h2 h3
    unfold nsInit
    simp only [h1, h2, h3, hpipe, hatoi, hdec, if_false]
    have hneg : ¬ fd < 0 := by omega
    simp only [hneg, if_false]
    exact ⟨_, rfl⟩
  obtain ⟨lp, hlp⟩ := hshape env rfl rfl rfl
  obtain ⟨⟨l1, l2, l3⟩, _, hreach⟩ := nsInitSteps_spec env lp cfg
  have hiff : reachesExec (nsInit env) = true
      ↔ (∀ ov, cfg.Overlay = some ov → (mountOverlay env ov).1 = none)
        ∧ (cfg.WorkDir ≠ "" → env.chdir = none)
        ∧ cfg.Command ≠ ""
        ∧ ∃ binary, env.lookPath = .ok binary := by
    rw [hlp, hreach]
    rfl
  refine ⟨hiff, ?_, ?_, ?_, ?_⟩
  · intro mp mproc sh lo
    obtain ⟨lp2, hlp2⟩ := hshape (env.withNonFatal mp mproc sh lo) rfl rfl rfl
    obtain ⟨_, _, hreach2⟩ := nsInitSteps_spec (env.withNonFatal mp mproc sh lo) lp2 cfg
    rw [Bool.eq_iff_iff, hiff, hlp2, hreach2]
    rfl
  · rw [hlp]
    exact l1
  · rw [hlp]
    exact l2
  · rw [hlp]
    exact l3

theorem nsInit_reaches_exec_iff_witness :
    mountTestEnvWarn.getenvInitPipe ≠ ""
    ∧ mountTestEnvWarn.atoi mountTestEnvWarn.getenvInitPipe = .ok 3
    ∧ (0 : Int) ≤ 3
    ∧ mountTestEnvWarn.decode = .ok mountTestConfig
    ∧ reachesExec (nsInit mountTestEnvWarn) = true
    ∧ reachesExec (nsInit (mountTestEnvWarn.withNonFatal none none none none)) = true
    ∧ ((nsInit mountTestEnvWarn).trace.filter InitEvent.isNonFatalFailure).length = 4
    ∧ ((nsInit mountTestEnvWarn).trace.filter InitEvent.isLog).length = 4 := by
  have h := nsInit_reaches_exec_iff mountTestEnvWarn 3 mountTestConfig (by decide) rfl
    (by decide) rfl
  have hreach : reachesExec (nsInit mountTestEnvWarn) = true :=
    h.1.mpr ⟨fun ov hov => (by simp [mountTestConfig] at hov), fun hw => absurd rfl hw,
      (by decide), ⟨_, rfl⟩⟩
  have hfail : ((nsInit mountTestEnvWarn).trace.filter InitEvent.isNonFatalFailure).length = 4 := by
    decide
  refine ⟨by decide, rfl, by decide, rfl, hreach, ?_, hfail, ?_⟩
  · rw [h.2.1]
    exact hreach
  · rw [h.2.2.2.1]
    exact hfail

/-- C8 fails on the code: `nsInit` never calls `applySeccomp`, whatever it is
given; on the descriptor of the command `sh -c 'exec mount -t tmpfs none /tmp'`
it goes from the loopback step straight to the lookup and the exec of `sh`. -/
theorem nsInit_never_applies_seccomp :
    (∀ env : InitEnv, (nsInit env).trace.any InitEvent.isApplySeccomp = false)
    ∧ (nsInit mountTestEnv).result = .execed
    ∧ (nsInit mountTestEnv).trace.map InitEvent.call
        = [ .mountPrivate, .unmountProc, .mountProcFs, .sethostname "sandbox",
            .ipLinkSetLoUp, .lookPath "sh",
            .exec "/usr/bin/sh" ["sh", "-c", "exec mount -t tmpfs none /tmp"]
              ["PATH=/usr/bin:/bin"] ] := by
  refine ⟨?_, by decide, by decide⟩
  intro env
  unfold nsInit
  by_cases h1 : env.getenvInitPipe = ""
  · simp [h1]
  · simp only [h1, if_false]
    cases h2 : env.atoi env.getenvInitPipe with
    | error e => simp
    | ok fd =>
      by_cases h3 : fd < 0
      · simp [h3]
      · simp only [h3, if_false]
        cases h4 : env.decode with
        | error e => simp [InitEvent.isApplySeccomp]
        | ok cfg => exact (nsInitSteps_spec env _ cfg).2.1

theorem cleanup_calls_callbacks_in_reverse_witness :
    (NewNamespace ⟨true, false, true, false, false, "", true, false⟩
        : Namespace (List Nat)).cleanups = []
    ∧ ((orderHooks.foldl Namespace.AddCleanup
          (NewNamespace ⟨true, false, true, false, false, "", true, false⟩)).Cleanup
          none []).world = [3, 2, 1]
    ∧ ((orderHooks.foldl Namespace.AddCleanup
          (NewNamespace ⟨true, false, true, false, false, "", true, false⟩)).Cleanup
          none []).trace.filter NsEvent.isCleanup
        = [NsEvent.cleanup 2, NsEvent.cleanup 1, NsEvent.cleanup 0] := by
  have h := cleanup_calls_callbacks_in_reverse
    (NewNamespace ⟨true, false, true, false, false, "", true, false⟩ : Namespace (List Nat))
    orderHooks none none [] rfl
  exact ⟨rfl, h.2.1, h.1⟩

/-! ## Properties of the orchestrator: lifecycle -/

/-- A `Start` that returns nil was entered while not running, spawned a child
and leaves the orchestrator running, with the child recorded and the cleanups of
the attached managers registered. -/
theorem start_success {W : Type} (ns : Namespace W) (env : StartEnv) (command : String)
    (args : List String) (w : W) (hok : (ns.Start env command args w).err = none) :
    ∃ pid, env.cmdStart = .ok pid ∧ ns.running = false
      ∧ NsEvent.cmdStart ns.cloneFlags ns.logger ∈ (ns.Start env command args w).trace
      ∧ (ns.Start env command args w).ns
          = { ns with cmd := true, pid := pid, running := true, done := true,
                      cleanups := ns.cleanups ++ autoCleanups ns } := by
  have hr2 : ns.running = false := by
    by_contra h
    have h2 : ns.running = true := by simpa using h
    simp [Namespace.Start, h2] at hok
  rcases hcs : env.cmdStart with e | pid
  · exfalso
    unfold Namespace.Start at hok
    simp only [hr2, hcs, Bool.false_eq_true, if_false] at hok
    rcases hp : env.pipe with _ | e2 <;> cases hlg : ns.logger <;>
      rcases hlp : env.logPipe with _ | e3 <;> simp [hp, hlg, hlp] at hok
  refine ⟨pid, rfl, hr2, ?_⟩
  have hsend : ∀ (w2 : W) (tr : List NsEvent),
      (ns.startSend env command args pid w2 tr).err = none →
      NsEvent.cmdStart ns.cloneFlags ns.logger ∈ tr →
      NsEvent.cmdStart ns.cloneFlags ns.logger ∈ (ns.startSend env command args pid w2 tr).trace
      ∧ (ns.startSend env command args pid w2 tr).ns
        = { ns with cmd := true, pid := pid, running := true, done := true,
                    cleanups := ns.cleanups ++ autoCleanups ns } := by
    intro w2 tr h hmem
    unfold Namespace.startSend at h ⊢
    rcases henc : env.encode with _ | e
    swap
    · simp [henc] at h
    rcases hov : ns.overlayFS with _ | ov <;> rcases hcg : ns.cgroupsV2 with _ | cg <;>
      cases hlg : ns.logger <;> rw [hlg] at hmem <;> simp [autoCleanups, hov, hcg, hmem]
  unfold Namespace.Start at hok ⊢
  simp only [hr2, hcs, Bool.false_eq_true, if_false] at hok ⊢
  rcases hp : env.pipe with _ | e
  swap
  · simp [hp] at hok
  simp only [hp] at hok ⊢
  cases hlg : ns.logger
  · simp only [hlg, Bool.false_eq_true, if_false] at hok ⊢
    rcases hcg : ns.cgroupsV2 with _ | cg
    · simp only [hcg] at hok ⊢
      simpa [hlg, hcg] using hsend _ _ hok (by simp [hlg])
    · simp only [hcg] at hok ⊢
      rcases hadd : cg.AddProcess pid w with ⟨_ | e, w2⟩
      · simp only [hadd] at hok ⊢
        simpa [hlg, hcg] using hsend _ _ hok (by simp [hlg])
      · simp [hadd] at hok
  · simp only [hlg, if_true] at hok ⊢
    rcases hlp : env.logPipe with _ | e
    swap
    · simp [hlp] at hok
    simp only [hlp] at hok ⊢
    rcases hcg : ns.cgroupsV2 with _ | cg
    · simp only [hcg] at hok ⊢
      simpa [hlg, hcg] using hsend _ _ hok (by simp [hlg])
    · simp only [hcg] at hok ⊢
      rcases hadd : cg.AddProcess pid w with ⟨_ | e, w2⟩
      · simp only [hadd] at hok ⊢
        simpa [hlg, hcg] using hsend _ _ hok (by simp [hlg])
      · simp [hadd] at hok

/-- C11: after a successful `Start` with an overlay manager and a cgroup manager
attached and no other cleanup registered, the child is running and the cleanup
list is the overlay's `Cleanup` followed by the cgroup's; a call of `Cleanup`
then kills and reaps the child, calls the cleanup at index 1 (the cgroup's) and
after it the cleanup at index 0 (the overlay's), and the outside state is the
one the cgroup's `Cleanup` followed by the overlay's leaves. -/
theorem cleanup_order_after_start {W : Type} (ns : Namespace W) (env : StartEnv)
    (command : String) (args : List String) (w w2 : W) (ov : OverlayFSRef W)
    (cg : CgroupsV2Ref W) (killErr : GoError)
    (hov : ns.overlayFS = some ov) (hcg : ns.cgroupsV2 = some cg) (hcl : ns.cleanups = [])
    (hok : (ns.Start env command args w).err = none) :
    (ns.Start env command args w).ns.running = true
    ∧ (ns.Start env command args w).ns.cleanups = [ov.Cleanup, cg.Cleanup]
    ∧ ((ns.Start env command args w).ns.Cleanup killErr w2).trace
        = (if ns.logger then [NsEvent.logInfo "namespace cleanup"] else [])
          ++ [NsEvent.kill, NsEvent.wait, NsEvent.closeDone, NsEvent.cleanup 1,
              NsEvent.cleanup 0]
    ∧ ((ns.Start env command args w).ns.Cleanup killErr w2).world
        = (ov.Cleanup (cg.Cleanup w2).2).2
    ∧ ((ns.Start env command args w).ns.Cleanup killErr w2).ns.running = false := by
  obtain ⟨pid, _, _, _, hns⟩ := start_success ns env command args w hok
  rw [hns]
  unfold Namespace.Cleanup
  simp only [autoCleanups, hov, hcg, hcl, List.nil_append, List.singleton_append,
    Bool.and_self, if_true, List.length_cons, List.length_nil]
  rcases h1 : cg.Cleanup w2 with ⟨_ | e1, w3⟩ <;> rcases h2 : ov.Cleanup w3 with ⟨_ | e2, w4⟩ <;>
    cases killErr <;> cases hlg : ns.logger <;> simp [cleanupLoop, h1, h2]

theorem cleanup_order_after_start_witness :
    nsWithManagers.overlayFS = some recordingOverlay
    ∧ nsWithManagers.cgroupsV2 = some recordingCgroup
    ∧ nsWithManagers.cleanups = []
    ∧ (nsWithManagers.Start ⟨none, none, .ok 42, none⟩ "sleep" ["60"] []).err = none
    ∧ ((nsWithManagers.Start ⟨none, none, .ok 42, none⟩ "sleep" ["60"] []).ns.Cleanup
          none []).trace
        = [NsEvent.kill, NsEvent.wait, NsEvent.closeDone, NsEvent.cleanup 1, NsEvent.cleanup 0]
    ∧ ((nsWithManagers.Start ⟨none, none, .ok 42, none⟩ "sleep" ["60"] []).ns.Cleanup
          none []).world
        = ["cgroup cleanup", "overlay cleanup"] := by
  have h := cleanup_order_after_start nsWithManagers ⟨none, none, .ok 42, none⟩ "sleep" ["60"]
    [] [] recordingOverlay recordingCgroup none rfl rfl rfl rfl
  exact ⟨rfl, rfl, rfl, rfl, h.2.2.1, h.2.2.2.1⟩

/-- C12: a `Start` that returns nil leaves the orchestrator running; and on every
orchestrator that is running, `Start` returns the error `process already
running`, creates no pipe and spawns nothing (it causes no event at all), and
leaves the orchestrator, with its recorded child, pid, running flag and cleanup
list, and the outside state unchanged. -/
theorem start_while_running {W : Type} (ns : Namespace W) (env : StartEnv) (command : String)
    (args : List String) (w : W) :
    ((ns.Start env command args w).err = none → (ns.Start env command args w).ns.running = true)
    ∧ (ns.running = true →
        (ns.Start env command args w).err
            = some ("namespace: process already running (pid=" ++ toString ns.pid ++ ")")
        ∧ (ns.Start env command args w).trace = []
        ∧ (ns.Start env command args w).ns = ns
        ∧ (ns.Start env command args w).world = w) := by
  constructor
  · intro hok
    obtain ⟨pid, _, _, _, hns⟩ := start_success ns env command args w hok
    rw [hns]
  · intro hr
    simp [Namespace.Start, hr]

theorem start_while_running_witness :
    ((NewNamespace ⟨true, false, true, false, false, "", true, false⟩ : Namespace Unit).Start
        ⟨none, none, .ok 7, none⟩ "sleep" ["60"] ()).err = none
    ∧ (((NewNamespace ⟨true, false, true, false, false, "", true, false⟩ : Namespace Unit).Start
        ⟨none, none, .ok 7, none⟩ "sleep" ["60"] ()).ns.Start
          ⟨none, none, .ok 8, none⟩ "echo" ["hello"] ()).err
        = some ("namespace: process already running (pid=" ++ toString (7 : Int) ++ ")")
    ∧ (((NewNamespace ⟨true, false, true, false, false, "", true, false⟩ : Namespace Unit).Start
        ⟨none, none, .ok 7, none⟩ "sleep" ["60"] ()).ns.Start
          ⟨none, none, .ok 8, none⟩ "echo" ["hello"] ()).trace = [] := by
  have h1 := (start_while_running
    (NewNamespace ⟨true, false, true, false, false, "", true, false⟩ : Namespace Unit)
    ⟨none, none, .ok 7, none⟩ "sleep" ["60"] ()).1 rfl
  have h2 := (start_while_running
    ((NewNamespace ⟨true, false, true, false, false, "", true, false⟩ : Namespace Unit).Start
        ⟨none, none, .ok 7, none⟩ "sleep" ["60"] ()).ns
    ⟨none, none, .ok 8, none⟩ "echo" ["hello"] ()).2 h1
  exact ⟨rfl, h2.1, h2.2.1⟩

/-- C13 as stated fails: after a `Start` that succeeded and a `Wait` that
returned, a further `Start` succeeds and spawns a second child. -/
theorem start_after_exit_counterexample :
    ¬ (∀ (ns : Namespace Unit) (env env2 : StartEnv) (command : String) (args : List String)
        (waited : CmdWaitResult),
        (ns.Start env command args ()).err = none →
        (((ns.Start env command args ()).ns.Wait waited ()).ns.Start env2 command args ()).err
            ≠ none
          ∧ ∀ ev ∈ (((ns.Start env command args ()).ns.Wait waited ()).ns.Start env2 command
              args ()).trace, ev ≠ NsEvent.cmdStart ns.cloneFlags ns.logger) := by
  intro h
  have h1 := h minimalNs (startOk 7) (startOk 8) "true" [] .success rfl
  exact h1.1 rfl

theorem startSend_trace {W : Type} (ns : Namespace W) (env : StartEnv) (command : String)
    (args : List String) (pid : Int) (w : W) (tr : List NsEvent) :
    ∃ tail, (ns.startSend env command args pid w tr).trace = tr ++ tail := by
  unfold Namespace.startSend
  rcases henc : env.encode with _ | e <;> rcases hov : ns.overlayFS with _ | ov <;>
    rcases hcg : ns.cgroupsV2 with _ | cg <;> cases hlg : ns.logger <;>
    simp only [if_true, if_false, Bool.false_eq_true, List.append_assoc] <;>
    exact ⟨_, rfl⟩

/-- A `Start` entered while not running begins by creating the config pipe. -/
theorem start_head_pipe {W : Type} (ns : Namespace W) (env : StartEnv) (command : String)
    (args : List String) (w : W) (hr : ns.running = false) :
    (ns.Start env command args w).trace.head? = some NsEvent.pipe := by
  have hsend : ∀ (pid : Int) (w2 : W) (tr : List NsEvent),
      (ns.startSend env command args pid w2 (NsEvent.pipe :: tr)).trace.head?
        = some NsEvent.pipe := by
    intro pid w2 tr
    obtain ⟨tail, ht⟩ := startSend_trace ns env command args pid w2 (NsEvent.pipe :: tr)
    rw [ht]
    rfl
  unfold Namespace.Start
  simp only [hr, Bool.false_eq_true, if_false]
  rcases hp : env.pipe with _ | e
  swap
  · simp
  cases hlg : ns.logger <;> rcases hlp : env.logPipe with _ | e2 <;>
    rcases hcs : env.cmdStart with e3 | pid <;> rcases hcg : ns.cgroupsV2 with _ | cg <;>
    simp only [if_true, if_false, Bool.false_eq_true, List.singleton_append, List.cons_append,
      List.nil_append, List.head?_cons] <;>
    first
      | exact hsend _ _ _
      | (rcases hadd : cg.AddProcess pid w with ⟨_ | e4, w2⟩
         · exact hsend _ _ _
         · rfl)

/-- A `Start` entered while not running, all of whose calls succeed, spawns a
child and returns nil. -/
theorem start_all_ok {W : Type} (ns : Namespace W) (command : String) (args : List String)
    (w : W) (pid : Int) (hr : ns.running = false)
    (hadd : ∀ cg, ns.cgroupsV2 = some cg → (cg.AddProcess pid w).1 = none) :
    (ns.Start (startOk pid) command args w).err = none
    ∧ NsEvent.cmdStart ns.cloneFlags ns.logger
        ∈ (ns.Start (startOk pid) command args w).trace := by
  unfold Namespace.Start
  simp only [hr, Bool.false_eq_true, if_false, startOk, ite_self]
  rcases hcg : ns.cgroupsV2 with _ | cg
  · unfold Namespace.startSend
    rcases hov : ns.overlayFS with _ | ov <;> cases hlg : ns.logger <;> simp [hcg]
  · have h1 := hadd cg hcg
    rcases hres : cg.AddProcess pid w with ⟨r, w2⟩
    rw [hres] at h1
    simp only [] at h1
    subst h1
    unfold Namespace.startSend
    rcases hov : ns.overlayFS with _ | ov <;> cases hlg : ns.logger <;> simp [hcg, hres]

/-- A `Cleanup` leaves the running flag clear whenever a command is recorded. -/
theorem cleanup_clears_running {W : Type} (ns : Namespace W) (killErr : GoError) (w : W)
    (hcmd : ns.cmd = true) : (ns.Cleanup killErr w).ns.running = false := by
  unfold Namespace.Cleanup
  cases hr : ns.running <;> simp only [hcmd, Bool.and_self, Bool.false_and, if_true, if_false,
    Bool.false_eq_true] <;> split_ifs <;> simp [hr]

/-- C13, amended: `Start` returns the error `process already running` and does
nothing exactly when the running flag is set, that is in the state RUNNING; when
the flag is clear it starts by creating the config pipe and, if its calls
succeed, spawns a child and returns nil. After a successful `Start`, both a
`Wait` that returns and a `Cleanup` clear the flag, so a further `Start` is not
refused. -/
theorem start_refused_iff_running {W : Type} (ns : Namespace W) (env : StartEnv)
    (command : String) (args : List String) (w : W) :
    (ns.running = true →
        (ns.Start env command args w).err
            = some ("namespace: process already running (pid=" ++ toString ns.pid ++ ")")
        ∧ (ns.Start env command args w).trace = [])
    ∧ (ns.running = false →
        (ns.Start env command args w).trace.head? = some NsEvent.pipe
        ∧ ∀ pid, (∀ cg, ns.cgroupsV2 = some cg → (cg.AddProcess pid w).1 = none) →
            (ns.Start (startOk pid) command args w).err = none
            ∧ NsEvent.cmdStart ns.cloneFlags ns.logger
                ∈ (ns.Start (startOk pid) command args w).trace)
    ∧ ((ns.Start env command args w).err = none →
        (∀ (waited : CmdWaitResult) (w2 : W),
            ((ns.Start env command args w).ns.Wait waited w2).ns.running = false)
        ∧ ∀ (killErr : GoError) (w2 : W),
            ((ns.Start env command args w).ns.Cleanup killErr w2).ns.running = false) := by
  refine ⟨?_, ?_, ?_⟩
  · intro hr
    simp [Namespace.Start, hr]
  · intro hr
    exact ⟨start_head_pipe ns env command args w hr,
      fun pid hadd => start_all_ok ns command args w pid hr hadd⟩
  · intro hok
    obtain ⟨pid, _, _, _, hns⟩ := start_success ns env command args w hok
    rw [hns]
    constructor
    · intro waited w2
      cases waited <;> simp [Namespace.Wait]
    · intro killErr w2
      exact cleanup_clears_running _ killErr w2 rfl

theorem start_refused_iff_running_witness :
    (minimalNs.Start (startOk 7) "true" [] ()).err = none
    ∧ ((minimalNs.Start (startOk 7) "true" [] ()).ns.Wait .success ()).ns.running = false
    ∧ (((minimalNs.Start (startOk 7) "true" [] ()).ns.Wait .success ()).ns.Start (startOk 8)
          "true" [] ()).err = none
    ∧ NsEvent.cmdStart minimalNs.cloneFlags false
        ∈ (((minimalNs.Start (startOk 7) "true" [] ()).ns.Wait .success ()).ns.Start (startOk 8)
            "true" [] ()).trace := by
  have hrun := ((start_refused_iff_running minimalNs (startOk 7) "true" [] ()).2.2 rfl).1
    .success ()
  have h2 := ((start_refused_iff_running
    ((minimalNs.Start (startOk 7) "true" [] ()).ns.Wait .success ()).ns (startOk 8) "true" []
    ()).2.1 hrun).2 8 (fun cg h => by cases h)
  exact ⟨rfl, hrun, h2.1, h2.2⟩

/-- C14 as stated fails: after a `Wait` that returned a result and no error, a
second `Wait` returns no result and an error. -/
theorem wait_idempotent_counterexample :
    ¬ (∀ (ns : Namespace Unit) (waited waited2 : CmdWaitResult) (r : ExecResult),
        (ns.Wait waited ()).result = some r → (ns.Wait waited ()).err = none →
        ((ns.Wait waited ()).ns.Wait waited2 ()).result = some r
          ∧ ((ns.Wait waited ()).ns.Wait waited2 ()).err = none) := by
  intro h
  have h1 := h (minimalNs.Start (startOk 7) "true" [] ()).ns (.exitError 42) (.exitError 42)
    ⟨42⟩ rfl rfl
  exact absurd h1.2 (by decide)

theorem wait_refused {W : Type} (ns : Namespace W) (waited : CmdWaitResult) (w : W)
    (hr : ns.running = false) :
    (ns.Wait waited w).result = none
    ∧ (ns.Wait waited w).err = some "namespace: no running process"
    ∧ (ns.Wait waited w).trace = []
    ∧ (ns.Wait waited w).ns = ns
    ∧ (ns.Wait waited w).world = w := by
  simp [Namespace.Wait, hr]

theorem waitsAgain_refused {W : Type} (ns : Namespace W) (hr : ns.running = false) :
    ∀ later : List (CmdWaitResult × W), waitsAgain ns later = ns := by
  intro later
  induction later with
  | nil => rfl
  | cons c rest ih =>
    rw [waitsAgain, (wait_refused ns c.1 c.2 hr).2.2.2.1]
    exact ih

/-- C14, amended: after a `Start` that returned nil, the first `Wait` waits on
the child once, closes `done`, clears the running flag and changes nothing else;
it returns exit code 0 when `cmd.Wait()` returns nil, the code of the
`ExitError` when it returns one, and otherwise no result and the error
`namespace: wait: ...`. Every `Wait` after it, however many came before, returns
no result and the error `no running process` without waiting on the child and
without changing the orchestrator or the outside state. -/
theorem second_wait_fails {W : Type} (ns : Namespace W) (env : StartEnv) (command : String)
    (args : List String) (w0 w : W) (waited : CmdWaitResult)
    (hok : (ns.Start env command args w0).err = none) :
    ((ns.Start env command args w0).ns.Wait waited w).trace = [NsEvent.wait, NsEvent.closeDone]
    ∧ ((ns.Start env command args w0).ns.Wait waited w).ns
        = { (ns.Start env command args w0).ns with running := false }
    ∧ ((ns.Start env command args w0).ns.Wait waited w).world = w
    ∧ (waited = .success →
        ((ns.Start env command args w0).ns.Wait waited w).result = some ⟨0⟩
        ∧ ((ns.Start env command args w0).ns.Wait waited w).err = none)
    ∧ (∀ code, waited = .exitError code →
        ((ns.Start env command args w0).ns.Wait waited w).result = some ⟨code⟩
        ∧ ((ns.Start env command args w0).ns.Wait waited w).err = none)
    ∧ (∀ e, waited = .failure e →
        ((ns.Start env command args w0).ns.Wait waited w).result = none
        ∧ ((ns.Start env command args w0).ns.Wait waited w).err
            = some ("namespace: wait: " ++ e))
    ∧ ∀ (later : List (CmdWaitResult × W)) (waited2 : CmdWaitResult) (w2 : W),
        ((waitsAgain ((ns.Start env command args w0).ns.Wait waited w).ns later).Wait
            waited2 w2).result = none
        ∧ ((waitsAgain ((ns.Start env command args w0).ns.Wait waited w).ns later).Wait
            waited2 w2).err = some "namespace: no running process"
        ∧ ((waitsAgain ((ns.Start env command args w0).ns.Wait waited w).ns later).Wait
            waited2 w2).trace = []
        ∧ ((waitsAgain ((ns.Start env command args w0).ns.Wait waited w).ns later).Wait
            waited2 w2).ns = ((ns.Start env command args w0).ns.Wait waited w).ns
        ∧ ((waitsAgain ((ns.Start env command args w0).ns.Wait waited w).ns later).Wait
            waited2 w2).world = w2 := by
  obtain ⟨pid, _, _, _, hns⟩ := start_success ns env command args w0 hok
  have hr : (ns.Start env command args w0).ns.running = true := by rw [hns]
  have hc : (ns.Start env command args w0).ns.cmd = true := by rw [hns]
  have hd : (ns.Start env command args w0).ns.done = true := by rw [hns]
  generalize (ns.Start env command args w0).ns = s at hr hc hd ⊢
  have hrun : (s.Wait waited w).ns.running = false := by
    cases waited <;> simp [Namespace.Wait, hr, hc]
  refine ⟨?_, ?_, ?_, ?_, ?_, ?_, ?_⟩
  · cases waited <;> simp [Namespace.Wait, hr, hc, hd]
  · cases waited <;> simp [Namespace.Wait, hr, hc]
  · cases waited <;> simp [Namespace.Wait, hr, hc]
  · intro h; subst h; simp [Namespace.Wait, hr, hc]
  · intro code h; subst h; simp [Namespace.Wait, hr, hc]
  · intro e h; subst h; simp [Namespace.Wait, hr, hc]
  · intro later waited2 w2
    rw [waitsAgain_refused _ hrun later]
    exact wait_refused _ waited2 w2 hrun

theorem second_wait_fails_witness :
    ((minimalNs.Start (startOk 7) "true" [] ()).ns.Wait (.exitError 42) ()).result
        = some ⟨42⟩
    ∧ ((minimalNs.Start (startOk 7) "true" [] ()).ns.Wait (.exitError 42) ()).err = none
    ∧ (((minimalNs.Start (startOk 7) "true" [] ()).ns.Wait (.exitError 42) ()).ns.Wait
          (.exitError 42) ()).result = none
    ∧ (((minimalNs.Start (startOk 7) "true" [] ()).ns.Wait (.exitError 42) ()).ns.Wait
          (.exitError 42) ()).err = some "namespace: no running process"
    ∧ ((((minimalNs.Start (startOk 7) "true" [] ()).ns.Wait (.exitError 42) ()).ns.Wait
          (.exitError 42) ()).ns.Wait .success ()).err = some "namespace: no running process"
    ∧ ((((minimalNs.Start (startOk 7) "true" [] ()).ns.Wait (.exitError 42) ()).ns.Wait
          (.exitError 42) ()).ns.Wait .success ()).ns
        = ((minimalNs.Start (startOk 7) "true" [] ()).ns.Wait (.exitError 42) ()).ns := by
  have h := second_wait_fails minimalNs (startOk 7) "true" [] () () (.exitError 42) rfl
  have h1 := h.2.2.2.2.1 42 rfl
  have h2 := h.2.2.2.2.2.2 [] (.exitError 42) ()
  have h3 := h.2.2.2.2.2.2 [(.exitError 42, ())] .success ()
  exact ⟨h1.1, h1.2, h2.1, h2.2.1, h3.2.1, h3.2.2.2.1⟩

/-! ## Properties of the managers -/

/-- C15: on a manager whose configuration is enabled and has a negative
CPUQuota, CPUPeriod, MemoryMax or PidsMax, `Setup` returns an error without any
filesystem operation (it causes no event), and changes neither the manager nor
the existing directories; on a manager just made by `NewCgroupsV2`, `ID()` and
`CgroupDir()` are then still empty and the manager is still not set up. -/
theorem cgroups_setup_rejects_negative (cg : CgroupsV2) (env : CgSetupEnv) (dirs : List String)
    (hen : cg.config.Enabled = true)
    (hneg : cg.config.CPUQuota < 0 ∨ cg.config.CPUPeriod < 0 ∨ cg.config.MemoryMax < 0
      ∨ cg.config.PidsMax < 0) :
    (cg.Setup env dirs).err ≠ none
    ∧ (cg.Setup env dirs).trace = []
    ∧ (cg.Setup env dirs).cg = cg
    ∧ (cg.Setup env dirs).dirs = dirs
    ∧ ((NewCgroupsV2 cg.config).Setup env dirs).err ≠ none
    ∧ ((NewCgroupsV2 cg.config).Setup env dirs).trace = []
    ∧ ((NewCgroupsV2 cg.config).Setup env dirs).cg.ID = ""
    ∧ ((NewCgroupsV2 cg.config).Setup env dirs).cg.CgroupDir = ""
    ∧ ((NewCgroupsV2 cg.config).Setup env dirs).cg.setupDone = false := by
  have key : ∀ c : CgroupsV2, c.config = cg.config →
      (c.Setup env dirs).err ≠ none ∧ (c.Setup env dirs).trace = []
      ∧ (c.Setup env dirs).cg = c ∧ (c.Setup env dirs).dirs = dirs := by
    intro c hc
    unfold CgroupsV2.Setup
    rw [hc]
    by_cases h0 : c.setupDone = true
    · simp [h0]
    · simp only [h0, hen, if_false, Bool.not_true, Bool.false_eq_true]
      by_cases h1 : cg.config.CPUQuota < 0
      · simp [h1]
      · by_cases h2 : cg.config.CPUPeriod < 0
        · simp [h1, h2]
        · by_cases h3 : cg.config.MemoryMax < 0
          · simp [h1, h2, h3]
          · have h4 : cg.config.PidsMax < 0 := by
              rcases hneg with h | h | h | h
              · exact absurd h h1
              · exact absurd h h2
              · exact absurd h h3
              · exact h
            simp [h1, h2, h3, h4]
  obtain ⟨a1, a2, a3, a4⟩ := key cg rfl
  obtain ⟨b1, b2, b3, _⟩ := key (NewCgroupsV2 cg.config) rfl
  refine ⟨a1, a2, a3, a4, b1, b2, ?_, ?_, ?_⟩ <;> rw [b3] <;> rfl

theorem cgroups_setup_rejects_negative_witness :
    (NewCgroupsV2 ⟨true, 0, 0, -1, 0, ""⟩).config.Enabled = true
    ∧ ((NewCgroupsV2 ⟨true, 0, 0, -1, 0, ""⟩).Setup ⟨none, none, "1-ab", none, none, none, none,
          none⟩ []).err
        = some ("cgroups: memory max must be non-negative, got " ++ toString (-1 : Int))
    ∧ ((NewCgroupsV2 ⟨true, 0, 0, -1, 0, ""⟩).Setup ⟨none, none, "1-ab", none, none, none, none,
          none⟩ []).trace = []
    ∧ ((NewCgroupsV2 ⟨true, 0, 0, -1, 0, ""⟩).Setup ⟨none, none, "1-ab", none, none, none, none,
          none⟩ []).cg.CgroupDir = "" := by
  have h := cgroups_setup_rejects_negative (NewCgroupsV2 ⟨true, 0, 0, -1, 0, ""⟩)
    ⟨none, none, "1-ab", none, none, none, none, none⟩ [] rfl (Or.inr (Or.inr (Or.inl (by decide))))
  exact ⟨rfl, by decide, h.2.1, h.2.2.2.2.2.2.2.1⟩

theorem writeLimits_ok (cg : CgroupsV2) (env : CgSetupEnv)
    (hok : (cg.writeLimits env).1 = none) :
    (cg.writeLimits env).2
      = (specLimitFiles cg.config).map (fun f =>
          FsEvent.writeFile (filepathJoin cg.cgroupDir f.1) f.2) := by
  have hperiod : (if cg.config.CPUPeriod ≤ 0 then (100000 : Int) else cg.config.CPUPeriod)
      = (if cg.config.CPUPeriod > 0 then cg.config.CPUPeriod else 100000) := by
    split_ifs <;> first | rfl | omega
  unfold CgroupsV2.writeLimits at hok ⊢
  unfold specLimitFiles
  rw [← hperiod]
  by_cases hq : cg.config.CPUQuota > 0 <;> by_cases hm : cg.config.MemoryMax > 0 <;>
    by_cases hp : cg.config.PidsMax > 0 <;>
    rcases h1 : env.writeCpu with _ | e1 <;> rcases h2 : env.writeMemory with _ | e2 <;>
    rcases h3 : env.writePids with _ | e3 <;>
    simp [hq, hm, hp, h1, h2, h3] at hok ⊢

theorem setup_ok_inv (cg : CgroupsV2) (env : CgSetupEnv) (dirs : List String)
    (hok : (cg.Setup env dirs).err = none) :
    (cg.Setup env dirs).trace
        = specSetupEvents cg.config env.id
          ++ (if cg.logger then [FsEvent.logInfo "cgroup setup"] else [])
      ∧ (cg.Setup env dirs).cg
          = { cg with id := env.id,
                      cgroupDir := filepathJoin (cgroupBase cg.config) ("sandbox-" ++ env.id),
                      setupDone := true }
      ∧ (cg.Setup env dirs).dirs
          = filepathJoin (cgroupBase cg.config) ("sandbox-" ++ env.id) :: dirs
      ∧ filepathJoin (cgroupBase cg.config) ("sandbox-" ++ env.id) ∉ dirs
      ∧ cg.setupDone = false := by
  rcases cg with ⟨cfg, lg, id0, dir0, sd⟩
  cases sd
  swap
  · simp [CgroupsV2.Setup] at hok
  have hwl : ∀ l : Bool, _ := fun l => writeLimits_ok
    { config := cfg, logger := l, id := env.id,
      cgroupDir := filepathJoin (cgroupBase cfg) ("sandbox-" ++ env.id), setupDone := false } env
  have hwc : ∀ l : Bool, CgroupsV2.writeLimits
      { config := cfg, logger := l, id := env.id,
        cgroupDir := filepathJoin (cgroupBase cfg) ("sandbox-" ++ env.id), setupDone := false } env
      = CgroupsV2.writeLimits
      { config := cfg, logger := lg, id := env.id,
        cgroupDir := filepathJoin (cgroupBase cfg) ("sandbox-" ++ env.id), setupDone := false } env :=
    fun _ => rfl
  rcases hw : CgroupsV2.writeLimits
    { config := cfg, logger := lg, id := env.id,
      cgroupDir := filepathJoin (cgroupBase cfg) ("sandbox-" ++ env.id), setupDone := false } env
    with ⟨we, wt⟩
  have hwl := hwl lg
  rw [hw] at hwl
  unfold CgroupsV2.Setup at hok ⊢
  unfold specSetupEvents specControllers
  unfold cgroupBase at *
  unfold osMkdir at hok ⊢
  unfold enableControllers at hok ⊢
  simp only [] at hw hwl hok ⊢
  rcases hen : cfg.Enabled with _ | _
  · simp [hen] at hok
  by_cases hq0 : cfg.CPUQuota < 0
  · simp [hen, hq0] at hok
  by_cases hp0 : cfg.CPUPeriod < 0
  · simp [hen, hq0, hp0] at hok
  by_cases hm0 : cfg.MemoryMax < 0
  · simp [hen, hq0, hp0, hm0] at hok
  by_cases hn0 : cfg.PidsMax < 0
  · simp [hen, hq0, hp0, hm0, hn0] at hok
  rcases hst : env.stat with _ | e
  swap
  · simp [hen, hq0, hp0, hm0, hn0, hst] at hok
  rcases hmem : decide (filepathJoin (if cfg.BaseDir = "" then "/sys/fs/cgroup"
      else cfg.BaseDir) ("sandbox-" ++ env.id) ∈ dirs) with _ | _
  swap
  · simp only [decide_eq_true_eq] at hmem
    by_cases hq : cfg.CPUQuota > 0 <;> by_cases hm : cfg.MemoryMax > 0 <;>
      by_cases hn : cfg.PidsMax > 0 <;> rcases hena : env.enable with _ | e <;>
      simp [hen, hq0, hp0, hm0, hn0, hst, hq, hm, hn, hena, hmem] at hok
  simp only [decide_eq_false_iff_not] at hmem
  rcases hmk : env.mkdir with _ | e
  swap
  · by_cases hq : cfg.CPUQuota > 0 <;> by_cases hm : cfg.MemoryMax > 0 <;>
      by_cases hn : cfg.PidsMax > 0 <;> rcases hena : env.enable with _ | e <;>
      simp [hen, hq0, hp0, hm0, hn0, hst, hq, hm, hn, hena, hmem, hmk] at hok
  rcases we with _ | e
  swap
  · by_cases hq : cfg.CPUQuota > 0 <;> by_cases hm : cfg.MemoryMax > 0 <;>
      by_cases hn : cfg.PidsMax > 0 <;> rcases hena : env.enable with _ | e <;>
      simp [hen, hq0, hp0, hm0, hn0, hst, hq, hm, hn, hena, hmem, hmk, hw] at hok
  have hwt := hwl rfl
  simp only [] at hwt
  subst hwt
  refine ⟨?_, ?_, ?_, hmem, trivial⟩ <;>
    by_cases hq : cfg.CPUQuota > 0 <;> by_cases hm : cfg.MemoryMax > 0 <;>
      by_cases hn : cfg.PidsMax > 0 <;> rcases hena : env.enable with _ | e <;>
      cases lg <;>
      simp [hen, hq0, hp0, hm0, hn0, hst, hq, hm, hn, hena, hmem, hmk, hw] at hok ⊢

theorem setup_all_ok (cg : CgroupsV2) (id : String) (rb : GoError) (dirs : List String)
    (hsd : cg.setupDone = false) (hen : cg.config.Enabled = true)
    (hq : 0 ≤ cg.config.CPUQuota) (hp : 0 ≤ cg.config.CPUPeriod)
    (hm : 0 ≤ cg.config.MemoryMax) (hn : 0 ≤ cg.config.PidsMax)
    (hfresh : filepathJoin (cgroupBase cg.config) ("sandbox-" ++ id) ∉ dirs) :
    (cg.Setup ⟨none, none, id, none, none, none, none, rb⟩ dirs).err = none := by
  unfold cgroupBase at hfresh
  unfold CgroupsV2.Setup CgroupsV2.writeLimits osMkdir
  have hq0 : ¬ cg.config.CPUQuota < 0 := by omega
  have hp0 : ¬ cg.config.CPUPeriod < 0 := by omega
  have hm0 : ¬ cg.config.MemoryMax < 0 := by omega
  have hn0 : ¬ cg.config.PidsMax < 0 := by omega
  by_cases hq1 : cg.config.CPUQuota > 0 <;> by_cases hm1 : cg.config.MemoryMax > 0 <;>
    by_cases hn1 : cg.config.PidsMax > 0 <;>
    simp [hsd, hen, hq0, hp0, hm0, hn0, hq1, hm1, hn1, hfresh]

/-- C16: a successful `Setup` of the cgroup manager (which the guards allow only for
non-negative limits, and which does succeed for every enabled configuration with
non-negative limits when the filesystem calls succeed) checks availability,
writes to `cgroup.subtree_control` exactly the `+name` terms of the controllers
whose limit is strictly positive, separated by spaces, and nothing when there is
none, creates the directory `sandbox-<id>` and writes in it exactly `cpu.max`
(quota, a space, and the period or 100000 when the period is not positive) iff
CPUQuota > 0, `memory.max` iff MemoryMax > 0 and `pids.max` iff PidsMax > 0,
each in decimal; besides these events there is only the log record. -/
theorem cgroups_setup_writes_limits (cg : CgroupsV2)
    (hsd : cg.setupDone = false) (hen : cg.config.Enabled = true)
    (hq : 0 ≤ cg.config.CPUQuota) (hp : 0 ≤ cg.config.CPUPeriod)
    (hm : 0 ≤ cg.config.MemoryMax) (hn : 0 ≤ cg.config.PidsMax) :
    (∀ (env : CgSetupEnv) (dirs : List String), (cg.Setup env dirs).err = none →
        (cg.Setup env dirs).trace
            = specSetupEvents cg.config env.id
              ++ (if cg.logger then [FsEvent.logInfo "cgroup setup"] else [])
          ∧ (cg.Setup env dirs).cg.CgroupDir
              = filepathJoin (cgroupBase cg.config) ("sandbox-" ++ env.id)
          ∧ (cg.Setup env dirs).cg.setupDone = true)
      ∧ (∀ (id : String) (rb : GoError) (dirs : List String),
          filepathJoin (cgroupBase cg.config) ("sandbox-" ++ id) ∉ dirs →
          (cg.Setup ⟨none, none, id, none, none, none, none, rb⟩ dirs).err = none) := by
  refine ⟨fun env dirs hok => ?_, fun id rb dirs hfresh =>
    setup_all_ok cg id rb dirs hsd hen hq hp hm hn hfresh⟩
  obtain ⟨h1, h2, -⟩ := setup_ok_inv cg env dirs hok
  refine ⟨h1, ?_, ?_⟩
  · rw [h2]; rfl
  · rw [h2]

theorem cgroups_setup_writes_limits_witness :
    (NewCgroupsV2 DefaultCgroupsConfig).setupDone = false
    ∧ DefaultCgroupsConfig.Enabled = true
    ∧ ((NewCgroupsV2 DefaultCgroupsConfig).Setup (okSetupEnv "1-ab") []).err = none
    ∧ ((NewCgroupsV2 DefaultCgroupsConfig).Setup (okSetupEnv "1-ab") []).trace
        = [FsEvent.stat "/sys/fs/cgroup/cgroup.controllers",
           FsEvent.writeFile "/sys/fs/cgroup/cgroup.subtree_control" "+cpu +memory +pids",
           FsEvent.mkdir "/sys/fs/cgroup/sandbox-1-ab",
           FsEvent.writeFile "/sys/fs/cgroup/sandbox-1-ab/cpu.max" "100000 100000",
           FsEvent.writeFile "/sys/fs/cgroup/sandbox-1-ab/memory.max" "536870912",
           FsEvent.writeFile "/sys/fs/cgroup/sandbox-1-ab/pids.max" "512"]
    ∧ ((NewCgroupsV2 ⟨true, 50000, 0, 0, 0, ""⟩).Setup (okSetupEnv "1-ab") []).trace
        = [FsEvent.stat "/sys/fs/cgroup/cgroup.controllers",
           FsEvent.writeFile "/sys/fs/cgroup/cgroup.subtree_control" "+cpu",
           FsEvent.mkdir "/sys/fs/cgroup/sandbox-1-ab",
           FsEvent.writeFile "/sys/fs/cgroup/sandbox-1-ab/cpu.max" "50000 100000"]
    ∧ ((NewCgroupsV2 ⟨true, 0, 0, 0, 0, ""⟩).Setup (okSetupEnv "1-ab") []).trace
        = [FsEvent.stat "/sys/fs/cgroup/cgroup.controllers",
           FsEvent.mkdir "/sys/fs/cgroup/sandbox-1-ab"] := by
  have h := cgroups_setup_writes_limits (NewCgroupsV2 DefaultCgroupsConfig) rfl rfl
    (by decide) (by decide) (by decide) (by decide)
  have h1 := cgroups_setup_writes_limits (NewCgroupsV2 ⟨true, 50000, 0, 0, 0, ""⟩) rfl rfl
    (by decide) (by decide) (by decide) (by decide)
  have h0 := cgroups_setup_writes_limits (NewCgroupsV2 ⟨true, 0, 0, 0, 0, ""⟩) rfl rfl
    (by decide) (by decide) (by decide) (by decide)
  have e := h.2 "1-ab" none [] (by simp)
  have e1 := h1.2 "1-ab" none [] (by simp)
  have e0 := h0.2 "1-ab" none [] (by simp)
  refine ⟨rfl, rfl, e, ?_, ?_, ?_⟩
  · rw [(h.1 (okSetupEnv "1-ab") [] e).1]; decide
  · rw [(h1.1 (okSetupEnv "1-ab") [] e1).1]; decide
  · rw [(h0.1 (okSetupEnv "1-ab") [] e0).1]; decide

theorem setup_done_unchanged (cg : CgroupsV2) (env : CgSetupEnv) (dirs : List String)
    (hsd : cg.setupDone = true) :
    (cg.Setup env dirs).cg = cg ∧ (cg.Setup env dirs).dirs = dirs
      ∧ (cg.Setup env dirs).trace = [] ∧ (cg.Setup env dirs).err ≠ none := by
  simp [CgroupsV2.Setup, hsd]

theorem setup_fail_inv (cg : CgroupsV2) (env : CgSetupEnv) (dirs : List String)
    (hsd : cg.setupDone = false) (herr : (cg.Setup env dirs).err ≠ none) :
    (cg.Setup env dirs).cg.setupDone = false
      ∧ ((cg.Setup env dirs).dirs = dirs
          ∨ (cg.Setup env dirs).dirs
              = (osRemove (filepathJoin (cgroupBase cg.config) ("sandbox-" ++ env.id) :: dirs)
                  (filepathJoin (cgroupBase cg.config) ("sandbox-" ++ env.id)) env.rollback).2) := by
  rcases cg with ⟨cfg, lg, id0, dir0, sd⟩
  simp only [] at hsd
  subst hsd
  rcases hw : CgroupsV2.writeLimits
    { config := cfg, logger := lg, id := env.id,
      cgroupDir := filepathJoin (cgroupBase cfg) ("sandbox-" ++ env.id), setupDone := false } env
    with ⟨we, wt⟩
  unfold CgroupsV2.Setup at herr ⊢
  unfold cgroupBase at *
  unfold osMkdir at herr ⊢
  unfold enableControllers at herr ⊢
  simp only [] at hw herr ⊢
  rcases hen : cfg.Enabled with _ | _
  · simp [hen]
  by_cases hq0 : cfg.CPUQuota < 0
  · simp [hen, hq0]
  by_cases hp0 : cfg.CPUPeriod < 0
  · simp [hen, hq0, hp0]
  by_cases hm0 : cfg.MemoryMax < 0
  · simp [hen, hq0, hp0, hm0]
  by_cases hn0 : cfg.PidsMax < 0
  · simp [hen, hq0, hp0, hm0, hn0]
  rcases hst : env.stat with _ | e
  swap
  · simp [hen, hq0, hp0, hm0, hn0, hst]
  rcases hmem : decide (filepathJoin (if cfg.BaseDir = "" then "/sys/fs/cgroup"
      else cfg.BaseDir) ("sandbox-" ++ env.id) ∈ dirs) with _ | _
  swap
  · simp only [decide_eq_true_eq] at hmem
    by_cases hq : cfg.CPUQuota > 0 <;> by_cases hm : cfg.MemoryMax > 0 <;>
      by_cases hn : cfg.PidsMax > 0 <;> rcases hena : env.enable with _ | e <;>
      simp [hen, hq0, hp0, hm0, hn0, hst, hq, hm, hn, hena, hmem]
  simp only [decide_eq_false_iff_not] at hmem
  rcases hmk : env.mkdir with _ | e
  swap
  · by_cases hq : cfg.CPUQuota > 0 <;> by_cases hm : cfg.MemoryMax > 0 <;>
      by_cases hn : cfg.PidsMax > 0 <;> rcases hena : env.enable with _ | e <;>
      simp [hen, hq0, hp0, hm0, hn0, hst, hq, hm, hn, hena, hmem, hmk]
  rcases we with _ | e <;>
    by_cases hq : cfg.CPUQuota > 0 <;> by_cases hm : cfg.MemoryMax > 0 <;>
      by_cases hn : cfg.PidsMax > 0 <;> rcases hena : env.enable with _ | e <;>
      simp [hen, hq0, hp0, hm0, hn0, hst, hq, hm, hn, hena, hmem, hmk, hw] at herr ⊢

theorem cgCleanup_fields (cg : CgroupsV2) (env : CgCleanupEnv) (dirs : List String) :
    (cg.Cleanup env dirs).cg = { cg with setupDone := false } := by
  rcases cg with ⟨cfg, lg, id0, dir0, sd⟩
  unfold CgroupsV2.Cleanup
  cases sd
  · simp
  · simp only [Bool.not_true, Bool.false_eq_true, if_false]
    split
    · split <;> rfl
    · rfl

theorem cgCleanup_not_setup (cg : CgroupsV2) (env : CgCleanupEnv) (dirs : List String)
    (hsd : cg.setupDone = false) :
    cg.Cleanup env dirs = { err := none, cg := cg, dirs := dirs, trace := [] } := by
  simp [CgroupsV2.Cleanup, hsd]

theorem cgCleanup_removes (cg : CgroupsV2) (env : CgCleanupEnv)
    (hsd : cg.setupDone = true) (hrm : (CgCall.cleanup env).removesSucceed = true) :
    (cg.Cleanup env [cg.cgroupDir]).dirs = [] := by
  simp only [CgCall.removesSucceed, Bool.or_eq_true, Option.isNone_iff_eq_none] at hrm
  unfold CgroupsV2.Cleanup osRemove
  rcases h1 : env.remove1 with _ | e1
  · simp [hsd]
  · rcases h2 : env.remove2 with _ | e2
    · simp [hsd]
    · rw [h1, h2] at hrm
      simp at hrm

theorem addProcess_fields (cg : CgroupsV2) (pid : Int) (write : GoError) (dirs : List String) :
    (cg.AddProcess pid write dirs).cg = cg ∧ (cg.AddProcess pid write dirs).dirs = dirs := by
  unfold CgroupsV2.AddProcess
  cases cg.setupDone <;> cases write <;> simp

theorem cgStep_exists_of_setup (s : CgroupsV2 × List String) (c : CgCall)
    (h : s.1.setupDone = true → s.1.cgroupDir ∈ s.2) :
    (cgStep s c).1.setupDone = true → (cgStep s c).1.cgroupDir ∈ (cgStep s c).2 := by
  rcases s with ⟨cg, dirs⟩
  simp only [] at h
  cases c with
  | setup env =>
    simp only [cgStep]
    rcases hsd : cg.setupDone with _ | _
    · by_cases herr : (cg.Setup env dirs).err = none
      · obtain ⟨-, h2, h3, -, -⟩ := setup_ok_inv cg env dirs herr
        rw [h2, h3]
        intro _
        simp
      · rw [(setup_fail_inv cg env dirs hsd herr).1]
        intro hc
        cases hc
    · obtain ⟨h1, h2, -, -⟩ := setup_done_unchanged cg env dirs hsd
      rw [h1, h2]
      exact h
  | addProcess pid write =>
    simp only [cgStep]
    rw [(addProcess_fields cg pid write dirs).1, (addProcess_fields cg pid write dirs).2]
    exact h
  | cleanup env =>
    simp only [cgStep]
    rw [cgCleanup_fields]
    intro hc
    cases hc

theorem cgStep_only_dir (s : CgroupsV2 × List String) (c : CgCall)
    (hc : c.removesSucceed = true)
    (h : s.2 = if s.1.setupDone then [s.1.cgroupDir] else []) :
    (cgStep s c).2 = if (cgStep s c).1.setupDone then [(cgStep s c).1.cgroupDir] else [] := by
  rcases s with ⟨cg, dirs⟩
  simp only [] at h
  cases c with
  | setup env =>
    simp only [cgStep]
    rcases hsd : cg.setupDone with _ | _
    · rw [hsd] at h
      simp only [Bool.false_eq_true, if_false] at h
      subst h
      by_cases herr : (cg.Setup env []).err = none
      · obtain ⟨-, h2, h3, -, -⟩ := setup_ok_inv cg env [] herr
        rw [h2, h3]
        simp
      · obtain ⟨h1, h2⟩ := setup_fail_inv cg env [] hsd herr
        rw [h1]
        simp only [Bool.false_eq_true, if_false]
        rcases h2 with h2 | h2
        · exact h2
        · rw [h2]
          simp only [CgCall.removesSucceed, Option.isNone_iff_eq_none] at hc
          simp [osRemove, hc]
    · obtain ⟨h1, h2, -, -⟩ := setup_done_unchanged cg env dirs hsd
      rw [h1, h2, h, hsd]
  | addProcess pid write =>
    simp only [cgStep]
    rw [(addProcess_fields cg pid write dirs).1, (addProcess_fields cg pid write dirs).2]
    exact h
  | cleanup env =>
    simp only [cgStep]
    rw [cgCleanup_fields]
    simp only [Bool.false_eq_true, if_false]
    rcases hsd : cg.setupDone with _ | _
    · rw [cgCleanup_not_setup cg env dirs hsd, h, hsd]
      simp
    · rw [hsd] at h
      simp only [if_true] at h
      rw [h]
      exact cgCleanup_removes cg env hsd hc

theorem cgRun_exists_of_setup (calls : List CgCall) (s : CgroupsV2 × List String)
    (h : s.1.setupDone = true → s.1.cgroupDir ∈ s.2) :
    (cgRun s calls).1.setupDone = true → (cgRun s calls).1.cgroupDir ∈ (cgRun s calls).2 := by
  induction calls generalizing s with
  | nil => exact h
  | cons c rest ih =>
    simp only [cgRun, List.foldl_cons]
    exact ih (cgStep s c) (cgStep_exists_of_setup s c h)

theorem cgRun_only_dir (calls : List CgCall) (s : CgroupsV2 × List String)
    (hc : ∀ c ∈ calls, c.removesSucceed = true)
    (h : s.2 = if s.1.setupDone then [s.1.cgroupDir] else []) :
    (cgRun s calls).2
      = if (cgRun s calls).1.setupDone then [(cgRun s calls).1.cgroupDir] else [] := by
  induction calls generalizing s with
  | nil => exact h
  | cons c rest ih =>
    simp only [cgRun, List.foldl_cons]
    exact ih (cgStep s c) (fun c1 h1 => hc c1 (List.mem_cons_of_mem _ h1))
      (cgStep_only_dir s c (hc c (List.mem_cons_self _ _)) h)

/-- C17 (as stated, refuted): after `Setup` succeeds and `Cleanup` fails to remove
the cgroup directory at both attempts, the manager is no longer set up although
its cgroup directory still exists. -/
theorem cgroup_dir_iff_setup_counterexample :
    (cgRun (NewCgroupsV2 DefaultCgroupsConfig, [])
        [CgCall.setup (okSetupEnv "1-ab"),
         CgCall.cleanup (busyCleanupEnv "device or resource busy")]).1.setupDone = false
    ∧ (cgRun (NewCgroupsV2 DefaultCgroupsConfig, [])
        [CgCall.setup (okSetupEnv "1-ab"),
         CgCall.cleanup (busyCleanupEnv "device or resource busy")]).1.cgroupDir
        = "/sys/fs/cgroup/sandbox-1-ab"
    ∧ (cgRun (NewCgroupsV2 DefaultCgroupsConfig, [])
        [CgCall.setup (okSetupEnv "1-ab"),
         CgCall.cleanup (busyCleanupEnv "device or resource busy")]).2
        = ["/sys/fs/cgroup/sandbox-1-ab"]
    ∧ ((NewCgroupsV2 DefaultCgroupsConfig).Setup (okSetupEnv "1-ab") []).err = none
    ∧ (((NewCgroupsV2 DefaultCgroupsConfig).Setup (okSetupEnv "1-ab") []).cg.Cleanup
          (busyCleanupEnv "device or resource busy")
          ((NewCgroupsV2 DefaultCgroupsConfig).Setup (okSetupEnv "1-ab") []).dirs).err
        = some ("cgroups: rmdir /sys/fs/cgroup/sandbox-1-ab: device or resource busy") := by
  refine ⟨?_, ?_, ?_, ?_, ?_⟩ <;> decide

/-- C17 (amended): for a manager made by `NewCgroupsV2` in a world without cgroup
directories, after every sequence of `Setup`, `AddProcess` and `Cleanup` calls
with arbitrary outcomes of the filesystem operations, the cgroup directory
exists whenever the manager is set up; and when every rmdir the calls attempt
gets the directory removed (the rollback of `Setup`, the first or the second
attempt of `Cleanup`), the directory exists if and only if the manager is set
up, and it is then the only cgroup directory. -/
theorem cgroup_dir_exists_iff_setup (cfg : CgroupsConfig) (calls : List CgCall) :
    ((cgRun (NewCgroupsV2 cfg, []) calls).1.setupDone = true →
        (cgRun (NewCgroupsV2 cfg, []) calls).1.cgroupDir ∈ (cgRun (NewCgroupsV2 cfg, []) calls).2)
    ∧ ((∀ c ∈ calls, c.removesSucceed = true) →
        ((cgRun (NewCgroupsV2 cfg, []) calls).1.cgroupDir ∈ (cgRun (NewCgroupsV2 cfg, []) calls).2
          ↔ (cgRun (NewCgroupsV2 cfg, []) calls).1.setupDone = true)
        ∧ (cgRun (NewCgroupsV2 cfg, []) calls).2
            = if (cgRun (NewCgroupsV2 cfg, []) calls).1.setupDone
              then [(cgRun (NewCgroupsV2 cfg, []) calls).1.cgroupDir] else []) := by
  refine ⟨cgRun_exists_of_setup calls _ (fun h => by cases h), fun hc => ?_⟩
  have h := cgRun_only_dir calls (NewCgroupsV2 cfg, []) hc rfl
  refine ⟨?_, h⟩
  rw [h]
  cases (cgRun (NewCgroupsV2 cfg, []) calls).1.setupDone <;> simp

theorem cgroup_dir_exists_iff_setup_witness :
    (∀ c ∈ [CgCall.setup (okSetupEnv "1-ab"), CgCall.addProcess 4242 none,
              CgCall.cleanup (retryCleanupEnv "device or resource busy"),
              CgCall.setup (okSetupEnv "2-cd")], c.removesSucceed = true)
    ∧ (cgRun (NewCgroupsV2 DefaultCgroupsConfig, [])
          [CgCall.setup (okSetupEnv "1-ab"), CgCall.addProcess 4242 none,
            CgCall.cleanup (retryCleanupEnv "device or resource busy"),
            CgCall.setup (okSetupEnv "2-cd")]).1.setupDone = true
    ∧ (cgRun (NewCgroupsV2 DefaultCgroupsConfig, [])
          [CgCall.setup (okSetupEnv "1-ab"), CgCall.addProcess 4242 none,
            CgCall.cleanup (retryCleanupEnv "device or resource busy"),
            CgCall.setup (okSetupEnv "2-cd")]).2
        = [(cgRun (NewCgroupsV2 DefaultCgroupsConfig, [])
          [CgCall.setup (okSetupEnv "1-ab"), CgCall.addProcess 4242 none,
            CgCall.cleanup (retryCleanupEnv "device or resource busy"),
            CgCall.setup (okSetupEnv "2-cd")]).1.cgroupDir]
    ∧ (cgRun (NewCgroupsV2 DefaultCgroupsConfig, [])
          [CgCall.setup (okSetupEnv "1-ab"), CgCall.addProcess 4242 none,
            CgCall.cleanup (retryCleanupEnv "device or resource busy"),
            CgCall.setup (okSetupEnv "2-cd")]).2 = ["/sys/fs/cgroup/sandbox-2-cd"] := by
  have hc : ∀ c ∈ [CgCall.setup (okSetupEnv "1-ab"), CgCall.addProcess 4242 none,
              CgCall.cleanup (retryCleanupEnv "device or resource busy"),
              CgCall.setup (okSetupEnv "2-cd")], c.removesSucceed = true := by
    intro c hmem
    simp only [List.mem_cons, List.mem_singleton, List.not_mem_nil, or_false] at hmem
    rcases hmem with h | h | h | h <;> rw [h] <;> rfl
  have h := (cgroup_dir_exists_iff_setup DefaultCgroupsConfig
    [CgCall.setup (okSetupEnv "1-ab"), CgCall.addProcess 4242 none,
      CgCall.cleanup (retryCleanupEnv "device or resource busy"),
      CgCall.setup (okSetupEnv "2-cd")]).2 hc
  have hs : (cgRun (NewCgroupsV2 DefaultCgroupsConfig, [])
          [CgCall.setup (okSetupEnv "1-ab"), CgCall.addProcess 4242 none,
            CgCall.cleanup (retryCleanupEnv "device or resource busy"),
            CgCall.setup (okSetupEnv "2-cd")]).1.setupDone = true := by decide
  refine ⟨hc, hs, ?_, by decide⟩
  rw [h.2, hs]
  rfl

theorem ovCleanup_fields (ov : OverlayFS) (u r : GoError) :
    (ov.Cleanup u r).ov = { ov with setupDone := false } := by
  rcases ov with ⟨cfg, lg, id0, b, up, wk, mg, sd⟩
  unfold OverlayFS.Cleanup
  cases sd
  · simp
  · simp only [Bool.not_true, Bool.false_eq_true, if_false]
    split <;> rfl

theorem ovCleanup_not_setup (ov : OverlayFS) (u r : GoError) (hsd : ov.setupDone = false) :
    ov.Cleanup u r = { err := none, ov := ov, trace := [] } := by
  simp [OverlayFS.Cleanup, hsd]

/-- C18: for the cgroup manager and the overlay manager alike, in every state and
whatever the outcomes of the calls, a `Cleanup` that follows a `Cleanup` returns
nil, performs no operation at all (its trace is empty) and leaves the manager
and the cgroup directories as they were; and so does `Cleanup` on a manager that
is not set up, such as one fresh from `NewCgroupsV2` or `NewOverlayFS`. -/
theorem second_cleanup_no_effect :
    (∀ (cg : CgroupsV2) (env1 env2 : CgCleanupEnv) (dirs : List String),
        (cg.Cleanup env1 dirs).cg.Cleanup env2 (cg.Cleanup env1 dirs).dirs
          = { err := none, cg := (cg.Cleanup env1 dirs).cg, dirs := (cg.Cleanup env1 dirs).dirs,
              trace := [] })
    ∧ (∀ (ov : OverlayFS) (u1 r1 u2 r2 : GoError),
        (ov.Cleanup u1 r1).ov.Cleanup u2 r2
          = { err := none, ov := (ov.Cleanup u1 r1).ov, trace := [] })
    ∧ (∀ (cg : CgroupsV2) (env : CgCleanupEnv) (dirs : List String), cg.setupDone = false →
        cg.Cleanup env dirs = { err := none, cg := cg, dirs := dirs, trace := [] })
    ∧ (∀ (ov : OverlayFS) (u r : GoError), ov.setupDone = false →
        ov.Cleanup u r = { err := none, ov := ov, trace := [] })
    ∧ (∀ (cfg : CgroupsConfig) (env : CgCleanupEnv) (dirs : List String),
        (NewCgroupsV2 cfg).Cleanup env dirs
          = { err := none, cg := NewCgroupsV2 cfg, dirs := dirs, trace := [] })
    ∧ (∀ (cfg : OverlayConfig) (u r : GoError),
        (NewOverlayFS cfg).Cleanup u r = { err := none, ov := NewOverlayFS cfg, trace := [] }) := by
  refine ⟨fun cg env1 env2 dirs => ?_, fun ov u1 r1 u2 r2 => ?_,
    fun cg env dirs h => cgCleanup_not_setup cg env dirs h,
    fun ov u r h => ovCleanup_not_setup ov u r h,
    fun cfg env dirs => cgCleanup_not_setup _ env dirs rfl,
    fun cfg u r => ovCleanup_not_setup _ u r rfl⟩
  · exact cgCleanup_not_setup _ env2 _ (by rw [cgCleanup_fields])
  · exact ovCleanup_not_setup _ u2 r2 (by rw [ovCleanup_fields])

theorem second_cleanup_no_effect_witness :
    ((NewCgroupsV2 DefaultCgroupsConfig).Setup (okSetupEnv "1-ab") []).cg.setupDone = true
    ∧ ((((NewCgroupsV2 DefaultCgroupsConfig).Setup (okSetupEnv "1-ab") []).cg.Cleanup
          (busyCleanupEnv "device or resource busy") ["/sys/fs/cgroup/sandbox-1-ab"]).cg.Cleanup
          (busyCleanupEnv "device or resource busy")
          (((NewCgroupsV2 DefaultCgroupsConfig).Setup (okSetupEnv "1-ab") []).cg.Cleanup
            (busyCleanupEnv "device or resource busy") ["/sys/fs/cgroup/sandbox-1-ab"]).dirs).err
        = none
    ∧ ((((NewCgroupsV2 DefaultCgroupsConfig).Setup (okSetupEnv "1-ab") []).cg.Cleanup
          (busyCleanupEnv "device or resource busy") ["/sys/fs/cgroup/sandbox-1-ab"]).cg.Cleanup
          (busyCleanupEnv "device or resource busy")
          (((NewCgroupsV2 DefaultCgroupsConfig).Setup (okSetupEnv "1-ab") []).cg.Cleanup
            (busyCleanupEnv "device or resource busy") ["/sys/fs/cgroup/sandbox-1-ab"]).dirs).trace
        = []
    ∧ (NewCgroupsV2 ⟨false, 0, 0, 0, 0, ""⟩).setupDone = false
    ∧ ((NewCgroupsV2 ⟨false, 0, 0, 0, 0, ""⟩).Cleanup (busyCleanupEnv "device or resource busy")
          ["/sys/fs/cgroup/other"]).dirs = ["/sys/fs/cgroup/other"]
    ∧ (NewOverlayFS ⟨true, ["/"], "", "", "", false⟩).setupDone = false
    ∧ ((NewOverlayFS ⟨true, ["/"], "", "", "", false⟩).Cleanup (some "invalid argument")
          (some "permission denied")).trace = [] := by
  have h := second_cleanup_no_effect
  refine ⟨by decide, ?_, ?_, rfl, ?_, rfl, ?_⟩
  · rw [h.1]
  · rw [h.1]
  · rw [h.2.2.1 _ _ _ rfl]
  · rw [h.2.2.2.1 _ _ _ rfl]

/-! ## Properties of filepath.Clean and filepath.Join -/

theorem splitOnChar_ne_nil (sep : Char) (s : List Char) : splitOnChar sep s ≠ [] := by
  induction s with
  | nil => simp [splitOnChar]
  | cons c cs ih =>
    unfold splitOnChar
    split_ifs
    · simp
    · split <;> simp

theorem splitOnChar_cons (sep c : Char) (cs : List Char) :
    splitOnChar sep (c :: cs)
      = if c = sep then [] :: splitOnChar sep cs
        else
          match splitOnChar sep cs with
          | [] => [[c]]
          | seg :: rest => (c :: seg) :: rest := by
  rw [splitOnChar]

theorem splitOnChar_append_sep (sep : Char) (x y : List Char) :
    splitOnChar sep (x ++ sep :: y) = splitOnChar sep x ++ splitOnChar sep y := by
  induction x with
  | nil => simp [splitOnChar]
  | cons c cs ih =>
    simp only [List.cons_append]
    rw [splitOnChar_cons, splitOnChar_cons sep c cs]
    split_ifs with hc
    · rw [ih]; simp
    · rw [ih]
      rcases hs : splitOnChar sep cs with _ | ⟨seg, rest⟩
      · exact absurd hs (splitOnChar_ne_nil sep cs)
      · simp

theorem splitOnChar_no_sep (sep : Char) (y : List Char) (h : sep ∉ y) :
    splitOnChar sep y = [y] := by
  induction y with
  | nil => simp [splitOnChar]
  | cons c cs ih =>
    simp only [List.mem_cons, not_or] at h
    unfold splitOnChar
    rw [if_neg (fun hc => h.1 hc.symm), ih h.2]

theorem splitOnChar_mem_no_sep (sep : Char) (s seg : List Char)
    (h : seg ∈ splitOnChar sep s) : sep ∉ seg := by
  induction s generalizing seg with
  | nil =>
    simp [splitOnChar] at h
    subst h
    simp
  | cons c cs ih =>
    unfold splitOnChar at h
    split_ifs at h with hc
    · simp only [List.mem_cons] at h
      rcases h with h | h
      · subst h; simp
      · exact ih seg h
    · rcases hs : splitOnChar sep cs with _ | ⟨s0, rest⟩
      · exact absurd hs (splitOnChar_ne_nil sep cs)
      · rw [hs] at h ih
        simp only [List.mem_cons] at h
        rcases h with h | h
        · subst h
          have := ih s0 (List.mem_cons_self _ _)
          simp only [List.mem_cons, not_or]
          exact ⟨fun e => hc e.symm, this⟩
        · exact ih seg (List.mem_cons_of_mem _ h)

theorem cleanPush_good (r : Bool) (S : List (List Char)) (seg : List Char)
    (hg : GoodSeg seg) (hd : seg ≠ ['.', '.']) : cleanPush r S seg = seg :: S := by
  unfold cleanPush
  rw [if_neg (by rintro (h | h); exact hg.1 h; exact hg.2.1 h), if_neg hd]

theorem cleanPush_ok (r : Bool) (S : List (List Char)) (seg : List Char)
    (hS : StackOK r S) (hs : '/' ∉ seg) : StackOK r (cleanPush r S seg) := by
  by_cases h1 : seg = [] ∨ seg = ['.']
  · unfold cleanPush
    rw [if_pos h1]
    exact hS
  by_cases h2 : seg = ['.', '.']
  · subst h2
    have hg : GoodSeg ['.', '.'] := ⟨by simp, by simp, by decide⟩
    unfold cleanPush
    rw [if_neg h1, if_pos rfl]
    cases S with
    | nil =>
      cases r
      · exact ⟨hg, trivial, fun _ => ⟨rfl, by simp⟩⟩
      · exact trivial
    | cons top rest =>
      simp only []
      obtain ⟨h1, h2, h3⟩ := hS
      by_cases ht : top = ['.', '.']
      · rw [if_pos ht]
        subst ht
        obtain ⟨h4, h5⟩ := h3 rfl
        refine ⟨hg, ⟨h1, h2, h3⟩, fun _ => ⟨h4, ?_⟩⟩
        intro x hx
        simp only [List.mem_cons] at hx
        rcases hx with hx | hx
        · exact hx
        · exact h5 x hx
      · rw [if_neg ht]
        exact h2
  · push_neg at h1
    rw [cleanPush_good r S seg ⟨h1.1, h1.2, hs⟩ h2]
    exact ⟨⟨h1.1, h1.2, hs⟩, hS, fun h => absurd h h2⟩

theorem foldl_cleanPush_ok (r : Bool) (L S : List (List Char))
    (hL : ∀ seg ∈ L, '/' ∉ seg) (hS : StackOK r S) : StackOK r (L.foldl (cleanPush r) S) := by
  induction L generalizing S with
  | nil => exact hS
  | cons seg rest ih =>
    simp only [List.foldl_cons]
    exact ih _ (fun s hs => hL s (List.mem_cons_of_mem _ hs))
      (cleanPush_ok r S seg hS (hL seg (List.mem_cons_self _ _)))

theorem refold (r : Bool) (S : List (List Char)) (hS : StackOK r S) :
    S.reverse.foldl (cleanPush r) [] = S := by
  induction S with
  | nil => rfl
  | cons top rest ih =>
    obtain ⟨h1, h2, h3⟩ := hS
    rw [List.reverse_cons, List.foldl_append, ih h2]
    simp only [List.foldl_cons, List.foldl_nil]
    by_cases hd : top = ['.', '.']
    · obtain ⟨h4, h5⟩ := h3 hd
      subst hd
      unfold cleanPush
      rw [if_neg (by simp), if_pos rfl]
      cases rest with
      | nil => simp [h4]
      | cons t rest2 =>
        simp only []
        rw [if_pos (h5 t (List.mem_cons_self _ _))]
    · exact cleanPush_good r rest top h1 hd

theorem joinSegs_append_one (L : List (List Char)) (name : List Char) (hL : L ≠ []) :
    joinSegs (L ++ [name]) = joinSegs L ++ '/' :: name := by
  induction L with
  | nil => exact absurd rfl hL
  | cons e rest ih =>
    cases rest with
    | nil => simp [joinSegs]
    | cons e2 rest2 =>
      have := ih (by simp)
      simp only [List.cons_append] at this ⊢
      simp only [joinSegs]
      rw [this]
      simp

theorem split_joinSegs (L : List (List Char)) (hL : ∀ e ∈ L, '/' ∉ e) (hne : L ≠ []) :
    splitOnChar '/' (joinSegs L) = L := by
  induction L with
  | nil => exact absurd rfl hne
  | cons e rest ih =>
    cases rest with
    | nil =>
      simp only [joinSegs]
      exact splitOnChar_no_sep _ _ (hL e (List.mem_cons_self _ _))
    | cons e2 rest2 =>
      simp only [joinSegs]
      rw [splitOnChar_append_sep, splitOnChar_no_sep _ _ (hL e (List.mem_cons_self _ _))]
      have := ih (fun x hx => hL x (List.mem_cons_of_mem _ hx)) (by simp)
      simp only [joinSegs] at this
      rw [this]
      simp

theorem stackOK_good (r : Bool) (S : List (List Char)) (hS : StackOK r S) :
    ∀ e ∈ S, GoodSeg e := by
  induction S with
  | nil => simp
  | cons top rest ih =>
    intro e he
    simp only [List.mem_cons] at he
    rcases he with he | he
    · subst he; exact hS.1
    · exact ih hS.2.1 e he

theorem joinSegs_cons (e : List Char) (rest : List (List Char)) :
    joinSegs (e :: rest) = e ++ (rest.map (fun x => '/' :: x)).flatten := by
  induction rest generalizing e with
  | nil => simp [joinSegs]
  | cons e2 rest2 ih =>
    simp only [joinSegs]
    rw [ih e2]
    simp

theorem intercalate_go_data (acc : String) (L : List (List Char)) :
    (String.intercalate.go acc "/" (L.map String.mk)).data
      = acc.data ++ (L.map (fun x => '/' :: x)).flatten := by
  induction L generalizing acc with
  | nil => simp [String.intercalate.go]
  | cons e rest ih =>
    simp only [List.map_cons, String.intercalate.go]
    rw [ih]
    simp [String.data_append]

theorem intercalate_data (L : List (List Char)) :
    ("/".intercalate (L.map String.mk)).data = joinSegs L := by
  cases L with
  | nil => rfl
  | cons e rest =>
    simp only [List.map_cons, String.intercalate]
    rw [intercalate_go_data, joinSegs_cons]

theorem filepathClean_data (path : String) :
    (filepathClean path).data
      = if path.data.head? = some '/' then
          '/' :: joinSegs
            ((splitOnChar '/' path.data).foldl (cleanPush true) []).reverse
        else if (splitOnChar '/' path.data).foldl (cleanPush false) [] = [] then ['.']
        else joinSegs ((splitOnChar '/' path.data).foldl (cleanPush false) []).reverse := by
  unfold filepathClean
  by_cases hr : path.data.head? = some '/'
  · simp only [hr, beq_self_eq_true, if_true, String.data_append]
    rw [intercalate_data]
    rfl
  · simp only [hr, if_false]
    have hb : (path.data.head? == some '/') = false := by simpa using hr
    simp only [hb, Bool.false_eq_true, if_false]
    by_cases he : (splitOnChar '/' path.data).foldl (cleanPush false) [] = []
    · simp [he]
    · simp only [List.isEmpty_eq_true, List.reverse_eq_nil_iff, he, if_false]
      rw [intercalate_data]

theorem joinSegs_head (E : List (List Char)) (hE : ∀ e ∈ E, GoodSeg e) (hne : E ≠ []) :
    (joinSegs E).head? ≠ some '/' ∧ joinSegs E ≠ [] := by
  cases E with
  | nil => exact absurd rfl hne
  | cons e rest =>
    obtain ⟨h1, -, h3⟩ := hE e (List.mem_cons_self _ _)
    rw [joinSegs_cons]
    cases e with
    | nil => exact absurd rfl h1
    | cons c cs =>
      simp only [List.mem_cons, not_or] at h3
      simp only [List.cons_append, List.head?_cons, ne_eq, Option.some.injEq, reduceCtorEq,
        not_false_eq_true, and_true]
      exact fun h => h3.1 h.symm

theorem filepathClean_canonical (q : String) (r : Bool) (S : List (List Char))
    (name : List Char) (hS : StackOK r S) (hne : S ≠ [])
    (hn : GoodSeg name) (hnd : name ≠ ['.', '.'])
    (hq : q.data = (if r then ['/'] else []) ++ joinSegs S.reverse ++ '/' :: name) :
    (filepathClean q).data = q.data
      ∧ q.data = (if r then ['/'] else []) ++ joinSegs ((name :: S).reverse) := by
  have hgood := stackOK_good r S hS
  have hE : ∀ e ∈ S.reverse, GoodSeg e := fun e he => hgood e (List.mem_reverse.mp he)
  have hEne : S.reverse ≠ [] := by simpa using hne
  have hEs : ∀ e ∈ S.reverse, '/' ∉ e := fun e he => (hE e he).2.2
  have hj : joinSegs ((name :: S).reverse) = joinSegs S.reverse ++ '/' :: name := by
    rw [List.reverse_cons, joinSegs_append_one _ _ hEne]
  have hsplit : splitOnChar '/' (joinSegs S.reverse ++ '/' :: name) = S.reverse ++ [name] := by
    rw [splitOnChar_append_sep, split_joinSegs _ hEs hEne, splitOnChar_no_sep _ _ hn.2.2]
  have hfold : (S.reverse ++ [name]).foldl (cleanPush r) [] = name :: S := by
    rw [List.foldl_append, refold r S hS]
    simp only [List.foldl_cons, List.foldl_nil]
    exact cleanPush_good r S name hn hnd
  have hq2 : q.data = (if r then ['/'] else []) ++ joinSegs ((name :: S).reverse) := by
    rw [hq, hj, List.append_assoc]
  refine ⟨?_, hq2⟩
  rw [filepathClean_data]
  cases r with
  | true =>
    replace hq : q.data = '/' :: (joinSegs S.reverse ++ '/' :: name) := by rw [hq]; rfl
    have hh : q.data.head? = some '/' := by rw [hq]; rfl
    rw [if_pos hh]
    have hs2 : splitOnChar '/' q.data = [] :: (S.reverse ++ [name]) := by
      rw [hq, splitOnChar_cons, if_pos rfl, hsplit]
    rw [hs2, List.foldl_cons]
    have hc : cleanPush true [] [] = [] := by simp [cleanPush]
    rw [hc, hfold, hq, hj]
  | false =>
    replace hq : q.data = joinSegs S.reverse ++ '/' :: name := by rw [hq]; rfl
    have hh : q.data.head? ≠ some '/' := by
      rw [hq]
      obtain ⟨h1, h2⟩ := joinSegs_head _ hE hEne
      cases hj2 : joinSegs S.reverse with
      | nil => exact absurd hj2 h2
      | cons c cs =>
        rw [hj2] at h1
        simpa using h1
    rw [if_neg hh]
    have hs2 : splitOnChar '/' q.data = S.reverse ++ [name] := by rw [hq, hsplit]
    rw [hs2, hfold, if_neg (by simp), hq, hj]

theorem filepathJoin_of_ne (a b : String) (ha : a ≠ "") :
    filepathJoin a b = filepathClean (a ++ "/" ++ b) := by
  unfold filepathJoin
  rw [if_pos ha]

theorem filepathJoin_seg (a b : String) (ha : a ≠ "") (hb : GoodSeg b.data)
    (hbd : b.data ≠ ['.', '.']) :
    ∃ (r : Bool) (S : List (List Char)), StackOK r S ∧ S ≠ []
      ∧ (filepathJoin a b).data = (if r then ['/'] else []) ++ joinSegs S.reverse := by
  have had : a.data ≠ [] := fun h => ha (String.ext h)
  rw [filepathJoin_of_ne a b ha]
  have hdata : (a ++ "/" ++ b).data = a.data ++ '/' :: b.data := by
    simp [String.data_append]
  have hhead : (a ++ "/" ++ b).data.head? = a.data.head? := by
    rw [hdata]
    cases hx : a.data with
    | nil => exact absurd hx had
    | cons c cs => rfl
  have hsplit : splitOnChar '/' (a ++ "/" ++ b).data = splitOnChar '/' a.data ++ [b.data] := by
    rw [hdata, splitOnChar_append_sep, splitOnChar_no_sep _ _ hb.2.2]
  have hok : ∀ r : Bool, StackOK r ((splitOnChar '/' a.data).foldl (cleanPush r) []) :=
    fun r => foldl_cleanPush_ok r _ _ (fun seg hs => splitOnChar_mem_no_sep _ _ _ hs) trivial
  have hfold : ∀ r : Bool, (splitOnChar '/' (a ++ "/" ++ b).data).foldl (cleanPush r) []
      = b.data :: (splitOnChar '/' a.data).foldl (cleanPush r) [] := by
    intro r
    rw [hsplit, List.foldl_append]
    simp only [List.foldl_cons, List.foldl_nil]
    exact cleanPush_good r _ _ hb hbd
  rw [filepathClean_data, hhead, hfold, hfold]
  by_cases hr : a.data.head? = some '/'
  · refine ⟨true, b.data :: (splitOnChar '/' a.data).foldl (cleanPush true) [],
      ⟨hb, hok true, fun h => absurd h hbd⟩, by simp, ?_⟩
    rw [if_pos hr]
    rfl
  · refine ⟨false, b.data :: (splitOnChar '/' a.data).foldl (cleanPush false) [],
      ⟨hb, hok false, fun h => absurd h hbd⟩, by simp, ?_⟩
    rw [if_neg hr, if_neg (by simp)]
    rfl

theorem filepathJoin_child (a b name : String) (ha : a ≠ "") (hb : GoodSeg b.data)
    (hbd : b.data ≠ ['.', '.']) (hn : GoodSeg name.data) (hnd : name.data ≠ ['.', '.']) :
    filepathJoin (filepathJoin a b) name = filepathJoin a b ++ "/" ++ name := by
  obtain ⟨r, S, hS, hne, hd⟩ := filepathJoin_seg a b ha hb hbd
  have hdne : filepathJoin a b ≠ "" := by
    intro h
    rw [h] at hd
    have hE : ∀ e ∈ S.reverse, GoodSeg e :=
      fun e he => stackOK_good r S hS e (List.mem_reverse.mp he)
    obtain ⟨-, h2⟩ := joinSegs_head S.reverse hE (by simpa using hne)
    cases r <;> simp at hd
    exact h2 hd
  have hq : (filepathJoin a b ++ "/" ++ name).data
      = (if r then ['/'] else []) ++ joinSegs S.reverse ++ '/' :: name.data := by
    simp [String.data_append, hd]
  rw [filepathJoin_of_ne _ _ hdne]
  exact String.ext (filepathClean_canonical _ r S name.data hS hne hn hnd hq).1

/-! ## Properties of the overlay manager -/

theorem statLowerDirs_ok (env : OvSetupEnv) (dirs : List String) (tr : List FsEvent)
    (hok : (statLowerDirs env dirs tr).1 = none) :
    (statLowerDirs env dirs tr).2 = tr ++ dirs.map FsEvent.stat := by
  induction dirs generalizing tr with
  | nil => simp [statLowerDirs]
  | cons d rest ih =>
    unfold statLowerDirs at hok ⊢
    rcases hs : env.stat d with _ | e
    · simp only [hs] at hok ⊢
      rw [ih _ hok]
      simp
    · simp [hs] at hok

theorem mkdirSubDirs_ok (env : OvSetupEnv) (base : String) (dirs : List String) (i : Nat)
    (tr : List FsEvent) (hok : (mkdirSubDirs env base dirs i tr).1 = none) :
    (mkdirSubDirs env base dirs i tr).2 = tr ++ dirs.map FsEvent.mkdirAll := by
  induction dirs generalizing tr i with
  | nil => simp [mkdirSubDirs]
  | cons d rest ih =>
    unfold mkdirSubDirs at hok ⊢
    rcases hs : env.mkdirSub i with _ | e
    · simp only [hs] at hok ⊢
      rw [ih _ _ hok]
      simp
    · simp [hs] at hok

theorem ovSetup_ok_inv (ov : OverlayFS) (env : OvSetupEnv) (hok : (ov.Setup env).err = none) :
    (ov.Setup env).ov
        = { ov with
            id := env.id,
            baseDir := filepathJoin (overlayParent ov.config) ("sandbox-overlay-" ++ env.id),
            upperDir := filepathJoin
              (filepathJoin (overlayParent ov.config) ("sandbox-overlay-" ++ env.id)) "upper",
            workDir := filepathJoin
              (filepathJoin (overlayParent ov.config) ("sandbox-overlay-" ++ env.id)) "work",
            mergeDir :=
              if ov.config.MergeDir = "" then
                filepathJoin
                  (filepathJoin (overlayParent ov.config) ("sandbox-overlay-" ++ env.id)) "merged"
              else ov.config.MergeDir,
            setupDone := true }
      ∧ (ov.Setup env).trace
        = ov.config.LowerDirs.map FsEvent.stat
          ++ [FsEvent.mkdirAll (ov.Setup env).ov.baseDir,
              FsEvent.mount "tmpfs" (ov.Setup env).ov.baseDir "tmpfs"
                ("size=" ++ overlayTmpfsSize ov.config ++ ",mode=0700"),
              FsEvent.mkdirAll (ov.Setup env).ov.upperDir,
              FsEvent.mkdirAll (ov.Setup env).ov.workDir,
              FsEvent.mkdirAll (ov.Setup env).ov.mergeDir]
          ++ (if ov.logger then [FsEvent.logInfo "overlay setup"] else []) := by
  rcases ov with ⟨cfg, lg, id0, b, up, wk, mg, sd⟩
  have hst := statLowerDirs_ok env cfg.LowerDirs []
  rcases hs : statLowerDirs env cfg.LowerDirs [] with ⟨se, st⟩
  rw [hs] at hst
  unfold OverlayFS.Setup at hok ⊢
  unfold overlayParent overlayTmpfsSize
  simp only [] at hok hst ⊢
  cases sd
  swap
  · simp at hok
  rcases hen : cfg.Enabled with _ | _
  · simp [hen] at hok
  by_cases hl : cfg.LowerDirs.length = 0
  · simp [hen, hl] at hok
  rcases se with _ | e
  swap
  · simp [hen, hl, hs] at hok
  have hst := hst rfl
  subst hst
  rcases hmb : env.mkdirBase with _ | e
  swap
  · simp [hen, hl, hs, hmb] at hok
  rcases hmt : env.mountTmpfs with _ | e
  swap
  · simp [hen, hl, hs, hmb, hmt] at hok
  by_cases hmg : cfg.MergeDir = ""
  · simp only [hen, hl, hs, hmb, hmt, hmg, ne_eq, not_true_eq_false, if_false, Bool.not_true,
      Bool.false_eq_true, if_true] at hok ⊢
    generalize hmk : mkdirSubDirs env _ _ 0 _ = r at hok ⊢
    rcases r with ⟨_ | e, t⟩
    · have h3 := mkdirSubDirs_ok env _ _ 0 _ (congrArg Prod.fst hmk)
      rw [hmk] at h3
      simp only [] at h3
      subst h3
      cases lg <;> simp
    · simp at hok
  · simp only [hen, hl, hs, hmb, hmt, hmg, ne_eq, not_false_eq_true, if_false, Bool.not_true,
      Bool.false_eq_true, if_true] at hok ⊢
    generalize hmk : mkdirSubDirs env _ _ 0 _ = r at hok ⊢
    rcases r with ⟨_ | e, t⟩
    · have h3 := mkdirSubDirs_ok env _ _ 0 _ (congrArg Prod.fst hmk)
      rw [hmk] at h3
      simp only [] at h3
      subst h3
      cases lg <;> simp
    · simp at hok

theorem filepathJoin_seg_ne_root (a b : String) (ha : a ≠ "") (hb : GoodSeg b.data)
    (hbd : b.data ≠ ['.', '.']) : filepathJoin a b ≠ "/" := by
  obtain ⟨r, S, hS, hne, hd⟩ := filepathJoin_seg a b ha hb hbd
  have hE : ∀ e ∈ S.reverse, GoodSeg e :=
    fun e he => stackOK_good r S hS e (List.mem_reverse.mp he)
  obtain ⟨h1, h2⟩ := joinSegs_head S.reverse hE (by simpa using hne)
  intro h
  rw [h] at hd
  cases r with
  | true =>
    have : joinSegs S.reverse = [] := by
      have h3 : ['/'] = '/' :: joinSegs S.reverse := hd
      simpa using h3.symm
    exact h2 this
  | false =>
    have h3 : ['/'] = joinSegs S.reverse := hd
    rw [← h3] at h1
    exact h1 rfl

theorem pathInside_child (d name : String) (hd : d ≠ "/") (hn : name.data ≠ []) :
    pathInside d (d ++ "/" ++ name) = true := by
  unfold pathInside
  simp only [if_neg hd, Bool.and_eq_true, decide_eq_true_eq]
  have hdata : (d ++ "/" ++ name).data = (d.data ++ ['/']) ++ name.data := by
    simp [String.data_append]
  rw [hdata]
  refine ⟨?_, ?_⟩
  · rw [List.isPrefixOf_iff_prefix]
    exact List.prefix_append _ _
  · have : 0 < name.data.length := List.length_pos.mpr hn
    simp only [List.length_append]
    omega

theorem overlaySeg_good (id : String) (hid : '/' ∉ id.data) :
    GoodSeg ("sandbox-overlay-" ++ id).data ∧ ("sandbox-overlay-" ++ id).data ≠ ['.', '.'] := by
  have hdata : ("sandbox-overlay-" ++ id).data = "sandbox-overlay-".data ++ id.data := by
    simp [String.data_append]
  rw [hdata]
  refine ⟨⟨by simp, by simp, ?_⟩, by simp⟩
  intro h
  rcases List.mem_append.mp h with h | h
  · revert h
    decide
  · exact hid h

/-- C19 (as stated, refuted): with a configuration that names its own merge
directory, `Setup` succeeds and mounts the tmpfs on
`/tmp/sandbox-overlay-1-ab`, yet the merge directory it records and
`InitConfig` returns is `/mnt/merged`, outside that base directory. -/
theorem overlay_dirs_share_tmpfs_counterexample :
    ((NewOverlayFS customMergeConfig).Setup (okOvSetupEnv "1-ab")).err = none
    ∧ ((NewOverlayFS customMergeConfig).Setup (okOvSetupEnv "1-ab")).ov.baseDir
        = "/tmp/sandbox-overlay-1-ab"
    ∧ ((NewOverlayFS customMergeConfig).Setup (okOvSetupEnv "1-ab")).trace
        = [FsEvent.stat "/",
           FsEvent.mkdirAll "/tmp/sandbox-overlay-1-ab",
           FsEvent.mount "tmpfs" "/tmp/sandbox-overlay-1-ab" "tmpfs" "size=64m,mode=0700",
           FsEvent.mkdirAll "/tmp/sandbox-overlay-1-ab/upper",
           FsEvent.mkdirAll "/tmp/sandbox-overlay-1-ab/work",
           FsEvent.mkdirAll "/mnt/merged"]
    ∧ ((NewOverlayFS customMergeConfig).Setup (okOvSetupEnv "1-ab")).ov.InitConfig
        = some { LowerDirs := ["/"], UpperDir := "/tmp/sandbox-overlay-1-ab/upper",
                 WorkDir := "/tmp/sandbox-overlay-1-ab/work", MergeDir := "/mnt/merged",
                 ReadOnly := false }
    ∧ pathInside "/tmp/sandbox-overlay-1-ab" "/mnt/merged" = false := by
  refine ⟨?_, ?_, ?_, ?_, ?_⟩ <;> decide

/-- C19 (amended): when `Setup` of the overlay manager succeeds with an id
without a separator (as `generateID` makes them), the only mount of the call is
the tmpfs on the base directory `<base>/sandbox-overlay-<id>`; the upper and the
work directory recorded by the manager and returned by `InitConfig` are
`<baseDir>/upper` and `<baseDir>/work`, inside that base directory; the merge
directory is `<baseDir>/merged`, inside the base directory as well, exactly
when the configuration names no merge directory, and otherwise it is the
configured `MergeDir` as given. -/
theorem overlay_dirs_on_tmpfs (ov : OverlayFS) (env : OvSetupEnv)
    (hok : (ov.Setup env).err = none) (hid : '/' ∉ env.id.data) :
    (ov.Setup env).ov.baseDir
        = filepathJoin (overlayParent ov.config) ("sandbox-overlay-" ++ env.id)
    ∧ FsEvent.mount "tmpfs" (ov.Setup env).ov.baseDir "tmpfs"
          ("size=" ++ overlayTmpfsSize ov.config ++ ",mode=0700") ∈ (ov.Setup env).trace
    ∧ (∀ e ∈ (ov.Setup env).trace, e.isMount = true →
          e = FsEvent.mount "tmpfs" (ov.Setup env).ov.baseDir "tmpfs"
                ("size=" ++ overlayTmpfsSize ov.config ++ ",mode=0700"))
    ∧ (ov.Setup env).ov.upperDir = (ov.Setup env).ov.baseDir ++ "/" ++ "upper"
    ∧ (ov.Setup env).ov.workDir = (ov.Setup env).ov.baseDir ++ "/" ++ "work"
    ∧ (ov.Setup env).ov.mergeDir
        = (if ov.config.MergeDir = "" then (ov.Setup env).ov.baseDir ++ "/" ++ "merged"
           else ov.config.MergeDir)
    ∧ pathInside (ov.Setup env).ov.baseDir (ov.Setup env).ov.upperDir = true
    ∧ pathInside (ov.Setup env).ov.baseDir (ov.Setup env).ov.workDir = true
    ∧ (ov.config.MergeDir = "" →
        pathInside (ov.Setup env).ov.baseDir (ov.Setup env).ov.mergeDir = true)
    ∧ (ov.Setup env).ov.InitConfig
        = some { LowerDirs := ov.config.LowerDirs, UpperDir := (ov.Setup env).ov.upperDir,
                 WorkDir := (ov.Setup env).ov.workDir, MergeDir := (ov.Setup env).ov.mergeDir,
                 ReadOnly := ov.config.ReadOnly } := by
  obtain ⟨hov, htr⟩ := ovSetup_ok_inv ov env hok
  obtain ⟨hg, hgd⟩ := overlaySeg_good env.id hid
  have hpne : overlayParent ov.config ≠ "" := by
    unfold overlayParent
    split_ifs with h
    · decide
    · exact h
  have hchild : ∀ name : String, GoodSeg name.data → name.data ≠ ['.', '.'] →
      filepathJoin (filepathJoin (overlayParent ov.config) ("sandbox-overlay-" ++ env.id)) name
        = filepathJoin (overlayParent ov.config) ("sandbox-overlay-" ++ env.id) ++ "/" ++ name :=
    fun name h1 h2 => filepathJoin_child _ _ name hpne hg hgd h1 h2
  have hroot := filepathJoin_seg_ne_root _ _ hpne hg hgd
  have hb : (ov.Setup env).ov.baseDir
      = filepathJoin (overlayParent ov.config) ("sandbox-overlay-" ++ env.id) := by rw [hov]
  have hu : (ov.Setup env).ov.upperDir = (ov.Setup env).ov.baseDir ++ "/" ++ "upper" := by
    rw [hov]
    exact hchild "upper" ⟨by decide, by decide, by decide⟩ (by decide)
  have hw : (ov.Setup env).ov.workDir = (ov.Setup env).ov.baseDir ++ "/" ++ "work" := by
    rw [hov]
    exact hchild "work" ⟨by decide, by decide, by decide⟩ (by decide)
  have hm : (ov.Setup env).ov.mergeDir
      = (if ov.config.MergeDir = "" then (ov.Setup env).ov.baseDir ++ "/" ++ "merged"
         else ov.config.MergeDir) := by
    rw [hov]
    simp only []
    split_ifs
    · exact hchild "merged" ⟨by decide, by decide, by decide⟩ (by decide)
    · rfl
  rw [← hb] at hroot
  refine ⟨hb, ?_, ?_, hu, hw, hm, ?_, ?_, ?_, ?_⟩
  · rw [htr]
    simp
  · intro e he hmnt
    rw [htr] at he
    simp only [List.mem_append, List.mem_map, List.mem_cons, List.mem_singleton,
      List.not_mem_nil, or_false] at he
    rcases he with (⟨d, -, rfl⟩ | h | h | h | h | h) | h
    · cases hmnt
    · subst h; cases hmnt
    · exact h
    · subst h; cases hmnt
    · subst h; cases hmnt
    · subst h; cases hmnt
    · split_ifs at h
      · simp only [List.mem_singleton] at h
        subst h
        cases hmnt
      · cases h
  · rw [hu]
    exact pathInside_child _ "upper" hroot (by decide)
  · rw [hw]
    exact pathInside_child _ "work" hroot (by decide)
  · intro hmg
    rw [hm, if_pos hmg]
    exact pathInside_child _ "merged" hroot (by decide)
  · rw [hov]
    rfl

theorem overlay_dirs_on_tmpfs_witness :
    ((NewOverlayFS (DefaultOverlayConfig "/")).Setup (okOvSetupEnv "1-ab")).err = none
    ∧ ((NewOverlayFS (DefaultOverlayConfig "/")).Setup (okOvSetupEnv "1-ab")).ov.baseDir
        = "/tmp/sandbox-overlay-1-ab"
    ∧ ((NewOverlayFS (DefaultOverlayConfig "/")).Setup (okOvSetupEnv "1-ab")).ov.InitConfig
        = some { LowerDirs := ["/"], UpperDir := "/tmp/sandbox-overlay-1-ab/upper",
                 WorkDir := "/tmp/sandbox-overlay-1-ab/work",
                 MergeDir := "/tmp/sandbox-overlay-1-ab/merged", ReadOnly := false }
    ∧ pathInside ((NewOverlayFS (DefaultOverlayConfig "/")).Setup (okOvSetupEnv "1-ab")).ov.baseDir
        ((NewOverlayFS (DefaultOverlayConfig "/")).Setup (okOvSetupEnv "1-ab")).ov.mergeDir = true
    ∧ ((NewOverlayFS customMergeConfig).Setup (okOvSetupEnv "1-ab")).ov.mergeDir
        = "/mnt/merged" := by
  have h := overlay_dirs_on_tmpfs (NewOverlayFS (DefaultOverlayConfig "/")) (okOvSetupEnv "1-ab")
    (by decide) (by decide)
  have h2 := overlay_dirs_on_tmpfs (NewOverlayFS customMergeConfig) (okOvSetupEnv "1-ab")
    (by decide) (by decide)
  refine ⟨by decide, by decide, ?_, h.2.2.2.2.2.2.2.2.1 rfl, ?_⟩
  · rw [h.2.2.2.2.2.2.2.2.2]
    decide
  · rw [h2.2.2.2.2.2.1]
    rfl

/-! ## Properties of buildOverlayOptions -/

theorem intercalate_go_eq (acc s : String) (L : List String) :
    String.intercalate.go acc s L = acc ++ L.foldr (fun a r => s ++ a ++ r) "" := by
  induction L generalizing acc with
  | nil => simp [String.intercalate.go]
  | cons a rest ih =>
    simp only [String.intercalate.go, List.foldr_cons]
    rw [ih]
    simp [String.append_assoc]

theorem joinWithColon_cons (d : String) (rest : List String) :
    joinWithColon (d :: rest) = d ++ rest.foldr (fun a r => ":" ++ a ++ r) "" := by
  induction rest generalizing d with
  | nil => simp [joinWithColon]
  | cons e rest2 ih =>
    simp only [joinWithColon, List.foldr_cons]
    rw [ih e]
    simp [String.append_assoc]

theorem intercalate_colon (L : List String) : ":".intercalate L = joinWithColon L := by
  cases L with
  | nil => rfl
  | cons d rest =>
    simp only [String.intercalate]
    rw [intercalate_go_eq, joinWithColon_cons]

/-- C20: for every `overlayInitConfig`, `buildOverlayOptions` returns `lowerdir=`
followed by the lower dirs joined with `:` in their given order, followed,
exactly when `ReadOnly` is false, by `,upperdir=` + UpperDir + `,workdir=` +
WorkDir; when `ReadOnly` is true the result is `lowerdir=` and the joined lower
dirs alone, whatever the upper and the work directory are. The three cases of
`TestBuildOverlayOptions` are instances. -/
theorem buildOverlayOptions_spec :
    (∀ cfg : overlayInitConfig, buildOverlayOptions cfg = specOverlayOptions cfg)
    ∧ (∀ (lower : List String) (upper work merge : String),
        buildOverlayOptions ⟨lower, upper, work, merge, false⟩
          = "lowerdir=" ++ joinWithColon lower ++ ",upperdir=" ++ upper ++ ",workdir=" ++ work)
    ∧ (∀ (lower : List String) (upper work merge : String),
        buildOverlayOptions ⟨lower, upper, work, merge, true⟩
          = "lowerdir=" ++ joinWithColon lower)
    ∧ buildOverlayOptions ⟨["/lower"], "/upper", "/work", "/merged", false⟩
        = "lowerdir=/lower,upperdir=/upper,workdir=/work"
    ∧ buildOverlayOptions ⟨["/lower1", "/lower2", "/lower3"], "/upper", "/work", "/merged", false⟩
        = "lowerdir=/lower1:/lower2:/lower3,upperdir=/upper,workdir=/work"
    ∧ buildOverlayOptions ⟨["/lower"], "", "", "/merged", true⟩ = "lowerdir=/lower" := by
  refine ⟨fun cfg => ?_, fun lower upper work merge => ?_, fun lower upper work merge => ?_,
    by decide, by decide, by decide⟩
  · unfold buildOverlayOptions specOverlayOptions
    rw [intercalate_colon]
    cases cfg.ReadOnly <;> simp [String.append_assoc]
  · unfold buildOverlayOptions
    rw [intercalate_colon]
    simp [String.append_assoc]
  · unfold buildOverlayOptions
    rw [intercalate_colon]
    simp

/-! ## Properties of cloneFlags and buildCleanEnv -/

theorem cloneFlags_eq_or {W : Type} (ns : Namespace W) :
    ns.cloneFlags
      = (if ns.config.PID then 2 ^ 29 else 0) ||| (if ns.config.IPC then 2 ^ 27 else 0)
        ||| (if ns.config.Mount then 2 ^ 17 else 0) ||| (if ns.config.Network then 2 ^ 30 else 0)
        ||| (if ns.config.UTS then 2 ^ 26 else 0) := by
  unfold Namespace.cloneFlags
  cases ns.config.PID <;> cases ns.config.IPC <;> cases ns.config.Mount <;>
    cases ns.config.Network <;> cases ns.config.UTS <;> decide

/-- C21: for every orchestrator, `cloneFlags` is the bit-OR of exactly the flags
its configuration selects: bit 29 (CLONE_NEWPID) is set iff PID is on, bit 27
(CLONE_NEWIPC) iff IPC, bit 17 (CLONE_NEWNS) iff Mount, bit 30 (CLONE_NEWNET) iff
Network, bit 26 (CLONE_NEWUTS) iff UTS, and no other bit is set; the result is
zero iff all five are off; and it is a function of the five switches alone, so
it does not depend on Hostname, MountProc or SetupLoopback. The two cases of
`TestCloneFlags` are instances. -/
theorem cloneFlags_spec {W : Type} (ns : Namespace W) :
    ns.cloneFlags
        = specCloneFlags ns.config.PID ns.config.IPC ns.config.Mount ns.config.Network
            ns.config.UTS
    ∧ (∀ i : Nat, ns.cloneFlags.testBit i
        = ((ns.config.PID && decide (i = 29)) || (ns.config.IPC && decide (i = 27))
            || (ns.config.Mount && decide (i = 17)) || (ns.config.Network && decide (i = 30))
            || (ns.config.UTS && decide (i = 26))))
    ∧ CLONE_NEWPID = 2 ^ 29 ∧ CLONE_NEWIPC = 2 ^ 27 ∧ CLONE_NEWNS = 2 ^ 17
    ∧ CLONE_NEWNET = 2 ^ 30 ∧ CLONE_NEWUTS = 2 ^ 26
    ∧ (ns.cloneFlags = 0 ↔ (ns.config.PID = false ∧ ns.config.IPC = false
        ∧ ns.config.Mount = false ∧ ns.config.Network = false ∧ ns.config.UTS = false))
    ∧ ns.cloneFlags < 2 ^ 64
    ∧ (NewNamespace DefaultNamespaceConfig : Namespace W).cloneFlags ≠ 0
    ∧ (NewNamespace ⟨false, false, false, false, false, "", false, false⟩
        : Namespace W).cloneFlags = 0 := by
  have hb : ∀ k i : Nat, Nat.testBit (2 ^ k) i = decide (i = k) := by
    intro k i
    rw [Nat.testBit_two_pow]
    simp [eq_comm]
  refine ⟨?_, ?_, by decide, by decide, by decide, by decide, by decide, ?_, ?_, ?_, ?_⟩
  · unfold Namespace.cloneFlags specCloneFlags
    cases ns.config.PID <;> cases ns.config.IPC <;> cases ns.config.Mount <;>
      cases ns.config.Network <;> cases ns.config.UTS <;> decide
  · intro i
    rw [cloneFlags_eq_or]
    simp only [Nat.testBit_or]
    cases ns.config.PID <;> cases ns.config.IPC <;> cases ns.config.Mount <;>
      cases ns.config.Network <;> cases ns.config.UTS <;>
      simp only [if_true, Bool.false_eq_true, if_false, hb, Nat.zero_testBit, Bool.true_and,
        Bool.false_and, Bool.or_false, Bool.false_or]
  · unfold Namespace.cloneFlags
    cases ns.config.PID <;> cases ns.config.IPC <;> cases ns.config.Mount <;>
      cases ns.config.Network <;> cases ns.config.UTS <;> decide
  · unfold Namespace.cloneFlags
    cases ns.config.PID <;> cases ns.config.IPC <;> cases ns.config.Mount <;>
      cases ns.config.Network <;> cases ns.config.UTS <;> decide
  · simp [Namespace.cloneFlags, NewNamespace, DefaultNamespaceConfig, CLONE_NEWPID,
      CLONE_NEWIPC, CLONE_NEWNS, CLONE_NEWNET, CLONE_NEWUTS]
  · simp [Namespace.cloneFlags, NewNamespace]

theorem startsWith_initPipe (e : String) :
    stringsStartsWith e (initPipeEnv ++ "=") = true ↔ "_SANDBOX_INIT_PIPE=".data <+: e.data := by
  unfold stringsStartsWith
  rw [List.isPrefixOf_iff_prefix]
  rfl

theorem startsWith_logPipe (e : String) :
    stringsStartsWith e (initLogPipeEnv ++ "=") = true ↔ "_SANDBOX_LOG_PIPE=".data <+: e.data := by
  unfold stringsStartsWith
  rw [List.isPrefixOf_iff_prefix]
  rfl

theorem cleanEnvLoop_eq_filter (base clean : List String) :
    cleanEnvLoop base clean = clean ++ base.filter (fun e => decide (¬ isInternalEntry e)) := by
  induction base generalizing clean with
  | nil => simp [cleanEnvLoop]
  | cons e rest ih =>
    unfold cleanEnvLoop
    by_cases h1 : stringsStartsWith e (initPipeEnv ++ "=") = true
    · rw [if_pos h1, ih]
      have : isInternalEntry e := Or.inl ((startsWith_initPipe e).mp h1)
      simp [this]
    · rw [if_neg h1]
      by_cases h2 : stringsStartsWith e (initLogPipeEnv ++ "=") = true
      · rw [if_pos h2, ih]
        have : isInternalEntry e := Or.inr ((startsWith_logPipe e).mp h2)
        simp [this]
      · rw [if_neg h2, ih]
        have : ¬ isInternalEntry e := by
          rintro (h | h)
          · exact h1 ((startsWith_initPipe e).mpr h)
          · exact h2 ((startsWith_logPipe e).mpr h)
        simp [this]

/-- C22: for every user environment list and every process environment, the list
returned by `buildCleanEnv` is exactly the base list (the user list when it is
non-empty, the process environment otherwise) without the entries that begin
with `_SANDBOX_INIT_PIPE=` or `_SANDBOX_LOG_PIPE=`, the other entries in their
order; so it holds no such entry and is a sublist of the base list. -/
theorem buildCleanEnv_spec (environ userEnv : List String) :
    buildCleanEnv environ userEnv
        = (specBaseEnv environ userEnv).filter (fun e => decide (¬ isInternalEntry e))
    ∧ (∀ e ∈ buildCleanEnv environ userEnv,
        ¬ ("_SANDBOX_INIT_PIPE=".data <+: e.data) ∧ ¬ ("_SANDBOX_LOG_PIPE=".data <+: e.data))
    ∧ (∀ e ∈ specBaseEnv environ userEnv, ¬ isInternalEntry e →
        e ∈ buildCleanEnv environ userEnv)
    ∧ List.Sublist (buildCleanEnv environ userEnv) (specBaseEnv environ userEnv)
    ∧ buildCleanEnv ["PATH=/bin", "_SANDBOX_INIT_PIPE=3", "HOME=/root", "_SANDBOX_LOG_PIPE=4"] []
        = ["PATH=/bin", "HOME=/root"]
    ∧ buildCleanEnv ["PATH=/bin"] ["_SANDBOX_LOG_PIPE=9", "A=1", "_SANDBOX_INIT_PIPE", "B=2"]
        = ["A=1", "_SANDBOX_INIT_PIPE", "B=2"] := by
  have heq : buildCleanEnv environ userEnv
      = (specBaseEnv environ userEnv).filter (fun e => decide (¬ isInternalEntry e)) := by
    unfold buildCleanEnv specBaseEnv
    rw [cleanEnvLoop_eq_filter]
    cases userEnv <;> simp
  refine ⟨heq, ?_, ?_, ?_, by decide, by decide⟩
  · intro e he
    rw [heq] at he
    have h := (List.mem_filter.mp he).2
    simp only [decide_eq_true_eq] at h
    exact ⟨fun h1 => h (Or.inl h1), fun h2 => h (Or.inr h2)⟩
  · intro e he hn
    rw [heq]
    exact List.mem_filter.mpr ⟨he, by simpa using hn⟩
  · rw [heq]
    exact List.filter_sublist _

theorem buildCleanEnv_spec_witness :
    "A=1" ∈ specBaseEnv ["PATH=/bin"] ["_SANDBOX_LOG_PIPE=9", "A=1"]
    ∧ ¬ isInternalEntry "A=1"
    ∧ "A=1" ∈ buildCleanEnv ["PATH=/bin"] ["_SANDBOX_LOG_PIPE=9", "A=1"]
    ∧ buildCleanEnv ["PATH=/bin"] ["_SANDBOX_LOG_PIPE=9", "A=1"] = ["A=1"] := by
  have h := buildCleanEnv_spec ["PATH=/bin"] ["_SANDBOX_LOG_PIPE=9", "A=1"]
  exact ⟨by decide, by decide, h.2.2.1 "A=1" (by decide) (by decide), by decide⟩

/-! ## Properties of the program layout -/

theorem blockedLoop_code (killIdx sizeB : Int) :
    ∀ (ks : List Int) (i : Nat), ∀ ins ∈ blockedLoop killIdx sizeB ks i, ins.Code = 21 := by
  intro ks
  induction ks with
  | nil => intro i ins h; simp [blockedLoop] at h
  | cons k ks ih =>
    intro i ins h
    simp only [blockedLoop, List.mem_cons] at h
    rcases h with h | h
    · subst h; rfl
    · exact ih _ ins h

theorem blockedLoop_head (killIdx sizeB : Int) (k : Int) (ks : List Int) (i : Nat) :
    (blockedLoop killIdx sizeB (k :: ks) i)[0]?
      = some (bpfJump (bpfJMP ||| bpfJEQ ||| bpfK) (uint32 k)
          (uint8 (killIdx - (4 + sizeB + (i : Int)) - 1)) 0) := by
  simp [blockedLoop]

theorem build_layout_no_families (B : List Int) (logDenied : Bool) :
    buildBPFProgram B [] logDenied
      = sectionA ++ blockedLoop (4 + 0 + (B.length : Int) + 1 + 0) 0 B 0
          ++ [bpfStmt bpfRET seccompRetAllow] ++ [denyRet logDenied] := by
  rw [build_no_families]
  simp [denyRet]

theorem build_layout_families (B F : List Int) (logDenied : Bool) (hF : F ≠ []) :
    buildBPFProgram B F logDenied
      = sectionA ++ [socketRedirect B]
          ++ blockedLoop (4 + 1 + (B.length : Int) + 1 + (1 + (F.length : Int) + 1)) 1 B 0
          ++ [bpfStmt bpfRET seccompRetAllow] ++ [loadArgs0]
          ++ familyLoop (F.length : Int) F 0
          ++ [bpfStmt bpfRET seccompRetAllow] ++ [denyRet logDenied] := by
  rw [build_families_socket B F logDenied hF]
  simp [denyRet, socketRedirect, loadArgs0]

theorem familyLoop_code (numFamilies : Int) :
    ∀ (fs : List Int) (j : Nat), ∀ ins ∈ familyLoop numFamilies fs j, ins.Code = 21 := by
  intro fs
  induction fs with
  | nil => intro j ins h; simp [familyLoop] at h
  | cons f fs ih =>
    intro j ins h
    simp only [familyLoop, List.mem_cons] at h
    rcases h with h | h
    · subst h; rfl
    · exact ih _ ins h

theorem getElem?_last_two {α : Type} (pre : List α) (a b : α) :
    (pre ++ [a] ++ [b])[(pre ++ [a] ++ [b]).length - 2]? = some a
      ∧ (pre ++ [a] ++ [b])[(pre ++ [a] ++ [b]).length - 1]? = some b := by
  constructor
  · have h : (pre ++ [a] ++ [b]).length - 2 = pre.length := by simp
    rw [h, List.append_assoc, List.getElem?_append_right (le_refl _)]
    simp
  · have h : (pre ++ [a] ++ [b]).length - 1 = (pre ++ [a]).length := by simp
    rw [h, List.getElem?_append_right (le_refl _)]
    simp

theorem buildBPFProgram_layout_length (B F : List Int) (logDenied : Bool) :
    (buildBPFProgram B F logDenied).length
      = 6 + B.length + (if F = [] then 0 else F.length + 3) := by
  by_cases hF : F = []
  · subst hF
    rw [build_layout_no_families]
    simp [sectionA, blockedLoop_length]
    omega
  · rw [build_layout_families B F logDenied hF]
    simp [sectionA, blockedLoop_length, familyLoop_length, hF]
    omega

/-- C26: for every blocked list `B`, family list `F` and `logDenied`, the built
program has `6 + len(B)` instructions when `F` is empty and
`6 + len(B) + len(F) + 3` when it is not; the socket redirect (the test
against SYS_socket that jumps to section E) stands at index 4 iff `F` is
non-empty, and so does the load of `args[0]`, at index `len(B) + 6`, which
occurs in the program iff `F` is non-empty; the second-to-last instruction is
RET ALLOW and the last one is the deny RET. -/
theorem buildBPFProgram_layout (B F : List Int) (logDenied : Bool) :
    (buildBPFProgram B F logDenied).length
        = 6 + B.length + (if F = [] then 0 else F.length + 3)
    ∧ ((buildBPFProgram B F logDenied)[4]? = some (socketRedirect B) ↔ F ≠ [])
    ∧ ((buildBPFProgram B F logDenied)[B.length + 6]? = some loadArgs0 ↔ F ≠ [])
    ∧ (loadArgs0 ∈ buildBPFProgram B F logDenied ↔ F ≠ [])
    ∧ (buildBPFProgram B F logDenied)[(buildBPFProgram B F logDenied).length - 2]?
        = some (bpfStmt bpfRET seccompRetAllow)
    ∧ (buildBPFProgram B F logDenied)[(buildBPFProgram B F logDenied).length - 1]?
        = some (denyRet logDenied) := by
  by_cases hF : F = []
  · subst hF
    have hlen : (buildBPFProgram B [] logDenied).length = 6 + B.length := by
      rw [build_layout_no_families]
      simp [sectionA, blockedLoop_length]
      omega
    refine ⟨by simpa using hlen, ?_, ?_, ?_, ?_, ?_⟩
    · simp only [ne_eq, not_true_eq_false, iff_false]
      rw [build_layout_no_families, List.append_assoc, List.append_assoc]
      have h4 : (4 : Nat) = sectionA.length := rfl
      rw [h4, get_append_length]
      cases B with
      | nil => cases logDenied <;> decide
      | cons k ks =>
        rw [List.getElem?_append_left (by simp [blockedLoop]), blockedLoop_head]
        intro h
        have hjt := congrArg SockFilter.Jt (Option.some.inj h)
        simp only [socketRedirect, bpfJump, uint8, List.length_cons] at hjt
        push_cast at hjt
        omega
    · simp only [ne_eq, not_true_eq_false, iff_false]
      rw [List.getElem?_eq_none (by omega)]
      simp
    · simp only [ne_eq, not_true_eq_false, iff_false]
      rw [build_layout_no_families]
      simp only [List.mem_append, List.mem_singleton, not_or]
      refine ⟨⟨⟨by decide, ?_⟩, by decide⟩, ?_⟩
      · intro h
        have := blockedLoop_code _ _ _ _ _ h
        revert this
        decide
      · cases logDenied <;> decide
    · rw [build_layout_no_families]
      exact (getElem?_last_two _ _ _).1
    · rw [build_layout_no_families]
      exact (getElem?_last_two _ _ _).2
  · have hlen : (buildBPFProgram B F logDenied).length = 6 + B.length + (F.length + 3) := by
      rw [build_layout_families B F logDenied hF]
      simp [sectionA, blockedLoop_length, familyLoop_length]
      omega
    refine ⟨by simpa [hF] using hlen, ?_, ?_, ?_, ?_, ?_⟩
    · simp only [ne_eq, hF, not_false_eq_true, iff_true]
      rw [build_layout_families B F logDenied hF]
      simp only [List.append_assoc]
      have h4 : (4 : Nat) = sectionA.length := rfl
      rw [h4, get_append_length]
      simp
    · simp only [ne_eq, hF, not_false_eq_true, iff_true]
      rw [build_layout_families B F logDenied hF]
      have h6 : B.length + 6
          = (sectionA ++ [socketRedirect B]
              ++ blockedLoop (4 + 1 + (B.length : Int) + 1 + (1 + (F.length : Int) + 1)) 1 B 0
              ++ [bpfStmt bpfRET seccompRetAllow]).length := by
        simp [sectionA, blockedLoop_length]
      rw [List.append_assoc _ [bpfStmt bpfRET seccompRetAllow] [denyRet logDenied],
        List.append_assoc _ (familyLoop (F.length : Int) F 0) _,
        List.append_assoc _ [loadArgs0] _, h6, get_append_length]
      simp
    · simp only [ne_eq, hF, not_false_eq_true, iff_true]
      rw [build_layout_families B F logDenied hF]
      simp
    · rw [build_layout_families B F logDenied hF]
      exact (getElem?_last_two _ _ _).1
    · rw [build_layout_families B F logDenied hF]
      exact (getElem?_last_two _ _ _).2

set_option maxRecDepth 100000 in
/-- C27 on the code: with no blocked syscall and 256 blocked families the jump for
`F[0]`, at index 7, carries the offset `uint8(256) = 0` and lands on index 8, not
on the deny instruction at index 264; the filter then allows `socket` with the
family `F[0]` (AF_NETLINK). The redirect of a list of 255 blocked syscalls
carries `uint8(256) = 0` as well. -/
theorem jump_offset_wraps :
    manyFamilies.length = 256
    ∧ (buildBPFProgram [] manyFamilies false).length = 265
    ∧ (buildBPFProgram [] manyFamilies false)[7]?
        = some (bpfJump (bpfJMP ||| bpfJEQ ||| bpfK) (uint32 AF_NETLINK) 0 0)
    ∧ (buildBPFProgram [] manyFamilies false)[264]? = some (denyRet false)
    ∧ runBPF (buildBPFProgram [] manyFamilies false)
        (callData (uint32 SYS_SOCKET) (uint32 AF_NETLINK) 0 (fun _ => 0))
        = some seccompRetAllow
    ∧ (socketRedirect (List.replicate 255 SYS_MOUNT)).Jt = 0 := by
  refine ⟨by decide, by decide, by decide, by decide, ?_, by decide⟩
  decide

theorem loadWord_builder_offsets (d : SeccompData) (k : Nat) (hk : k = 0 ∨ k = 4 ∨ k = 16) :
    ∃ w, loadWord d k = some w := by
  rcases hk with h | h | h <;> subst h <;> simp [loadWord]

/-- A well-formed program returns from every index inside it. -/
theorem runFrom_wellFormed (prog : List SockFilter) (d : SeccompData)
    (hwf : ∀ (p : Nat) (ins : SockFilter), prog[p]? = some ins → InsOK prog.length p ins) :
    ∀ (m pc fuel acc : Nat), pc < prog.length → prog.length - pc ≤ m → m ≤ fuel →
      ∃ ins r, ins ∈ prog ∧ ins.Code = 6 ∧ ins.K = r ∧ runFrom prog d fuel pc acc = some r := by
  intro m
  induction m with
  | zero => intro pc fuel acc hpc hm; omega
  | succ m ih =>
    intro pc fuel acc hpc hm hfuel
    obtain ⟨f, rfl⟩ : ∃ f, fuel = f + 1 := ⟨fuel - 1, by omega⟩
    have hget : prog[pc]? = some (prog.get ⟨pc, hpc⟩) := by
      simp [List.getElem?_eq_getElem hpc]
    rcases hwf pc _ hget with ⟨hc, hk, hnext⟩ | ⟨hc, ht, hf⟩ | hc
    · obtain ⟨w, hw⟩ := loadWord_builder_offsets d _ hk
      rw [runFrom]
      simp only [hget, hc, ldCode_eq, if_true, hw]
      exact ih (pc + 1) f w hnext (by omega) (by omega)
    · rw [runFrom_jeq prog d f pc acc _ hget hc]
      by_cases hacc : acc = (prog.get ⟨pc, hpc⟩).K
      · rw [if_pos hacc]
        exact ih _ f acc ht (by omega) (by omega)
      · rw [if_neg hacc]
        exact ih _ f acc hf (by omega) (by omega)
    · refine ⟨prog.get ⟨pc, hpc⟩, (prog.get ⟨pc, hpc⟩).K, List.get_mem _ _ _, hc, rfl, ?_⟩
      have hc2 : prog[pc].Code = 6 := hc
      rw [runFrom]
      simp [hget, hc2, ldCode_eq, jeqCode_eq, retCode_eq]

theorem getElem?_append_cases {α : Type} (a b : List α) (p : Nat) (x : α)
    (h : (a ++ b)[p]? = some x) :
    (p < a.length ∧ a[p]? = some x) ∨ (a.length ≤ p ∧ b[p - a.length]? = some x) := by
  by_cases hp : p < a.length
  · left
    rw [List.getElem?_append_left hp] at h
    exact ⟨hp, h⟩
  · right
    rw [List.getElem?_append_right (by omega)] at h
    exact ⟨by omega, h⟩

theorem getElem?_singleton_some {α : Type} (a x : α) (n : Nat) (h : [a][n]? = some x) :
    n = 0 ∧ x = a := by
  cases n with
  | zero => simp at h; exact ⟨rfl, h.symm⟩
  | succ n => simp at h

theorem blockedLoop_get (killIdx sizeB : Int) :
    ∀ (ks : List Int) (i n : Nat) (ins : SockFilter),
      (blockedLoop killIdx sizeB ks i)[n]? = some ins →
      n < ks.length ∧ ins.Code = 21 ∧ ins.Jf = 0
        ∧ ins.Jt = uint8 (killIdx - (4 + sizeB + ((i + n : Nat) : Int)) - 1) := by
  intro ks
  induction ks with
  | nil => intro i n ins h; simp [blockedLoop] at h
  | cons k ks ih =>
    intro i n ins h
    cases n with
    | zero =>
      simp only [blockedLoop, List.getElem?_cons_zero, Option.some.injEq] at h
      subst h
      exact ⟨by simp, rfl, rfl, rfl⟩
    | succ n =>
      simp only [blockedLoop, List.getElem?_cons_succ] at h
      obtain ⟨h1, h2, h3, h4⟩ := ih (i + 1) n ins h
      refine ⟨by simp; omega, h2, h3, ?_⟩
      rw [h4]
      congr 2
      push_cast
      omega

theorem familyLoop_get (numFamilies : Int) :
    ∀ (fs : List Int) (j n : Nat) (ins : SockFilter),
      (familyLoop numFamilies fs j)[n]? = some ins →
      n < fs.length ∧ ins.Code = 21 ∧ ins.Jf = 0
        ∧ ins.Jt = uint8 (numFamilies - ((j + n : Nat) : Int)) := by
  intro fs
  induction fs with
  | nil => intro j n ins h; simp [familyLoop] at h
  | cons f fs ih =>
    intro j n ins h
    cases n with
    | zero =>
      simp only [familyLoop, List.getElem?_cons_zero, Option.some.injEq] at h
      subst h
      exact ⟨by simp, rfl, rfl, rfl⟩
    | succ n =>
      simp only [familyLoop, List.getElem?_cons_succ] at h
      obtain ⟨h1, h2, h3, h4⟩ := ih (j + 1) n ins h
      refine ⟨by simp; omega, h2, h3, ?_⟩
      rw [h4]
      congr 1
      push_cast
      omega

theorem uint8_le (x : Int) (hx : 0 ≤ x) : ((uint8 x : Nat) : Int) ≤ x := by
  unfold uint8
  omega

theorem sectionA_ok (n p : Nat) (ins : SockFilter) (hn : 6 ≤ n)
    (h : sectionA[p]? = some ins) : InsOK n p ins := by
  unfold InsOK
  match p, h with
  | 0, h =>
    simp only [sectionA, List.getElem?_cons_zero, Option.some.injEq] at h
    subst h
    left
    exact ⟨by decide, by decide, by omega⟩
  | 1, h =>
    simp only [sectionA, List.getElem?_cons_succ, List.getElem?_cons_zero, Option.some.injEq] at h
    subst h
    right; left
    refine ⟨by decide, ?_, ?_⟩ <;> simp only [bpfJump] <;> omega
  | 2, h =>
    simp only [sectionA, List.getElem?_cons_succ, List.getElem?_cons_zero, Option.some.injEq] at h
    subst h
    right; right
    decide
  | 3, h =>
    simp only [sectionA, List.getElem?_cons_succ, List.getElem?_cons_zero, Option.some.injEq] at h
    subst h
    left
    exact ⟨by decide, by decide, by omega⟩
  | p + 4, h => simp [sectionA] at h

theorem build_insOK_no_families (B : List Int) (logDenied : Bool) (p : Nat) (ins : SockFilter)
    (h : (buildBPFProgram B [] logDenied)[p]? = some ins) :
    InsOK (6 + B.length) p ins := by
  rw [build_layout_no_families] at h
  rcases getElem?_append_cases _ _ _ _ h with ⟨-, h1⟩ | ⟨-, h1⟩
  · rcases getElem?_append_cases _ _ _ _ h1 with ⟨-, h2⟩ | ⟨-, h2⟩
    · rcases getElem?_append_cases _ _ _ _ h2 with ⟨-, h3⟩ | ⟨h3l, h3⟩
      · exact sectionA_ok _ _ _ (by omega) h3
      · obtain ⟨hn, hc, hf, ht⟩ := blockedLoop_get _ _ _ _ _ _ h3
        have hsl : sectionA.length = 4 := rfl
        rw [hsl] at hn h3l ht
        have hle := uint8_le (4 + 0 + (B.length : Int) + 1 + 0
          - (4 + 0 + ((0 + (p - 4) : Nat) : Int)) - 1) (by push_cast; omega)
        rw [← ht] at hle
        right; left
        refine ⟨hc, ?_, ?_⟩
        · push_cast at hle
          omega
        · omega
    · obtain ⟨-, hx⟩ := getElem?_singleton_some _ _ _ h2
      subst hx
      right; right
      rfl
  · obtain ⟨-, hx⟩ := getElem?_singleton_some _ _ _ h1
    subst hx
    right; right
    rfl

theorem build_insOK_families (B F : List Int) (logDenied : Bool) (hF : F ≠ []) (p : Nat)
    (ins : SockFilter) (h : (buildBPFProgram B F logDenied)[p]? = some ins) :
    InsOK (6 + B.length + (F.length + 3)) p ins := by
  have hFl : 0 < F.length := List.length_pos.mpr hF
  have hsl : sectionA.length = 4 := rfl
  rw [build_layout_families B F logDenied hF] at h
  rcases getElem?_append_cases _ _ _ _ h with ⟨-, h1⟩ | ⟨-, h1⟩
  swap
  · obtain ⟨-, hx⟩ := getElem?_singleton_some _ _ _ h1
    subst hx
    right; right
    rfl
  rcases getElem?_append_cases _ _ _ _ h1 with ⟨-, h2⟩ | ⟨-, h2⟩
  swap
  · obtain ⟨-, hx⟩ := getElem?_singleton_some _ _ _ h2
    subst hx
    right; right
    rfl
  rcases getElem?_append_cases _ _ _ _ h2 with ⟨-, h3⟩ | ⟨h3l, h3⟩
  swap
  · obtain ⟨hn, hc, hf, ht⟩ := familyLoop_get _ _ _ _ _ h3
    simp only [List.length_append, List.length_singleton, hsl, blockedLoop_length] at h3l hn ht
    have hle := uint8_le ((F.length : Int)
      - ((0 + (p - (4 + 1 + B.length + 1 + 1)) : Nat) : Int)) (by push_cast; omega)
    rw [← ht] at hle
    right; left
    refine ⟨hc, ?_, ?_⟩
    · push_cast at hle
      omega
    · omega
  rcases getElem?_append_cases _ _ _ _ h3 with ⟨-, h4⟩ | ⟨h4l, h4⟩
  swap
  · obtain ⟨hp0, hx⟩ := getElem?_singleton_some _ _ _ h4
    subst hx
    simp only [List.length_append, List.length_singleton, hsl, blockedLoop_length] at h4l hp0
    left
    exact ⟨rfl, Or.inr (Or.inr rfl), by omega⟩
  rcases getElem?_append_cases _ _ _ _ h4 with ⟨-, h5⟩ | ⟨-, h5⟩
  swap
  · obtain ⟨-, hx⟩ := getElem?_singleton_some _ _ _ h5
    subst hx
    right; right
    rfl
  rcases getElem?_append_cases _ _ _ _ h5 with ⟨-, h6⟩ | ⟨h6l, h6⟩
  swap
  · obtain ⟨hn, hc, hf, ht⟩ := blockedLoop_get _ _ _ _ _ _ h6
    simp only [List.length_append, List.length_singleton, hsl] at h6l hn ht
    have hle := uint8_le (4 + 1 + (B.length : Int) + 1 + (1 + (F.length : Int) + 1)
      - (4 + 1 + ((0 + (p - (4 + 1)) : Nat) : Int)) - 1) (by push_cast; omega)
    rw [← ht] at hle
    right; left
    refine ⟨hc, ?_, ?_⟩
    · push_cast at hle
      omega
    · omega
  rcases getElem?_append_cases _ _ _ _ h6 with ⟨-, h7⟩ | ⟨h7l, h7⟩
  · exact sectionA_ok _ _ _ (by omega) h7
  · obtain ⟨hp0, hx⟩ := getElem?_singleton_some _ _ _ h7
    subst hx
    rw [hsl] at hp0 h7l
    have hle := uint8_le ((B.length : Int) + 1) (by omega)
    right; left
    refine ⟨rfl, ?_, ?_⟩
    · simp only [socketRedirect, bpfJump]
      omega
    · simp only [socketRedirect, bpfJump]
      omega

theorem build_wellFormed (B F : List Int) (logDenied : Bool) :
    WellFormed (buildBPFProgram B F logDenied) := by
  have hl := buildBPFProgram_layout_length B F logDenied
  refine ⟨?_, ?_, ?_⟩
  · intro h
    rw [h] at hl
    simp only [List.length_nil] at hl
    omega
  · intro p ins h
    rw [hl]
    by_cases hF : F = []
    · subst hF
      simpa using build_insOK_no_families B logDenied p ins h
    · simpa [hF] using build_insOK_families B F logDenied hF p ins h
  · by_cases hF : F = []
    · subst hF
      rw [build_layout_no_families]
      exact ⟨_, (getElem?_last_two _ _ _).2⟩
    · rw [build_layout_families B F logDenied hF]
      exact ⟨_, (getElem?_last_two _ _ _).2⟩

theorem build_ret_values (B F : List Int) (logDenied : Bool) (ins : SockFilter)
    (hmem : ins ∈ buildBPFProgram B F logDenied) (hc : ins.Code = 6) :
    ins.K = seccompRetKillProcess ∨ ins.K = seccompRetAllow
      ∨ ins.K = (if logDenied then seccompRetLog else seccompRetKillProcess) := by
  have hA : ∀ x ∈ sectionA, x.Code = 6 → x.K = seccompRetKillProcess := by decide
  by_cases hF : F = []
  · subst hF
    rw [build_layout_no_families] at hmem
    simp only [List.mem_append, List.mem_singleton] at hmem
    rcases hmem with ((h | h) | h) | h
    · exact Or.inl (hA _ h hc)
    · have := blockedLoop_code _ _ _ _ _ h
      omega
    · subst h; exact Or.inr (Or.inl rfl)
    · subst h; exact Or.inr (Or.inr rfl)
  · rw [build_layout_families B F logDenied hF] at hmem
    simp only [List.mem_append, List.mem_singleton] at hmem
    rcases hmem with ((((((h | h) | h) | h) | h) | h) | h) | h
    · exact Or.inl (hA _ h hc)
    · subst h
      have : (socketRedirect B).Code = 21 := rfl
      omega
    · have := blockedLoop_code _ _ _ _ _ h
      omega
    · subst h; exact Or.inr (Or.inl rfl)
    · subst h
      have : loadArgs0.Code = 32 := rfl
      omega
    · have := familyLoop_code _ _ _ _ h
      omega
    · subst h; exact Or.inr (Or.inl rfl)
    · subst h; exact Or.inr (Or.inr rfl)

/-- C30: for every blocked list and family list, of any lengths, and both values
of `logDenied`, the built program is well formed: it is not empty; every
instruction is a word load, a conditional jump or a return; every jump goes
forward, with both its true and its false target at an index strictly below
the length of the program; the last instruction is a RET; and so the run of the
program on any `seccomp_data` ends, within as many steps as the program has
instructions and without leaving the program, with a return action, which is
KILL_PROCESS, ALLOW or the deny action. -/
theorem buildBPFProgram_wellFormed (B F : List Int) (logDenied : Bool) :
    buildBPFProgram B F logDenied ≠ []
    ∧ (∀ (p : Nat) (ins : SockFilter), (buildBPFProgram B F logDenied)[p]? = some ins →
        ins.Code = (bpfLD ||| bpfW ||| bpfABS) ∨ ins.Code = (bpfJMP ||| bpfJEQ ||| bpfK)
          ∨ ins.Code = (bpfRET ||| bpfK))
    ∧ (∀ (p : Nat) (ins : SockFilter), (buildBPFProgram B F logDenied)[p]? = some ins →
        ins.Code = (bpfJMP ||| bpfJEQ ||| bpfK) →
        p < p + 1 + ins.Jt ∧ p + 1 + ins.Jt < (buildBPFProgram B F logDenied).length
          ∧ p < p + 1 + ins.Jf ∧ p + 1 + ins.Jf < (buildBPFProgram B F logDenied).length)
    ∧ (buildBPFProgram B F logDenied)[(buildBPFProgram B F logDenied).length - 1]?
        = some (bpfStmt bpfRET (if logDenied then seccompRetLog else seccompRetKillProcess))
    ∧ (∀ d : SeccompData, ∃ r : Nat,
        runBPF (buildBPFProgram B F logDenied) d = some r
        ∧ (r = seccompRetKillProcess ∨ r = seccompRetAllow
            ∨ r = (if logDenied then seccompRetLog else seccompRetKillProcess))) := by
  obtain ⟨hne, hok, -⟩ := build_wellFormed B F logDenied
  have hlast : (buildBPFProgram B F logDenied)[(buildBPFProgram B F logDenied).length - 1]?
      = some (denyRet logDenied) := by
    by_cases hF : F = []
    · subst hF
      rw [build_layout_no_families]
      exact (getElem?_last_two _ _ _).2
    · rw [build_layout_families B F logDenied hF]
      exact (getElem?_last_two _ _ _).2
  refine ⟨hne, ?_, ?_, hlast, ?_⟩
  · intro p ins h
    rw [ldCode_eq, jeqCode_eq, retCode_eq]
    rcases hok p ins h with ⟨hc, -, -⟩ | ⟨hc, -, -⟩ | hc
    · exact Or.inl hc
    · exact Or.inr (Or.inl hc)
    · exact Or.inr (Or.inr hc)
  · intro p ins h hc
    rw [jeqCode_eq] at hc
    rcases hok p ins h with ⟨hc2, -, -⟩ | ⟨-, ht, hf⟩ | hc2
    · omega
    · exact ⟨by omega, ht, by omega, hf⟩
    · omega
  · intro d
    have hpos : 0 < (buildBPFProgram B F logDenied).length := List.length_pos.mpr hne
    obtain ⟨ins, r, hmem, hc, hk, hrun⟩ := runFrom_wellFormed _ d hok
      (buildBPFProgram B F logDenied).length 0 (buildBPFProgram B F logDenied).length 0 hpos
      (by omega) (le_refl _)
    refine ⟨r, hrun, ?_⟩
    rw [← hk]
    exact build_ret_values B F logDenied ins hmem hc

set_option maxRecDepth 100000 in
theorem buildBPFProgram_wellFormed_witness :
    (buildBPFProgram [] manyFamilies false)[7]?
        = some (bpfJump (bpfJMP ||| bpfJEQ ||| bpfK) (uint32 AF_NETLINK) 0 0)
    ∧ (7 < 7 + 1 + 0 ∧ 7 + 1 + 0 < (buildBPFProgram [] manyFamilies false).length)
    ∧ (buildBPFProgram [SYS_MOUNT] [AF_NETLINK, AF_PACKET] true)[5]?
        = some (bpfJump (bpfJMP ||| bpfJEQ ||| bpfK) (uint32 SYS_MOUNT) 5 0)
    ∧ 5 + 1 + 5 < (buildBPFProgram [SYS_MOUNT] [AF_NETLINK, AF_PACKET] true).length := by
  have h := (buildBPFProgram_wellFormed [] manyFamilies false).2.2.1 7
    (bpfJump (bpfJMP ||| bpfJEQ ||| bpfK) (uint32 AF_NETLINK) 0 0) (by decide) rfl
  have h2 := (buildBPFProgram_wellFormed [SYS_MOUNT] [AF_NETLINK, AF_PACKET] true).2.2.1 5
    (bpfJump (bpfJMP ||| bpfJEQ ||| bpfK) (uint32 SYS_MOUNT) 5 0) (by decide) rfl
  exact ⟨by decide, ⟨h.1, h.2.1⟩, by decide, h2.2.1⟩

/-! ## Properties of the launcher -/

theorem startSend_encode {W : Type} (ns : Namespace W) (env : StartEnv) (command : String)
    (args : List String) (pid : Int) (w : W) (tr : List NsEvent) (cfg : initConfig)
    (hmem : NsEvent.encode cfg ∈ (ns.startSend env command args pid w tr).trace) :
    NsEvent.encode cfg ∈ tr
      ∨ (cfg.Hostname = ns.config.Hostname ∧ cfg.MountProc = ns.config.MountProc
          ∧ cfg.SetupLoopback = ns.config.SetupLoopback ∧ cfg.Command = command
          ∧ cfg.Args = args) := by
  unfold Namespace.startSend at hmem
  rcases henc : env.encode with _ | e <;> rcases hov : ns.overlayFS with _ | ov <;>
    rcases hcg : ns.cgroupsV2 with _ | cg <;> cases hlg : ns.logger <;>
    simp only [henc, hov, hcg, hlg, if_true, if_false, Bool.false_eq_true, List.mem_append,
      List.mem_cons, List.mem_singleton, List.not_mem_nil, or_false, reduceCtorEq,
      NsEvent.encode.injEq, false_or] at hmem <;>
    rcases hmem with h | h <;>
    first
    | exact Or.inl h
    | (subst h; exact Or.inr ⟨rfl, rfl, rfl, rfl, rfl⟩)

theorem start_encode {W : Type} (ns : Namespace W) (env : StartEnv) (command : String)
    (args : List String) (w : W) (cfg : initConfig)
    (hmem : NsEvent.encode cfg ∈ (ns.Start env command args w).trace) :
    cfg.Hostname = ns.config.Hostname ∧ cfg.MountProc = ns.config.MountProc
      ∧ cfg.SetupLoopback = ns.config.SetupLoopback ∧ cfg.Command = command
      ∧ cfg.Args = args := by
  have hsend : ∀ (pid : Int) (w2 : W) (tr : List NsEvent),
      NsEvent.encode cfg ∉ tr →
      NsEvent.encode cfg ∈ (ns.startSend env command args pid w2 tr).trace →
      cfg.Hostname = ns.config.Hostname ∧ cfg.MountProc = ns.config.MountProc
        ∧ cfg.SetupLoopback = ns.config.SetupLoopback ∧ cfg.Command = command
        ∧ cfg.Args = args := by
    intro pid w2 tr hn h
    rcases startSend_encode ns env command args pid w2 tr cfg h with h1 | h1
    · exact absurd h1 hn
    · exact h1
  unfold Namespace.Start at hmem
  cases hr : ns.running
  swap
  · simp [hr] at hmem
  simp only [hr, Bool.false_eq_true, if_false] at hmem
  rcases hp : env.pipe with _ | e
  swap
  · simp [hp] at hmem
  simp only [hp] at hmem
  cases hlg : ns.logger
  · simp only [hlg, Bool.false_eq_true, if_false] at hmem
    rcases hcs : env.cmdStart with e | pid
    · simp [hcs] at hmem
    · simp only [hcs] at hmem
      rcases hcg : ns.cgroupsV2 with _ | cg
      · simp only [hcg] at hmem
        exact hsend _ _ _ (by simp) hmem
      · simp only [hcg] at hmem
        rcases hadd : cg.AddProcess pid w with ⟨_ | e, w2⟩
        · simp only [hadd] at hmem
          exact hsend _ _ _ (by simp) hmem
        · simp [hadd] at hmem
  · simp only [hlg, if_true] at hmem
    rcases hlp : env.logPipe with _ | e
    swap
    · simp [hlp] at hmem
    simp only [hlp] at hmem
    rcases hcs : env.cmdStart with e | pid
    · simp [hcs] at hmem
    · simp only [hcs] at hmem
      rcases hcg : ns.cgroupsV2 with _ | cg
      · simp only [hcg] at hmem
        exact hsend _ _ _ (by simp) hmem
      · simp only [hcg] at hmem
        rcases hadd : cg.AddProcess pid w with ⟨_ | e, w2⟩
        · simp only [hadd] at hmem
          exact hsend _ _ _ (by simp) hmem
        · simp [hadd] at hmem

theorem cleanupLoop_no_encode {W : Type} (cleanups : List (CleanupFn W)) :
    ∀ (k : Nat) (errs : List String) (w : W) (tr : List NsEvent) (cfg : initConfig),
      NsEvent.encode cfg ∉ tr →
      NsEvent.encode cfg ∉ (cleanupLoop cleanups k errs w tr).2.2 := by
  intro k
  induction k with
  | zero => intro errs w tr cfg h; simpa [cleanupLoop] using h
  | succ k ih =>
    intro errs w tr cfg h
    unfold cleanupLoop
    rcases hk : cleanups[k]? with _ | fn
    · exact ih _ _ _ _ h
    · simp only []
      rcases hf : fn w with ⟨_ | e, w2⟩
      · exact ih _ _ _ _ (by simpa using h)
      · exact ih _ _ _ _ (by simpa using h)

theorem cleanup_no_encode {W : Type} (ns : Namespace W) (killErr : GoError) (w : W)
    (cfg : initConfig) : NsEvent.encode cfg ∉ (ns.Cleanup killErr w).trace := by
  unfold Namespace.Cleanup
  simp only []
  have key : ∀ (errs : List String) (tr : List NsEvent) (n : Namespace W),
      NsEvent.encode cfg ∉ tr →
      NsEvent.encode cfg ∉ (cleanupLoop n.cleanups n.cleanups.length errs w tr).2.2 :=
    fun errs tr n h => cleanupLoop_no_encode _ _ _ _ _ _ h
  cases hlg : ns.logger <;> cases hr : ns.running <;> cases hc : ns.cmd <;>
    cases hd : ns.done <;> cases killErr <;>
    simp only [Bool.and_self, Bool.false_and, Bool.and_false, Bool.false_eq_true, if_true,
      if_false] <;>
    split_ifs <;> simp only [] <;> apply key <;> simp

theorem wait_no_encode {W : Type} (ns : Namespace W) (waited : CmdWaitResult) (w : W)
    (cfg : initConfig) : NsEvent.encode cfg ∉ (ns.Wait waited w).trace := by
  unfold Namespace.Wait
  cases hr : ns.running <;> cases hc : ns.cmd <;> cases hd : ns.done <;> cases waited <;> simp

theorem runReturn_encode (env : RunEnv) (ns : Namespace RunWorld) (w : RunWorld)
    (calls : List NsEvent) (code : Int) (cfg : initConfig)
    (h : NsEvent.encode cfg ∈ (runReturn env ns w calls code).calls) :
    NsEvent.encode cfg ∈ calls := by
  unfold runReturn at h
  simp only [List.mem_append] at h
  rcases h with h | h
  · exact h
  · exact absurd h (cleanup_no_encode ns env.kill w cfg)

theorem runExecute_encode (f : Flags) (env : RunEnv) (ns : Namespace RunWorld) (w : RunWorld)
    (cfg : initConfig) (c : NamespaceConfig) (hc : ns.config = c)
    (h : NsEvent.encode cfg ∈ (runExecute f env ns w).calls) :
    cfg.Hostname = c.Hostname ∧ cfg.MountProc = c.MountProc
      ∧ cfg.SetupLoopback = c.SetupLoopback := by
  subst hc
  have hx : NsEvent.encode cfg
      ∈ (ns.Execute env.start env.waited (f.args.headD "") f.args.tail w).trace := by
    unfold runExecute at h
    simp only [] at h
    split at h
    · exact runReturn_encode _ _ _ _ _ _ h
    · split at h
      · exact runReturn_encode _ _ _ _ _ _ h
      · exact runReturn_encode _ _ _ _ _ _ h
  unfold Namespace.Execute at hx
  simp only [] at hx
  split at hx
  · obtain ⟨h1, h2, h3, -, -⟩ := start_encode ns env.start _ _ w cfg hx
    exact ⟨h1, h2, h3⟩
  · simp only [List.mem_append] at hx
    rcases hx with hx | hx
    · obtain ⟨h1, h2, h3, -, -⟩ := start_encode ns env.start _ _ w cfg hx
      exact ⟨h1, h2, h3⟩
    · exact absurd hx (wait_no_encode _ _ _ cfg)

theorem runCgroup_encode (f : Flags) (env : RunEnv) (ns : Namespace RunWorld) (w : RunWorld)
    (cfg : initConfig) (c : NamespaceConfig) (hc : ns.config = c)
    (h : NsEvent.encode cfg ∈ (runCgroup f env ns w).calls) :
    cfg.Hostname = c.Hostname ∧ cfg.MountProc = c.MountProc
      ∧ cfg.SetupLoopback = c.SetupLoopback := by
  unfold runCgroup at h
  split_ifs at h
  · split at h
    · exact absurd (runReturn_encode _ _ _ _ _ _ h) (by simp)
    · simp only [] at h
      split at h
      · exact absurd (runReturn_encode _ _ _ _ _ _ h) (by simp)
      · exact runExecute_encode f env _ _ cfg c (by exact hc) h
  · exact runExecute_encode f env _ _ cfg c hc h

theorem run_encode (f : Flags) (env : RunEnv) (dirs : List String) (cfg : initConfig)
    (h : NsEvent.encode cfg ∈ (run f env dirs).calls) :
    cfg.Hostname = (launcherConfig f).Hostname ∧ cfg.MountProc = (launcherConfig f).MountProc
      ∧ cfg.SetupLoopback = (launcherConfig f).SetupLoopback := by
  unfold run at h
  simp only [] at h
  split_ifs at h
  · simp at h
  · split at h
    · simp at h
    · split at h
      · exact absurd (runReturn_encode _ _ _ _ _ _ h) (by simp)
      · exact runCgroup_encode f env _ _ cfg (launcherConfig f) (by rfl) h
  · split at h
    · simp at h
    · exact runCgroup_encode f env _ _ cfg (launcherConfig f) (by rfl) h

theorem launcherConfig_fields (f : Flags) :
    (launcherConfig f).PID = !f.noPID
    ∧ (launcherConfig f).MountProc = !f.noPID
    ∧ (launcherConfig f).Network = !f.noNet
    ∧ (launcherConfig f).SetupLoopback = !f.noNet
    ∧ (launcherConfig f).Hostname = f.host := by
  unfold launcherConfig DefaultNamespaceConfig
  cases f.noPID <;> cases f.noIPC <;> cases f.noNet <;> cases f.noUTS <;> simp

/-- C28 (as stated, refuted): `NewNamespace` takes a configuration with PID off and
MountProc on as it is, and the descriptor that `Start` then sends has
`mount_proc` true. -/
theorem mount_proc_invariant_counterexample :
    procWithoutPidConfig.PID = false
    ∧ (NewNamespace procWithoutPidConfig : Namespace Unit).config.PID = false
    ∧ (NewNamespace procWithoutPidConfig : Namespace Unit).config.MountProc = true
    ∧ ((NewNamespace procWithoutPidConfig : Namespace Unit).Start (startOk 7) "sh" [] ()).err
        = none
    ∧ ((NewNamespace procWithoutPidConfig : Namespace Unit).Start (startOk 7) "sh" []
          ()).trace.filter NsEvent.isEncode
        = [NsEvent.encode { Hostname := "sandbox", MountProc := true, SetupLoopback := true,
                            Overlay := none, Command := "sh", Args := [], Env := [],
                            WorkDir := "" }] := by
  refine ⟨rfl, rfl, rfl, rfl, ?_⟩
  decide

/-- C28 (amended): `NewNamespace` holds the configuration it is given unchanged,
and every init descriptor that `Start` sends copies Hostname, MountProc and
SetupLoopback from it, so the descriptor satisfies `PID off implies mount-proc
off` exactly when the given configuration does. The configuration that the
launcher builds from its flags does: `--no-pid` turns PID and MountProc off
together (and `--no-net` Network and SetupLoopback), so in every descriptor
sent during `run`, `mount_proc` is false whenever PID is off. -/
theorem descriptor_copies_mount_proc :
    (∀ (c : NamespaceConfig), (NewNamespace c : Namespace Unit).config = c)
    ∧ (∀ (ns : Namespace Unit) (env : StartEnv) (command : String) (args : List String)
        (cfg : initConfig), NsEvent.encode cfg ∈ (ns.Start env command args ()).trace →
          cfg.MountProc = ns.config.MountProc ∧ cfg.Hostname = ns.config.Hostname
            ∧ cfg.SetupLoopback = ns.config.SetupLoopback)
    ∧ (∀ f : Flags, ((launcherConfig f).PID = false → (launcherConfig f).MountProc = false)
        ∧ ((launcherConfig f).Network = false → (launcherConfig f).SetupLoopback = false))
    ∧ (∀ (f : Flags) (env : RunEnv) (dirs : List String) (cfg : initConfig),
        NsEvent.encode cfg ∈ (run f env dirs).calls → (launcherConfig f).PID = false →
          cfg.MountProc = false)
    ∧ DefaultNamespaceConfig.PID = true ∧ MinimalNamespaceConfig.PID = true := by
  refine ⟨fun c => rfl, ?_, ?_, ?_, rfl, rfl⟩
  · intro ns env command args cfg h
    obtain ⟨h1, h2, h3, -, -⟩ := start_encode ns env command args () cfg h
    exact ⟨h2, h1, h3⟩
  · intro f
    obtain ⟨h1, h2, h3, h4, -⟩ := launcherConfig_fields f
    rw [h1, h2, h3, h4]
    exact ⟨id, id⟩
  · intro f env dirs cfg h hpid
    obtain ⟨-, h2, -⟩ := run_encode f env dirs cfg h
    obtain ⟨h3, h4, -⟩ := launcherConfig_fields f
    rw [h2, h4, ← h3]
    exact hpid

theorem descriptor_copies_mount_proc_witness :
    (launcherConfig noPidFlags).PID = false
    ∧ NsEvent.encode { Hostname := "sandbox", MountProc := false, SetupLoopback := true,
                       Overlay := none, Command := "sh", Args := [], Env := [], WorkDir := "" }
        ∈ (run noPidFlags okRunEnv []).calls
    ∧ (run noPidFlags okRunEnv []).code = 0
    ∧ (∀ cfg, NsEvent.encode cfg ∈ (run noPidFlags okRunEnv []).calls → cfg.MountProc = false) :=
  ⟨rfl, by decide, by decide,
    fun cfg h => descriptor_copies_mount_proc.2.2.2.1 noPidFlags okRunEnv [] cfg h rfl⟩

/-- C29 on the code: `ai-sandbox --overlay sh` on a host where the cgroup `Setup`
fails returns 1 with the overlay still set up: its tmpfs was mounted and never
unmounted, and the deferred `ns.Cleanup()` ran with an empty cleanup list. When
`cmd.Start()` fails instead, both managers are left set up and the cgroup
directory still exists. On the path where every call succeeds both `Cleanup`s
run. -/
theorem run_leaks_managers :
    (run overlayFlags noCgroupHostEnv []).code = 1
    ∧ (run overlayFlags noCgroupHostEnv []).world.ov.map OverlayFS.setupDone = some true
    ∧ (run overlayFlags noCgroupHostEnv []).world.fs
        = [FsEvent.stat "/", FsEvent.mkdirAll "/tmp/sandbox-overlay-1-ab",
           FsEvent.mount "tmpfs" "/tmp/sandbox-overlay-1-ab" "tmpfs" "size=64m,mode=0700",
           FsEvent.mkdirAll "/tmp/sandbox-overlay-1-ab/upper",
           FsEvent.mkdirAll "/tmp/sandbox-overlay-1-ab/work",
           FsEvent.mkdirAll "/tmp/sandbox-overlay-1-ab/merged",
           FsEvent.logInfo "overlay setup",
           FsEvent.stat "/sys/fs/cgroup/cgroup.controllers"]
    ∧ (run overlayFlags noCgroupHostEnv []).calls = [NsEvent.logInfo "namespace cleanup"]
    ∧ (run overlayFlags startFailsEnv []).code = 1
    ∧ (run overlayFlags startFailsEnv []).world.ov.map OverlayFS.setupDone = some true
    ∧ (run overlayFlags startFailsEnv []).world.cg.map CgroupsV2.setupDone = some true
    ∧ (run overlayFlags startFailsEnv []).world.dirs = ["/sys/fs/cgroup/sandbox-2-cd"]
    ∧ (run overlayFlags startFailsEnv []).world.fs.filter
          (fun e => decide (e = FsEvent.unmount "/tmp/sandbox-overlay-1-ab"
            ∨ e = FsEvent.remove "/sys/fs/cgroup/sandbox-2-cd")) = []
    ∧ (run overlayFlags okRunEnv []).code = 0
    ∧ (run overlayFlags okRunEnv []).world.ov.map OverlayFS.setupDone = some false
    ∧ (run overlayFlags okRunEnv []).world.cg.map CgroupsV2.setupDone = some false
    ∧ (run overlayFlags okRunEnv []).world.dirs = [] := by
  refine ⟨?_, ?_, ?_, ?_, ?_, ?_, ?_, ?_, ?_, ?_, ?_, ?_, ?_⟩ <;> decide

/-! ## Properties of the JSON encoding -/

theorem char_validRune (c : Char) : validRune c.val.toNat := by
  rcases c.valid with h | h
  · left; exact h
  · right; exact h

theorem utf8DecodeRune_two (p0 b1 : Nat) (rest : Bytes) (h0 : 0xC2 ≤ p0 ∧ p0 < 0xE0)
    (h1 : 0x80 ≤ b1 ∧ b1 ≤ 0xBF) :
    utf8DecodeRune (p0 :: b1 :: rest) = (p0 % 32 * 64 + b1 % 64, 2) := by
  have e1 : ¬ p0 < 0x80 := by omega
  have e2 : ¬ (p0 < 0xC2 ∨ 0xF4 < p0) := by omega
  have e3 : ¬ p0 = 0xE0 := by omega
  have e4 : ¬ p0 = 0xF0 := by omega
  have e5 : ¬ p0 = 0xED := by omega
  have e6 : ¬ p0 = 0xF4 := by omega
  have e7 : p0 < 0xE0 := by omega
  have e8 : ¬ (b1 < 0x80 ∨ 0xBF < b1) := by omega
  simp only [utf8DecodeRune, if_neg e1, if_neg e2, if_neg e3, if_neg e4, if_neg e5, if_neg e6,
    if_pos e7, if_neg e8]

theorem utf8DecodeRune_three (p0 b1 b2 : Nat) (rest : Bytes) (h0 : 0xE0 ≤ p0 ∧ p0 < 0xF0)
    (h1 : (if p0 = 0xE0 then 0xA0 else 0x80) ≤ b1 ∧ b1 ≤ (if p0 = 0xED then 0x9F else 0xBF))
    (h2 : 0x80 ≤ b2 ∧ b2 ≤ 0xBF) :
    utf8DecodeRune (p0 :: b1 :: b2 :: rest)
      = (p0 % 16 * 4096 + b1 % 64 * 64 + b2 % 64, 3) := by
  have e1 : ¬ p0 < 0x80 := by omega
  have e2 : ¬ (p0 < 0xC2 ∨ 0xF4 < p0) := by omega
  have e4 : ¬ p0 = 0xF0 := by omega
  have e6 : ¬ p0 = 0xF4 := by omega
  have e7 : ¬ p0 < 0xE0 := by omega
  have e7b : p0 < 0xF0 := by omega
  have e9 : ¬ (b2 < 0x80 ∨ 0xBF < b2) := by omega
  have e8 : ¬ (b1 < (if p0 = 0xE0 then 0xA0 else 0x80)
      ∨ (if p0 = 0xED then 0x9F else 0xBF) < b1) := by omega
  simp only [utf8DecodeRune, if_neg e1, if_neg e2, if_neg e4, if_neg e6,
    if_neg e7, if_pos e7b, if_neg e8, if_neg e9]

theorem utf8DecodeRune_four (p0 b1 b2 b3 : Nat) (rest : Bytes) (h0 : 0xF0 ≤ p0 ∧ p0 ≤ 0xF4)
    (h1 : (if p0 = 0xF0 then 0x90 else 0x80) ≤ b1 ∧ b1 ≤ (if p0 = 0xF4 then 0x8F else 0xBF))
    (h2 : 0x80 ≤ b2 ∧ b2 ≤ 0xBF) (h3 : 0x80 ≤ b3 ∧ b3 ≤ 0xBF) :
    utf8DecodeRune (p0 :: b1 :: b2 :: b3 :: rest)
      = (p0 % 8 * 262144 + b1 % 64 * 4096 + b2 % 64 * 64 + b3 % 64, 4) := by
  have e1 : ¬ p0 < 0x80 := by omega
  have e2 : ¬ (p0 < 0xC2 ∨ 0xF4 < p0) := by omega
  have e3 : ¬ p0 = 0xE0 := by omega
  have e5 : ¬ p0 = 0xED := by omega
  have e7 : ¬ p0 < 0xE0 := by omega
  have e7b : ¬ p0 < 0xF0 := by omega
  have e9 : ¬ (b2 < 0x80 ∨ 0xBF < b2) := by omega
  have e10 : ¬ (b3 < 0x80 ∨ 0xBF < b3) := by omega
  have e8 : ¬ (b1 < (if p0 = 0xF0 then 0x90 else 0x80)
      ∨ (if p0 = 0xF4 then 0x8F else 0xBF) < b1) := by omega
  simp only [utf8DecodeRune, if_neg e1, if_neg e2, if_neg e3, if_neg e5,
    if_neg e7, if_neg e7b, if_neg e8, if_neg e9, if_neg e10]

theorem utf8DecodeRune_encode (n : Nat) (hn : validRune n) (rest : Bytes) :
    utf8DecodeRune (utf8EncodeRune n ++ rest) = (n, (utf8EncodeRune n).length) := by
  unfold validRune at hn
  unfold utf8EncodeRune
  by_cases h1 : n ≤ 0x7F
  · rw [if_pos h1]
    simp only [List.singleton_append, utf8DecodeRune, List.length_singleton]
    rw [if_pos (by omega)]
  · rw [if_neg h1]
    by_cases h2 : n ≤ 0x7FF
    · rw [if_pos h2]
      simp only [List.cons_append, List.nil_append, List.length_cons, List.length_nil]
      rw [utf8DecodeRune_two _ _ _ (by omega) (by omega), Prod.mk.injEq]
      constructor <;> omega
    · rw [if_neg h2, if_neg (by omega)]
      by_cases h3 : n ≤ 0xFFFF
      · rw [if_pos h3]
        simp only [List.cons_append, List.nil_append, List.length_cons, List.length_nil]
        rw [utf8DecodeRune_three _ _ _ _ (by omega) (by split_ifs <;> omega) (by omega),
          Prod.mk.injEq]
        constructor <;> omega
      · rw [if_neg h3]
        simp only [List.cons_append, List.nil_append, List.length_cons, List.length_nil]
        rw [utf8DecodeRune_four _ _ _ _ _ (by omega) (by split_ifs <;> omega) (by omega)
          (by omega), Prod.mk.injEq]
        constructor <;> omega

theorem appendStringLoop_skip (xs rest : Bytes) :
    appendStringLoop xs.length (xs ++ rest) = appendStringLoop 0 rest := by
  induction xs with
  | nil => rfl
  | cons x xs ih =>
    rw [List.length_cons, List.cons_append, appendStringLoop]
    exact ih

theorem unquoteLoop_skip (xs rest : Bytes) :
    unquoteLoop xs.length (xs ++ rest) = unquoteLoop 0 rest := by
  induction xs with
  | nil => rfl
  | cons x xs ih =>
    rw [List.length_cons, List.cons_append, unquoteLoop]
    exact ih

theorem scanStringBody_succ (k b : Nat) (rest : Bytes) :
    scanStringBody (k + 1) (b :: rest)
      = (scanStringBody k rest).map (fun p => (b :: p.1, p.2)) := rfl

theorem scanStringBody_skip (xs rest : Bytes) :
    scanStringBody xs.length (xs ++ rest)
      = (scanStringBody 0 rest).map (fun p => (xs ++ p.1, p.2)) := by
  induction xs with
  | nil => simp
  | cons x xs ih =>
    rw [List.length_cons, List.cons_append, scanStringBody_succ, ih]
    simp [Option.map_map, Function.comp_def]

theorem scanStringBody_escape2 (e : Nat) (more : Bytes)
    (he : e = 34 ∨ e = 92 ∨ e = 47 ∨ e = 98 ∨ e = 102 ∨ e = 110 ∨ e = 114 ∨ e = 116) :
    scanStringBody 0 (92 :: e :: more)
      = (scanStringBody 0 more).map (fun p => (92 :: e :: p.1, p.2)) := by
  have h1 := scanStringBody_skip [e] more
  simp only [List.length_cons, List.length_nil, List.cons_append, List.nil_append,
    Nat.zero_add] at h1
  have e1 : scanStringBody 0 (92 :: e :: more)
      = (scanStringBody 1 (e :: more)).map (fun p => (92 :: p.1, p.2)) := by
    rw [scanStringBody.eq_def]
    simp only [show ¬ ((92 : Nat) = 34) by decide, if_false, if_true, if_pos he]
  rw [e1, h1]
  simp [Option.map_map, Function.comp_def]

theorem scanStringBody_escape4 (a b c d : Nat) (more : Bytes) (ha : isHexDigit a = true)
    (hb : isHexDigit b = true) (hc : isHexDigit c = true) (hd : isHexDigit d = true) :
    scanStringBody 0 (92 :: 117 :: a :: b :: c :: d :: more)
      = (scanStringBody 0 more).map (fun p => (92 :: 117 :: a :: b :: c :: d :: p.1, p.2)) := by
  have h5 := scanStringBody_skip [117, a, b, c, d] more
  simp only [List.length_cons, List.length_nil, List.cons_append, List.nil_append,
    Nat.zero_add] at h5
  have e1 : scanStringBody 0 (92 :: 117 :: a :: b :: c :: d :: more)
      = (scanStringBody 5 (117 :: a :: b :: c :: d :: more)).map (fun p => (92 :: p.1, p.2)) := by
    rw [scanStringBody.eq_def]
    simp only [show ¬ ((92 : Nat) = 34) by decide, if_false, if_true,
      show ¬ ((117 : Nat) = 34 ∨ (117 : Nat) = 92 ∨ (117 : Nat) = 47 ∨ (117 : Nat) = 98
      ∨ (117 : Nat) = 102 ∨ (117 : Nat) = 110 ∨ (117 : Nat) = 114 ∨ (117 : Nat) = 116) by decide,
      ha, hb, hc, hd, Bool.and_self]
  rw [e1, h5]
  simp [Option.map_map, Function.comp_def]

theorem scanStringBody_plain (xs rest : Bytes)
    (h : ∀ x ∈ xs, 0x20 ≤ x ∧ x ≠ 34 ∧ x ≠ 92) :
    scanStringBody 0 (xs ++ rest)
      = (scanStringBody 0 rest).map (fun p => (xs ++ p.1, p.2)) := by
  induction xs with
  | nil => simp
  | cons x xs ih =>
    have hx := h x (List.mem_cons_self _ _)
    have e1 : scanStringBody 0 (x :: (xs ++ rest))
        = (scanStringBody 0 (xs ++ rest)).map (fun p => (x :: p.1, p.2)) := by
      rw [scanStringBody.eq_def]
      simp only [if_neg hx.2.1, if_neg hx.2.2, if_neg (show ¬ x < 32 by omega)]
    rw [List.cons_append, e1, ih (fun y hy => h y (List.mem_cons_of_mem _ hy))]
    simp [Option.map_map, Function.comp_def]

theorem utf8EncodeRune_high (n : Nat) (h : 0x7F < n) :
    (∀ x ∈ utf8EncodeRune n, 0x80 ≤ x) ∧ 2 ≤ (utf8EncodeRune n).length := by
  unfold utf8EncodeRune
  rw [if_neg (by omega)]
  split_ifs <;> simp <;> omega

theorem utf8EncodeRune_cons (n : Nat) (h : 0x7F < n) :
    ∃ b tl, utf8EncodeRune n = b :: tl ∧ 0x80 ≤ b ∧ 1 ≤ tl.length := by
  have h2 := utf8EncodeRune_high n h
  rcases he : utf8EncodeRune n with _ | ⟨b, tl⟩
  · rw [he] at h2; simp at h2
  · rw [he] at h2
    refine ⟨b, tl, rfl, h2.1 b (List.mem_cons_self _ _), ?_⟩
    have := h2.2
    simp only [List.length_cons] at this
    omega

theorem appendStringLoop_rune (n : Nat) (hn : validRune n) (rest : Bytes) :
    appendStringLoop 0 (utf8EncodeRune n ++ rest) = escapeRune n ++ appendStringLoop 0 rest := by
  by_cases h1 : n < 0x80
  · have he : utf8EncodeRune n = [n] := by
      unfold utf8EncodeRune; rw [if_pos (by omega)]
    rw [he, List.singleton_append, appendStringLoop, if_pos h1, escapeRune, if_pos h1]
  · obtain ⟨b, tl, he, hb, htl⟩ := utf8EncodeRune_cons n (by omega)
    have hd := utf8DecodeRune_encode n hn rest
    rw [he] at hd
    rw [he, List.cons_append, appendStringLoop, if_neg (by omega)]
    rw [List.cons_append] at hd
    simp only [hd, List.length_cons]
    rw [if_neg (by omega), escapeRune, if_neg h1]
    by_cases h2 : n = 0x2028 ∨ n = 0x2029
    · rw [if_pos h2, if_pos h2]
      have := appendStringLoop_skip tl rest
      simp only [Nat.add_sub_cancel, this]
    · rw [if_neg h2, if_neg h2, he]
      have := appendStringLoop_skip tl rest
      simp only [Nat.add_sub_cancel, this]
      have ht : List.take (tl.length + 1) (b :: (tl ++ rest)) = b :: tl := by
        rw [List.take_succ_cons, List.take_left]
      rw [ht]

theorem hexDigit_ok (k : Nat) (h : k < 16) :
    isHexDigit (hexDigit k) = true ∧ hexValue (hexDigit k) = k := by
  unfold isHexDigit hexDigit hexValue
  split_ifs <;> simp <;> omega

theorem scanStringBody_rune (n : Nat) (more : Bytes) :
    scanStringBody 0 (escapeRune n ++ more)
      = (scanStringBody 0 more).map (fun p => (escapeRune n ++ p.1, p.2)) := by
  unfold escapeRune
  by_cases h1 : n < 0x80
  · rw [if_pos h1]
    unfold escapeByte
    by_cases hs : htmlSafeSet n = true
    · rw [if_pos hs]
      apply scanStringBody_plain
      intro x hx
      simp only [List.mem_singleton] at hx
      subst hx
      simp only [htmlSafeSet, decide_eq_true_eq] at hs
      omega
    · rw [if_neg hs]
      split_ifs with c1 c2 c3 c4 c5 c6
      · rcases c1 with c1 | c1 <;> subst c1 <;> exact scanStringBody_escape2 _ _ (by decide)
      · exact scanStringBody_escape2 _ _ (by decide)
      · exact scanStringBody_escape2 _ _ (by decide)
      · exact scanStringBody_escape2 _ _ (by decide)
      · exact scanStringBody_escape2 _ _ (by decide)
      · exact scanStringBody_escape2 _ _ (by decide)
      · exact scanStringBody_escape4 _ _ _ _ _ (by decide) (by decide) (hexDigit_ok _ (by omega)).1
          (hexDigit_ok _ (by omega)).1
  · rw [if_neg h1]
    by_cases h3 : n = 0x2028 ∨ n = 0x2029
    · rw [if_pos h3]
      exact scanStringBody_escape4 _ _ _ _ _ (by decide) (by decide) (by decide) (hexDigit_ok _ (by omega)).1
    · rw [if_neg h3]
      apply scanStringBody_plain
      intro x hx
      have := (utf8EncodeRune_high n (by omega)).1 x hx
      omega

theorem unquoteLoop_succ (k b : Nat) (rest : Bytes) :
    unquoteLoop (k + 1) (b :: rest) = unquoteLoop k rest := rfl

theorem unquoteLoop_plain (b : Nat) (more : Bytes) (h : 0x20 ≤ b ∧ b < 0x80 ∧ b ≠ 34 ∧ b ≠ 92) :
    unquoteLoop 0 (b :: more) = (unquoteLoop 0 more).map (fun t => b :: t) := by
  rw [unquoteLoop.eq_def]
  simp only [if_neg h.2.2.2, if_neg (show ¬ (b = 34 ∨ b < 32) by omega),
    if_pos (show b < 128 by omega)]

theorem unquoteLoop_escape2 (e v : Nat) (more : Bytes)
    (he : (e = 34 ∧ v = 34) ∨ (e = 92 ∧ v = 92) ∨ (e = 98 ∧ v = 8) ∨ (e = 102 ∧ v = 12)
      ∨ (e = 110 ∧ v = 10) ∨ (e = 114 ∧ v = 13) ∨ (e = 116 ∧ v = 9)) :
    unquoteLoop 0 (92 :: e :: more) = (unquoteLoop 0 more).map (fun t => v :: t) := by
  rw [unquoteLoop.eq_def]
  rcases he with h | h | h | h | h | h | h <;> rcases h with ⟨rfl, rfl⟩ <;>
    simp [unquoteLoop_succ]

theorem getu4_digits (a b c d : Nat) (more : Bytes) (ha : a < 16) (hb : b < 16) (hc : c < 16)
    (hd : d < 16) :
    getu4 (92 :: 117 :: hexDigit a :: hexDigit b :: hexDigit c :: hexDigit d :: more)
      = some (a * 4096 + b * 256 + c * 16 + d) := by
  rw [getu4]
  · simp only [(hexDigit_ok a ha).1, (hexDigit_ok b hb).1, (hexDigit_ok c hc).1,
      (hexDigit_ok d hd).1, (hexDigit_ok a ha).2, (hexDigit_ok b hb).2, (hexDigit_ok c hc).2,
      (hexDigit_ok d hd).2, Bool.and_self, if_true]

theorem unquoteLoop_escape4 (a b c d : Nat) (more : Bytes) (ha : a < 16) (hb : b < 16)
    (hc : c < 16) (hd : d < 16)
    (hv : ¬ (0xD800 ≤ a * 4096 + b * 256 + c * 16 + d ∧ a * 4096 + b * 256 + c * 16 + d < 0xE000)) :
    unquoteLoop 0 (92 :: 117 :: hexDigit a :: hexDigit b :: hexDigit c :: hexDigit d :: more)
      = (unquoteLoop 0 more).map (fun t =>
          utf8EncodeRune (a * 4096 + b * 256 + c * 16 + d) ++ t) := by
  have h5 := unquoteLoop_skip [117, hexDigit a, hexDigit b, hexDigit c, hexDigit d] more
  simp only [List.length_cons, List.length_nil, List.cons_append, List.nil_append,
    Nat.zero_add] at h5
  rw [unquoteLoop.eq_def]
  simp only [if_true, getu4_digits a b c d more ha hb hc hd, if_neg hv, h5,
    show ¬ ((117 : Nat) = 34 ∨ (117 : Nat) = 92 ∨ (117 : Nat) = 47 ∨ (117 : Nat) = 39) by decide,
    show ¬ ((117 : Nat) = 98) by decide, show ¬ ((117 : Nat) = 102) by decide,
    show ¬ ((117 : Nat) = 110) by decide, show ¬ ((117 : Nat) = 114) by decide,
    show ¬ ((117 : Nat) = 116) by decide, if_false]

theorem unquoteLoop_rune (n : Nat) (hn : validRune n) (more : Bytes) :
    unquoteLoop 0 (escapeRune n ++ more)
      = (unquoteLoop 0 more).map (fun t => utf8EncodeRune n ++ t) := by
  unfold escapeRune
  by_cases h1 : n < 0x80
  · have he : utf8EncodeRune n = [n] := by
      unfold utf8EncodeRune; rw [if_pos (by omega)]
    rw [if_pos h1, he]
    unfold escapeByte
    by_cases hs : htmlSafeSet n = true
    · rw [if_pos hs]
      simp only [htmlSafeSet, decide_eq_true_eq] at hs
      exact unquoteLoop_plain n more (by omega)
    · rw [if_neg hs]
      simp only [htmlSafeSet, decide_eq_true_eq] at hs
      split_ifs with c1 c2 c3 c4 c5 c6
      · rcases c1 with c1 | c1 <;> subst c1 <;> exact unquoteLoop_escape2 _ _ _ (by decide)
      · subst c2; exact unquoteLoop_escape2 _ _ _ (by decide)
      · subst c3; exact unquoteLoop_escape2 _ _ _ (by decide)
      · subst c4; exact unquoteLoop_escape2 _ _ _ (by decide)
      · subst c5; exact unquoteLoop_escape2 _ _ _ (by decide)
      · subst c6; exact unquoteLoop_escape2 _ _ _ (by decide)
      · have h4 := unquoteLoop_escape4 0 0 (n / 16) (n % 16) more (by decide) (by decide)
          (by omega) (by omega) (by omega)
        have hv : 0 * 4096 + 0 * 256 + n / 16 * 16 + n % 16 = n := by omega
        have e0 : hexDigit 0 = 48 := rfl
        rw [hv, e0] at h4
        have he2 : utf8EncodeRune n = [n] := he
        rw [he2] at h4
        exact h4
  · rw [if_neg h1]
    by_cases h3 : n = 0x2028 ∨ n = 0x2029
    · rw [if_pos h3]
      have h4 := unquoteLoop_escape4 2 0 2 (n % 16) more (by decide) (by decide)
          (by decide) (by omega) (by omega)
      have hv : 2 * 4096 + 0 * 256 + 2 * 16 + n % 16 = n := by omega
      have e0 : hexDigit 0 = 48 := rfl
      have e2 : hexDigit 2 = 50 := rfl
      rw [hv, e0, e2] at h4
      exact h4
    · rw [if_neg h3]
      obtain ⟨b, tl, he, hb, htl⟩ := utf8EncodeRune_cons n (by omega)
      have hd := utf8DecodeRune_encode n hn more
      rw [he, List.cons_append] at hd
      rw [he, List.cons_append, unquoteLoop.eq_def]
      simp only [if_neg (show ¬ b = 92 by omega), if_neg (show ¬ (b = 34 ∨ b < 32) by omega),
        if_neg (show ¬ b < 128 by omega), hd, List.length_cons, Nat.add_sub_cancel,
        unquoteLoop_skip, he]

theorem appendStringLoop_goString (s : String) :
    appendStringLoop 0 (goString s) = escapeChars s.data := by
  unfold goString escapeChars
  induction s.data with
  | nil => rfl
  | cons c cs ih =>
    rw [List.flatMap_cons, List.flatMap_cons, appendStringLoop_rune _ (char_validRune c), ih]

theorem scanStringBody_escapeChars (cs : List Char) (rest : Bytes) :
    scanStringBody 0 (escapeChars cs ++ 34 :: rest) = some (escapeChars cs, rest) := by
  unfold escapeChars
  induction cs with
  | nil => rfl
  | cons c cs ih =>
    rw [List.flatMap_cons, List.append_assoc, scanStringBody_rune, ih]
    rfl

theorem unquoteLoop_escapeChars (s : String) :
    unquoteLoop 0 (escapeChars s.data) = some (goString s) := by
  unfold goString escapeChars
  induction s.data with
  | nil => rfl
  | cons c cs ih =>
    rw [List.flatMap_cons, List.flatMap_cons, unquoteLoop_rune _ (char_validRune c), ih]
    rfl

theorem jsonAppendString_goString (s : String) (rest : Bytes) :
    jsonAppendString (goString s) ++ rest = 34 :: (escapeChars s.data ++ 34 :: rest) := by
  simp [jsonAppendString, appendStringLoop_goString]

theorem decodeString_literal (s : String) (cur rest : Bytes) :
    decodeString cur (jsonAppendString (goString s) ++ rest) = some (goString s, rest) := by
  rw [jsonAppendString_goString, decodeString]
  simp only [if_true, scanStringBody_escapeChars, unquoteLoop_escapeChars, Option.map_some']

theorem escapeRune_bytes (n : Nat) : ∀ x ∈ escapeRune n, 0x20 ≤ x := by
  unfold escapeRune
  by_cases h1 : n < 0x80
  · rw [if_pos h1]
    unfold escapeByte
    by_cases hs : htmlSafeSet n = true
    · rw [if_pos hs]
      simp only [htmlSafeSet, decide_eq_true_eq] at hs
      intro x hx
      simp only [List.mem_singleton] at hx
      omega
    · rw [if_neg hs]
      simp only [htmlSafeSet, decide_eq_true_eq] at hs
      have hd : ∀ k, k < 16 → 0x20 ≤ hexDigit k := by
        intro k _; unfold hexDigit; split_ifs <;> omega
      have := hd (n / 16) (by omega)
      have := hd (n % 16) (by omega)
      split_ifs with c1 <;> intro x hx <;> simp at hx <;> omega
  · rw [if_neg h1]
    have hd : ∀ k, k < 16 → 0x20 ≤ hexDigit k := by
      intro k _; unfold hexDigit; split_ifs <;> omega
    have := hd (n % 16) (by omega)
    split_ifs
    · intro x hx; simp at hx; omega
    · intro x hx
      have := (utf8EncodeRune_high n (by omega)).1 x hx
      omega

theorem escapeChars_bytes (cs : List Char) : ∀ x ∈ escapeChars cs, 0x20 ≤ x := by
  intro x hx
  unfold escapeChars at hx
  rw [List.mem_flatMap] at hx
  obtain ⟨c, _, hc⟩ := hx
  exact escapeRune_bytes _ x hc

theorem skipSpace_cons (b : Nat) (rest : Bytes) (h : isSpace b = false) :
    skipSpace (b :: rest) = b :: rest := by
  rw [skipSpace, h]; rfl

theorem renderMember_cons {σ : Type} (v : σ) (f : FieldCodec σ) (rest : Bytes) :
    renderMember v f ++ rest
      = 34 :: (escapeChars f.name.data ++ 34 :: 58 :: (f.encodeVal (f.get v) ++ rest)) := by
  unfold renderMember
  rw [List.append_assoc, jsonAppendString_goString]
  rfl

theorem joinComma_cons_cons (x y : Bytes) (rest : List Bytes) :
    joinComma (x :: y :: rest) = x ++ 44 :: joinComma (y :: rest) := rfl

theorem joinComma_render_head {σ : Type} (v : σ) (f : FieldCodec σ) (ps : List (FieldCodec σ))
    (rest : Bytes) :
    ∃ tl, joinComma ((f :: ps).map (renderMember v)) ++ rest = 34 :: tl := by
  cases ps with
  | nil =>
    simp only [List.map_cons, List.map_nil, joinComma]
    exact ⟨_, renderMember_cons v f rest⟩
  | cons g ps =>
    simp only [List.map_cons, joinComma_cons_cons, List.append_assoc]
    exact ⟨_, renderMember_cons v f _⟩

theorem decodeMembers_member {σ : Type} (foldName : Bytes → Bytes) (fields : List (FieldCodec σ))
    (depth fuel : Nat) (v cur : σ) (f : FieldCodec σ) (tail : Bytes)
    (hf : FieldOK v f (f.get cur))
    (hl : lookupField foldName fields (goString f.name) = some f) :
    decodeMembers foldName fields depth (fuel + 1) cur (renderMember v f ++ tail)
      = match skipSpace tail with
        | [] => none
        | c2 :: r4 =>
          if c2 = 44 then
            decodeMembers foldName fields depth fuel (f.set cur (f.get v)) (skipSpace r4)
          else if c2 = 125 then some (f.set cur (f.get v), r4)
          else none := by
  have h1 := hf tail
  rw [renderMember_cons, decodeMembers]
  simp only [if_true, scanStringBody_escapeChars, unquoteLoop_escapeChars,
    skipSpace_cons 58 _ (by decide), hl, h1.1, h1.2, Option.map_some']

theorem decodeMembers_fields {σ : Type} (foldName : Bytes → Bytes) (fields : List (FieldCodec σ))
    (depth : Nat) (v : σ) (rest : Bytes) (Inv : σ → Prop) (ps : List (FieldCodec σ))
    (hps : ∀ f ∈ ps, lookupField foldName fields (goString f.name) = some f
      ∧ ∀ c, Inv c → FieldOK v f (f.get c) ∧ Inv (f.set c (f.get v))) :
    ∀ (fuel : Nat) (cur : σ), Inv cur → ps ≠ [] → ps.length ≤ fuel →
      decodeMembers foldName fields depth fuel cur
          (joinComma (ps.map (renderMember v)) ++ 125 :: rest)
        = some (ps.foldl (fun c f => f.set c (f.get v)) cur, rest) := by
  induction ps with
  | nil => intro _ _ _ h; exact absurd rfl h
  | cons f ps ih =>
    intro fuel cur hinv _ hfuel
    obtain ⟨fuel, rfl⟩ : ∃ k, fuel = k + 1 := ⟨fuel - 1, by
      simp only [List.length_cons] at hfuel; omega⟩
    have hf := hps f (List.mem_cons_self _ _)
    have hc := hf.2 cur hinv
    cases ps with
    | nil =>
      simp only [List.map_cons, List.map_nil, joinComma]
      rw [decodeMembers_member foldName fields depth fuel v cur f _ hc.1 hf.1,
        skipSpace_cons 125 _ (by decide)]
      simp
    | cons g ps =>
      simp only [List.map_cons, joinComma_cons_cons, List.append_assoc]
      rw [decodeMembers_member foldName fields depth fuel v cur f _ hc.1 hf.1]
      have hrec := ih (fun x hx => hps x (List.mem_cons_of_mem _ hx)) fuel (f.set cur (f.get v))
        hc.2 (List.cons_ne_nil _ _) (by simp only [List.length_cons] at hfuel ⊢; omega)
      obtain ⟨tl, htl⟩ := joinComma_render_head v g ps (125 :: rest)
      simp only [List.map_cons] at htl hrec
      simp only [List.cons_append, skipSpace_cons 44 _ (by decide), if_true]
      rw [htl, skipSpace_cons 34 _ (by decide), ← htl, hrec]
      rfl

theorem joinComma_render_length {σ : Type} (v : σ) (ps : List (FieldCodec σ)) :
    ps.length ≤ (joinComma (ps.map (renderMember v))).length := by
  induction ps with
  | nil => simp
  | cons f ps ih =>
    cases ps with
    | nil =>
      have := renderMember_cons v f []
      simp only [List.append_nil] at this
      simp only [List.map_cons, List.map_nil, joinComma, this, List.length_cons,
        List.length_nil]
      omega
    | cons g ps =>
      have := renderMember_cons v f []
      simp only [List.append_nil] at this
      simp only [List.map_cons, joinComma_cons_cons, List.length_append, List.length_cons, this]
      simp only [List.map_cons, List.length_cons] at ih
      omega

theorem decodeObject_encode {σ : Type} (foldName : Bytes → Bytes) (fields : List (FieldCodec σ))
    (depth : Nat) (v cur : σ) (rest : Bytes) (Inv : σ → Prop) (hinv : Inv cur)
    (hps : ∀ f ∈ presentFields fields v,
      lookupField foldName fields (goString f.name) = some f
      ∧ ∀ c, Inv c → FieldOK v f (f.get c) ∧ Inv (f.set c (f.get v))) :
    decodeObject foldName fields depth cur (encodeObject fields v ++ rest)
      = some ((presentFields fields v).foldl (fun c f => f.set c (f.get v)) cur, rest) := by
  have henc : encodeObject fields v ++ rest
      = 123 :: (joinComma ((presentFields fields v).map (renderMember v)) ++ 125 :: rest) := by
    unfold encodeObject presentFields
    simp only [List.cons_append, List.nil_append, List.append_assoc]
    rfl
  rw [henc, decodeObject]
  simp only [if_true]
  rcases hp : presentFields fields v with _ | ⟨f, ps⟩
  · simp only [List.map_nil, joinComma, List.nil_append, skipSpace_cons 125 _ (by decide),
      if_true, List.foldl_nil]
  · obtain ⟨tl, htl⟩ := joinComma_render_head v f ps (125 :: rest)
    have hlen := joinComma_render_length v (f :: ps)
    have hm := decodeMembers_fields foldName fields depth v rest Inv (f :: ps)
      (by rw [← hp]; exact hps) (tl.length + 1) cur hinv (List.cons_ne_nil _ _) (by
        have h2 := congrArg List.length htl
        simp only [List.length_append, List.length_cons] at h2 hlen ⊢
        omega)
    rw [htl] at hm ⊢
    rw [skipSpace_cons 34 _ (by decide)]
    simp only [show ¬ ((34 : Nat) = 125) by decide, if_false]
    exact hm

theorem goString_null : goString "null" = [110, 117, 108, 108] := by decide

theorem goString_true : goString "true" = [116, 114, 117, 101] := by decide

theorem goString_false : goString "false" = [102, 97, 108, 115, 101] := by decide

theorem dropLiteral_append (lit : String) (rest : Bytes) :
    dropLiteral lit (goString lit ++ rest) = some rest := by
  unfold dropLiteral
  rw [if_pos (by
    rw [List.isPrefixOf_iff_prefix]
    exact List.prefix_append _ _), List.drop_left]

theorem fieldOK_string {σ : Type} (name : String) (om : Bool) (get : σ → Bytes)
    (set : σ → Bytes → σ) (v : σ) (s : String) (h : get v = goString s) (a0 : Bytes) :
    FieldOK v (stringField name om get set) a0 := by
  intro rest
  show decodeString a0 (jsonAppendString (get v) ++ rest) = some (get v, rest)
    ∧ skipSpace (jsonAppendString (get v) ++ rest) = jsonAppendString (get v) ++ rest
  rw [h]
  refine ⟨decodeString_literal s a0 rest, ?_⟩
  rw [jsonAppendString_goString]
  exact skipSpace_cons 34 _ (by decide)

theorem fieldOK_bool {σ : Type} (name : String) (om : Bool) (get : σ → Bool)
    (set : σ → Bool → σ) (v : σ) (a0 : Bool) :
    FieldOK v (boolField name om get set) a0 := by
  intro rest
  show decodeBool a0 (encodeBool (get v) ++ rest) = some (get v, rest)
    ∧ skipSpace (encodeBool (get v) ++ rest) = encodeBool (get v) ++ rest
  cases get v
  · have h := dropLiteral_append "false" rest
    rw [goString_false] at h
    simp only [List.cons_append, List.nil_append] at h
    refine ⟨?_, ?_⟩
    · simp only [encodeBool, goString_false, decodeBool, List.cons_append, List.nil_append,
        Bool.false_eq_true, if_false, h, show ¬ ((102 : Nat) = 116) by decide, if_true,
        Option.map_some']
    · exact skipSpace_cons 102 _ (by decide)
  · have h := dropLiteral_append "true" rest
    rw [goString_true] at h
    simp only [List.cons_append, List.nil_append] at h
    refine ⟨?_, ?_⟩
    · simp only [encodeBool, goString_true, decodeBool, List.cons_append, List.nil_append,
        if_true, h, Option.map_some']
    · exact skipSpace_cons 116 _ (by decide)

theorem decodeStringElems_literals (cur : List Bytes) (rest : Bytes) (ss : List String) :
    ∀ (fuel : Nat) (acc : List Bytes), ss ≠ [] → ss.length ≤ fuel →
      decodeStringElems cur fuel acc
          (joinComma (ss.map (fun s => jsonAppendString (goString s))) ++ 93 :: rest)
        = some (acc ++ ss.map goString, rest) := by
  induction ss with
  | nil => intro _ _ h; exact absurd rfl h
  | cons s ss ih =>
    intro fuel acc _ hfuel
    obtain ⟨fuel, rfl⟩ : ∃ k, fuel = k + 1 := ⟨fuel - 1, by
      simp only [List.length_cons] at hfuel; omega⟩
    cases ss with
    | nil =>
      simp only [List.map_cons, List.map_nil, joinComma]
      rw [decodeStringElems, decodeString_literal]
      simp only [skipSpace_cons 93 _ (by decide), show ¬ ((93 : Nat) = 44) by decide, if_false,
        if_true]
    | cons t ss =>
      simp only [List.map_cons, joinComma_cons_cons, List.append_assoc]
      rw [decodeStringElems, decodeString_literal]
      have hrec := ih fuel (acc ++ [goString s]) (List.cons_ne_nil _ _)
        (by simp only [List.length_cons] at hfuel ⊢; omega)
      simp only [List.map_cons, joinComma_cons_cons, List.append_assoc] at hrec
      simp only [List.cons_append, skipSpace_cons 44 _ (by decide), if_true]
      have hq : ∀ tl : Bytes, skipSpace (jsonAppendString (goString t) ++ tl)
          = jsonAppendString (goString t) ++ tl := by
        intro tl
        rw [jsonAppendString_goString]
        exact skipSpace_cons 34 _ (by decide)
      cases ss with
      | nil =>
        simp only [List.map_nil, joinComma] at hrec ⊢
        rw [hq, hrec]
        simp
      | cons u ss =>
        simp only [List.map_cons, joinComma_cons_cons, List.append_assoc] at hrec ⊢
        rw [hq, hrec]
        simp

theorem joinComma_literals_length (ss : List String) :
    ss.length ≤ (joinComma (ss.map (fun s => jsonAppendString (goString s)))).length := by
  induction ss with
  | nil => simp
  | cons s ss ih =>
    have := jsonAppendString_goString s []
    simp only [List.append_nil] at this
    cases ss with
    | nil =>
      simp only [List.map_cons, List.map_nil, joinComma, this, List.length_cons, List.length_nil]
      omega
    | cons t ss =>
      simp only [List.map_cons, joinComma_cons_cons, List.length_append, List.length_cons, this]
      simp only [List.map_cons, List.length_cons] at ih
      omega

theorem fieldOK_strings {σ : Type} (name : String) (om : Bool) (get : σ → List Bytes)
    (set : σ → List Bytes → σ) (v : σ) (ss : List String) (h : get v = ss.map goString)
    (a0 : List Bytes) :
    FieldOK v (stringsField name om get set) a0 := by
  intro rest
  show decodeStrings a0 (encodeStrings (get v) ++ rest) = some (get v, rest)
    ∧ skipSpace (encodeStrings (get v) ++ rest) = encodeStrings (get v) ++ rest
  rw [h]
  cases ss with
  | nil =>
    have hd := dropLiteral_append "null" rest
    rw [goString_null] at hd
    simp only [List.cons_append, List.nil_append] at hd
    refine ⟨?_, ?_⟩
    · simp only [List.map_nil, encodeStrings, List.length_nil, if_true, goString_null,
        List.cons_append, List.nil_append, decodeStrings, show ¬ ((110 : Nat) = 91) by decide,
        if_false, hd, Option.map_some']
    · exact skipSpace_cons 110 _ (by decide)
  | cons s ss =>
    have hne : ¬ ((s :: ss).map goString).length = 0 := by simp
    have hmap : (List.map goString (s :: ss)).map jsonAppendString
        = (s :: ss).map (fun s => jsonAppendString (goString s)) := by
      rw [List.map_map]; rfl
    have hq := jsonAppendString_goString s
    have hlen := joinComma_literals_length (s :: ss)
    have hel := decodeStringElems_literals a0 rest (s :: ss)
    unfold encodeStrings
    rw [if_neg hne, hmap]
    simp only [List.cons_append, List.nil_append, List.append_assoc, decodeStrings, if_true]
    refine ⟨?_, skipSpace_cons 91 _ (by decide)⟩
    obtain ⟨tl, htl⟩ : ∃ tl, joinComma ((s :: ss).map (fun s => jsonAppendString (goString s)))
        ++ 93 :: rest = 34 :: tl := by
      cases ss with
      | nil =>
        simp only [List.map_cons, List.map_nil, joinComma]
        exact ⟨_, hq _⟩
      | cons t ss =>
        simp only [List.map_cons, joinComma_cons_cons, List.append_assoc]
        exact ⟨_, hq _⟩
    have hm := hel (tl.length + 1) [] (List.cons_ne_nil _ _) (by
      have h2 := congrArg List.length htl
      simp only [List.length_append, List.length_cons] at h2 hlen ⊢
      omega)
    rw [htl] at hm ⊢
    rw [skipSpace_cons 34 _ (by decide)]
    simp only [show ¬ ((34 : Nat) = 93) by decide, if_false]
    rw [hm]
    rfl

theorem overlay_fields_copy (o base : overlayInitConfigBytes)
    (hb : base = ⟨[], [], [], [], false⟩ ∨ base = o) :
    (presentFields overlayInitConfigFields o).foldl (fun c f => f.set c (f.get o)) base = o := by
  rcases o with ⟨ld, ud, wd, md, ro⟩
  rcases hb with rfl | rfl <;> cases ro <;> rfl

theorem initConfig_fields_copy (foldName : Bytes → Bytes) (v : initConfigBytes) :
    (presentFields (initConfigFields foldName) v).foldl (fun c f => f.set c (f.get v))
      ⟨[], false, false, none, [], [], [], []⟩ = v := by
  rcases v with ⟨h, mp, sl, ov, cmd, args, env, wd⟩
  cases h <;> cases mp <;> cases sl <;> cases ov <;> cases args <;> cases env <;> cases wd <;> rfl

theorem overlay_decode_encode (foldName : Bytes → Bytes) (so : overlayInitConfig)
    (base : overlayInitConfigBytes)
    (hb : base = ⟨[], [], [], [], false⟩ ∨ base = so.toBytes) (depth : Nat) (rest : Bytes) :
    decodeObject foldName overlayInitConfigFields depth base
        (encodeObject overlayInitConfigFields so.toBytes ++ rest)
      = some (so.toBytes, rest) := by
  have h := decodeObject_encode foldName overlayInitConfigFields depth so.toBytes base rest
    (fun _ => True) trivial (by
      intro f hf
      have hf2 : f ∈ overlayInitConfigFields := List.mem_of_mem_filter hf
      simp only [overlayInitConfigFields, List.mem_cons, List.mem_singleton, List.mem_nil_iff,
        or_false] at hf2
      rcases hf2 with rfl | rfl | rfl | rfl | rfl
      · exact ⟨rfl, fun c _ => ⟨fieldOK_strings "lower_dirs" false
          (fun c : overlayInitConfigBytes => c.LowerDirs) (fun c x => { c with LowerDirs := x })
          _ so.LowerDirs rfl _, trivial⟩⟩
      · exact ⟨rfl, fun c _ => ⟨fieldOK_string "upper_dir" false
          (fun c : overlayInitConfigBytes => c.UpperDir) (fun c x => { c with UpperDir := x })
          _ so.UpperDir rfl _, trivial⟩⟩
      · exact ⟨rfl, fun c _ => ⟨fieldOK_string "work_dir" false
          (fun c : overlayInitConfigBytes => c.WorkDir) (fun c x => { c with WorkDir := x })
          _ so.WorkDir rfl _, trivial⟩⟩
      · exact ⟨rfl, fun c _ => ⟨fieldOK_string "merge_dir" false
          (fun c : overlayInitConfigBytes => c.MergeDir) (fun c x => { c with MergeDir := x })
          _ so.MergeDir rfl _, trivial⟩⟩
      · exact ⟨rfl, fun c _ => ⟨fieldOK_bool "read_only" true
          (fun c : overlayInitConfigBytes => c.ReadOnly) (fun c x => { c with ReadOnly := x })
          _ _, trivial⟩⟩)
  rw [h, overlay_fields_copy _ _ hb]

theorem encodeObject_cons {σ : Type} (fields : List (FieldCodec σ)) (v : σ) (rest : Bytes) :
    ∃ tl, encodeObject fields v ++ rest = 123 :: tl := ⟨_, rfl⟩

theorem fieldOK_overlay {σ : Type} (foldName : Bytes → Bytes) (name : String) (om : Bool)
    (get : σ → Option overlayInitConfigBytes) (set : σ → Option overlayInitConfigBytes → σ)
    (v : σ) (so : Option overlayInitConfig) (h : get v = so.map overlayInitConfig.toBytes)
    (a0 : Option overlayInitConfigBytes) (ha : a0 = none ∨ a0 = get v) :
    FieldOK v (structPtrField foldName name om overlayInitConfigFields ⟨[], [], [], [], false⟩
      get set) a0 := by
  intro rest
  cases so with
  | none =>
    have hv : get v = none := h
    have hd := dropLiteral_append "null" rest
    rw [goString_null] at hd
    simp only [List.cons_append, List.nil_append] at hd
    refine ⟨?_, ?_⟩
    · simp only [structPtrField, hv, goString_null, List.cons_append, List.nil_append, if_true,
        hd, Option.map_some']
    · simp only [structPtrField, hv, goString_null, List.cons_append, List.nil_append]
      exact skipSpace_cons 110 _ (by decide)
  | some so =>
    have hv : get v = some so.toBytes := h
    obtain ⟨tl, htl⟩ := encodeObject_cons overlayInitConfigFields so.toBytes rest
    have hb : a0.getD ⟨[], [], [], [], false⟩ = ⟨[], [], [], [], false⟩
        ∨ a0.getD ⟨[], [], [], [], false⟩ = so.toBytes := by
      rcases ha with rfl | rfl
      · left; rfl
      · right; rw [hv]; rfl
    have hdec := overlay_decode_encode foldName so _ hb 2 rest
    refine ⟨?_, ?_⟩
    · simp only [structPtrField, hv]
      rw [htl] at hdec ⊢
      simp only [show ¬ ((123 : Nat) = 110) by decide, if_false, hdec, Option.map_some']
    · simp only [structPtrField, hv]
      rw [htl]
      exact skipSpace_cons 123 _ (by decide)

theorem scanLoop_line (rest : Bytes) (xs : Bytes) :
    ∀ cur : Bytes, 10 ∉ xs → cur.length + xs.length < maxScanTokenSize →
      scanLoop cur (xs ++ 10 :: rest) = dropCR (cur ++ xs) :: scanLoop [] rest := by
  induction xs with
  | nil =>
    intro cur _ _
    rw [List.nil_append, List.append_nil, scanLoop, if_pos rfl]
  | cons x xs ih =>
    intro cur hx hlen
    have hx10 : ¬ x = 10 := fun h => hx (by rw [h]; exact List.mem_cons_self _ _)
    simp only [List.length_cons] at hlen
    rw [List.cons_append, scanLoop, if_neg hx10, if_neg (by omega),
      ih (cur ++ [x]) (fun h => hx (List.mem_cons_of_mem _ h))
        (by simp only [List.length_append, List.length_singleton]; omega),
      List.append_assoc]
    rfl

theorem scanLoop_last (xs : Bytes) :
    ∀ cur : Bytes, 10 ∉ xs → cur.length + xs.length < maxScanTokenSize →
      scanLoop cur xs = if (cur ++ xs).length = 0 then [] else [dropCR (cur ++ xs)] := by
  induction xs with
  | nil =>
    intro cur _ _
    rw [List.append_nil, scanLoop]
  | cons x xs ih =>
    intro cur hx hlen
    have hx10 : ¬ x = 10 := fun h => hx (by rw [h]; exact List.mem_cons_self _ _)
    simp only [List.length_cons] at hlen
    rw [scanLoop, if_neg hx10, if_neg (by omega),
      ih (cur ++ [x]) (fun h => hx (List.mem_cons_of_mem _ h))
        (by simp only [List.length_append, List.length_singleton]; omega),
      List.append_assoc]
    rfl

theorem scanLoop_lines (rest : Bytes) (lines : List Bytes)
    (h : ∀ l ∈ lines, 10 ∉ l ∧ l.length < maxScanTokenSize) :
    scanLoop [] (lines.flatMap (fun l => l ++ [10]) ++ rest)
      = lines.map dropCR ++ scanLoop [] rest := by
  induction lines with
  | nil => rfl
  | cons l lines ih =>
    have hl := h l (List.mem_cons_self _ _)
    rw [List.flatMap_cons, List.append_assoc, List.append_assoc, List.singleton_append,
      scanLoop_line _ l [] hl.1 (by simpa using hl.2),
      ih (fun x hx => h x (List.mem_cons_of_mem _ hx))]
    rfl

theorem readLogLoop_append (foldName : Bytes → Bytes) (xs ys : List Bytes) :
    readLogLoop foldName (xs ++ ys) = readLogLoop foldName xs ++ readLogLoop foldName ys := by
  induction xs with
  | nil => rfl
  | cons x xs ih => rw [List.cons_append, readLogLoop, readLogLoop, ih, List.append_assoc]

theorem readLogPipe_lines (foldName : Bytes → Bytes) (rest : Bytes) (lines : List Bytes)
    (h : ∀ l ∈ lines, 10 ∉ l ∧ l.length < maxScanTokenSize) :
    readLogPipe foldName (lines.flatMap (fun l => l ++ [10]) ++ rest)
      = readLogLoop foldName (lines.map dropCR) ++ readLogPipe foldName rest := by
  unfold readLogPipe
  rw [scanLoop_lines rest lines h, readLogLoop_append]

theorem scanLoop_too_long (rest : Bytes) (k : Nat) :
    ∀ cur : Bytes, maxScanTokenSize ≤ cur.length + (k + 1) →
      scanLoop cur (List.replicate (k + 1) 120 ++ rest) = [] := by
  induction k with
  | zero =>
    intro cur h
    rw [List.replicate_succ, List.cons_append, scanLoop, if_neg (by decide), if_pos (by omega)]
  | succ k ih =>
    intro cur h
    rw [List.replicate_succ, List.cons_append, scanLoop, if_neg (by decide)]
    by_cases hc : cur.length + 1 ≥ maxScanTokenSize
    · rw [if_pos hc]
    · rw [if_neg hc]
      exact ih (cur ++ [120]) (by
        simp only [List.length_append, List.length_singleton]; omega)

theorem writeInitLogBytes_eq (level msg : Bytes) :
    writeInitLogBytes level msg
      = 123 :: (goString "\"level\"" ++ 58 :: (jsonAppendString level
        ++ 44 :: (goString "\"msg\"" ++ 58 :: (jsonAppendString msg ++ [125, 10])))) := by
  have h1 : jsonAppendString (goString "level") = goString "\"level\"" := by decide
  have h2 : jsonAppendString (goString "msg") = goString "\"msg\"" := by decide
  unfold writeInitLogBytes jsonEncode encodeObject initLogEntryFields stringField
  simp only [List.filter, Bool.false_and, Bool.not_false, List.map_cons, List.map_nil,
    joinComma_cons_cons, joinComma, h1, h2]
  simp only [List.cons_append, List.nil_append, List.append_assoc]

theorem writeInitLogBytes_goString (level msg : String) :
    writeInitLogBytes (goString level) (goString msg) = logEntryLine level msg ++ [10] := by
  have h3 := jsonAppendString_goString level []
  have h4 := jsonAppendString_goString msg []
  rw [List.append_nil] at h3 h4
  have e1 : goString "\x7b\"level\":\"" = 123 :: (goString "\"level\"" ++ [58, 34]) := by decide
  have e2 : goString "\",\"msg\":\"" = 34 :: 44 :: (goString "\"msg\"" ++ [58, 34]) := by decide
  have e3 : goString "\"\x7d" = [34, 125] := by decide
  rw [writeInitLogBytes_eq, h3, h4]
  unfold logEntryLine
  rw [e1, e2, e3]
  simp only [List.cons_append, List.nil_append, List.append_assoc]

theorem logEntryLine_bytes (level msg : String) : ∀ x ∈ logEntryLine level msg, 0x20 ≤ x := by
  intro x hx
  unfold logEntryLine at hx
  simp only [List.mem_append] at hx
  have hlit : ∀ (lit : Bytes), (∀ y ∈ lit, 0x20 ≤ y) → x ∈ lit → 0x20 ≤ x := fun _ h hx => h x hx
  rcases hx with (((hx | hx) | hx) | hx) | hx
  · exact hlit _ (by decide) hx
  · exact escapeChars_bytes _ x hx
  · exact hlit _ (by decide) hx
  · exact escapeChars_bytes _ x hx
  · exact hlit _ (by decide) hx

theorem dropCR_append_brace (xs : Bytes) : dropCR (xs ++ [34, 125]) = xs ++ [34, 125] := by
  unfold dropCR
  rw [if_neg]
  have : xs ++ [34, 125] = (xs ++ [34]) ++ [125] := by simp
  rw [this, List.getLast?_append]
  simp

theorem dropCR_logEntryLine (level msg : String) :
    dropCR (logEntryLine level msg) = logEntryLine level msg := by
  have e3 : goString "\"\x7d" = [34, 125] := by decide
  unfold logEntryLine
  rw [e3]
  exact dropCR_append_brace _

theorem jsonUnmarshal_logEntryLine (foldName : Bytes → Bytes) (level msg : String) :
    jsonUnmarshal foldName initLogEntryFields ⟨[], []⟩ (logEntryLine level msg)
      = some ⟨goString level, goString msg⟩ := by
  have henc : logEntryLine level msg
      = encodeObject initLogEntryFields ⟨goString level, goString msg⟩ ++ [] := by
    have h := writeInitLogBytes_goString level msg
    unfold writeInitLogBytes jsonEncode at h
    rw [List.append_nil]
    exact (List.append_cancel_right h).symm
  have hdec := decodeObject_encode foldName initLogEntryFields 1
    (⟨goString level, goString msg⟩ : initLogEntry) ⟨[], []⟩ [] (fun _ => True) trivial (by
      intro f hf
      have hf2 : f ∈ initLogEntryFields := List.mem_of_mem_filter hf
      simp only [initLogEntryFields, List.mem_cons, List.mem_singleton, List.mem_nil_iff,
        or_false] at hf2
      rcases hf2 with rfl | rfl
      · exact ⟨rfl, fun c _ => ⟨fieldOK_string "level" false (fun e : initLogEntry => e.Level)
          (fun e x => { e with Level := x }) _ level rfl _, trivial⟩⟩
      · exact ⟨rfl, fun c _ => ⟨fieldOK_string "msg" false (fun e : initLogEntry => e.Message)
          (fun e x => { e with Message := x }) _ msg rfl _, trivial⟩⟩)
  have hstart : ∃ tl, logEntryLine level msg = 123 :: tl := ⟨_, rfl⟩
  obtain ⟨tl, htl⟩ := hstart
  unfold jsonUnmarshal
  rw [htl, skipSpace_cons 123 _ (by decide), ← htl, henc, hdec]
  rfl

theorem logLine_logEntryLine (foldName : Bytes → Bytes) (level : LogLevel) (msg : String) :
    logLine foldName (logEntryLine (levelName level) msg)
      = [⟨level, goString msg, [sourceInit]⟩] := by
  have hne : ¬ (logEntryLine (levelName level) msg).length = 0 := by
    have : ∃ tl, logEntryLine (levelName level) msg = 123 :: tl := ⟨_, rfl⟩
    obtain ⟨tl, htl⟩ := this
    rw [htl]
    simp
  unfold logLine
  rw [if_neg hne, jsonUnmarshal_logEntryLine]
  have d1 : ¬ goString "info" = goString "debug" := by decide
  have d2 : ¬ goString "warn" = goString "debug" := by decide
  have d3 : ¬ goString "warn" = goString "info" := by decide
  have d4 : ¬ goString "error" = goString "debug" := by decide
  have d5 : ¬ goString "error" = goString "info" := by decide
  have d6 : ¬ goString "error" = goString "warn" := by decide
  cases level
  · simp only [levelName, if_true]
  · simp only [levelName, if_neg d1, if_true]
  · simp only [levelName, if_neg d2, if_neg d3, if_true]
  · simp only [levelName, if_neg d4, if_neg d5, if_neg d6, if_true]

theorem scanLoop_start (rest : Bytes) (xs : Bytes) :
    ∀ cur : Bytes, 10 ∉ xs → cur.length + xs.length < maxScanTokenSize →
      scanLoop cur (xs ++ rest) = scanLoop (cur ++ xs) rest := by
  induction xs with
  | nil =>
    intro cur _ _
    rw [List.nil_append, List.append_nil]
  | cons x xs ih =>
    intro cur hx hlen
    have hx10 : ¬ x = 10 := fun h => hx (by rw [h]; exact List.mem_cons_self _ _)
    simp only [List.length_cons] at hlen
    rw [List.cons_append, scanLoop, if_neg hx10, if_neg (by omega),
      ih (cur ++ [x]) (fun h => hx (List.mem_cons_of_mem _ h))
        (by simp only [List.length_append, List.length_singleton]; omega),
      List.append_assoc]
    rfl

theorem appendStringLoop_replicate (k : Nat) :
    appendStringLoop 0 (List.replicate k 120) = List.replicate k 120 := by
  induction k with
  | zero => rfl
  | succ k ih =>
    rw [List.replicate_succ, appendStringLoop, if_pos (by decide), ih]
    rfl

/-! ## Properties of the init descriptor on the config pipe -/

/-- C23, as the code has it: a command that is not valid UTF-8 comes back from
the config pipe with U+FFFD in the place of the invalid byte. -/
theorem descriptor_string_not_preserved :
    decodeInitConfig foldASCII
        (encodeInitConfig foldASCII ⟨[], false, false, none, [0xff], [], [], []⟩)
      = some ⟨[], false, false, none, [0xEF, 0xBF, 0xBD], [], [], []⟩ := by
  decide

/-- C23, amended: for every init descriptor whose strings are valid UTF-8
(hostname, mount_proc, setup_loopback, optional overlay spec, command, args, env,
work_dir), the child decodes from the config pipe a descriptor that is equal,
field by field, to the one the parent encoded in `Start`. -/
theorem descriptor_round_trip (foldName : Bytes → Bytes) (cfg : initConfig) :
    decodeInitConfig foldName (encodeInitConfig foldName cfg.toBytes) = some cfg.toBytes := by
  have hdec := decodeObject_encode foldName (initConfigFields foldName) 1 cfg.toBytes
    ⟨[], false, false, none, [], [], [], []⟩ [10]
    (fun c => c.Overlay = none ∨ c.Overlay = cfg.toBytes.Overlay) (Or.inl rfl) (by
      intro f hf
      have hf2 : f ∈ initConfigFields foldName := List.mem_of_mem_filter hf
      simp only [initConfigFields, List.mem_cons, List.mem_singleton, List.mem_nil_iff,
        or_false] at hf2
      rcases hf2 with rfl | rfl | rfl | rfl | rfl | rfl | rfl | rfl
      · exact ⟨rfl, fun c hc => ⟨fieldOK_string "hostname" true
          (fun c : initConfigBytes => c.Hostname) (fun c x => { c with Hostname := x })
          _ cfg.Hostname rfl _, hc⟩⟩
      · exact ⟨rfl, fun c hc => ⟨fieldOK_bool "mount_proc" true
          (fun c : initConfigBytes => c.MountProc) (fun c x => { c with MountProc := x })
          _ _, hc⟩⟩
      · exact ⟨rfl, fun c hc => ⟨fieldOK_bool "setup_loopback" true
          (fun c : initConfigBytes => c.SetupLoopback)
          (fun c x => { c with SetupLoopback := x }) _ _, hc⟩⟩
      · exact ⟨rfl, fun c hc => ⟨fieldOK_overlay foldName "overlay" true
          (fun c : initConfigBytes => c.Overlay) (fun c x => { c with Overlay := x })
          _ cfg.Overlay rfl _ hc, Or.inr rfl⟩⟩
      · exact ⟨rfl, fun c hc => ⟨fieldOK_string "command" false
          (fun c : initConfigBytes => c.Command) (fun c x => { c with Command := x })
          _ cfg.Command rfl _, hc⟩⟩
      · exact ⟨rfl, fun c hc => ⟨fieldOK_strings "args" true
          (fun c : initConfigBytes => c.Args) (fun c x => { c with Args := x })
          _ cfg.Args rfl _, hc⟩⟩
      · exact ⟨rfl, fun c hc => ⟨fieldOK_strings "env" true
          (fun c : initConfigBytes => c.Env) (fun c x => { c with Env := x })
          _ cfg.Env rfl _, hc⟩⟩
      · exact ⟨rfl, fun c hc => ⟨fieldOK_string "work_dir" true
          (fun c : initConfigBytes => c.WorkDir) (fun c x => { c with WorkDir := x })
          _ cfg.WorkDir rfl _, hc⟩⟩)
  obtain ⟨tl, htl⟩ := encodeObject_cons (initConfigFields foldName) cfg.toBytes [10]
  unfold decodeInitConfig encodeInitConfig jsonDecode jsonEncode
  rw [htl, skipSpace_cons 123 _ (by decide), ← htl, hdec, initConfig_fields_copy]
  rfl

/-! ## Properties of the log pipe -/

/-- C24, as the code has it: a message that is not valid UTF-8 comes back with
U+FFFD in the place of the invalid byte, and a message of 65536 bytes makes a
line that the reader does not report at all. -/
theorem log_message_not_preserved :
    readLogPipe foldASCII (writeInitLogBytes (goString "info") [0xff])
      = [⟨LogLevel.info, [0xEF, 0xBF, 0xBD], [sourceInit]⟩]
    ∧ readLogPipe foldASCII (writeInitLogBytes (goString "info") (List.replicate 65536 120)) = [] := by
  refine ⟨by decide, ?_⟩
  have h : writeInitLogBytes (goString "info") (List.replicate 65536 120)
      = goString "\x7b\"level\":\"info\",\"msg\":\"" ++ (List.replicate 65536 120
        ++ goString "\"\x7d\n") := by
    have h3 : jsonAppendString (goString "info") = goString "\"info\"" := by decide
    have e1 : goString "\x7b\"level\":\"info\",\"msg\":\""
        = 123 :: (goString "\"level\"" ++ 58 :: (goString "\"info\"" ++ 44
          :: (goString "\"msg\"" ++ 58 :: [34]))) := by decide
    have e2 : goString "\"\x7d\n" = [34, 125, 10] := by decide
    rw [writeInitLogBytes_eq, h3, e1, e2]
    unfold jsonAppendString
    rw [appendStringLoop_replicate]
    simp only [List.cons_append, List.nil_append, List.append_assoc]
  unfold readLogPipe
  rw [h, scanLoop_start _ _ [] (by decide) (by decide),
    scanLoop_too_long _ 65535 _ (by unfold maxScanTokenSize; omega)]
  rfl

/-- C24, amended: for messages that are valid UTF-8 and whose lines fit the
buffer of the scanner (at most 65536 bytes with the newline), the bytes that a
sequence of calls of `writeInitLog` writes, each with a level among debug, info,
warn and error, make `readLogPipe` log exactly one record for each call, in the
order of the calls, at the level of the call and with its message. -/
theorem log_round_trip (foldName : Bytes → Bytes) (entries : List (LogLevel × String))
    (hfit : ∀ e ∈ entries,
      (writeInitLogBytes (goString (levelName e.1)) (goString e.2)).length ≤ maxScanTokenSize) :
    readLogPipe foldName
        (entries.flatMap (fun e => writeInitLogBytes (goString (levelName e.1)) (goString e.2)))
      = entries.map (fun e => ⟨e.1, goString e.2, [sourceInit]⟩) := by
  have hflat : entries.flatMap (fun e => writeInitLogBytes (goString (levelName e.1)) (goString e.2))
      = (entries.map (fun e => logEntryLine (levelName e.1) e.2)).flatMap (fun l => l ++ [10])
        ++ [] := by
    rw [List.append_nil, List.flatMap_map]
    congr 1
    funext e
    exact writeInitLogBytes_goString _ _
  have hshort : ∀ l ∈ entries.map (fun e => logEntryLine (levelName e.1) e.2),
      10 ∉ l ∧ l.length < maxScanTokenSize := by
    intro l hl
    rw [List.mem_map] at hl
    obtain ⟨e, he, rfl⟩ := hl
    constructor
    · intro h10
      have := logEntryLine_bytes _ _ 10 h10
      omega
    · have h := hfit e he
      rw [writeInitLogBytes_goString, List.length_append, List.length_singleton] at h
      omega
  rw [hflat, readLogPipe_lines foldName [] _ hshort]
  have hempty : readLogPipe foldName [] = [] := rfl
  rw [hempty, List.append_nil]
  clear hflat hshort hfit
  induction entries with
  | nil => rfl
  | cons e entries ih =>
    rw [List.map_cons, List.map_cons, readLogLoop, List.map_cons, dropCR_logEntryLine,
      logLine_logEntryLine, ih]
    rfl

theorem log_round_trip_witness :
    readLogPipe foldASCII
        (writeInitLogBytes (goString "info") (goString "mount succeeded")
          ++ (writeInitLogBytes (goString "warn") (goString "mount /proc: \"busy\" <é>\n")
          ++ (writeInitLogBytes (goString "error") (goString "critical failure")
          ++ (writeInitLogBytes (goString "debug") (goString "debug detail") ++ []))))
      = [⟨LogLevel.info, goString "mount succeeded", [sourceInit]⟩,
         ⟨LogLevel.warn, goString "mount /proc: \"busy\" <é>\n", [sourceInit]⟩,
         ⟨LogLevel.error, goString "critical failure", [sourceInit]⟩,
         ⟨LogLevel.debug, goString "debug detail", [sourceInit]⟩] :=
  log_round_trip foldASCII
    [(LogLevel.info, "mount succeeded"), (LogLevel.warn, "mount /proc: \"busy\" <é>\n"),
      (LogLevel.error, "critical failure"), (LogLevel.debug, "debug detail")] (by decide)

/-- C25, as the code has it: a line of 65536 bytes or more stops the reader, and
the line after it, which is no log entry, is not reported. -/
theorem long_line_stops_reader :
    readLogPipe foldASCII (List.replicate 65536 120 ++ 10 :: goString "oops\n") = []
    ∧ (goString "oops").length ≠ 0
    ∧ jsonUnmarshal foldASCII initLogEntryFields ⟨[], []⟩ (goString "oops") = none := by
  refine ⟨?_, by decide, by decide⟩
  unfold readLogPipe
  rw [scanLoop_too_long _ 65535 [] (by decide)]
  rfl

/-- C25, amended: in a stream whose lines up to and including `line` are shorter
than the buffer of the scanner (65536 bytes), a line that is not empty and is not
a decodable log entry makes `readLogPipe` log exactly one record, at warn level,
with the message "unparseable init log" and the line in the field `raw`; the
records of the lines before it come first, and the rest of the stream is read
and reported after it as it is on its own. -/
theorem unparseable_line_reported (foldName : Bytes → Bytes) (lines : List Bytes)
    (line tail : Bytes)
    (hlines : ∀ l ∈ lines, 10 ∉ l ∧ l.length < maxScanTokenSize)
    (hline : 10 ∉ line ∧ line.length < maxScanTokenSize)
    (htail : ∀ b ∈ tail.head?, b = 10)
    (hne : (dropCR line).length ≠ 0)
    (hbad : jsonUnmarshal foldName initLogEntryFields ⟨[], []⟩ (dropCR line) = none) :
    readLogPipe foldName (lines.flatMap (fun l => l ++ [10]) ++ (line ++ tail))
      = readLogPipe foldName (lines.flatMap (fun l => l ++ [10]))
        ++ unparseableRecord (dropCR line) :: readLogPipe foldName tail.tail := by
  have h0 := readLogPipe_lines foldName [] lines hlines
  rw [List.append_nil] at h0
  have hrec : logLine foldName (dropCR line) = [unparseableRecord (dropCR line)] := by
    unfold logLine
    rw [if_neg hne, hbad]
    rfl
  have hempty : readLogPipe foldName [] = [] := rfl
  rw [readLogPipe_lines foldName _ lines hlines, h0, hempty, List.append_nil]
  congr 1
  cases tail with
  | nil =>
    have hl := scanLoop_last line [] hline.1 (by simpa using hline.2)
    have hne2 : ¬ ([] ++ line).length = 0 := by
      intro h
      have h2 : line = [] := List.length_eq_zero.mp (by simpa using h)
      rw [h2] at hne
      exact hne rfl
    rw [if_neg hne2, List.nil_append] at hl
    unfold readLogPipe
    rw [List.append_nil, hl]
    show logLine foldName (dropCR line) ++ [] = _
    rw [hrec]
    rfl
  | cons b tail =>
    have hb : b = 10 := htail b rfl
    subst hb
    have hl := scanLoop_line tail line [] hline.1 (by simpa using hline.2)
    rw [List.nil_append] at hl
    unfold readLogPipe
    rw [hl]
    show logLine foldName (dropCR line) ++ _ = _
    rw [hrec]
    rfl

theorem unparseable_line_reported_witness :
    readLogPipe foldASCII (goString "\x7b\"level\":\"info\",\"msg\":\"up\"\x7d\nnot json at all\n\x7b\"level\":\"error\",\"msg\":\"down\"\x7d\n")
      = [⟨LogLevel.info, goString "up", [sourceInit]⟩,
         unparseableRecord (goString "not json at all"),
         ⟨LogLevel.error, goString "down", [sourceInit]⟩] := by
  have h := unparseable_line_reported foldASCII [goString "\x7b\"level\":\"info\",\"msg\":\"up\"\x7d"]
    (goString "not json at all") (goString "\n\x7b\"level\":\"error\",\"msg\":\"down\"\x7d\n")
    (by decide) (by decide) (by decide) (by decide) (by decide)
  have e1 : goString "\x7b\"level\":\"info\",\"msg\":\"up\"\x7d\nnot json at all\n\x7b\"level\":\"error\",\"msg\":\"down\"\x7d\n"
      = [goString "\x7b\"level\":\"info\",\"msg\":\"up\"\x7d"].flatMap (fun l => l ++ [10])
        ++ (goString "not json at all"
          ++ goString "\n\x7b\"level\":\"error\",\"msg\":\"down\"\x7d\n") := by decide
  rw [e1, h]
  decide

end Sandbox
